import Mathlib

/-!
# Path tracer core (`src/PathTracerGL.cpp`): a shallow embedding

The development follows the source file: the BVH builder (`BuildContext`), the
accumulation kernel (`kClearCS`, `kAccumulateCS`), the host-side state machine
(`Initialize`, `EnsureResources`, `UploadScene`, `SetCameraBasis`, the pause
checkbox of `DrawImGuiPanel`, `Render`), the traversal stack of `traceMesh` and
`occludedMesh` and the random numbers of the trace kernel. Three containers of the
engine around it follow: the rolling window of `src/Stats.h`, `ComponentArray` of
`src/ComponentManager.h` and `EntityManager` of `src/EntityManager.cpp`.
Definitions come first, proofs after them.

Modelling conventions:

* Single-precision values are a type `F` carrying a linear order (the order of
  IEEE values other than NaN; `aabbGrow` never stores a NaN, since `std::min` and
  `std::max` keep their first argument when the comparison fails). Their
  arithmetic is kept abstract in `FloatOps`, so no statement depends on how an
  operation rounds. The accumulation kernel alone is stated over the rationals.
  The extent of a box, a difference of two stored bounds, is NaN when both are the
  same infinity; it is an `Option F` with `none` for NaN, and the comparisons of
  the axis selection are false on it.
* `std::nth_element` is library code; it is a parameter `NthElement` of the
  builder, of which only "the call rearranges its range" is assumed.
* Unsigned integers are natural numbers; a reduction modulo `2^32` or `2^64` is
  written where the source value can wrap.
* The GL driver is the record `GLContext`: which textures are defined, what the
  next allocations answer, and a log of the commands issued. The host state `g`
  and the driver together are a `Sys`.
-/

set_option autoImplicit false

namespace PathTracer

/-! ## Single-precision values -/

/-- The floating-point operations the host code uses. `lit q` is the value of the
decimal literal `q` (as in `1e-8f`), `ofInt` is `float(int)`, `toInt` is the cast
`(int)x`. -/
structure FloatOps (F : Type) where
  posInf : F
  negInf : F
  add : F → F → F
  sub : F → F → F
  mul : F → F → F
  div : F → F → F
  abs : F → F
  floor : F → F
  ofInt : Int → F
  toInt : F → Int
  lit : ℚ → F

/-- A `float[3]`. -/
structure Vec3 (F : Type) where
  x : F
  y : F
  z : F
deriving DecidableEq, Repr

/-- Component `v[axis]` of a `float[3]` (axis 0, 1 or 2). -/
def Vec3.get {F : Type} (v : Vec3 F) (axis : Nat) : F :=
  if axis = 0 then v.x else if axis = 1 then v.y else v.z

section Order

variable {F : Type} [LinearOrder F]

/-- Source `std::min(a, b)`: returns `b` when `b < a`, else `a`. -/
def fmin (a b : F) : F := if b < a then b else a

/-- Source `std::max(a, b)`: returns `b` when `a < b`, else `a`. -/
def fmax (a b : F) : F := if a < b then b else a

end Order

/-! ## Acceleration structure builder -/

/-- Source `struct AABB { float mn[3]; float mx[3]; }`. -/
structure AABB (F : Type) where
  mn : Vec3 F
  mx : Vec3 F
deriving DecidableEq, Repr

/-- Source `struct TriBounds { AABB bounds; float centroid[3]; }`. -/
structure TriBounds (F : Type) where
  bounds : AABB F
  centroid : Vec3 F
deriving DecidableEq, Repr

/-- Source `struct NodeGPU`: the box (`bmin[0..2]`, `bmax[0..2]`; lane 3 of both is the
constant padding `0.0f` and is not represented) and `meta = {left, right, first,
count}`, where `count > 0` marks a leaf. -/
structure NodeGPU (F : Type) where
  bmin : Vec3 F
  bmax : Vec3 F
  left : Nat
  right : Nat
  first : Nat
  count : Nat
deriving DecidableEq, Repr

/-- Source `aabbEmpty()`: `mn = +inf`, `mx = -inf` on every axis. -/
def aabbEmpty {F : Type} (ops : FloatOps F) : AABB F :=
  { mn := ⟨ops.posInf, ops.posInf, ops.posInf⟩, mx := ⟨ops.negInf, ops.negInf, ops.negInf⟩ }

section Builder

variable {F : Type} [LinearOrder F]

/-- Source `aabbGrow(AABB& b, const float p[3])`. -/
def aabbGrowPoint (b : AABB F) (p : Vec3 F) : AABB F :=
  { mn := ⟨fmin b.mn.x p.x, fmin b.mn.y p.y, fmin b.mn.z p.z⟩,
    mx := ⟨fmax b.mx.x p.x, fmax b.mx.y p.y, fmax b.mx.z p.z⟩ }

/-- Source `aabbGrow(AABB& b, const AABB& o)`. -/
def aabbGrow (b o : AABB F) : AABB F :=
  { mn := ⟨fmin b.mn.x o.mn.x, fmin b.mn.y o.mn.y, fmin b.mn.z o.mn.z⟩,
    mx := ⟨fmax b.mx.x o.mx.x, fmax b.mx.y o.mx.y, fmax b.mx.z o.mx.z⟩ }

/-- Source `aabbExtent(b, axis) = b.mx[axis] - b.mn[axis]`, where `none` is NaN. The
bounds stored in a box are never NaN, so the difference is NaN exactly when both
bounds are the same infinity (`inf - inf`, `(-inf) - (-inf)`), as happens on an
axis where every centroid grown into the box overflowed to that infinity. -/
def aabbExtent (ops : FloatOps F) (b : AABB F) (axis : Nat) : Option F :=
  if (b.mx.get axis = ops.posInf ∧ b.mn.get axis = ops.posInf) ∨
      (b.mx.get axis = ops.negInf ∧ b.mn.get axis = ops.negInf) then none
  else some (ops.sub (b.mx.get axis) (b.mn.get axis))

/-- Source `a > b` on two `float` results (`none` is NaN): false when an operand is
NaN. -/
def fgt (a b : Option F) : Bool :=
  match a, b with
  | some x, some y => decide (y < x)
  | _, _ => false

/-- Source `a >= b` on two `float` results (`none` is NaN): false when an operand
is NaN. -/
def fge (a b : Option F) : Bool :=
  match a, b with
  | some x, some y => decide (y ≤ x)
  | _, _ => false

/-- Source `struct BuildContext`: the triangle-index array the builder permutes (held by
pointer in the source), the per-triangle bounds and the node array. -/
structure BuildContext (F : Type) where
  triIndices : List Nat
  triInfo : List (TriBounds F)
  nodes : List (NodeGPU F)

/-- Source `BuildContext::kLeafMax`. -/
def kLeafMax : Nat := 8

/-- The entry `triInfo[(*triIndices)[p]]`, when both subscripts are in range (the
source reads out of bounds otherwise). -/
def triAt (ctx : BuildContext F) (p : Nat) : Option (TriBounds F) :=
  match ctx.triIndices[p]? with
  | some ti => ctx.triInfo[ti]?
  | none => none

/-- Body of the loop of `boundsForRange` for one `i`:
`aabbGrow(b, triInfo[(*triIndices)[first + i]].bounds)`. -/
def growStep (ctx : BuildContext F) (first : Nat) (b : AABB F) (i : Nat) : AABB F :=
  match triAt ctx (first + i) with
  | some tb => aabbGrow b tb.bounds
  | none => b

/-- Source `BuildContext::boundsForRange(first, count)`: the loop over `i < count` growing
an empty box by `triInfo[(*triIndices)[first + i]].bounds`. -/
def boundsForRange (ops : FloatOps F) (ctx : BuildContext F) (first count : Nat) : AABB F :=
  (List.range count).foldl (growStep ctx first) (aabbEmpty ops)

/-- Source `BuildContext::centroidBoundsForRange(first, count)`. -/
def centroidBoundsForRange (ops : FloatOps F) (ctx : BuildContext F) (first count : Nat) :
    AABB F :=
  (List.range count).foldl
    (fun b i => match triAt ctx (first + i) with
      | some tb => aabbGrowPoint b tb.centroid
      | none => b)
    (aabbEmpty ops)

/-- The split-axis choice of `buildNode` from the three centroid extents:
`axis = 0; if (ey > ex && ey >= ez) axis = 1; else if (ez > ex && ez >= ey) axis = 2;`. -/
def chooseAxis (ex ey ez : Option F) : Nat :=
  if fgt ey ex && fge ey ez then 1
  else if fgt ez ex && fge ez ey then 2
  else 0

/-- The value of the local `axis` of `buildNode(first, count)` when the range is
split: `chooseAxis` of the three extents of `centroidBoundsForRange(first, count)`. -/
def splitAxis (ops : FloatOps F) (ctx : BuildContext F) (first count : Nat) : Nat :=
  chooseAxis (aabbExtent ops (centroidBoundsForRange ops ctx first count) 0)
    (aabbExtent ops (centroidBoundsForRange ops ctx first count) 1)
    (aabbExtent ops (centroidBoundsForRange ops ctx first count) 2)

/-- The comparator handed to `std::nth_element`:
`triInfo[a].centroid[axis] < triInfo[c].centroid[axis]` (false when a subscript is
out of range). -/
def centroidLess (info : List (TriBounds F)) (axis : Nat) (a c : Nat) : Bool :=
  match info[a]?, info[c]? with
  | some ta, some tc => decide (ta.centroid.get axis < tc.centroid.get axis)
  | _, _ => false

/-- An implementation of `std::nth_element`, which is library code: `run less xs n`
is the content of the range after the call, for the range content `xs` and the
offset `n` of the nth iterator. The only law recorded is the one every
implementation obeys by the C++ standard and that the builder relies on: the call
rearranges the range. -/
structure NthElement where
  run : (Nat → Nat → Bool) → List Nat → Nat → List Nat
  perm : ∀ (less : Nat → Nat → Bool) (xs : List Nat) (n : Nat), (run less xs n).Perm xs

/-- The elements at positions `first .. first + count - 1` of an array. -/
def segment (idx : List Nat) (first count : Nat) : List Nat :=
  (idx.drop first).take count

/-- Source `std::nth_element(idx.begin() + first, idx.begin() + mid, idx.begin() + first + count, less)`
on the whole array: the range is replaced by its rearrangement, the rest is kept. -/
def nthElementRange (sel : NthElement) (less : Nat → Nat → Bool) (idx : List Nat)
    (first mid count : Nat) : List Nat :=
  idx.take first ++ sel.run less (segment idx first count) (mid - first)
    ++ idx.drop (first + count)

/-- Assignment of `nodes[i].meta`. -/
def setMeta (nodes : List (NodeGPU F)) (i left right first count : Nat) : List (NodeGPU F) :=
  nodes.modify (fun n => { n with left := left, right := right, first := first, count := count }) i

/-- Source `BuildContext::buildNode(first, count)`; returns the context after the call and
the index of the node built. The node is appended with its box already filled in
(the source appends a zeroed node and assigns the box next, before anything reads
it). Indices are `std::uint32_t` in the source; on the builder's call tree
`first + count` never exceeds the length of the index array, so with fewer than
`2^32` triangles none of the sums below wraps. -/
def buildNode (ops : FloatOps F) (sel : NthElement) (ctx : BuildContext F)
    (first count : Nat) : BuildContext F × Nat :=
  let nodeIdx := ctx.nodes.length
  let b := boundsForRange ops ctx first count
  let ctx1 : BuildContext F :=
    { ctx with nodes := ctx.nodes ++ [⟨b.mn, b.mx, 0, 0, 0, 0⟩] }
  if count ≤ kLeafMax then
    ({ ctx1 with nodes := setMeta ctx1.nodes nodeIdx 0 0 first count }, nodeIdx)
  else
    let cb := centroidBoundsForRange ops ctx1 first count
    let axis := chooseAxis (aabbExtent ops cb 0) (aabbExtent ops cb 1) (aabbExtent ops cb 2)
    let mid := first + count / 2
    let ctx2 : BuildContext F :=
      { ctx1 with triIndices :=
          nthElementRange sel (centroidLess ctx1.triInfo axis) ctx1.triIndices first mid count }
    let l := buildNode ops sel ctx2 first (mid - first)
    let r := buildNode ops sel l.1 mid (first + count - mid)
    ({ r.1 with nodes := setMeta r.1.nodes nodeIdx l.2 r.2 0 0 }, nodeIdx)
termination_by count
decreasing_by
  all_goals simp only [kLeafMax] at *
  all_goals omega

/-- The builder run of `UploadSceneInternal`: `triIndices` has `triCount` entries,
the first `(std::uint32_t)triCount` of them set to the identity (the others keep
their zero initialisation), and the tree is built by
`buildNode(0, (std::uint32_t)triCount)` into an empty node array. -/
def buildScene (ops : FloatOps F) (sel : NthElement) (info : List (TriBounds F)) :
    BuildContext F :=
  let n := info.length % 4294967296
  let ctx : BuildContext F :=
    { triIndices := List.range n ++ List.replicate (info.length - n) 0,
      triInfo := info,
      nodes := [] }
  (buildNode ops sel ctx 0 n).1

/-- The box stored in a node. -/
def NodeGPU.box (n : NodeGPU F) : AABB F := { mn := n.bmin, mx := n.bmax }

/-- Box containment: `inner` lies inside `outer` on every axis. -/
def AABB.contains (outer inner : AABB F) : Prop :=
  outer.mn.x ≤ inner.mn.x ∧ outer.mn.y ≤ inner.mn.y ∧ outer.mn.z ≤ inner.mn.z ∧
  inner.mx.x ≤ outer.mx.x ∧ inner.mx.y ≤ outer.mx.y ∧ inner.mx.z ≤ outer.mx.z

instance (outer inner : AABB F) : Decidable (outer.contains inner) := by
  unfold AABB.contains; infer_instance

/-- Node `j` is node `i` itself or lies beneath it: it is reached from `i` by
following the `left` / `right` entries of internal nodes (`count = 0`), which is
how the traversal in the trace kernel walks the array. -/
inductive Reach (nodes : List (NodeGPU F)) : Nat → Nat → Prop
  | refl (i : Nat) : Reach nodes i i
  | step (i k j : Nat) (n : NodeGPU F) :
      nodes[i]? = some n → n.count = 0 → (k = n.left ∨ k = n.right) →
      Reach nodes k j → Reach nodes i j

/-- Node `n` is a leaf whose `(first, count)` range holds position `p`. -/
def leafHolds (n : NodeGPU F) (p : Nat) : Prop :=
  0 < n.count ∧ n.first ≤ p ∧ p < n.first + n.count

/-- The box of `n` contains the bounds of every triangle whose index is stored at
a position of `first .. first + count - 1`. -/
def Covers (n : NodeGPU F) (idx : List Nat) (info : List (TriBounds F))
    (first count : Nat) : Prop :=
  ∀ t ∈ segment idx first count, ∃ tb, info[t]? = some tb ∧ n.box.contains tb.bounds

/-- Shape of the output of one `buildNode(f, c)` call: the nodes it appended sit
at indices `i .. i + s - 1` in pre-order, and (recursively) each of them is a
leaf over at most `kLeafMax` positions or an internal node whose children split
its range at `f + c / 2`. -/
inductive Subtree (nodes : List (NodeGPU F)) (idx : List Nat) (info : List (TriBounds F)) :
    Nat → Nat → Nat → Nat → Prop
  | leaf (i f c : Nat) (n : NodeGPU F) :
      nodes[i]? = some n → n.count = c → n.first = f → 0 < c → c ≤ kLeafMax →
      Covers n idx info f c → Subtree nodes idx info i f c 1
  | node (i f cl cr sl sr : Nat) (n : NodeGPU F) :
      nodes[i]? = some n → n.count = 0 → n.first = 0 →
      n.left = i + 1 → n.right = i + 1 + sl →
      kLeafMax < cl + cr → cl = (cl + cr) / 2 →
      Covers n idx info f (cl + cr) →
      Subtree nodes idx info (i + 1) f cl sl →
      Subtree nodes idx info (i + 1 + sl) (f + cl) cr sr →
      Subtree nodes idx info i f (cl + cr) (1 + sl + sr)

/-- What one `buildNode(first, count)` call does to the context: `root` is the
index of the first node it appends, the triangle bounds are untouched, the index
array is rearranged inside `first .. first + count - 1` only, and the appended
nodes form a `Subtree` over that range. -/
structure BuildSpec (ctx ctx' : BuildContext F) (first count root : Nat) : Prop where
  root_eq : root = ctx.nodes.length
  info_eq : ctx'.triInfo = ctx.triInfo
  length_eq : ctx'.triIndices.length = ctx.triIndices.length
  take_eq : ctx'.triIndices.take first = ctx.triIndices.take first
  drop_eq : ctx'.triIndices.drop (first + count) = ctx.triIndices.drop (first + count)
  perm : (segment ctx'.triIndices first count).Perm (segment ctx.triIndices first count)
  nodes : ∃ ns, ctx'.nodes = ctx.nodes ++ ns ∧
    Subtree ctx'.nodes ctx'.triIndices ctx.triInfo ctx.nodes.length first count ns.length

/-- Every node's box contains the bounds of every triangle stored, in the final
index array, in the range of a leaf at or beneath that node. -/
def BoxesCoverLeaves (b : BuildContext F) : Prop :=
  ∀ (i j : Nat) (ni nj : NodeGPU F) (p : Nat),
    b.nodes[i]? = some ni → Reach b.nodes i j → b.nodes[j]? = some nj → leafHolds nj p →
    ∃ t tb, b.triIndices[p]? = some t ∧ b.triInfo[t]? = some tb ∧ ni.box.contains tb.bounds

/-- Every input triangle is stored in the range of some leaf whose box contains
the triangle's bounds. -/
def EveryTriangleInLeaf (b : BuildContext F) : Prop :=
  ∀ (t : Nat) (tb : TriBounds F), b.triInfo[t]? = some tb →
    ∃ (j : Nat) (nj : NodeGPU F) (p : Nat),
      b.nodes[j]? = some nj ∧ leafHolds nj p ∧ b.triIndices[p]? = some t ∧
      nj.box.contains tb.bounds

/-- The `(first, count)` ranges of the leaves lie inside `0 .. N - 1`, two different
leaves share no position, and every position below `N` is in the range of exactly
one leaf. -/
def LeavesPartition (b : BuildContext F) (N : Nat) : Prop :=
  (∀ (j : Nat) (n : NodeGPU F), b.nodes[j]? = some n → 0 < n.count → n.first + n.count ≤ N) ∧
  (∀ (j j' : Nat) (n n' : NodeGPU F) (p : Nat), b.nodes[j]? = some n → b.nodes[j']? = some n' →
    leafHolds n p → leafHolds n' p → j = j') ∧
  (∀ p, p < N → ∃ (j : Nat) (n : NodeGPU F), b.nodes[j]? = some n ∧ leafHolds n p)

/-- Every call of the selection step on a range inside the array keeps the array's
length and everything outside the range, and rearranges the range. -/
def SelectionStaysInRange (sel : NthElement) : Prop :=
  ∀ (less : Nat → Nat → Bool) (idx : List Nat) (first mid count : Nat),
    first + count ≤ idx.length →
    (nthElementRange sel less idx first mid count).length = idx.length ∧
    (nthElementRange sel less idx first mid count).take first = idx.take first ∧
    (nthElementRange sel less idx first mid count).drop (first + count)
      = idx.drop (first + count) ∧
    (segment (nthElementRange sel less idx first mid count) first count).Perm
      (segment idx first count)

/-- Every node is the root of the tree over some range `f .. f + c - 1` with `c ≥ 1`;
it is a leaf (`count > 0`) exactly when `c ≤ kLeafMax`, a leaf stores
`(first, count) = (f, c)` with `1 ≤ count ≤ 8`, and a node over more than
`kLeafMax` positions stores `count = 0`. -/
def LeavesAreSmallRanges (b : BuildContext F) : Prop :=
  ∀ (j : Nat) (n : NodeGPU F), b.nodes[j]? = some n →
    ∃ (f c s : Nat), Subtree b.nodes b.triIndices b.triInfo j f c s ∧ 0 < c ∧
      (0 < n.count ↔ c ≤ kLeafMax) ∧
      (c ≤ kLeafMax → n.first = f ∧ n.count = c ∧ 1 ≤ n.count ∧ n.count ≤ 8) ∧
      (kLeafMax < c → n.count = 0)

/-- The node array is a tree in pre-order rooted at node 0: there is a node 0; the
left child of an internal node at `i` is `i + 1` and its right child lies strictly
between `i + 1` and the number of nodes; every node but node 0 is the child of
exactly one internal node; and node 0 is no node's child. -/
def PreorderTree (b : BuildContext F) : Prop :=
  0 < b.nodes.length ∧
  (∀ (i : Nat) (n : NodeGPU F), b.nodes[i]? = some n → n.count = 0 →
    n.left = i + 1 ∧ i + 1 < n.right ∧ n.right < b.nodes.length) ∧
  (∀ j, 0 < j → j < b.nodes.length →
    ∃ (p : Nat) (n : NodeGPU F), b.nodes[p]? = some n ∧ n.count = 0 ∧
      (n.left = j ∨ n.right = j) ∧
      ∀ (p' : Nat) (n' : NodeGPU F), b.nodes[p']? = some n' → n'.count = 0 →
        (n'.left = j ∨ n'.right = j) → p' = p) ∧
  (∀ (p : Nat) (n : NodeGPU F), b.nodes[p]? = some n → n.count = 0 →
    n.left ≠ 0 ∧ n.right ≠ 0)

end Builder

/-! ## Accumulation kernel (`kClearCS`, `kAccumulateCS`) -/

/-- One pixel of the running-average image `gAccum` and of the count image
`gCount`. The four colour channels are treated alike by the kernel, so one channel
is kept; it is a rational: the kernel's float operations are taken without
rounding. The count is the `uint` of the source. -/
structure Pixel where
  accum : ℚ
  count : Nat
deriving DecidableEq, Repr

/-- What `kClearCS` stores at a pixel inside `uRes`: `gAccum = 0`, `gCount = 0`. -/
def clearPixel : Pixel := { accum := 0, count := 0 }

/-- What `kAccumulateCS` does at a pixel inside `uRes` with the sample `s` read from
`gSample`: `n = c + 1u` (a 32-bit sum), `outv = (a * float(c) + s) / float(n)`,
then `gAccum = outv`, `gCount = n`. -/
def accumulatePixel (px : Pixel) (s : ℚ) : Pixel :=
  let n := (px.count + 1) % 4294967296
  { accum := (px.accum * (px.count : ℚ) + s) / (n : ℚ), count := n }

/-- A Clear followed by one Accumulate dispatch per sample, oldest first. -/
def accumulateAll (samples : List ℚ) : Pixel :=
  samples.foldl accumulatePixel clearPixel

/-- The step of `accumulatePixel` with the count, too, in exact arithmetic: the sum
`c + 1` is not reduced modulo `2^32`. -/
def accumulatePixelExact (px : Pixel) (s : ℚ) : Pixel :=
  let n := px.count + 1
  { accum := (px.accum * (px.count : ℚ) + s) / (n : ℚ), count := n }

/-- A Clear followed by one exact-arithmetic Accumulate step per sample, oldest
first. -/
def accumulateAllExact (samples : List ℚ) : Pixel :=
  samples.foldl accumulatePixelExact clearPixel

/-! ## The GL driver as seen by the host code -/

/-- The GL commands of the host code that the model records, in issue order. -/
inductive GLEvent
  | createTex (w h : Int) (result : Nat)
  | deleteTex (tex : Nat)
  | clearDispatch
  | traceDispatch (sampleBase : Nat) (spp : Int)
  | accumulateDispatch
  | atrousDispatch (step : Nat) (inTex outTex : Nat)
  | tonemapDispatch (src : Nat) (viewMode : Int)
  | testPattern (tex : Nat)
  | queryCounter (q : Nat)
  | deleteBuffer (buf : Nat)
  | bufferData (buf : Nat) (elems : Nat)
deriving DecidableEq, Repr

/-- Source `struct TriGPU`; lane 3 of `v0` holds the bits of the material index, the
other padding lanes are the constant `0.0f` and are not represented. -/
structure TriGPU (F : Type) where
  v0 : Vec3 F
  materialBits : Nat
  e1 : Vec3 F
  e2 : Vec3 F
  n0 : Vec3 F
  n1 : Vec3 F
  n2 : Vec3 F
  uv0 : F × F
  uv1 : F × F
  uv2 : F × F

/-- Source `struct MaterialGPU`; `tex` is `tex[0..3]` (base colour, normal, metal-rough,
emissive), `-1` meaning no texture; the padding lanes of `metallicPad` are the
constant `0.0f` and are not represented. -/
structure MaterialGPU (F : Type) where
  baseColor : F × F × F × F
  emissive : Vec3 F
  roughness : F
  metallic : F
  tex0 : Int
  tex1 : Int
  tex2 : Int
  tex3 : Int

/-- The part of the GL context the host code depends on. `defined` lists the
texture names whose level 0 has a positive size; `allocScript` lists what the
driver will answer to the coming texture allocations (`0`: the allocation fails,
otherwise the name of the new texture); `isQuery`, `queryAvailable` and
`queryResult` answer the timer-query calls; `buf*` hold what was last uploaded to
the four scene buffers; `log` records the commands issued. -/
structure GLContext (F : Type) where
  defined : List Nat
  allocScript : List Nat
  log : List GLEvent
  isQuery : Nat → Bool
  queryAvailable : Nat → Bool
  queryResult : Nat → Nat
  nextBuffer : Nat
  bufNodes : List (NodeGPU F)
  bufTriIndices : List Nat
  bufTris : List (TriGPU F)
  bufMats : List (MaterialGPU F)

/-- Record a command. -/
def GLContext.emit {F : Type} (gl : GLContext F) (e : GLEvent) : GLContext F :=
  { gl with log := gl.log ++ [e] }

/-- Source `IsTexLevelDefined2D(tex)`: `tex != 0`, it names a texture, and its level 0 has
positive width and height. -/
def IsTexLevelDefined2D {F : Type} (gl : GLContext F) (tex : Nat) : Bool :=
  decide (tex ≠ 0) && gl.defined.contains tex

/-- Source `CreateTex2D(w, h, ...)`: refuses a size below 1 without touching GL; otherwise
returns the new texture, or `0` (nothing left allocated) when the driver fails. -/
def CreateTex2D {F : Type} (gl : GLContext F) (w h : Int) : Nat × GLContext F :=
  if w < 1 ∨ h < 1 then (0, gl)
  else
    match gl.allocScript with
    | [] => (0, gl.emit (.createTex w h 0))
    | r :: rest =>
      if r = 0 then (0, GLContext.emit { gl with allocScript := rest } (.createTex w h 0))
      else
        (r, GLContext.emit { gl with allocScript := rest, defined := r :: gl.defined }
          (.createTex w h r))

/-- Source `DestroyTex(tex)`, the GL side: `if (tex) glDeleteTextures(1, &tex)`. The caller
stores `0` in the handle. -/
def DestroyTex {F : Type} (gl : GLContext F) (tex : Nat) : GLContext F :=
  if tex = 0 then gl
  else GLContext.emit { gl with defined := gl.defined.filter (fun t => t ≠ tex) } (.deleteTex tex)

/-- Source `DestroySSBO(buf)`, the GL side. -/
def DestroySSBO {F : Type} (gl : GLContext F) (buf : Nat) : GLContext F :=
  if buf = 0 then gl else gl.emit (.deleteBuffer buf)

/-- Source `Dispatch2D(w, h)` for the kernel recorded as `e`: nothing is dispatched when
`w < 1` or `h < 1`. -/
def Dispatch2D {F : Type} (gl : GLContext F) (w h : Int) (e : GLEvent) : GLContext F :=
  if w < 1 ∨ h < 1 then gl else gl.emit e

/-! ## Host state -/

/-- Source `enum class pt::Denoiser`. -/
inductive Denoiser
  | None
  | AtrousGL
deriving DecidableEq, Repr

/-- Source `enum class pt::DebugView`. -/
inductive DebugView
  | Denoised
  | Accumulated
  | Sample
  | Albedo
  | Normal
  | Depth
  | RoughMetal
deriving DecidableEq, Repr

/-- Source `(int)view`. -/
def DebugView.toInt : DebugView → Int
  | .Denoised => 0
  | .Accumulated => 1
  | .Sample => 2
  | .Albedo => 3
  | .Normal => 4
  | .Depth => 5
  | .RoughMetal => 6

/-- Source `struct pt::Settings`. -/
structure Settings (F : Type) where
  enabled : Bool
  resetAccumulation : Bool
  sppPerFrame : Int
  renderScale : F
  exposureEV : F
  denoiser : Denoiser
  view : DebugView

/-- Source `struct pt::Stats`. -/
structure Stats (F : Type) where
  internalW : Int
  internalH : Int
  sppAccumulated : Nat
  msPathTrace : F
  msAccumulate : F
  msDenoise : F
  msTonemap : F
  usingMeshScene : Bool
  triCount : Nat
  nodeCount : Nat
  materialCount : Nat

/-- Source `struct GpuPassTimer`: the two rings of `kFrames = 4` query names, the last
measurement and the two flags. -/
structure GpuPassTimer (F : Type) where
  qBegin : List Nat
  qEnd : List Nat
  lastMs : F
  valid : Bool
  warned : Bool

/-- Source `struct State` (the global `g`). The five program handles are left out: the
host code only hands them to `glUseProgram`. `sppAccum` is the `uint64` counter,
`frameIndex` the `uint32` one. -/
structure State (F : Type) where
  inited : Bool
  paused : Bool
  stepOnce : Bool
  settings : Settings F
  stats : Stats F
  viewportW : Int
  viewportH : Int
  internalW : Int
  internalH : Int
  maxCombinedTextureUnits : Int
  maxBaseColorSamplers : Int
  baseColorSamplers : List Nat
  sppAccum : Nat
  frameIndex : Nat
  forceTestPattern : Bool
  debugGLFrames : Int
  texSampleHDR : Nat
  texAccumHDR : Nat
  texCount : Nat
  texAlbedo : Nat
  texNormal : Nat
  texDepth : Nat
  texRoughMetal : Nat
  texDenoiseA : Nat
  texDenoiseB : Nat
  texOutputLDR : Nat
  ssboNodes : Nat
  ssboTriIndices : Nat
  ssboTris : Nat
  ssboMats : Nat
  hasScene : Bool
  sceneTriCount : Nat
  sceneNodeCount : Nat
  sceneMatCount : Nat
  camOverride : Bool
  camPos : Vec3 F
  camDir : Vec3 F
  camRight : Vec3 F
  camUp : Vec3 F
  camTanHalfFovY : F
  tTrace : GpuPassTimer F
  tAcc : GpuPassTimer F
  tDenoise : GpuPassTimer F
  tTonemap : GpuPassTimer F

/-- The host state together with the GL context it drives. -/
structure Sys (F : Type) where
  g : State F
  gl : GLContext F

/-! ### Timer queries -/

/-- Source `(int)frameIndex` for the `uint32` frame counter. -/
def toInt32 (n : Nat) : Int :=
  if n % 4294967296 < 2147483648 then ((n % 4294967296 : Nat) : Int)
  else ((n % 4294967296 : Nat) : Int) - 4294967296

/-- Ring slot used by `begin` and `end`: `frameIndex % kFrames` (the remainder of
C++, which has the sign of the dividend). -/
def timerSlot (frameIndex : Int) : Int := Int.tmod frameIndex 4

/-- The value an `int` expression takes when its exact value is `z`: `z` itself
inside the range of `int`, and the two's-complement wrap outside it (signed
overflow is undefined in the source; the wrap is what the usual targets compute). -/
def wrapInt32 (z : Int) : Int := (z + 2147483648) % 4294967296 - 2147483648

/-- Ring slot read by `resolve`: `(frameIndex - 2 + kFrames * 1000) % kFrames`, the
sum taken in `int`. -/
def resolveSlot (frameIndex : Int) : Int :=
  Int.tmod (wrapInt32 (wrapInt32 (frameIndex - 2) + 4 * 1000)) 4

/-- Element `qs[slot]` of a query ring, when the subscript is inside the array. -/
def queryAt (qs : List Nat) (slot : Int) : Option Nat :=
  if 0 ≤ slot then qs[slot.toNat]? else none

/-- The shared body of `GpuPassTimer::begin` and `GpuPassTimer::end` on the ring
`qs`. A subscript outside the ring (undefined in the source) leaves everything as
it is. -/
def timerMark {F : Type} (t : GpuPassTimer F) (qs : List Nat) (gl : GLContext F) (frameIndex : Int) :
    GpuPassTimer F × GLContext F :=
  if !t.valid then (t, gl)
  else
    match queryAt qs (timerSlot frameIndex) with
    | none => (t, gl)
    | some q =>
      if q = 0 ∨ gl.isQuery q = false then ({ t with valid := false, warned := true }, gl)
      else (t, gl.emit (.queryCounter q))

/-- Source `GpuPassTimer::begin(frameIndex)`. -/
def GpuPassTimer.begin {F : Type} (t : GpuPassTimer F) (gl : GLContext F) (frameIndex : Int) :
    GpuPassTimer F × GLContext F :=
  timerMark t t.qBegin gl frameIndex

/-- Source `GpuPassTimer::end(frameIndex)`. -/
def GpuPassTimer.finish {F : Type} (t : GpuPassTimer F) (gl : GLContext F) (frameIndex : Int) :
    GpuPassTimer F × GLContext F :=
  timerMark t t.qEnd gl frameIndex

/-- Source `GpuPassTimer::resolve(frameIndex)`. -/
def GpuPassTimer.resolve {F : Type} (ops : FloatOps F) (t : GpuPassTimer F) (gl : GLContext F)
    (frameIndex : Int) : GpuPassTimer F :=
  if !t.valid then t
  else
    match queryAt t.qBegin (resolveSlot frameIndex), queryAt t.qEnd (resolveSlot frameIndex) with
    | some b, some e =>
      if b = 0 ∨ e = 0 then t
      else if gl.queryAvailable e = false then t
      else if gl.queryResult b < gl.queryResult e then
        { t with
          lastMs := ops.div (ops.ofInt (Int.ofNat (gl.queryResult e) - Int.ofNat (gl.queryResult b)))
            (ops.lit 1000000) }
      else t
    | _, _ => t

/-! ### Device resources -/

/-- Source `DestroyAllTextures()`. -/
def DestroyAllTextures {F : Type} (s : Sys F) : Sys F :=
  let gl1 := DestroyTex s.gl s.g.texSampleHDR
  let gl2 := DestroyTex gl1 s.g.texAccumHDR
  let gl3 := DestroyTex gl2 s.g.texCount
  let gl4 := DestroyTex gl3 s.g.texAlbedo
  let gl5 := DestroyTex gl4 s.g.texNormal
  let gl6 := DestroyTex gl5 s.g.texDepth
  let gl7 := DestroyTex gl6 s.g.texRoughMetal
  let gl8 := DestroyTex gl7 s.g.texDenoiseA
  let gl9 := DestroyTex gl8 s.g.texDenoiseB
  let gl10 := DestroyTex gl9 s.g.texOutputLDR
  { g := { s.g with
      texSampleHDR := 0, texAccumHDR := 0, texCount := 0, texAlbedo := 0, texNormal := 0,
      texDepth := 0, texRoughMetal := 0, texDenoiseA := 0, texDenoiseB := 0, texOutputLDR := 0,
      viewportW := 0, viewportH := 0, internalW := 0, internalH := 0 },
    gl := gl10 }

section Resources

variable {F : Type} [LinearOrder F]

/-- Source `std::clamp(v, lo, hi)`. -/
def fclamp (v lo hi : F) : F := if v < lo then lo else if hi < v then hi else v

/-- Internal size along one axis:
`std::max(1, (int)std::floor(float(newV) * rs))`. -/
def internalDim (ops : FloatOps F) (newV : Int) (rs : F) : Int :=
  max 1 (ops.toInt (ops.floor (ops.mul (ops.ofInt newV) rs)))

/-- The test `internalMissing` of `EnsureResources`: one of the nine
internal-resolution images is not defined. -/
def internalMissing (s : Sys F) : Bool :=
  !IsTexLevelDefined2D s.gl s.g.texSampleHDR || !IsTexLevelDefined2D s.gl s.g.texAccumHDR ||
  !IsTexLevelDefined2D s.gl s.g.texCount || !IsTexLevelDefined2D s.gl s.g.texAlbedo ||
  !IsTexLevelDefined2D s.gl s.g.texNormal || !IsTexLevelDefined2D s.gl s.g.texDepth ||
  !IsTexLevelDefined2D s.gl s.g.texRoughMetal || !IsTexLevelDefined2D s.gl s.g.texDenoiseA ||
  !IsTexLevelDefined2D s.gl s.g.texDenoiseB

/-- The internal-recreate branch of `EnsureResources` from `DestroyAllTextures()` to
the ten `CreateTex2D` calls. -/
def recreateAll (s : Sys F) (newVW newVH iw ih : Int) : Sys F :=
  let s1 := DestroyAllTextures s
  let r1 := CreateTex2D s1.gl iw ih
  let r2 := CreateTex2D r1.2 iw ih
  let r3 := CreateTex2D r2.2 iw ih
  let r4 := CreateTex2D r3.2 iw ih
  let r5 := CreateTex2D r4.2 iw ih
  let r6 := CreateTex2D r5.2 iw ih
  let r7 := CreateTex2D r6.2 iw ih
  let r8 := CreateTex2D r7.2 iw ih
  let r9 := CreateTex2D r8.2 iw ih
  let r10 := CreateTex2D r9.2 newVW newVH
  { g := { s1.g with
      viewportW := newVW, viewportH := newVH, internalW := iw, internalH := ih,
      texSampleHDR := r1.1, texAccumHDR := r2.1, texCount := r3.1, texAlbedo := r4.1,
      texNormal := r5.1, texDepth := r6.1, texRoughMetal := r7.1, texDenoiseA := r8.1,
      texDenoiseB := r9.1, texOutputLDR := r10.1 },
    gl := r10.2 }

/-- Source `EnsureResources(viewportW, viewportH)`: the return value and the state after
the call. -/
def EnsureResources (ops : FloatOps F) (s : Sys F) (viewportW viewportH : Int) :
    Bool × Sys F :=
  let newVW := max 1 viewportW
  let newVH := max 1 viewportH
  let prevVW := s.g.viewportW
  let prevVH := s.g.viewportH
  let s0 : Sys F := { s with g := { s.g with viewportW := newVW, viewportH := newVH } }
  let rs := fclamp s0.g.settings.renderScale (ops.lit (1 / 20)) (ops.lit 1)
  let iw := internalDim ops newVW rs
  let ih := internalDim ops newVH rs
  let outputMissing := !IsTexLevelDefined2D s0.gl s0.g.texOutputLDR
  let needInternalRecreate :=
    decide (iw ≠ s0.g.internalW) || decide (ih ≠ s0.g.internalH) || internalMissing s0
  let needOutputRecreate :=
    decide (newVW ≠ prevVW) || decide (newVH ≠ prevVH) || outputMissing
  if !needInternalRecreate && !needOutputRecreate then (true, s0)
  else if needInternalRecreate then
    let s1 := recreateAll s0 newVW newVH iw ih
    if internalMissing s1 || !IsTexLevelDefined2D s1.gl s1.g.texOutputLDR then
      (false, DestroyAllTextures s1)
    else
      (true, { s1 with g := { s1.g with
        settings := { s1.g.settings with resetAccumulation := true }, debugGLFrames := 4 } })
  else
    let gl1 := DestroyTex s0.gl s0.g.texOutputLDR
    let r := CreateTex2D gl1 newVW newVH
    let s1 : Sys F := { g := { s0.g with texOutputLDR := r.1 }, gl := r.2 }
    if !IsTexLevelDefined2D s1.gl s1.g.texOutputLDR then (false, s1)
    else (true, { s1 with g := { s1.g with debugGLFrames := 4 } })

/-- The internal size `(iw, ih)` that `EnsureResources(viewportW, viewportH)` computes
in state `g`. -/
def internalSize (ops : FloatOps F) (g : State F) (viewportW viewportH : Int) : Int × Int :=
  let rs := fclamp g.settings.renderScale (ops.lit (1 / 20)) (ops.lit 1)
  (internalDim ops (max 1 viewportW) rs, internalDim ops (max 1 viewportH) rs)

/-- The value of `needInternalRecreate` in `EnsureResources(viewportW, viewportH)`. -/
def needInternalRecreate (ops : FloatOps F) (s : Sys F) (viewportW viewportH : Int) : Bool :=
  decide ((internalSize ops s.g viewportW viewportH).1 ≠ s.g.internalW) ||
  decide ((internalSize ops s.g viewportW viewportH).2 ≠ s.g.internalH) || internalMissing s

/-- The value of `needOutputRecreate` in `EnsureResources(viewportW, viewportH)`. -/
def needOutputRecreate (s : Sys F) (viewportW viewportH : Int) : Bool :=
  decide (max 1 viewportW ≠ s.g.viewportW) || decide (max 1 viewportH ≠ s.g.viewportH) ||
  !IsTexLevelDefined2D s.gl s.g.texOutputLDR

/-- The nine internal-resolution image handles, in the order in which
`DestroyAllTextures` and `EnsureResources` go through them. -/
def internalHandles (g : State F) : List Nat :=
  [g.texSampleHDR, g.texAccumHDR, g.texCount, g.texAlbedo, g.texNormal, g.texDepth,
   g.texRoughMetal, g.texDenoiseA, g.texDenoiseB]

/-- The ten image handles: the nine internal ones, then the output image. -/
def imageHandles (g : State F) : List Nat := internalHandles g ++ [g.texOutputLDR]

/-- The `glDeleteTextures` commands that `DestroyTex` issues when called on the
handles `hs` in turn: one for each handle that is not zero. -/
def destroyEvents (hs : List Nat) : List GLEvent :=
  (hs.filter (fun t => decide (t ≠ 0))).map GLEvent.deleteTex

/-- The allocation commands of `w × h` images whose results are `ts`. -/
def createEvents (w h : Int) (ts : List Nat) : List GLEvent :=
  ts.map (GLEvent.createTex w h)

/-- The host writes `settings.renderScale` (through `GetSettings()`). -/
def setRenderScale (s : Sys F) (q : F) : Sys F :=
  { s with g := { s.g with settings := { s.g.settings with renderScale := q } } }

/-- The host clears the reset flag (through `GetSettings()`) and leaves the rest as
it is. -/
def clearResetFlag (s : Sys F) : Sys F :=
  { s with g := { s.g with settings := { s.g.settings with resetAccumulation := false } } }

/-- Source `RunTrace()`, the local `aspect`: `float(g.internalW) / float(g.internalH)`. -/
def traceAspect (ops : FloatOps F) (g : State F) : F :=
  ops.div (ops.ofInt g.internalW) (ops.ofInt g.internalH)

end Resources

/-! ### Scene upload -/

/-- Source `struct pt::TriInput`. -/
structure TriInput (F : Type) where
  v0 : Vec3 F
  v1 : Vec3 F
  v2 : Vec3 F
  n0 : Vec3 F
  n1 : Vec3 F
  n2 : Vec3 F
  uv0 : F × F
  uv1 : F × F
  uv2 : F × F
  material : Nat

/-- Source `struct pt::MaterialInput`. -/
structure MaterialInput (F : Type) where
  baseColor : F × F × F × F
  emissive : Vec3 F
  roughness : F
  metallic : F
  baseColorTexGL : Nat

/-- The search loop over `g.baseColorSamplers` in `UploadSceneInternal`, from index
`t` on: the first index holding `texId`, or `-1`. -/
def findSampler : List Nat → Nat → Nat → Int
  | [], _, _ => -1
  | x :: xs, texId, t => if x = texId then (t : Int) else findSampler xs texId (t + 1)

/-- The body of the material loop of `UploadSceneInternal` for one material: the
sampler table after it and the packed material. -/
def packMaterial {F : Type} (maxBaseColorSamplers : Int) (samplers : List Nat)
    (m : MaterialInput F) : List Nat × MaterialGPU F :=
  let base : MaterialGPU F :=
    { baseColor := m.baseColor, emissive := m.emissive, roughness := m.roughness,
      metallic := m.metallic, tex0 := -1, tex1 := -1, tex2 := -1, tex3 := -1 }
  if m.baseColorTexGL ≠ 0 ∧ 0 < maxBaseColorSamplers then
    let found := findSampler samplers m.baseColorTexGL 0
    if found < 0 then
      if (samplers.length : Int) < maxBaseColorSamplers then
        (samplers ++ [m.baseColorTexGL], { base with tex0 := (samplers.length : Int) })
      else (samplers, { base with tex0 := found })
    else (samplers, { base with tex0 := found })
  else (samplers, base)

/-- The material loop of `UploadSceneInternal`, started on the sampler table
`samplers` (the source clears the table first): the final table and `mg`. -/
def packMaterials {F : Type} (maxBaseColorSamplers : Int) (samplers : List Nat)
    (mats : List (MaterialInput F)) : List Nat × List (MaterialGPU F) :=
  mats.foldl
    (fun acc m =>
      let r := packMaterial maxBaseColorSamplers acc.1 m
      (r.1, acc.2 ++ [r.2]))
    (samplers, [])

/-- The slot a material with base-colour texture `texId` is given once the sampler
table is `samplers`: its first index in the table, or `-1` when the texture is `0`,
the capacity is not positive or the table does not hold it. -/
def slotFor (maxBaseColorSamplers : Int) (samplers : List Nat) (texId : Nat) : Int :=
  if texId ≠ 0 ∧ 0 < maxBaseColorSamplers then findSampler samplers texId 0 else -1

/-- The packed form of material `m` when its base-colour slot is read off the
sampler table `samplers`: the factors are copied, the other three texture slots
are `-1`. -/
def packedWith {F : Type} (maxBaseColorSamplers : Int) (samplers : List Nat)
    (m : MaterialInput F) : MaterialGPU F :=
  { baseColor := m.baseColor, emissive := m.emissive, roughness := m.roughness,
    metallic := m.metallic, tex0 := slotFor maxBaseColorSamplers samplers m.baseColorTexGL,
    tex1 := -1, tex2 := -1, tex3 := -1 }

section Upload

variable {F : Type} [LinearOrder F]

/-- Component-wise `a - b` on `float[3]`. -/
def vsub (ops : FloatOps F) (a b : Vec3 F) : Vec3 F :=
  ⟨ops.sub a.x b.x, ops.sub a.y b.y, ops.sub a.z b.z⟩

/-- The `TriGPU out` of the triangle loop of `UploadSceneInternal`. -/
def packTri (ops : FloatOps F) (t : TriInput F) : TriGPU F :=
  { v0 := t.v0, materialBits := t.material, e1 := vsub ops t.v1 t.v0, e2 := vsub ops t.v2 t.v0,
    n0 := t.n0, n1 := t.n1, n2 := t.n2, uv0 := t.uv0, uv1 := t.uv1, uv2 := t.uv2 }

/-- The `TriBounds tb` of the triangle loop of `UploadSceneInternal`: the empty box
grown by the three vertices, and the centroid `(v0 + v1 + v2) / 3.0f`. -/
def triBoundsOf (ops : FloatOps F) (t : TriInput F) : TriBounds F :=
  { bounds := aabbGrowPoint (aabbGrowPoint (aabbGrowPoint (aabbEmpty ops) t.v0) t.v1) t.v2,
    centroid :=
      ⟨ops.div (ops.add (ops.add t.v0.x t.v1.x) t.v2.x) (ops.lit 3),
       ops.div (ops.add (ops.add t.v0.y t.v1.y) t.v2.y) (ops.lit 3),
       ops.div (ops.add (ops.add t.v0.z t.v1.z) t.v2.z) (ops.lit 3)⟩ }

/-- The point `p` lies in the box `b` on every axis. -/
def AABB.holdsPoint (b : AABB F) (p : Vec3 F) : Prop :=
  b.mn.x ≤ p.x ∧ p.x ≤ b.mx.x ∧ b.mn.y ≤ p.y ∧ p.y ≤ b.mx.y ∧ b.mn.z ≤ p.z ∧ p.z ≤ b.mx.z

instance (b : AABB F) (p : Vec3 F) : Decidable (b.holdsPoint p) := by
  unfold AABB.holdsPoint; infer_instance

/-- Every node's box holds the three vertices of every input triangle whose index
is stored, in the final index array, in the range of a leaf at or beneath that
node. -/
def BoxesHoldVertices (b : BuildContext F) (tris : List (TriInput F)) : Prop :=
  ∀ (i j : Nat) (ni nj : NodeGPU F) (p : Nat),
    b.nodes[i]? = some ni → Reach b.nodes i j → b.nodes[j]? = some nj → leafHolds nj p →
    ∃ (t : Nat) (tri : TriInput F), b.triIndices[p]? = some t ∧ tris[t]? = some tri ∧
      ni.box.holdsPoint tri.v0 ∧ ni.box.holdsPoint tri.v1 ∧ ni.box.holdsPoint tri.v2

/-- Every input triangle is stored in the range of some leaf whose box holds the
triangle's three vertices. -/
def EveryVertexInLeaf (b : BuildContext F) (tris : List (TriInput F)) : Prop :=
  ∀ (t : Nat) (tri : TriInput F), tris[t]? = some tri →
    ∃ (j : Nat) (nj : NodeGPU F) (p : Nat),
      b.nodes[j]? = some nj ∧ leafHolds nj p ∧ b.triIndices[p]? = some t ∧
      nj.box.holdsPoint tri.v0 ∧ nj.box.holdsPoint tri.v1 ∧ nj.box.holdsPoint tri.v2

/-- Source line `if (!buf) glGenBuffers(1, &buf);`. -/
def ensureBuffer (gl : GLContext F) (buf : Nat) : Nat × GLContext F :=
  if buf = 0 then (gl.nextBuffer, { gl with nextBuffer := gl.nextBuffer + 1 }) else (buf, gl)

/-- The early-return branch of `UploadSceneInternal` for an empty scene. -/
def markNoScene (g : State F) : State F :=
  { g with hasScene := false, sceneTriCount := 0, sceneNodeCount := 0, sceneMatCount := 0 }

/-- Source `UploadSceneInternal(tris, triCount, mats, matCount)`. An array argument is
`none` for a null pointer and otherwise the array, whose length is the count
passed with it. -/
def UploadSceneInternal (ops : FloatOps F) (sel : NthElement) (s : Sys F)
    (tris : Option (List (TriInput F))) (mats : Option (List (MaterialInput F))) : Sys F :=
  if !s.g.inited then s
  else
    match tris, mats with
    | some ts, some ms =>
      if ts.length = 0 ∨ ms.length = 0 then { s with g := markNoScene s.g }
      else
        let packed := packMaterials s.g.maxBaseColorSamplers [] ms
        let tg := ts.map (packTri ops)
        let bc := buildScene ops sel (ts.map (triBoundsOf ops))
        let b1 := ensureBuffer s.gl s.g.ssboNodes
        let b2 := ensureBuffer b1.2 s.g.ssboTriIndices
        let b3 := ensureBuffer b2.2 s.g.ssboTris
        let b4 := ensureBuffer b3.2 s.g.ssboMats
        let gl1 := (((b4.2.emit (.bufferData b1.1 bc.nodes.length)).emit
          (.bufferData b2.1 bc.triIndices.length)).emit
          (.bufferData b3.1 tg.length)).emit (.bufferData b4.1 packed.2.length)
        { g := { s.g with
            baseColorSamplers := packed.1,
            ssboNodes := b1.1, ssboTriIndices := b2.1, ssboTris := b3.1, ssboMats := b4.1,
            hasScene := decide (0 < ts.length ∧ 0 < bc.nodes.length ∧ 0 < ms.length),
            sceneTriCount := ts.length % 4294967296,
            sceneNodeCount := bc.nodes.length % 4294967296,
            sceneMatCount := ms.length % 4294967296,
            settings := { s.g.settings with resetAccumulation := true } },
          gl := { gl1 with
            bufNodes := bc.nodes, bufTriIndices := bc.triIndices, bufTris := tg,
            bufMats := packed.2 } }
    | _, _ => { s with g := markNoScene s.g }

/-- Source `pt::RequestReset()`. -/
def RequestReset (g : State F) : State F :=
  { g with settings := { g.settings with resetAccumulation := true } }

/-- Source `pt::UploadScene(tris, triCount, mats, matCount)`. -/
def UploadScene (ops : FloatOps F) (sel : NthElement) (s : Sys F)
    (tris : Option (List (TriInput F))) (mats : Option (List (MaterialInput F))) : Sys F :=
  if !s.g.inited then s
  else
    let s1 := UploadSceneInternal ops sel s tris mats
    { s1 with g := RequestReset s1.g }

/-- Source `pt::ClearScene()`. -/
def ClearScene (s : Sys F) : Sys F :=
  let gl1 := DestroySSBO (DestroySSBO (DestroySSBO (DestroySSBO s.gl s.g.ssboNodes)
    s.g.ssboTriIndices) s.g.ssboTris) s.g.ssboMats
  { g := RequestReset { s.g with
      ssboNodes := 0, ssboTriIndices := 0, ssboTris := 0, ssboMats := 0,
      hasScene := false, sceneTriCount := 0, sceneNodeCount := 0, sceneMatCount := 0 },
    gl := gl1 }

/-- Source `pt::HasScene()`. -/
def HasScene (g : State F) : Bool := g.hasScene

/-! ### Camera -/

/-- The lambda `dist2` of `SetCameraBasis`. -/
def dist2 (ops : FloatOps F) (a b : Vec3 F) : F :=
  let dx := ops.sub a.x b.x
  let dy := ops.sub a.y b.y
  let dz := ops.sub a.z b.z
  ops.add (ops.add (ops.mul dx dx) (ops.mul dy dy)) (ops.mul dz dz)

/-- The lambda `dot3` of `SetCameraBasis`. -/
def dot3 (ops : FloatOps F) (a b : Vec3 F) : F :=
  ops.add (ops.add (ops.mul a.x b.x) (ops.mul a.y b.y)) (ops.mul a.z b.z)

/-- The five tests `SetCameraBasis` ors into `changed` when a basis is already
stored. -/
def cameraChanged (ops : FloatOps F) (g : State F) (pos dir right up : Vec3 F)
    (tanHalfFovY : F) : Bool :=
  decide (ops.lit (1 / 100000000) < dist2 ops g.camPos pos) ||
  decide (ops.lit (1 / 1000000) < ops.sub (ops.lit 1) (dot3 ops g.camDir dir)) ||
  decide (ops.lit (1 / 1000000) < ops.sub (ops.lit 1) (dot3 ops g.camRight right)) ||
  decide (ops.lit (1 / 1000000) < ops.sub (ops.lit 1) (dot3 ops g.camUp up)) ||
  decide (ops.lit (1 / 100000) < ops.abs (ops.sub g.camTanHalfFovY tanHalfFovY))

/-- The value of `changed` at the end of `SetCameraBasis`: whether the call requests
a reset. -/
def cameraRequestsReset (ops : FloatOps F) (g : State F) (pos dir right up : Vec3 F)
    (tanHalfFovY : F) : Bool :=
  if g.camOverride then cameraChanged ops g pos dir right up tanHalfFovY else true

/-- Source `pt::SetCameraBasis(pos, dir, right, up, tanHalfFovY)`. -/
def SetCameraBasis (ops : FloatOps F) (g : State F) (pos dir right up : Vec3 F)
    (tanHalfFovY : F) : State F :=
  let changed := cameraRequestsReset ops g pos dir right up tanHalfFovY
  let g1 : State F :=
    { g with camOverride := true, camPos := pos, camDir := dir, camRight := right,
             camUp := up, camTanHalfFovY := tanHalfFovY }
  if changed then RequestReset g1 else g1

/-- What the claim about a repeated camera basis uses of single-precision
arithmetic on finite values: `x - x` is zero, the product and the sum of zeros are
zero, `fabs(0)` is zero, and zero is above neither threshold `1e-8` nor `1e-5`. -/
def ZeroLaws (ops : FloatOps F) : Prop :=
  (∀ x : F, ops.sub x x = ops.lit 0) ∧
  ops.mul (ops.lit 0) (ops.lit 0) = ops.lit 0 ∧
  ops.add (ops.lit 0) (ops.lit 0) = ops.lit 0 ∧
  ops.abs (ops.lit 0) = ops.lit 0 ∧
  ¬ ops.lit (1 / 100000000) < ops.lit 0 ∧
  ¬ ops.lit (1 / 100000) < ops.lit 0

/-! ### Panel -/

/-- The `Step` button of `DrawImGuiPanel`, pressed on an initialised tracer. -/
def pressStep (g : State F) : State F :=
  { g with paused := true, stepOnce := true }

/-- The `Pause rendering` checkbox of `DrawImGuiPanel`, clicked on an initialised
tracer: `ImGui::Checkbox` flips `g.paused` and reports the click, and
`if (!g.paused) RequestReset();` follows. -/
def clickPause (g : State F) : State F :=
  let g1 : State F := { g with paused := !g.paused }
  if !g1.paused then RequestReset g1 else g1

/-! ### Render -/

/-- Source `RunClear()`. -/
def RunClear (s : Sys F) : Sys F :=
  { s with gl := Dispatch2D s.gl s.g.internalW s.g.internalH .clearDispatch }

/-- Source `RunTrace()`: `uSampleBase` is `(GLuint)g.sppAccum`, `uSpp` is `sppPerFrame`. -/
def RunTrace (s : Sys F) : Sys F :=
  let e := GLEvent.traceDispatch (s.g.sppAccum % 4294967296) s.g.settings.sppPerFrame
  { s with gl := Dispatch2D s.gl s.g.internalW s.g.internalH e }

/-- Source `RunAccumulate()`. -/
def RunAccumulate (s : Sys F) : Sys F :=
  { s with gl := Dispatch2D s.gl s.g.internalW s.g.internalH .accumulateDispatch }

/-- One iteration `i` of the loop of `RunAtrous` on `(gl, inTex, outTex)`. -/
def atrousIter (g : State F) (acc : GLContext F × Nat × Nat) (i : Nat) : GLContext F × Nat × Nat :=
  let gl1 := Dispatch2D acc.1 g.internalW g.internalH (.atrousDispatch (1 <<< i) acc.2.1 acc.2.2)
  (gl1, acc.2.2, if acc.2.2 = g.texDenoiseA then g.texDenoiseB else g.texDenoiseA)

/-- Source `RunAtrous(inputTex)`: the state after the three passes and the texture
returned. -/
def RunAtrous (s : Sys F) (inputTex : Nat) : Sys F × Nat :=
  let r := [0, 1, 2].foldl (atrousIter s.g) (s.gl, inputTex, s.g.texDenoiseA)
  ({ s with gl := r.1 }, r.2.1)

/-- Source `RunTonemap(hdrSource, viewMode)`. -/
def RunTonemap (s : Sys F) (hdrSource : Nat) (viewMode : Int) : Sys F :=
  { s with gl := Dispatch2D s.gl s.g.viewportW s.g.viewportH (.tonemapDispatch hdrSource viewMode) }

/-- Source `Render`, the block `if (g.settings.resetAccumulation) { RunClear(); ... }`. -/
def renderClear (s : Sys F) : Sys F :=
  if s.g.settings.resetAccumulation then
    let s1 := RunClear s
    { s1 with g := { s1.g with
        sppAccum := 0, settings := { s1.g.settings with resetAccumulation := false } } }
  else s

/-- Source `Render` from `g.stepOnce = false` to the statement
`g.sppAccum += (std::uint64_t)std::max(1, g.settings.sppPerFrame)`: the trace
pass, the accumulate pass, then the counter. -/
def renderTraceAccumulate (s : Sys F) : Sys F :=
  let fi := toInt32 s.g.frameIndex
  let s0 : Sys F := { s with g := { s.g with stepOnce := false } }
  let b1 := s0.g.tTrace.begin s0.gl fi
  let s1 := RunTrace { g := { s0.g with tTrace := b1.1 }, gl := b1.2 }
  let e1 := s1.g.tTrace.finish s1.gl fi
  let b2 := s1.g.tAcc.begin e1.2 fi
  let s2 := RunAccumulate { g := { s1.g with tTrace := e1.1, tAcc := b2.1 }, gl := b2.2 }
  let e2 := s2.g.tAcc.finish s2.gl fi
  { g := { s2.g with
      tAcc := e2.1,
      sppAccum :=
        (s2.g.sppAccum + (max 1 s2.g.settings.sppPerFrame).toNat) % 18446744073709551616 },
    gl := e2.2 }

/-- Source `Render`, the denoise block: the state after it and `hdrForTonemap`. -/
def renderDenoise (s : Sys F) : Sys F × Nat :=
  let fi := toInt32 s.g.frameIndex
  if s.g.settings.denoiser = Denoiser.AtrousGL then
    let b := s.g.tDenoise.begin s.gl fi
    let r := RunAtrous { g := { s.g with tDenoise := b.1 }, gl := b.2 } s.g.texAccumHDR
    let e := r.1.g.tDenoise.finish r.1.gl fi
    ({ g := { r.1.g with tDenoise := e.1 }, gl := e.2 }, r.2)
  else (s, s.g.texAccumHDR)

/-- Source `Render`, the tonemap block. -/
def renderTonemap (s : Sys F) (hdrForTonemap : Nat) : Sys F :=
  let fi := toInt32 s.g.frameIndex
  let b := s.g.tTonemap.begin s.gl fi
  let sel1 := if s.g.settings.view = DebugView.Accumulated then s.g.texAccumHDR else hdrForTonemap
  let selectedHDR := if s.g.settings.view = DebugView.Sample then s.g.texSampleHDR else sel1
  let s1 := RunTonemap { g := { s.g with tTonemap := b.1 }, gl := b.2 } selectedHDR
    s.g.settings.view.toInt
  let e := s1.g.tTonemap.finish s1.gl fi
  { g := { s1.g with tTonemap := e.1 }, gl := e.2 }

/-- Source `Render`, the closing statements: the stats, `debugGLFrames`, `++g.frameIndex`. -/
def renderStats (ops : FloatOps F) (g : State F) : State F :=
  { g with
    stats :=
      { internalW := g.internalW, internalH := g.internalH, sppAccumulated := g.sppAccum,
        msPathTrace := g.tTrace.lastMs, msAccumulate := g.tAcc.lastMs,
        msDenoise :=
          if g.settings.denoiser = Denoiser.AtrousGL then g.tDenoise.lastMs else ops.lit 0,
        msTonemap := g.tTonemap.lastMs,
        usingMeshScene := g.hasScene, triCount := g.sceneTriCount,
        nodeCount := g.sceneNodeCount, materialCount := g.sceneMatCount },
    debugGLFrames := if 0 < g.debugGLFrames then g.debugGLFrames - 1 else g.debugGLFrames,
    frameIndex := (g.frameIndex + 1) % 4294967296 }

/-- Source `Render` from `g.stepOnce = false` to the end: one trace / accumulate /
denoise / tonemap pass. -/
def renderPass (ops : FloatOps F) (s : Sys F) : Sys F :=
  let s1 := renderTraceAccumulate s
  let d := renderDenoise s1
  let s2 := renderTonemap d.1 d.2
  { s2 with g := renderStats ops s2.g }

/-- Source `Render`, the four `resolve` calls. -/
def renderResolve (ops : FloatOps F) (s : Sys F) : Sys F :=
  let fi := toInt32 s.g.frameIndex
  { s with g := { s.g with
      tTrace := s.g.tTrace.resolve ops s.gl fi, tAcc := s.g.tAcc.resolve ops s.gl fi,
      tDenoise := s.g.tDenoise.resolve ops s.gl fi,
      tTonemap := s.g.tTonemap.resolve ops s.gl fi } }

/-- Source `Render`, the test-pattern branch. -/
def renderTestPattern (s : Sys F) : Sys F :=
  { g := { s.g with
      debugGLFrames :=
        if 0 < s.g.debugGLFrames then s.g.debugGLFrames - 1 else s.g.debugGLFrames },
    gl := s.gl.emit (.testPattern s.g.texOutputLDR) }

/-- The test of `Render` after `EnsureResources`: the sizes are at least 1 and the
output image is defined. -/
def resourcesUsable (s : Sys F) : Bool :=
  !(decide (s.g.internalW < 1) || decide (s.g.internalH < 1) || decide (s.g.viewportW < 1) ||
    decide (s.g.viewportH < 1) || !IsTexLevelDefined2D s.gl s.g.texOutputLDR)

/-- Source `Render` once the resources are there and the test pattern is off: resolve the
timers, clear if requested, then one pass unless paused without a step request. -/
def renderFrame (ops : FloatOps F) (s : Sys F) : Sys F :=
  let s1 := renderClear (renderResolve ops s)
  let doTraceWork := !s1.g.paused || s1.g.stepOnce
  if !doTraceWork then s1 else renderPass ops s1

/-- Source `pt::Render(viewportW, viewportH)`. -/
def Render (ops : FloatOps F) (s : Sys F) (viewportW viewportH : Int) : Sys F :=
  if !s.g.inited then s
  else if !s.g.settings.enabled then s
  else
    let er := EnsureResources ops s viewportW viewportH
    if !er.1 then er.2
    else if !resourcesUsable er.2 then er.2
    else if er.2.g.forceTestPattern then renderTestPattern er.2
    else renderFrame ops er.2

/-! ### Initialisation -/

/-- Source constant `kBaseColorSamplerBinding`. -/
def kBaseColorSamplerBinding : Int := 0

/-- Source constant `kMaxBaseColorSamplers`. -/
def kMaxBaseColorSamplers : Int := 16

/-- Source `GpuPassTimer::init()`: the rings are replaced by the names `namesBegin`
and `namesEnd` the driver hands out, and the timer is valid when every one of
them is a non-zero query name. -/
def GpuPassTimer.init (t : GpuPassTimer F) (gl : GLContext F) (namesBegin namesEnd : List Nat) :
    GpuPassTimer F :=
  let valid := (namesBegin.zip namesEnd).all
    (fun p => decide (p.1 ≠ 0) && decide (p.2 ≠ 0) && gl.isQuery p.1 && gl.isQuery p.2)
  { t with qBegin := namesBegin, qEnd := namesEnd, valid := valid, warned := t.warned || !valid }

/-- Source `pt::Initialize()`: the return value and the state after the call.
`versionOK` is `GLAD_GL_VERSION_4_3`, `maxComputeTexUnits` is what the driver
reports for `GL_MAX_COMPUTE_TEXTURE_IMAGE_UNITS`, and `names k` are the query
names the driver hands out at the `k`-th request (two requests per timer). -/
def Initialize (s : Sys F) (versionOK : Bool) (maxComputeTexUnits : Int)
    (names : Nat → List Nat) : Bool × Sys F :=
  if s.g.inited then (true, s)
  else if !versionOK then (false, s)
  else
    (true, { s with g := { s.g with
      maxBaseColorSamplers :=
        max 0 (min kMaxBaseColorSamplers (maxComputeTexUnits - kBaseColorSamplerBinding)),
      tTrace := s.g.tTrace.init s.gl (names 0) (names 1),
      tAcc := s.g.tAcc.init s.gl (names 2) (names 3),
      tDenoise := s.g.tDenoise.init s.gl (names 4) (names 5),
      tTonemap := s.g.tTonemap.init s.gl (names 6) (names 7),
      inited := true } })

end Upload

/-! ### What a frame dispatches -/

/-- The compute dispatches among the recorded commands: clear, trace, accumulate,
denoise and tonemap. -/
def GLEvent.isKernel : GLEvent → Bool
  | .clearDispatch => true
  | .traceDispatch _ _ => true
  | .accumulateDispatch => true
  | .atrousDispatch _ _ _ => true
  | .tonemapDispatch _ _ => true
  | _ => false

/-- The compute dispatches issued so far, in order. -/
def kernelLog {F : Type} (gl : GLContext F) : List GLEvent :=
  gl.log.filter GLEvent.isKernel

/-- The image the tonemap pass reads for the state `g`: the sample image or the
accumulation image for the views of these names, else the denoiser output
(`texDenoiseA`) when the denoiser is on, else the accumulation image. -/
def tonemapSource {F : Type} (g : State F) : Nat :=
  if g.settings.view = DebugView.Sample then g.texSampleHDR
  else if g.settings.view = DebugView.Accumulated then g.texAccumHDR
  else if g.settings.denoiser = Denoiser.AtrousGL then g.texDenoiseA
  else g.texAccumHDR

/-- The compute dispatches of one trace / accumulate / denoise / tonemap pass started
in state `g`, in order. -/
def passEvents {F : Type} (g : State F) : List GLEvent :=
  [GLEvent.traceDispatch (g.sppAccum % 4294967296) g.settings.sppPerFrame,
   GLEvent.accumulateDispatch] ++
  (if g.settings.denoiser = Denoiser.AtrousGL then
    [GLEvent.atrousDispatch 1 g.texAccumHDR g.texDenoiseA,
     GLEvent.atrousDispatch 2 g.texDenoiseA g.texDenoiseB,
     GLEvent.atrousDispatch 4 g.texDenoiseB g.texDenoiseA]
   else []) ++
  [GLEvent.tonemapDispatch (tonemapSource g) g.settings.view.toInt]

/-! ### Traversal stack of the trace kernel -/

/-- Node `j` lies `d` levels beneath node `i`: it is reached from `i` by `d` steps
along the `left` / `right` entries of internal nodes (`count = 0`). -/
inductive ReachIn {F : Type} (nodes : List (NodeGPU F)) : Nat → Nat → Nat → Prop
  | refl (i : Nat) : ReachIn nodes i i 0
  | step (i k j d : Nat) (n : NodeGPU F) :
      nodes[i]? = some n → n.count = 0 → (k = n.left ∨ k = n.right) →
      ReachIn nodes k j d → ReachIn nodes i j (d + 1)

/-- One iteration of the loop `while (sp > 0)` of `traceMesh` and `occludedMesh`. The
stack is held top first and `sp` is its length. `visit` is false when one of the
two tests on the node's box ends the iteration at a `continue`. A leaf
(`meta.w > 0`) pushes nothing; an internal node pushes `left`, then `right`, when
`sp < 62`. A subscript outside the node array (undefined in the source) pushes
nothing. -/
def traverseStep {F : Type} (nodes : List (NodeGPU F)) (visit : Bool) (stack : List Nat) :
    List Nat :=
  match stack with
  | [] => []
  | ni :: rest =>
    match nodes[ni]? with
    | none => rest
    | some n =>
      if !visit then rest
      else if 0 < n.count then rest
      else if rest.length < 62 then n.right :: n.left :: rest
      else rest

/-- The stack after the iterations whose box tests come out as `visits`, started as
both kernels start it (`stack[sp++] = 0u`). A `return` inside a leaf ends the run
early, which is a shorter `visits`. -/
def traverseRun {F : Type} (nodes : List (NodeGPU F)) (visits : List Bool) : List Nat :=
  visits.foldl (fun st v => traverseStep nodes v st) [0]

/-- The iteration about to run on `stack` pops an internal node while 62 or more
entries stay beneath it: if it gets past the box tests, the guard `sp < 62` is
false and the two children are dropped. -/
def guardFails {F : Type} (nodes : List (NodeGPU F)) (stack : List Nat) : Bool :=
  match stack with
  | [] => false
  | ni :: rest =>
    match nodes[ni]? with
    | none => false
    | some n => decide (n.count = 0) && decide (62 ≤ rest.length)

/-- Invariant of the traversal stack (top first): every entry is a node reached from
the root in at least as many steps as there are entries beneath it. -/
def StackOK {F : Type} (nodes : List (NodeGPU F)) : List Nat → Prop
  | [] => True
  | ni :: rest => (∃ d, ReachIn nodes 0 ni d ∧ rest.length ≤ d) ∧ StackOK nodes rest

/-! ## The sample loop and the random numbers of the trace kernel -/

/-- The sample indices one invocation of `kTraceCS` hashes:
`uSampleBase + uint(s)`, in `uint` arithmetic, for `s = 0 .. max(uSpp, 1) - 1`. -/
def sampleIndices (uSampleBase : Nat) (uSpp : Int) : List Nat :=
  (List.range (max uSpp 1).toNat).map (fun s => (uSampleBase + s) % 4294967296)

/-- The state update of `rnd`: `state = 1664525U * state + 1013904223U` in `uint`
arithmetic. -/
def rndState (state : Nat) : Nat := (1664525 * state + 1013904223) % 4294967296

/-- The word `x` of `rnd`: `(state >> 8) | 0x3f800000U` for the updated state. -/
def rndWord (state : Nat) : Nat := (rndState state >>> 8) ||| 1065353216

/-- Bit 31 of a 32-bit word: the sign of the single-precision value it encodes. -/
def signBit (w : Nat) : Nat := w / 2147483648 % 2

/-- Bits 23 to 30 of a 32-bit word: the exponent field. -/
def expField (w : Nat) : Nat := w / 8388608 % 256

/-- Bits 0 to 22 of a 32-bit word: the fraction field. -/
def fracField (w : Nat) : Nat := w % 8388608

/-- GLSL `uintBitsToFloat(w)` as an exact rational: a word with exponent field `e`
between 1 and 254 encodes `(-1)^sign * 2^(e - 127) * (1 + frac / 2^23)`, one with
exponent field 0 encodes `(-1)^sign * 2^(-126) * (frac / 2^23)`, and one with
exponent field 255 encodes no finite value. -/
def uintBitsToFloat (w : Nat) : Option ℚ :=
  let sgn : ℚ := if signBit w = 1 then -1 else 1
  if expField w = 255 then none
  else if expField w = 0 then some (sgn * (2 : ℚ) ^ (-126 : Int) * ((fracField w : ℚ) / 8388608))
  else
    some (sgn * (2 : ℚ) ^ ((expField w : Int) - 127) * (1 + (fracField w : ℚ) / 8388608))

/-- Source `rnd(state)`: the state left in `state` and the value returned,
`uintBitsToFloat(x) - 1.0`. The difference is taken exactly: for the words `rnd`
builds it is a multiple of `2^-23` below 1, which single precision holds. -/
def rnd (state : Nat) : Nat × Option ℚ :=
  (rndState state, (uintBitsToFloat (rndWord state)).map (fun v => v - 1))

/-- The horizontal sample position `float(p.x) + jx` of `main` before the division
by the resolution: the sum, rounded to single precision by `rd` (`p.x` is below
`2^24`, so `float(p.x)` is exact). With `rd = id` it is the exact sum. -/
def jittered (rd : ℚ → ℚ) (p : Nat) (j : ℚ) : ℚ := rd ((p : ℚ) + j)

/-! ## Diagnostics: the rolling window of `src/Stats.h` -/

/-- Source `diag::RollingWindow<T>`: the four data members. -/
structure RollingWindow (T : Type) where
  cap_ : Nat
  data_ : List T
  head_ : Nat
  filled_ : Bool

/-- Source constructor `RollingWindow(cap)`. -/
def RollingWindow.new {T : Type} (cap : Nat) : RollingWindow T :=
  { cap_ := cap, data_ := [], head_ := 0, filled_ := false }

/-- Source `RollingWindow::push(v)`. -/
def RollingWindow.push {T : Type} (w : RollingWindow T) (v : T) : RollingWindow T :=
  let w1 : RollingWindow T :=
    if w.data_.length < w.cap_ then { w with data_ := w.data_ ++ [v] }
    else
      let h := (w.head_ + 1) % w.cap_
      { w with head_ := h, data_ := w.data_.set h v }
  if w1.data_.length = w1.cap_ then { w1 with filled_ := true } else w1

/-- Source `RollingWindow::size()`. -/
def RollingWindow.size {T : Type} (w : RollingWindow T) : Nat :=
  if w.filled_ then w.cap_ else w.data_.length

/-- Source `RollingWindow::snapshot()`; a subscript outside `data_` (undefined in the
source) contributes nothing. -/
def RollingWindow.snapshot {T : Type} (w : RollingWindow T) : List T :=
  if w.data_.isEmpty then []
  else if !w.filled_ then w.data_
  else
    let start := (w.head_ + 1) % w.cap_
    (List.range w.cap_).filterMap (fun i => w.data_[(start + i) % w.cap_]?)

/-- The window after the pushes `vs`, in order, into a new window of capacity `cap`. -/
def RollingWindow.pushAll {T : Type} (cap : Nat) (vs : List T) : RollingWindow T :=
  vs.foldl RollingWindow.push (RollingWindow.new cap)

/-- What the comment on `snapshot` promises after the pushes `vs`: the most recent
`min(n, cap)` of them in push order, oldest first. -/
def mostRecent {T : Type} (cap : Nat) (vs : List T) : List T :=
  vs.drop (vs.length - cap)

/-! ## The entity-component containers (`src/ComponentManager.h`, `src/EntityManager.cpp`) -/

/-- Source constant `MAX_ENTITIES` (`src/ComponentTypes.h`). -/
def MAX_ENTITIES : Nat := 100000

/-- Source constant `ComponentArray::INVALID_INDEX`,
`std::numeric_limits<size_t>::max()` for a 64-bit `size_t`. -/
def INVALID_INDEX : Nat := 18446744073709551615

/-- Source `class ComponentArray<T>`: the three arrays (as functions of the subscript)
and `mSize`. -/
structure ComponentArray (T : Type) where
  mComponentArray : Nat → T
  mEntityToIndex : Nat → Nat
  mIndexToEntity : Nat → Nat
  mSize : Nat

/-- Source constructor `ComponentArray()`: the components are value-initialised (to
`dflt`), `mIndexToEntity` to 0, and `mEntityToIndex` is filled with
`INVALID_INDEX`. -/
def ComponentArray.new {T : Type} (dflt : T) : ComponentArray T :=
  { mComponentArray := fun _ => dflt, mEntityToIndex := fun _ => INVALID_INDEX,
    mIndexToEntity := fun _ => 0, mSize := 0 }

/-- Source `ComponentArray::InsertData(e, component)`; `none` when one of its three
assertions fails. -/
def ComponentArray.InsertData {T : Type} (c : ComponentArray T) (e : Nat) (component : T) :
    Option (ComponentArray T) :=
  if ¬ e < MAX_ENTITIES then none
  else if c.mEntityToIndex e ≠ INVALID_INDEX then none
  else if ¬ c.mSize < MAX_ENTITIES then none
  else
    some
      { mComponentArray := Function.update c.mComponentArray c.mSize component,
        mEntityToIndex := Function.update c.mEntityToIndex e c.mSize,
        mIndexToEntity := Function.update c.mIndexToEntity c.mSize e,
        mSize := (c.mSize + 1) % 18446744073709551616 }

/-- Source `ComponentArray::RemoveData(e)`; `none` when one of its two assertions
fails. `mSize - 1` is `size_t` arithmetic. -/
def ComponentArray.RemoveData {T : Type} (c : ComponentArray T) (e : Nat) :
    Option (ComponentArray T) :=
  if ¬ e < MAX_ENTITIES then none
  else if c.mEntityToIndex e = INVALID_INDEX then none
  else
    let indexOfRemoved := c.mEntityToIndex e
    let indexOfLast := (c.mSize + 18446744073709551615) % 18446744073709551616
    let c1 : ComponentArray T :=
      if indexOfRemoved ≠ indexOfLast then
        let lastEntity := c.mIndexToEntity indexOfLast
        { c with
          mComponentArray :=
            Function.update c.mComponentArray indexOfRemoved (c.mComponentArray indexOfLast),
          mIndexToEntity := Function.update c.mIndexToEntity indexOfRemoved lastEntity,
          mEntityToIndex := Function.update c.mEntityToIndex lastEntity indexOfRemoved }
      else c
    some { c1 with mEntityToIndex := Function.update c1.mEntityToIndex e INVALID_INDEX,
                   mSize := indexOfLast }

/-- Source `ComponentArray::GetData(e)`; `none` when one of its two assertions fails. -/
def ComponentArray.GetData {T : Type} (c : ComponentArray T) (e : Nat) : Option T :=
  if ¬ e < MAX_ENTITIES then none
  else if c.mEntityToIndex e = INVALID_INDEX then none
  else some (c.mComponentArray (c.mEntityToIndex e))

/-- Source `ComponentArray::EntityDestroyed(e)`; `none` when its assertion fails. -/
def ComponentArray.EntityDestroyed {T : Type} (c : ComponentArray T) (e : Nat) :
    Option (ComponentArray T) :=
  if ¬ e < MAX_ENTITIES then none
  else if c.mEntityToIndex e ≠ INVALID_INDEX then c.RemoveData e
  else some c

/-- A call on a `ComponentArray`. -/
inductive ComponentCall (T : Type)
  | insert (e : Nat) (component : T)
  | remove (e : Nat)
  | destroyed (e : Nat)

/-- The array after one call; `none` when an assertion of the call fails. -/
def ComponentArray.call {T : Type} (c : ComponentArray T) : ComponentCall T →
    Option (ComponentArray T)
  | .insert e v => c.InsertData e v
  | .remove e => c.RemoveData e
  | .destroyed e => c.EntityDestroyed e

/-- The array after a sequence of calls on a new array; `none` when an assertion
fails on the way. -/
def ComponentArray.run {T : Type} (dflt : T) (calls : List (ComponentCall T)) :
    Option (ComponentArray T) :=
  calls.foldl (fun oc k => oc.bind (fun c => c.call k)) (some (ComponentArray.new dflt))

/-- What each entity holds after one more call, by the meaning of the call: an
insert gives the entity the component, a removal or a destruction takes it away,
and other entities are not touched. -/
def heldStep {T : Type} (held : Nat → Option T) : ComponentCall T → Nat → Option T
  | .insert e v => Function.update held e (some v)
  | .remove e => Function.update held e none
  | .destroyed e => Function.update held e none

/-- What each entity holds after a sequence of calls on a new array. -/
def heldAfter {T : Type} (calls : List (ComponentCall T)) : Nat → Option T :=
  calls.foldl heldStep (fun _ => none)

/-- The exceptions `EntityManager` throws, by their messages. -/
inductive Thrown
  | tooManyEntities
  | noAvailableIds
  | alreadyAlive
  | outOfRange
  | deadEntity
deriving DecidableEq, Repr

/-- Source `class EntityManager`: the queue of available ids (front first), the
signatures (a `std::bitset<32>` as the number it encodes), the alive flags and
the count. -/
structure EntityManager where
  mAvailableEntities : List Nat
  mSignatures : Nat → Nat
  mAlive : Nat → Bool
  mLivingEntityCount : Nat

/-- Source constructor `EntityManager()`. -/
def EntityManager.new : EntityManager :=
  { mAvailableEntities := List.range MAX_ENTITIES, mSignatures := fun _ => 0,
    mAlive := fun _ => false, mLivingEntityCount := 0 }

/-- Source `EntityManager::CreateEntity()`: the id returned or the exception thrown,
and the state left. -/
def EntityManager.CreateEntity (m : EntityManager) : Except Thrown Nat × EntityManager :=
  if MAX_ENTITIES ≤ m.mLivingEntityCount then (.error .tooManyEntities, m)
  else
    match m.mAvailableEntities with
    | [] => (.error .noAvailableIds, m)
    | id :: rest =>
      let m1 : EntityManager := { m with mAvailableEntities := rest }
      if m1.mAlive id then (.error .alreadyAlive, m1)
      else
        (.ok id,
          { m1 with
            mAlive := Function.update m1.mAlive id true,
            mSignatures := Function.update m1.mSignatures id 0,
            mLivingEntityCount := (m1.mLivingEntityCount + 1) % 4294967296 })

/-- Source `EntityManager::DestroyEntity(e)`. -/
def EntityManager.DestroyEntity (m : EntityManager) (e : Nat) : Except Thrown Unit × EntityManager :=
  if MAX_ENTITIES ≤ e then (.error .outOfRange, m)
  else if !m.mAlive e then (.error .deadEntity, m)
  else
    (.ok (),
      { mSignatures := Function.update m.mSignatures e 0,
        mAlive := Function.update m.mAlive e false,
        mAvailableEntities := m.mAvailableEntities ++ [e],
        mLivingEntityCount := (m.mLivingEntityCount + 4294967295) % 4294967296 })

/-- Source `EntityManager::SetSignature(e, sig)`. -/
def EntityManager.SetSignature (m : EntityManager) (e sig : Nat) :
    Except Thrown Unit × EntityManager :=
  if MAX_ENTITIES ≤ e then (.error .outOfRange, m)
  else if !m.mAlive e then (.error .deadEntity, m)
  else (.ok (), { m with mSignatures := Function.update m.mSignatures e sig })

/-- Source `EntityManager::GetSignature(e)`. -/
def EntityManager.GetSignature (m : EntityManager) (e : Nat) : Except Thrown Nat :=
  if MAX_ENTITIES ≤ e then .error .outOfRange
  else if !m.mAlive e then .error .deadEntity
  else .ok (m.mSignatures e)

/-- The states of an `EntityManager` that calls can reach from the constructor
(a call that throws included, with the state it leaves). -/
inductive EntityManager.Reachable : EntityManager → Prop
  | new : Reachable EntityManager.new
  | create (m : EntityManager) : Reachable m → Reachable m.CreateEntity.2
  | destroy (m : EntityManager) (e : Nat) : Reachable m → Reachable (m.DestroyEntity e).2
  | setSignature (m : EntityManager) (e sig : Nat) :
      Reachable m → Reachable (m.SetSignature e sig).2

/-- The number of alive ids. -/
def EntityManager.aliveCount (m : EntityManager) : Nat :=
  (List.range MAX_ENTITIES).countP (fun e => m.mAlive e)

/-- The dense-packing invariant of a `ComponentArray`, against what each entity holds
(`held`): the packed part has at most `MAX_ENTITIES` slots; for every slot
`i < mSize` the entity stored there is in range and maps back to `i`; every entity
with a valid index has it below `mSize`, at a slot that stores the entity; and
`GetData(e)` is what `e` holds (an assertion failure when it holds nothing). -/
structure DensePacked {T : Type} (c : ComponentArray T) (held : Nat → Option T) : Prop where
  size_le : c.mSize ≤ MAX_ENTITIES
  toEntity : ∀ i, i < c.mSize →
    c.mIndexToEntity i < MAX_ENTITIES ∧ c.mEntityToIndex (c.mIndexToEntity i) = i
  toIndex : ∀ e, e < MAX_ENTITIES → c.mEntityToIndex e ≠ INVALID_INDEX →
    c.mEntityToIndex e < c.mSize ∧ c.mIndexToEntity (c.mEntityToIndex e) = e
  data : ∀ e, e < MAX_ENTITIES → c.GetData e = held e

/-- The invariant of an `EntityManager`: the queue of available ids holds each id
at most once, an id is in the queue exactly when it is in range and not alive,
and the count is the number of alive ids. -/
structure EntityInv (m : EntityManager) : Prop where
  nodup : m.mAvailableEntities.Nodup
  mem : ∀ e, e ∈ m.mAvailableEntities ↔ (e < MAX_ENTITIES ∧ m.mAlive e = false)
  count : m.mLivingEntityCount = m.aliveCount

/-! ## Concrete instances used to run the model -/

/-- Exact rational arithmetic as an instance of `FloatOps`: every finite
single-precision value is a rational of magnitude below `2^128`, which stands in
for infinity. -/
def exactOps : FloatOps ℚ where
  posInf := 340282366920938463463374607431768211456
  negInf := -340282366920938463463374607431768211456
  add := fun a b => a + b
  sub := fun a b => a - b
  mul := fun a b => a * b
  div := fun a b => a / b
  abs := fun a => if a < 0 then -a else a
  floor := fun a => ((Rat.floor a : Int) : ℚ)
  ofInt := fun n => (n : ℚ)
  toInt := fun a => Int.tdiv a.num a.den
  lit := fun q => q

/-- An `NthElement` that sorts the whole range (insertion sort by the comparator),
which places the nth element as `std::nth_element` requires. -/
def sortingNth : NthElement where
  run := fun less xs _ => xs.insertionSort (fun a b => less b a = false)
  perm := fun _ xs _ => List.perm_insertionSort _ xs

/-- The bounds record of the triangle `(0,0,0), (1,0,0), (0,1,0)`. -/
def unitTriBounds : TriBounds ℚ :=
  { bounds := { mn := ⟨0, 0, 0⟩, mx := ⟨1, 1, 0⟩ }, centroid := ⟨1 / 3, 1 / 3, 0⟩ }

/-- Nine copies of `unitTriBounds`: one more than a leaf holds, so the build splits
once. -/
def nineTriBounds : List (TriBounds ℚ) := List.replicate 9 unitTriBounds

/-- A timer as `GpuPassTimer::init` leaves it when the driver hands out the query
names `q .. q + 7`. -/
def demoTimer (q : Nat) : GpuPassTimer ℚ :=
  { qBegin := [q, q + 1, q + 2, q + 3], qEnd := [q + 4, q + 5, q + 6, q + 7],
    lastMs := 0, valid := true, warned := false }

/-- A GL context with no texture yet, whose next ten allocations succeed. -/
def demoGL : GLContext ℚ :=
  { defined := [], allocScript := [11, 12, 13, 14, 15, 16, 17, 18, 19, 20], log := [],
    isQuery := fun _ => true, queryAvailable := fun _ => false, queryResult := fun _ => 0,
    nextBuffer := 1, bufNodes := [], bufTriIndices := [], bufTris := [], bufMats := [] }

/-- The host state after `Initialize()` (the member initialisers of `State`, with
`inited` set), the tracer enabled by the host, and the fields `paused`, `stepOnce`
and `resetAccumulation` as given. -/
def demoState (paused stepOnce reset : Bool) : State ℚ :=
  { inited := true, paused := paused, stepOnce := stepOnce,
    settings :=
      { enabled := true, resetAccumulation := reset, sppPerFrame := 1, renderScale := 1,
        exposureEV := 0, denoiser := Denoiser.AtrousGL, view := DebugView.Denoised },
    stats :=
      { internalW := 0, internalH := 0, sppAccumulated := 0, msPathTrace := 0,
        msAccumulate := 0, msDenoise := 0, msTonemap := 0, usingMeshScene := false,
        triCount := 0, nodeCount := 0, materialCount := 0 },
    viewportW := 0, viewportH := 0, internalW := 0, internalH := 0,
    maxCombinedTextureUnits := 0, maxBaseColorSamplers := 16, baseColorSamplers := [],
    sppAccum := 0, frameIndex := 0, forceTestPattern := false, debugGLFrames := 0,
    texSampleHDR := 0, texAccumHDR := 0, texCount := 0, texAlbedo := 0, texNormal := 0,
    texDepth := 0, texRoughMetal := 0, texDenoiseA := 0, texDenoiseB := 0, texOutputLDR := 0,
    ssboNodes := 0, ssboTriIndices := 0, ssboTris := 0, ssboMats := 0,
    hasScene := false, sceneTriCount := 0, sceneNodeCount := 0, sceneMatCount := 0,
    camOverride := false, camPos := ⟨0, 0, 0⟩, camDir := ⟨0, 0, 0⟩, camRight := ⟨0, 0, 0⟩,
    camUp := ⟨0, 0, 0⟩, camTanHalfFovY := 1,
    tTrace := demoTimer 1, tAcc := demoTimer 9, tDenoise := demoTimer 17,
    tTonemap := demoTimer 25 }

/-- The state `demoState` on the context `demoGL`. -/
def demoSys (paused stepOnce reset : Bool) : Sys ℚ :=
  { g := demoState paused stepOnce reset, gl := demoGL }

/-- The triangle `(0,0,0), (1,0,0), (0,1,0)` with normal `+z`. -/
def unitTri : TriInput ℚ :=
  { v0 := ⟨0, 0, 0⟩, v1 := ⟨1, 0, 0⟩, v2 := ⟨0, 1, 0⟩,
    n0 := ⟨0, 0, 1⟩, n1 := ⟨0, 0, 1⟩, n2 := ⟨0, 0, 1⟩,
    uv0 := (0, 0), uv1 := (0, 0), uv2 := (0, 0), material := 0 }

/-- A flat white opaque material without texture. -/
def whiteMaterial : MaterialInput ℚ :=
  { baseColor := (1, 1, 1, 1), emissive := ⟨0, 0, 0⟩, roughness := 1 / 2, metallic := 0,
    baseColorTexGL := 0 }

/-- The tracer `demoSys` after the one-triangle scene has been uploaded. -/
def uploadedSys : Sys ℚ :=
  UploadScene exactOps sortingNth (demoSys false false false) (some [unitTri])
    (some [whiteMaterial])

/-- The tracer `demoSys`, not paused, with `settings.enabled` off (the default of
`pt::Settings`). -/
def disabledSys : Sys ℚ :=
  { g := { demoState false false false with
      settings := { (demoState false false false).settings with enabled := false } },
    gl := demoGL }

/-- The tracer `demoSys false false false` with render scale `q`, on a context whose
coming texture allocations answer `script`. -/
def scaledSys (q : ℚ) (script : List Nat) : Sys ℚ :=
  { g := { demoState false false false with
      settings := { (demoState false false false).settings with renderScale := q } },
    gl := { demoGL with allocScript := script } }

/-- Twenty texture names, enough for two full allocations of the ten images. -/
def twentyNames : List Nat :=
  [11, 12, 13, 14, 15, 16, 17, 18, 19, 20, 21, 22, 23, 24, 25, 26, 27, 28, 29, 30]

/-- The white material with the base-colour texture `h`. -/
def texturedMaterial (h : Nat) : MaterialInput ℚ :=
  { whiteMaterial with baseColorTexGL := h }

/-- The tracer `scaledSys q script` after a first `EnsureResources(4, 4)`. -/
def readySys (q : ℚ) (script : List Nat) : Sys ℚ :=
  (EnsureResources exactOps (scaledSys q script) 4 4).2

/-- The tracer `disabledSys` after the pause checkbox has been clicked twice (paused,
then un-paused). -/
def unpausedDisabledSys : Sys ℚ :=
  { disabledSys with g := clickPause (clickPause disabledSys.g) }

/-- The tracer before `Initialize()`: `demoSys false false false` with `inited`
off. -/
def freshSys : Sys ℚ :=
  { g := { demoState false false false with inited := false }, gl := demoGL }

/-- The tracer `freshSys` after `Initialize()` on a driver that reports `units`
compute texture units and hands out the query names `4k + 1 .. 4k + 4` at the
`k`-th request. -/
def initSys (units : Int) : Sys ℚ :=
  (Initialize freshSys true units (fun k => [4 * k + 1, 4 * k + 2, 4 * k + 3, 4 * k + 4])).2

/-- Six materials whose base-colour textures are `5, 0, 7, 5, 9, 7`. -/
def sixMaterials : List (MaterialInput ℚ) :=
  [texturedMaterial 5, texturedMaterial 0, texturedMaterial 7, texturedMaterial 5,
   texturedMaterial 9, texturedMaterial 7]

/-- The state `demoState false false false` after a first
`SetCameraBasis((0,0,5), dir, (1,0,0), (0,1,0), 1)`. -/
def basisState (dir : Vec3 ℚ) : State ℚ :=
  SetCameraBasis exactOps (demoState false false false) ⟨0, 0, 5⟩ dir ⟨1, 0, 0⟩ ⟨0, 1, 0⟩ 1

/-- A sequence of calls on a `ComponentArray<Nat>`: entities 3 and 5 receive
components 7 and 9, then the component of entity 3 is removed. -/
def componentCalls : List (ComponentCall Nat) := [.insert 3 7, .insert 5 9, .remove 3]

/-- The array after `componentCalls`. -/
def componentArrayAfter : ComponentArray Nat :=
  (ComponentArray.run 0 componentCalls).getD (ComponentArray.new 0)

/-- An `EntityManager` after two `CreateEntity` calls and `DestroyEntity(0)`. -/
def entityManagerAfter : EntityManager :=
  (EntityManager.new.CreateEntity.2.CreateEntity.2.DestroyEntity 0).2

/-- The triangle `(0,k,0), (1,k,0), (0,k+1,0)` with normal `+z`. -/
def yTri (k : ℚ) : TriInput ℚ :=
  { v0 := ⟨0, k, 0⟩, v1 := ⟨1, k, 0⟩, v2 := ⟨0, k + 1, 0⟩,
    n0 := ⟨0, 0, 1⟩, n1 := ⟨0, 0, 1⟩, n2 := ⟨0, 0, 1⟩,
    uv0 := (0, 0), uv1 := (0, 0), uv2 := (0, 0), material := 0 }

/-- Nine different triangles, stacked along `y` in the order
`8, 3, 0, 5, 1, 7, 2, 6, 4`: one more than a leaf holds, so the build splits once,
and the centroids spread along `y` only. -/
def nineTris : List (TriInput ℚ) :=
  [yTri 8, yTri 3, yTri 0, yTri 5, yTri 1, yTri 7, yTri 2, yTri 6, yTri 4]

/-- The builder context `UploadSceneInternal` starts `buildNode(0, 9)` from for
`nineTris`. -/
def nineTrisContext : BuildContext ℚ :=
  { triIndices := List.range 9, triInfo := nineTris.map (triBoundsOf exactOps), nodes := [] }

/-- The bounds record of a triangle whose `x` coordinates are near `3e38`, so that
the sum `v0.x + v1.x + v2.x` of its centroid overflowed to `+inf`: the centroid is
`(+inf, k + 1/3, 0)`. -/
def overflowedBounds (k : ℚ) : TriBounds ℚ :=
  { bounds := { mn := ⟨300000000000000000000000000000000000000, k, 0⟩,
                mx := ⟨300000000000000000000000000000000000001, k + 1, 0⟩ },
    centroid := ⟨exactOps.posInf, k + 1 / 3, 0⟩ }

/-- A builder context over nine such records, stacked along `y`. -/
def overflowedContext : BuildContext ℚ :=
  { triIndices := List.range 9,
    triInfo := [overflowedBounds 0, overflowedBounds 1, overflowedBounds 2, overflowedBounds 3,
      overflowedBounds 4, overflowedBounds 5, overflowedBounds 6, overflowedBounds 7,
      overflowedBounds 8],
    nodes := [] }

/-- The state `basisState dir` once a frame has consumed the pending reset: the reset
flag is off, the basis is still stored. -/
def settledBasisState (dir : Vec3 ℚ) : State ℚ :=
  { basisState dir with
    settings := { (basisState dir).settings with resetAccumulation := false } }

/-! ## Proofs: acceleration structure builder -/

section BuilderProofs

set_option linter.unusedSectionVars false

variable {F : Type} [LinearOrder F]

theorem fmin_le_left (a b : F) : fmin a b ≤ a := by
  unfold fmin; split_ifs with h
  · exact le_of_lt h
  · exact le_refl a

theorem fmin_le_right (a b : F) : fmin a b ≤ b := by
  unfold fmin; split_ifs with h
  · exact le_refl b
  · exact not_lt.mp h

theorem le_fmax_left (a b : F) : a ≤ fmax a b := by
  unfold fmax; split_ifs with h
  · exact le_of_lt h
  · exact le_refl a

theorem le_fmax_right (a b : F) : b ≤ fmax a b := by
  unfold fmax; split_ifs with h
  · exact le_refl b
  · exact not_lt.mp h

theorem contains_grow_right (b o : AABB F) : (aabbGrow b o).contains o :=
  ⟨fmin_le_right _ _, fmin_le_right _ _, fmin_le_right _ _,
   le_fmax_right _ _, le_fmax_right _ _, le_fmax_right _ _⟩

theorem contains_grow_left (b o t : AABB F) (h : b.contains t) : (aabbGrow b o).contains t := by
  obtain ⟨h1, h2, h3, h4, h5, h6⟩ := h
  exact ⟨le_trans (fmin_le_left _ _) h1, le_trans (fmin_le_left _ _) h2,
    le_trans (fmin_le_left _ _) h3, le_trans h4 (le_fmax_left _ _),
    le_trans h5 (le_fmax_left _ _), le_trans h6 (le_fmax_left _ _)⟩

theorem growStep_keeps (ctx : BuildContext F) (first : Nat) (b t : AABB F) (i : Nat)
    (h : b.contains t) : (growStep ctx first b i).contains t := by
  unfold growStep
  cases triAt ctx (first + i) with
  | none => exact h
  | some tb => exact contains_grow_left _ _ _ h

theorem foldl_growStep_keeps (ctx : BuildContext F) (first : Nat) (t : AABB F) (l : List Nat) :
    ∀ b : AABB F, b.contains t → (l.foldl (growStep ctx first) b).contains t := by
  induction l with
  | nil => intro b h; exact h
  | cons i l ih => intro b h; exact ih _ (growStep_keeps ctx first b t i h)

theorem foldl_growStep_mem (ctx : BuildContext F) (first : Nat) (l : List Nat) (i : Nat)
    (tb : TriBounds F) (hi : i ∈ l) (ht : triAt ctx (first + i) = some tb) :
    ∀ b : AABB F, (l.foldl (growStep ctx first) b).contains tb.bounds := by
  induction l with
  | nil => cases hi
  | cons j l ih =>
    intro b
    rcases List.mem_cons.mp hi with rfl | hmem
    · refine foldl_growStep_keeps ctx first _ l _ ?_
      unfold growStep
      rw [ht]
      exact contains_grow_right _ _
    · exact ih hmem _

theorem boundsForRange_contains (ops : FloatOps F) (ctx : BuildContext F) (first count i : Nat)
    (tb : TriBounds F) (hi : i < count) (ht : triAt ctx (first + i) = some tb) :
    (boundsForRange ops ctx first count).contains tb.bounds :=
  foldl_growStep_mem ctx first (List.range count) i tb (List.mem_range.mpr hi) ht _

theorem segment_length (idx : List Nat) (f c : Nat) (h : f + c ≤ idx.length) :
    (segment idx f c).length = c := by
  unfold segment
  rw [List.length_take, List.length_drop]
  omega

theorem segment_add (idx : List Nat) (f a b : Nat) :
    segment idx f (a + b) = segment idx f a ++ segment idx (f + a) b := by
  unfold segment
  rw [List.take_add, List.drop_drop]

theorem take_eq_of_le {a b : List Nat} {m n : Nat} (hmn : m ≤ n)
    (h : a.take n = b.take n) : a.take m = b.take m := by
  have h1 := congrArg (List.take m) h
  rwa [List.take_take, List.take_take, Nat.min_eq_left hmn] at h1

theorem drop_eq_of_le {a b : List Nat} {m n : Nat} (hmn : m ≤ n)
    (h : a.drop m = b.drop m) : a.drop n = b.drop n := by
  have h1 := congrArg (List.drop (n - m)) h
  rw [List.drop_drop, List.drop_drop] at h1
  have e : m + (n - m) = n := by omega
  rwa [e] at h1

theorem segment_eq_of_take_eq {a b : List Nat} {f c : Nat}
    (h : a.take (f + c) = b.take (f + c)) : segment a f c = segment b f c := by
  unfold segment
  rw [List.take_drop, List.take_drop, h]

theorem segment_eq_of_drop_eq {a b : List Nat} {f c : Nat}
    (h : a.drop f = b.drop f) : segment a f c = segment b f c := by
  unfold segment
  rw [h]

theorem mem_segment_iff (idx : List Nat) (f c t : Nat) :
    t ∈ segment idx f c ↔ ∃ p, f ≤ p ∧ p < f + c ∧ idx[p]? = some t := by
  unfold segment
  constructor
  · intro h
    obtain ⟨n, hn⟩ := List.mem_iff_getElem?.mp h
    rw [List.getElem?_take] at hn
    split_ifs at hn with hlt
    · rw [List.getElem?_drop] at hn
      exact ⟨f + n, by omega, by omega, hn⟩
  · rintro ⟨p, h1, h2, h3⟩
    apply List.mem_iff_getElem?.mpr
    refine ⟨p - f, ?_⟩
    rw [List.getElem?_take, if_pos (by omega), List.getElem?_drop]
    have e : f + (p - f) = p := by omega
    rw [e]; exact h3

theorem splice_length (idx seg : List Nat) (f c : Nat) (h : f + c ≤ idx.length)
    (hs : seg.length = c) : (idx.take f ++ seg ++ idx.drop (f + c)).length = idx.length := by
  simp only [List.length_append, List.length_take, List.length_drop, hs]
  omega

theorem splice_take (idx seg : List Nat) (f c : Nat) (h : f + c ≤ idx.length) :
    (idx.take f ++ seg ++ idx.drop (f + c)).take f = idx.take f := by
  rw [List.append_assoc]
  exact List.take_left' (by rw [List.length_take]; omega)

theorem splice_drop (idx seg : List Nat) (f c : Nat) (h : f + c ≤ idx.length)
    (hs : seg.length = c) :
    (idx.take f ++ seg ++ idx.drop (f + c)).drop (f + c) = idx.drop (f + c) := by
  exact List.drop_left' (by rw [List.length_append, List.length_take, hs]; omega)

theorem splice_segment (idx seg : List Nat) (f c : Nat) (h : f + c ≤ idx.length)
    (hs : seg.length = c) :
    segment (idx.take f ++ seg ++ idx.drop (f + c)) f c = seg := by
  unfold segment
  rw [List.append_assoc, List.drop_left' (by rw [List.length_take]; omega)]
  exact List.take_left' hs

theorem setMeta_length (nodes : List (NodeGPU F)) (i l r f c : Nat) :
    (setMeta nodes i l r f c).length = nodes.length := by
  unfold setMeta; exact List.length_modify _ _ _

theorem getElem?_setMeta_ne (nodes : List (NodeGPU F)) (i l r f c k : Nat) (h : i ≠ k) :
    (setMeta nodes i l r f c)[k]? = nodes[k]? := by
  unfold setMeta
  rw [List.getElem?_modify]
  cases nodes[k]? with
  | none => rfl
  | some n => simp [h]

theorem getElem?_setMeta_eq (nodes : List (NodeGPU F)) (i l r f c : Nat) (n : NodeGPU F)
    (h : nodes[i]? = some n) :
    (setMeta nodes i l r f c)[i]? = some ⟨n.bmin, n.bmax, l, r, f, c⟩ := by
  unfold setMeta
  rw [List.getElem?_modify, h]
  simp

theorem setMeta_append_cons (pre rest : List (NodeGPU F)) (n : NodeGPU F) (l r f c : Nat) :
    setMeta (pre ++ n :: rest) pre.length l r f c
      = pre ++ ⟨n.bmin, n.bmax, l, r, f, c⟩ :: rest := by
  unfold setMeta
  induction pre with
  | nil => rfl
  | cons a pre ih => simpa using ih

theorem covers_of_segment_perm (n : NodeGPU F) (idx idx' : List Nat) (info : List (TriBounds F))
    (f c : Nat) (hp : (segment idx' f c).Perm (segment idx f c)) (h : Covers n idx info f c) :
    Covers n idx' info f c := by
  intro t ht
  exact h t (hp.mem_iff.mp ht)

theorem covers_of_box_eq (n n' : NodeGPU F) (idx : List Nat) (info : List (TriBounds F))
    (f c : Nat) (hb : n'.box = n.box) (h : Covers n idx info f c) : Covers n' idx info f c := by
  intro t ht
  obtain ⟨tb, h1, h2⟩ := h t ht
  exact ⟨tb, h1, by rw [hb]; exact h2⟩

theorem covers_boundsForRange (ops : FloatOps F) (ctx : BuildContext F) (first count : Nat)
    (l r f c : Nat)
    (hv : ∀ t ∈ segment ctx.triIndices first count, t < ctx.triInfo.length) :
    Covers ⟨(boundsForRange ops ctx first count).mn, (boundsForRange ops ctx first count).mx,
      l, r, f, c⟩ ctx.triIndices ctx.triInfo first count := by
  intro t ht
  have hlt := hv t ht
  obtain ⟨p, hp1, hp2, hp3⟩ := (mem_segment_iff _ _ _ _).mp ht
  refine ⟨ctx.triInfo[t], List.getElem?_eq_getElem hlt, ?_⟩
  have hta : triAt ctx (first + (p - first)) = some ctx.triInfo[t] := by
    have e : first + (p - first) = p := by omega
    unfold triAt
    rw [e, hp3]
    exact List.getElem?_eq_getElem hlt
  exact boundsForRange_contains ops ctx first count (p - first) _ (by omega) hta

theorem Subtree.frame {nodes nodes' : List (NodeGPU F)} {idx idx' : List Nat}
    {info : List (TriBounds F)} {i f c s : Nat} (h : Subtree nodes idx info i f c s)
    (hn : ∀ k, i ≤ k → k < i + s → nodes'[k]? = nodes[k]?)
    (hi : idx'.take (f + c) = idx.take (f + c)) : Subtree nodes' idx' info i f c s := by
  induction h with
  | leaf i f c n h1 h2 h3 h4 h5 h6 =>
    refine Subtree.leaf i f c n ?_ h2 h3 h4 h5 ?_
    · rw [hn i (le_refl _) (by omega)]; exact h1
    · exact covers_of_segment_perm n idx idx' info f c
        (by rw [segment_eq_of_take_eq hi]) h6
  | node i f cl cr sl sr n h1 h2 h3 h4 h5 h6 h7 h8 _ _ ihl ihr =>
    refine Subtree.node i f cl cr sl sr n ?_ h2 h3 h4 h5 h6 h7 ?_ ?_ ?_
    · rw [hn i (le_refl _) (by omega)]; exact h1
    · exact covers_of_segment_perm n idx idx' info f (cl + cr)
        (by rw [segment_eq_of_take_eq hi]) h8
    · exact ihl (fun k hk1 hk2 => hn k (by omega) (by omega))
        (take_eq_of_le (by omega) hi)
    · exact ihr (fun k hk1 hk2 => hn k (by omega) (by omega))
        (by rw [Nat.add_assoc]; exact hi)

theorem buildNode_leaf (ops : FloatOps F) (sel : NthElement) (ctx : BuildContext F)
    (first count : Nat) (h : count ≤ kLeafMax) :
    buildNode ops sel ctx first count =
      (⟨ctx.triIndices, ctx.triInfo,
        setMeta (ctx.nodes ++ [⟨(boundsForRange ops ctx first count).mn,
          (boundsForRange ops ctx first count).mx, 0, 0, 0, 0⟩]) ctx.nodes.length 0 0 first count⟩,
       ctx.nodes.length) := by
  rw [buildNode]
  simp only [h, if_true]

theorem buildNode_node (ops : FloatOps F) (sel : NthElement) (ctx : BuildContext F)
    (first count : Nat) (h : kLeafMax < count) :
    ∃ less : Nat → Nat → Bool, ∀ l r : BuildContext F × Nat,
      l = buildNode ops sel
        ⟨nthElementRange sel less ctx.triIndices first (first + count / 2) count, ctx.triInfo,
          ctx.nodes ++ [⟨(boundsForRange ops ctx first count).mn,
            (boundsForRange ops ctx first count).mx, 0, 0, 0, 0⟩]⟩ first (count / 2) →
      r = buildNode ops sel l.1 (first + count / 2) (count - count / 2) →
      buildNode ops sel ctx first count =
        (⟨r.1.triIndices, r.1.triInfo, setMeta r.1.nodes ctx.nodes.length l.2 r.2 0 0⟩,
         ctx.nodes.length) := by
  refine ⟨centroidLess ctx.triInfo
    (chooseAxis
      (aabbExtent ops (centroidBoundsForRange ops
        ⟨ctx.triIndices, ctx.triInfo, ctx.nodes ++ [⟨(boundsForRange ops ctx first count).mn,
          (boundsForRange ops ctx first count).mx, 0, 0, 0, 0⟩]⟩ first count) 0)
      (aabbExtent ops (centroidBoundsForRange ops
        ⟨ctx.triIndices, ctx.triInfo, ctx.nodes ++ [⟨(boundsForRange ops ctx first count).mn,
          (boundsForRange ops ctx first count).mx, 0, 0, 0, 0⟩]⟩ first count) 1)
      (aabbExtent ops (centroidBoundsForRange ops
        ⟨ctx.triIndices, ctx.triInfo, ctx.nodes ++ [⟨(boundsForRange ops ctx first count).mn,
          (boundsForRange ops ctx first count).mx, 0, 0, 0, 0⟩]⟩ first count) 2)), ?_⟩
  intro l r hl hr
  rw [buildNode]
  have hn : ¬ count ≤ kLeafMax := by omega
  have e1 : first + count / 2 - first = count / 2 := by omega
  have e2 : first + count - (first + count / 2) = count - count / 2 := by omega
  simp only [hn, if_false, e1, e2]
  rw [← hl, ← hr]

theorem nthElementRange_spec (sel : NthElement) (less : Nat → Nat → Bool) (idx : List Nat)
    (first mid count : Nat) (h : first + count ≤ idx.length) :
    (nthElementRange sel less idx first mid count).length = idx.length ∧
    (nthElementRange sel less idx first mid count).take first = idx.take first ∧
    (nthElementRange sel less idx first mid count).drop (first + count)
      = idx.drop (first + count) ∧
    (segment (nthElementRange sel less idx first mid count) first count).Perm
      (segment idx first count) := by
  have hp := sel.perm less (segment idx first count) (mid - first)
  have hs : (sel.run less (segment idx first count) (mid - first)).length = count := by
    rw [hp.length_eq]; exact segment_length idx first count h
  unfold nthElementRange
  refine ⟨splice_length idx _ first count h hs, splice_take idx _ first count h,
    splice_drop idx _ first count h hs, ?_⟩
  rw [splice_segment idx _ first count h hs]
  exact hp

theorem buildNode_spec (ops : FloatOps F) (sel : NthElement) :
    ∀ (count : Nat) (ctx : BuildContext F) (first : Nat), 0 < count →
      first + count ≤ ctx.triIndices.length →
      (∀ t ∈ segment ctx.triIndices first count, t < ctx.triInfo.length) →
      BuildSpec ctx (buildNode ops sel ctx first count).1 first count
        (buildNode ops sel ctx first count).2 := by
  intro count
  induction count using Nat.strong_induction_on with
  | _ count ih =>
    intro ctx first hpos hlen hv
    by_cases hleaf : count ≤ kLeafMax
    · rw [buildNode_leaf ops sel ctx first count hleaf]
      have hget : (ctx.nodes ++ [(⟨(boundsForRange ops ctx first count).mn,
          (boundsForRange ops ctx first count).mx, 0, 0, 0, 0⟩ : NodeGPU F)])[ctx.nodes.length]?
          = some ⟨(boundsForRange ops ctx first count).mn,
              (boundsForRange ops ctx first count).mx, 0, 0, 0, 0⟩ := by
        rw [List.getElem?_append_right (le_refl _)]; simp
      refine ⟨rfl, rfl, rfl, rfl, rfl, List.Perm.refl _, ?_⟩
      refine ⟨[⟨(boundsForRange ops ctx first count).mn,
          (boundsForRange ops ctx first count).mx, 0, 0, first, count⟩], ?_, ?_⟩
      · exact setMeta_append_cons ctx.nodes [] _ 0 0 first count
      · refine Subtree.leaf _ first count _ (getElem?_setMeta_eq _ _ _ _ _ _ _ hget) rfl rfl
          hpos hleaf ?_
        exact covers_boundsForRange ops ctx first count 0 0 first count hv
    · have hgt : kLeafMax < count := by omega
      have h8 : 8 < count := hgt
      obtain ⟨less, hnode⟩ := buildNode_node ops sel ctx first count hgt
      have hsel := nthElementRange_spec sel less ctx.triIndices first (first + count / 2) count hlen
      obtain ⟨s_len, s_take, s_drop, s_perm⟩ := hsel
      have hcnt : count / 2 + (count - count / 2) = count := by omega
      -- the context handed to the left child
      generalize hctx2 : (⟨nthElementRange sel less ctx.triIndices first (first + count / 2) count,
          ctx.triInfo, ctx.nodes ++ [⟨(boundsForRange ops ctx first count).mn,
            (boundsForRange ops ctx first count).mx, 0, 0, 0, 0⟩]⟩ : BuildContext F) = ctx2
        at hnode
      have c2_idx : ctx2.triIndices
          = nthElementRange sel less ctx.triIndices first (first + count / 2) count := by
        rw [← hctx2]
      have c2_info : ctx2.triInfo = ctx.triInfo := by rw [← hctx2]
      have c2_nodes : ctx2.nodes = ctx.nodes ++ [⟨(boundsForRange ops ctx first count).mn,
            (boundsForRange ops ctx first count).mx, 0, 0, 0, 0⟩] := by rw [← hctx2]
      rw [← c2_idx] at s_len s_take s_drop s_perm
      have hv2 : ∀ t ∈ segment ctx2.triIndices first count, t < ctx2.triInfo.length := by
        intro t ht
        rw [c2_info]
        exact hv t (s_perm.mem_iff.mp ht)
      have hsplit : segment ctx2.triIndices first count
          = segment ctx2.triIndices first (count / 2)
            ++ segment ctx2.triIndices (first + count / 2) (count - count / 2) := by
        rw [← segment_add, hcnt]
      -- left child
      have hL := ih (count / 2) (by omega) ctx2 first (by omega) (by omega)
        (fun t ht => hv2 t (by rw [hsplit]; exact List.mem_append_left _ ht))
      generalize hl : buildNode ops sel ctx2 first (count / 2) = l at hL hnode
      have hLseg : segment l.1.triIndices (first + count / 2) (count - count / 2)
          = segment ctx2.triIndices (first + count / 2) (count - count / 2) :=
        segment_eq_of_drop_eq hL.drop_eq
      -- right child
      have hR := ih (count - count / 2) (by omega) l.1 (first + count / 2) (by omega)
        (by rw [hL.length_eq]; omega)
        (fun t ht => by
          rw [hL.info_eq]
          rw [hLseg] at ht
          exact hv2 t (by rw [hsplit]; exact List.mem_append_right _ ht))
      generalize hr : buildNode ops sel l.1 (first + count / 2) (count - count / 2) = r
        at hR
      rw [hnode l r rfl hr.symm]
      obtain ⟨nsL, hnsL, hsubL⟩ := hL.nodes
      obtain ⟨nsR, hnsR, hsubR⟩ := hR.nodes
      have hRi : (first + count / 2) + (count - count / 2) = first + count := by omega
      have r_drop := hR.drop_eq
      rw [hRi] at r_drop
      have l_drop' : l.1.triIndices.drop (first + count) = ctx2.triIndices.drop (first + count) :=
        drop_eq_of_le (by omega) hL.drop_eq
      have r_take' : r.1.triIndices.take first = l.1.triIndices.take first :=
        take_eq_of_le (by omega) hR.take_eq
      have r_segL : segment r.1.triIndices first (count / 2)
          = segment l.1.triIndices first (count / 2) := segment_eq_of_take_eq hR.take_eq
      have hperm : (segment r.1.triIndices first count).Perm (segment ctx.triIndices first count) := by
        have e : segment r.1.triIndices first count
            = segment r.1.triIndices first (count / 2)
              ++ segment r.1.triIndices (first + count / 2) (count - count / 2) := by
          rw [← segment_add, hcnt]
        rw [e, r_segL]
        refine List.Perm.trans ?_ s_perm
        rw [hsplit]
        exact List.Perm.append hL.perm (by rw [← hLseg]; exact hR.perm)
      have hlenL : l.1.nodes.length = ctx.nodes.length + 1 + nsL.length := by
        rw [hnsL, c2_nodes]
        simp only [List.length_append, List.length_cons, List.length_nil]
      have hroot : r.1.nodes[ctx.nodes.length]? = some ⟨(boundsForRange ops ctx first count).mn,
            (boundsForRange ops ctx first count).mx, 0, 0, 0, 0⟩ := by
        rw [hnsR, hnsL, c2_nodes, List.append_assoc, List.append_assoc,
          List.getElem?_append_right (le_refl _)]
        simp
      refine ⟨rfl, ?_, ?_, ?_, ?_, hperm, ?_⟩
      · show r.1.triInfo = ctx.triInfo
        rw [hR.info_eq, hL.info_eq, c2_info]
      · show r.1.triIndices.length = ctx.triIndices.length
        rw [hR.length_eq, hL.length_eq, s_len]
      · show r.1.triIndices.take first = ctx.triIndices.take first
        rw [r_take', hL.take_eq, s_take]
      · show r.1.triIndices.drop (first + count) = ctx.triIndices.drop (first + count)
        rw [r_drop, l_drop', s_drop]
      · refine ⟨[⟨(boundsForRange ops ctx first count).mn,
            (boundsForRange ops ctx first count).mx, l.2, r.2, 0, 0⟩] ++ nsL ++ nsR, ?_, ?_⟩
        · show setMeta r.1.nodes ctx.nodes.length l.2 r.2 0 0 = _
          rw [hnsR, hnsL, c2_nodes]
          simp only [List.append_assoc, List.singleton_append]
          exact setMeta_append_cons ctx.nodes (nsL ++ nsR) _ l.2 r.2 0 0
        · show Subtree (setMeta r.1.nodes ctx.nodes.length l.2 r.2 0 0) r.1.triIndices
            ctx.triInfo ctx.nodes.length first count _
          have hsz : ([(⟨(boundsForRange ops ctx first count).mn,
              (boundsForRange ops ctx first count).mx, l.2, r.2, 0, 0⟩ : NodeGPU F)]
                ++ nsL ++ nsR).length = 1 + nsL.length + nsR.length := by
            simp only [List.length_append, List.length_cons, List.length_nil, zero_add]
          rw [hsz]
          have hl2 : l.2 = ctx.nodes.length + 1 := by rw [hL.root_eq, c2_nodes]; simp
          have hr2 : r.2 = ctx.nodes.length + 1 + nsL.length := by rw [hR.root_eq, hlenL]
          have hgoal := @Subtree.node F _ (setMeta r.1.nodes ctx.nodes.length l.2 r.2 0 0)
            r.1.triIndices ctx.triInfo ctx.nodes.length first (count / 2)
            (count - count / 2) nsL.length nsR.length
            ⟨(boundsForRange ops ctx first count).mn, (boundsForRange ops ctx first count).mx,
              l.2, r.2, 0, 0⟩
            (getElem?_setMeta_eq _ _ _ _ _ _ _ hroot) rfl rfl hl2 hr2 (by omega) (by omega)
            (by
              rw [hcnt]
              exact covers_of_segment_perm _ ctx.triIndices _ _ _ _ hperm
                (covers_boundsForRange ops ctx first count l.2 r.2 0 0 hv))
            (by
              rw [c2_info, c2_nodes] at hsubL
              simp only [List.length_append, List.length_singleton] at hsubL
              refine hsubL.frame ?_ hR.take_eq
              intro k hk1 hk2
              rw [getElem?_setMeta_ne _ _ _ _ _ _ _ (by omega), hnsR,
                List.getElem?_append_left (by omega)])
            (by
              rw [hL.info_eq, c2_info, hlenL] at hsubR
              refine hsubR.frame ?_ rfl
              intro k hk1 hk2
              rw [getElem?_setMeta_ne _ _ _ _ _ _ _ (by omega)])
          rw [hcnt] at hgoal
          exact hgoal

theorem Subtree.size_le {nodes : List (NodeGPU F)} {idx : List Nat} {info : List (TriBounds F)}
    {i f c s : Nat} (h : Subtree nodes idx info i f c s) : s + 1 ≤ 2 * c := by
  induction h with
  | leaf i f c n h1 h2 h3 h4 h5 h6 => omega
  | node i f cl cr sl sr n h1 h2 h3 h4 h5 h6 h7 h8 _ _ ihl ihr => omega

theorem Subtree.size_pos {nodes : List (NodeGPU F)} {idx : List Nat} {info : List (TriBounds F)}
    {i f c s : Nat} (h : Subtree nodes idx info i f c s) : 0 < s := by
  cases h <;> omega

theorem Subtree.count_pos {nodes : List (NodeGPU F)} {idx : List Nat} {info : List (TriBounds F)}
    {i f c s : Nat} (h : Subtree nodes idx info i f c s) : 0 < c := by
  cases h with
  | leaf => assumption
  | node => simp only [kLeafMax] at *; omega

/-- A tree over at least four positions has at most `c / 2 - 1` nodes. -/
theorem Subtree.size_le_half {nodes : List (NodeGPU F)} {idx : List Nat}
    {info : List (TriBounds F)} {i f c s : Nat} (h : Subtree nodes idx info i f c s) :
    4 ≤ c → 2 * s + 2 ≤ c := by
  induction h with
  | leaf i f c n h1 h2 h3 h4 h5 h6 => intro h; omega
  | node i f cl cr sl sr n h1 h2 h3 h4 h5 h6 h7 h8 _ _ ihl ihr =>
    intro _
    simp only [kLeafMax] at h6
    have := ihl (by omega)
    have := ihr (by omega)
    omega

/-- The root of a `Subtree` is a node whose box covers the whole range; a leaf root
stores exactly the range. -/
theorem Subtree.root {nodes : List (NodeGPU F)} {idx : List Nat} {info : List (TriBounds F)}
    {i f c s : Nat} (h : Subtree nodes idx info i f c s) :
    ∃ n, nodes[i]? = some n ∧ Covers n idx info f c ∧
      (0 < n.count → n.first = f ∧ n.count = c) := by
  induction h with
  | leaf i f c n h1 h2 h3 h4 h5 h6 => exact ⟨n, h1, h6, fun _ => ⟨h3, h2⟩⟩
  | node i f cl cr sl sr n h1 h2 h3 h4 h5 h6 h7 h8 hl hr _ _ =>
    exact ⟨n, h1, h8, fun hpos => by omega⟩

/-- An internal node at the root of a `Subtree` has a `Subtree` at each child. -/
theorem Subtree.children {nodes : List (NodeGPU F)} {idx : List Nat} {info : List (TriBounds F)}
    {i f c s : Nat} (h : Subtree nodes idx info i f c s) (n : NodeGPU F)
    (hn : nodes[i]? = some n) (hc : n.count = 0) :
    ∃ cl cr sl sr, c = cl + cr ∧ s = 1 + sl + sr ∧ n.left = i + 1 ∧ n.right = i + 1 + sl ∧
      Subtree nodes idx info n.left f cl sl ∧ Subtree nodes idx info n.right (f + cl) cr sr := by
  induction h with
  | leaf i f c m h1 h2 h3 h4 h5 h6 =>
    rw [hn] at h1
    cases h1
    omega
  | node i f cl cr sl sr m h1 h2 h3 h4 h5 h6 h7 h8 hl hr _ _ =>
    rw [hn] at h1
    cases h1
    refine ⟨cl, cr, sl, sr, rfl, rfl, h4, h5, ?_, ?_⟩
    · rw [h4]; exact hl
    · rw [h5]; exact hr

/-- Every node in the block of a `Subtree` is itself the root of a `Subtree` over a
sub-range. -/
theorem Subtree.sub {nodes : List (NodeGPU F)} {idx : List Nat} {info : List (TriBounds F)}
    {i f c s : Nat} (h : Subtree nodes idx info i f c s) :
    ∀ j, i ≤ j → j < i + s →
      ∃ f' c' s', Subtree nodes idx info j f' c' s' ∧ f ≤ f' ∧ f' + c' ≤ f + c := by
  induction h with
  | leaf i f c n h1 h2 h3 h4 h5 h6 =>
    intro j hj1 hj2
    have : j = i := by omega
    subst this
    exact ⟨f, c, 1, Subtree.leaf j f c n h1 h2 h3 h4 h5 h6, le_refl _, le_refl _⟩
  | node i f cl cr sl sr n h1 h2 h3 h4 h5 h6 h7 h8 hl hr ihl ihr =>
    intro j hj1 hj2
    by_cases hj : j = i
    · subst hj
      exact ⟨f, cl + cr, 1 + sl + sr,
        Subtree.node j f cl cr sl sr n h1 h2 h3 h4 h5 h6 h7 h8 hl hr, le_refl _, le_refl _⟩
    · by_cases hjl : j < i + 1 + sl
      · obtain ⟨f', c', s', hs, ha, hb⟩ := ihl j (by omega) hjl
        exact ⟨f', c', s', hs, ha, by omega⟩
      · obtain ⟨f', c', s', hs, ha, hb⟩ := ihr j (by omega) (by omega)
        exact ⟨f', c', s', hs, by omega, by omega⟩

/-- The leaves in the block of a `Subtree` over `f .. f + c - 1` have their ranges
inside it, and every position of it is held by exactly one of them. -/
theorem Subtree.leaves {nodes : List (NodeGPU F)} {idx : List Nat} {info : List (TriBounds F)}
    {i f c s : Nat} (h : Subtree nodes idx info i f c s) :
    (∀ j n, i ≤ j → j < i + s → nodes[j]? = some n → 0 < n.count →
        f ≤ n.first ∧ n.first + n.count ≤ f + c) ∧
    (∀ p, f ≤ p → p < f + c →
        ∃ j n, i ≤ j ∧ j < i + s ∧ nodes[j]? = some n ∧ leafHolds n p ∧
          ∀ j' n', i ≤ j' → j' < i + s → nodes[j']? = some n' → leafHolds n' p → j' = j) := by
  induction h with
  | leaf i f c n h1 h2 h3 h4 h5 h6 =>
    constructor
    · intro j m hj1 hj2 hm _
      have : j = i := by omega
      subst this
      rw [h1] at hm
      cases hm
      omega
    · intro p hp1 hp2
      refine ⟨i, n, le_refl _, by omega, h1, ⟨by omega, by omega, by omega⟩, ?_⟩
      intro j' n' hj1 hj2 _ _
      omega
  | node i f cl cr sl sr n h1 h2 h3 h4 h5 h6 h7 h8 hl hr ihl ihr =>
    obtain ⟨ihl1, ihl2⟩ := ihl
    obtain ⟨ihr1, ihr2⟩ := ihr
    constructor
    · intro j m hj1 hj2 hm hpos
      by_cases hj : j = i
      · subst hj
        rw [h1] at hm
        cases hm
        omega
      · by_cases hjl : j < i + 1 + sl
        · have := ihl1 j m (by omega) hjl hm hpos
          omega
        · have := ihr1 j m (by omega) (by omega) hm hpos
          omega
    · intro p hp1 hp2
      by_cases hpl : p < f + cl
      · obtain ⟨j, m, hj1, hj2, hm, hh, huniq⟩ := ihl2 p hp1 hpl
        refine ⟨j, m, by omega, by omega, hm, hh, ?_⟩
        intro j' n' hj1' hj2' hn' hh'
        by_cases hj : j' = i
        · subst hj
          rw [h1] at hn'
          cases hn'
          have := hh'.1
          omega
        · by_cases hjl : j' < i + 1 + sl
          · exact huniq j' n' (by omega) hjl hn' hh'
          · have := ihr1 j' n' (by omega) (by omega) hn' hh'.1
            have := hh'.2.1
            have := hh'.2.2
            omega
      · obtain ⟨j, m, hj1, hj2, hm, hh, huniq⟩ := ihr2 p (by omega) (by omega)
        refine ⟨j, m, by omega, by omega, hm, hh, ?_⟩
        intro j' n' hj1' hj2' hn' hh'
        by_cases hj : j' = i
        · subst hj
          rw [h1] at hn'
          cases hn'
          have := hh'.1
          omega
        · by_cases hjl : j' < i + 1 + sl
          · have := ihl1 j' n' (by omega) hjl hn' hh'.1
            have := hh'.2.1
            have := hh'.2.2
            omega
          · exact huniq j' n' (by omega) (by omega) hn' hh'

/-- Following child entries from the root of a `Subtree` only reaches roots of
`Subtree`s over sub-ranges. -/
theorem Subtree.reach {nodes : List (NodeGPU F)} {idx : List Nat} {info : List (TriBounds F)}
    {i j : Nat} (hr : Reach nodes i j) :
    ∀ f c s, Subtree nodes idx info i f c s →
      ∃ f' c' s', Subtree nodes idx info j f' c' s' ∧ f ≤ f' ∧ f' + c' ≤ f + c := by
  induction hr with
  | refl i => intro f c s h; exact ⟨f, c, s, h, le_refl _, le_refl _⟩
  | step i k j n hn hc hk _ ih =>
    intro f c s h
    obtain ⟨cl, cr, sl, sr, e1, e2, _, _, hl, hr⟩ := h.children n hn hc
    subst e1
    rcases hk with hk | hk
    · rw [hk] at ih
      obtain ⟨f', c', s', hs, ha, hb⟩ := ih _ _ _ hl
      exact ⟨f', c', s', hs, ha, by omega⟩
    · rw [hk] at ih
      obtain ⟨f', c', s', hs, ha, hb⟩ := ih _ _ _ hr
      exact ⟨f', c', s', hs, by omega, by omega⟩

/-- The build of `UploadSceneInternal` for `1 ≤ N < 2^32` triangles: the bounds are
kept, the index array is a rearrangement of `0 .. N - 1`, and the whole node array
is one `Subtree` over `0 .. N - 1`. -/
theorem buildScene_spec (ops : FloatOps F) (sel : NthElement) (info : List (TriBounds F))
    (h1 : 0 < info.length) (h2 : info.length < 4294967296) :
    (buildScene ops sel info).triInfo = info ∧
    (buildScene ops sel info).triIndices.Perm (List.range info.length) ∧
    Subtree (buildScene ops sel info).nodes (buildScene ops sel info).triIndices info 0 0
      info.length (buildScene ops sel info).nodes.length := by
  have hmod : info.length % 4294967296 = info.length := Nat.mod_eq_of_lt h2
  have hidx : List.range info.length ++ List.replicate (info.length - info.length) 0
      = List.range info.length := by simp
  have hseg : ∀ l : List Nat, segment l 0 l.length = l := by
    intro l; unfold segment; simp
  have hspec := buildNode_spec ops sel info.length
    ⟨List.range info.length, info, []⟩ 0 h1 (by simp)
    (by
      intro t ht
      have hr := hseg (List.range info.length)
      rw [List.length_range] at hr
      rw [hr] at ht
      exact List.mem_range.mp ht)
  unfold buildScene
  simp only [hmod, hidx]
  refine ⟨hspec.info_eq, ?_, ?_⟩
  · have hp := hspec.perm
    have hl := hspec.length_eq
    simp only [List.length_range] at hl
    have e1 := hseg (buildNode ops sel ⟨List.range info.length, info, []⟩ 0 info.length).1.triIndices
    rw [hl] at e1
    have e2 := hseg (List.range info.length)
    rw [List.length_range] at e2
    rw [e1, e2] at hp
    exact hp
  · obtain ⟨ns, hns, hsub⟩ := hspec.nodes
    simp only [List.nil_append, List.length_nil] at hns hsub
    rw [hns]
    rw [hns] at hsub
    exact hsub

/-! ### Claims about the builder -/

/-- For `1 ≤ N < 2^32` bounds records, after the build every node's box contains the
bounds of every record stored in the range of a leaf at or beneath it, and every
record's bounds are contained in the box of some leaf that stores it. -/
theorem buildScene_boxes_cover (ops : FloatOps F) (sel : NthElement)
    (info : List (TriBounds F)) (h1 : 0 < info.length) (h2 : info.length < 4294967296) :
    BoxesCoverLeaves (buildScene ops sel info) ∧
    EveryTriangleInLeaf (buildScene ops sel info) := by
  obtain ⟨hinfo, hperm, hsub⟩ := buildScene_spec ops sel info h1 h2
  have hlen : (buildScene ops sel info).triIndices.length = info.length := by
    rw [hperm.length_eq, List.length_range]
  have hA : BoxesCoverLeaves (buildScene ops sel info) := by
    intro i j ni nj p hni hreach hnj hp
    have hi : i < (buildScene ops sel info).nodes.length :=
      (List.getElem?_eq_some.mp hni).1
    obtain ⟨f, c, s, hs, _, hfc⟩ := hsub.sub i (Nat.zero_le _) (by omega)
    obtain ⟨f', c', s', hs', hf1, hf2⟩ := Subtree.reach hreach f c s hs
    obtain ⟨n1, hn1, hcov, _⟩ := hs.root
    obtain ⟨n2, hn2, _, hrange⟩ := hs'.root
    rw [hni] at hn1
    cases hn1
    rw [hnj] at hn2
    cases hn2
    obtain ⟨hpos, hp1, hp2⟩ := hp
    obtain ⟨e1, e2⟩ := hrange hpos
    have hplt : p < (buildScene ops sel info).triIndices.length := by omega
    have hmem : (buildScene ops sel info).triIndices[p] ∈
        segment (buildScene ops sel info).triIndices f c :=
      (mem_segment_iff _ _ _ _).mpr ⟨p, by omega, by omega, List.getElem?_eq_getElem hplt⟩
    obtain ⟨tb, htb, hc⟩ := hcov _ hmem
    exact ⟨_, tb, List.getElem?_eq_getElem hplt, by rw [hinfo]; exact htb, hc⟩
  refine ⟨hA, ?_⟩
  intro t tb htb
  rw [hinfo] at htb
  have ht : t < info.length := (List.getElem?_eq_some.mp htb).1
  have hmem : t ∈ (buildScene ops sel info).triIndices :=
    hperm.mem_iff.mpr (List.mem_range.mpr ht)
  obtain ⟨p, hp⟩ := List.mem_iff_getElem?.mp hmem
  have hplt : p < info.length := by
    rw [← hlen]; exact (List.getElem?_eq_some.mp hp).1
  obtain ⟨j, n, _, _, hn, hh, _⟩ := hsub.leaves.2 p (Nat.zero_le _) (by omega)
  obtain ⟨t', tb', ht', htb', hc⟩ := hA j j n n p hn (Reach.refl j) hn hh
  rw [hp] at ht'
  cases ht'
  rw [hinfo, htb] at htb'
  cases htb'
  exact ⟨j, n, p, hn, hh, hp, hc⟩

/-- The equation of `buildNode(first, count)` on a range of more than `kLeafMax`
positions: the node is appended, the range is rearranged by `std::nth_element`
around the middle with the centroids compared along `splitAxis`, and the two
halves are built. -/
theorem buildNode_split (ops : FloatOps F) (sel : NthElement) (ctx : BuildContext F)
    (first count : Nat) (h : kLeafMax < count) :
    buildNode ops sel ctx first count =
      (⟨(buildNode ops sel
          (buildNode ops sel
            ⟨nthElementRange sel (centroidLess ctx.triInfo (splitAxis ops ctx first count))
              ctx.triIndices first (first + count / 2) count, ctx.triInfo,
              ctx.nodes ++ [⟨(boundsForRange ops ctx first count).mn,
                (boundsForRange ops ctx first count).mx, 0, 0, 0, 0⟩]⟩ first (count / 2)).1
          (first + count / 2) (count - count / 2)).1.triIndices,
        (buildNode ops sel
          (buildNode ops sel
            ⟨nthElementRange sel (centroidLess ctx.triInfo (splitAxis ops ctx first count))
              ctx.triIndices first (first + count / 2) count, ctx.triInfo,
              ctx.nodes ++ [⟨(boundsForRange ops ctx first count).mn,
                (boundsForRange ops ctx first count).mx, 0, 0, 0, 0⟩]⟩ first (count / 2)).1
          (first + count / 2) (count - count / 2)).1.triInfo,
        setMeta (buildNode ops sel
          (buildNode ops sel
            ⟨nthElementRange sel (centroidLess ctx.triInfo (splitAxis ops ctx first count))
              ctx.triIndices first (first + count / 2) count, ctx.triInfo,
              ctx.nodes ++ [⟨(boundsForRange ops ctx first count).mn,
                (boundsForRange ops ctx first count).mx, 0, 0, 0, 0⟩]⟩ first (count / 2)).1
          (first + count / 2) (count - count / 2)).1.nodes ctx.nodes.length
          (buildNode ops sel
            ⟨nthElementRange sel (centroidLess ctx.triInfo (splitAxis ops ctx first count))
              ctx.triIndices first (first + count / 2) count, ctx.triInfo,
              ctx.nodes ++ [⟨(boundsForRange ops ctx first count).mn,
                (boundsForRange ops ctx first count).mx, 0, 0, 0, 0⟩]⟩ first (count / 2)).2
          (buildNode ops sel
            (buildNode ops sel
              ⟨nthElementRange sel (centroidLess ctx.triInfo (splitAxis ops ctx first count))
                ctx.triIndices first (first + count / 2) count, ctx.triInfo,
                ctx.nodes ++ [⟨(boundsForRange ops ctx first count).mn,
                  (boundsForRange ops ctx first count).mx, 0, 0, 0, 0⟩]⟩ first (count / 2)).1
            (first + count / 2) (count - count / 2)).2 0 0⟩,
       ctx.nodes.length) := by
  rw [buildNode]
  have hn : ¬ count ≤ kLeafMax := by omega
  have e1 : first + count / 2 - first = count / 2 := by omega
  have e2 : first + count - (first + count / 2) = count - count / 2 := by omega
  simp only [hn, if_false, e1, e2]
  rfl

theorem triBoundsOf_holds (ops : FloatOps F) (t : TriInput F) :
    (triBoundsOf ops t).bounds.holdsPoint t.v0 ∧ (triBoundsOf ops t).bounds.holdsPoint t.v1 ∧
    (triBoundsOf ops t).bounds.holdsPoint t.v2 := by
  unfold triBoundsOf aabbGrowPoint AABB.holdsPoint
  simp only
  refine ⟨⟨?_, ?_, ?_, ?_, ?_, ?_⟩, ⟨?_, ?_, ?_, ?_, ?_, ?_⟩, ⟨?_, ?_, ?_, ?_, ?_, ?_⟩⟩
  · exact (fmin_le_left _ _).trans ((fmin_le_left _ _).trans (fmin_le_right _ _))
  · exact (le_fmax_right _ _).trans ((le_fmax_left _ _).trans (le_fmax_left _ _))
  · exact (fmin_le_left _ _).trans ((fmin_le_left _ _).trans (fmin_le_right _ _))
  · exact (le_fmax_right _ _).trans ((le_fmax_left _ _).trans (le_fmax_left _ _))
  · exact (fmin_le_left _ _).trans ((fmin_le_left _ _).trans (fmin_le_right _ _))
  · exact (le_fmax_right _ _).trans ((le_fmax_left _ _).trans (le_fmax_left _ _))
  · exact (fmin_le_left _ _).trans (fmin_le_right _ _)
  · exact (le_fmax_right _ _).trans (le_fmax_left _ _)
  · exact (fmin_le_left _ _).trans (fmin_le_right _ _)
  · exact (le_fmax_right _ _).trans (le_fmax_left _ _)
  · exact (fmin_le_left _ _).trans (fmin_le_right _ _)
  · exact (le_fmax_right _ _).trans (le_fmax_left _ _)
  · exact fmin_le_right _ _
  · exact le_fmax_right _ _
  · exact fmin_le_right _ _
  · exact le_fmax_right _ _
  · exact fmin_le_right _ _
  · exact le_fmax_right _ _

theorem holdsPoint_of_contains (outer inner : AABB F) (p : Vec3 F)
    (hc : outer.contains inner) (hp : inner.holdsPoint p) : outer.holdsPoint p := by
  obtain ⟨c1, c2, c3, c4, c5, c6⟩ := hc
  obtain ⟨p1, p2, p3, p4, p5, p6⟩ := hp
  exact ⟨c1.trans p1, p2.trans c4, c2.trans p3, p4.trans c5, c3.trans p5, p6.trans c6⟩

/-- What a non-empty upload on an initialised tracer stores for the tree: the node
array and the index array of the build over the triangles' bounds records. -/
theorem UploadScene_tree (ops : FloatOps F) (sel : NthElement) (s : Sys F)
    (ts : List (TriInput F)) (ms : List (MaterialInput F))
    (hin : s.g.inited = true) (hts : ts ≠ []) (hms : ms ≠ []) :
    (UploadScene ops sel s (some ts) (some ms)).gl.bufNodes
      = (buildScene ops sel (ts.map (triBoundsOf ops))).nodes ∧
    (UploadScene ops sel s (some ts) (some ms)).gl.bufTriIndices
      = (buildScene ops sel (ts.map (triBoundsOf ops))).triIndices := by
  have h1 : ¬(ts.length = 0 ∨ ms.length = 0) := by
    simp only [List.length_eq_zero, not_or]
    exact ⟨hts, hms⟩
  refine ⟨?_, ?_⟩ <;>
    (unfold UploadScene UploadSceneInternal
     simp only [hin, Bool.not_true, Bool.false_eq_true, if_false, h1])

/-- C1. For a non-empty triangle list `tris` (fewer than `2^32` triangles, the range
of the `uint32` count), let the tree be built over the bounds records
`UploadSceneInternal` computes from the vertices (the empty box grown by `v0`,
`v1`, `v2`). Then every node's box contains the bounds of every triangle stored in
the range of a leaf at or beneath it, hence holds the three vertices of each such
triangle; every input triangle is stored in some leaf whose box contains its
bounds and holds its three vertices; and this tree is the one a non-empty upload
on an initialised tracer stores in the node and index buffers. -/
theorem c1_node_boxes_contain_triangles (ops : FloatOps F) (sel : NthElement)
    (tris : List (TriInput F)) (h1 : 0 < tris.length) (h2 : tris.length < 4294967296) :
    BoxesCoverLeaves (buildScene ops sel (tris.map (triBoundsOf ops))) ∧
    EveryTriangleInLeaf (buildScene ops sel (tris.map (triBoundsOf ops))) ∧
    BoxesHoldVertices (buildScene ops sel (tris.map (triBoundsOf ops))) tris ∧
    EveryVertexInLeaf (buildScene ops sel (tris.map (triBoundsOf ops))) tris ∧
    (∀ (s : Sys F) (mats : List (MaterialInput F)), mats ≠ [] → s.g.inited = true →
      (UploadScene ops sel s (some tris) (some mats)).gl.bufNodes
        = (buildScene ops sel (tris.map (triBoundsOf ops))).nodes ∧
      (UploadScene ops sel s (some tris) (some mats)).gl.bufTriIndices
        = (buildScene ops sel (tris.map (triBoundsOf ops))).triIndices) := by
  have hl1 : 0 < (tris.map (triBoundsOf ops)).length := by rw [List.length_map]; exact h1
  have hl2 : (tris.map (triBoundsOf ops)).length < 4294967296 := by
    rw [List.length_map]; exact h2
  obtain ⟨hA, hB⟩ := buildScene_boxes_cover ops sel (tris.map (triBoundsOf ops)) hl1 hl2
  have hinfo := (buildScene_spec ops sel (tris.map (triBoundsOf ops)) hl1 hl2).1
  have hget : ∀ (t : Nat) (tb : TriBounds F),
      (buildScene ops sel (tris.map (triBoundsOf ops))).triInfo[t]? = some tb →
      ∃ tri : TriInput F, tris[t]? = some tri ∧ triBoundsOf ops tri = tb := by
    intro t tb h
    rw [hinfo, List.getElem?_map] at h
    cases htri : tris[t]? with
    | none => rw [htri] at h; exact absurd h (by simp)
    | some tri =>
      rw [htri] at h
      exact ⟨tri, rfl, Option.some.inj h⟩
  refine ⟨hA, hB, ?_, ?_, ?_⟩
  · intro i j ni nj p hni hreach hnj hp
    obtain ⟨t, tb, ht, htb, hc⟩ := hA i j ni nj p hni hreach hnj hp
    obtain ⟨tri, htri, he⟩ := hget t tb htb
    obtain ⟨a0, a1, a2⟩ := triBoundsOf_holds ops tri
    rw [he] at a0 a1 a2
    exact ⟨t, tri, ht, htri, holdsPoint_of_contains _ _ _ hc a0,
      holdsPoint_of_contains _ _ _ hc a1, holdsPoint_of_contains _ _ _ hc a2⟩
  · intro t tri htri
    have htb : (buildScene ops sel (tris.map (triBoundsOf ops))).triInfo[t]?
        = some (triBoundsOf ops tri) := by
      rw [hinfo, List.getElem?_map, htri]
      rfl
    obtain ⟨j, nj, p, hnj, hh, hp, hc⟩ := hB t _ htb
    obtain ⟨a0, a1, a2⟩ := triBoundsOf_holds ops tri
    exact ⟨j, nj, p, hnj, hh, hp, holdsPoint_of_contains _ _ _ hc a0,
      holdsPoint_of_contains _ _ _ hc a1, holdsPoint_of_contains _ _ _ hc a2⟩
  · intro s mats hmats hin
    have hts : tris ≠ [] := List.ne_nil_of_length_pos h1
    exact UploadScene_tree ops sel s tris mats hin hts hmats

/-- C2. For `1 ≤ N < 2^32` triangles, after the build the leaf ranges lie inside
`0 .. N - 1`, are pairwise disjoint, and cover every position below `N`. -/
theorem c2_leaf_ranges_partition (ops : FloatOps F) (sel : NthElement)
    (info : List (TriBounds F)) (h1 : 0 < info.length) (h2 : info.length < 4294967296) :
    LeavesPartition (buildScene ops sel info) info.length := by
  obtain ⟨_, _, hsub⟩ := buildScene_spec ops sel info h1 h2
  obtain ⟨hl1, hl2⟩ := hsub.leaves
  refine ⟨?_, ?_, ?_⟩
  · intro j n hn hpos
    have hj : j < (buildScene ops sel info).nodes.length := (List.getElem?_eq_some.mp hn).1
    have := hl1 j n (Nat.zero_le _) (by omega) hn hpos
    omega
  · intro j j' n n' p hn hn' hh hh'
    have hj : j < (buildScene ops sel info).nodes.length := (List.getElem?_eq_some.mp hn).1
    have hj' : j' < (buildScene ops sel info).nodes.length := (List.getElem?_eq_some.mp hn').1
    have hr := hl1 j n (Nat.zero_le _) (by omega) hn hh.1
    have hp1 := hh.2.1
    have hp2 := hh.2.2
    obtain ⟨k, m, _, _, _, _, huniq⟩ := hl2 p (Nat.zero_le _) (by omega)
    rw [huniq j n (Nat.zero_le _) (by omega) hn hh,
      huniq j' n' (Nat.zero_le _) (by omega) hn' hh']
  · intro p hp
    obtain ⟨j, n, _, _, hn, hh, _⟩ := hl2 p (Nat.zero_le _) (by omega)
    exact ⟨j, n, hn, hh⟩

/-- C4. For `1 ≤ N < 2^32` triangles the index array after the build is a
rearrangement of `0, 1, ..., N - 1` (each index occurs exactly once); and each
selection step rearranges its range only. -/
theorem c4_indices_are_permutation (ops : FloatOps F) (sel : NthElement)
    (info : List (TriBounds F)) (h1 : 0 < info.length) (h2 : info.length < 4294967296) :
    (buildScene ops sel info).triIndices.Perm (List.range info.length) ∧
    (∀ t, t < info.length → (buildScene ops sel info).triIndices.count t = 1) ∧
    SelectionStaysInRange sel := by
  obtain ⟨_, hperm, _⟩ := buildScene_spec ops sel info h1 h2
  refine ⟨hperm, ?_, ?_⟩
  · intro t ht
    rw [hperm.count_eq]
    exact List.count_eq_one_of_mem (List.nodup_range _) (List.mem_range.mpr ht)
  · intro less idx first mid count h
    exact nthElementRange_spec sel less idx first mid count h

end BuilderProofs

/-! ### Instances of the builder claims on a nine-triangle scene -/

theorem nineTris_scene :
    buildScene exactOps sortingNth (nineTris.map (triBoundsOf exactOps)) =
      (buildNode exactOps sortingNth nineTrisContext 0 9).1 := by
  rfl

/-- The tree built over `nineTris`: the root over all nine triangles, split along
`y` into a leaf over the four lowest triangles and a leaf over the other five. -/
theorem nineTris_built :
    (buildScene exactOps sortingNth (nineTris.map (triBoundsOf exactOps))).triIndices
      = [2, 4, 6, 1, 8, 3, 7, 5, 0] ∧
    (buildScene exactOps sortingNth (nineTris.map (triBoundsOf exactOps))).nodes
      = [⟨⟨0, 0, 0⟩, ⟨1, 9, 0⟩, 1, 2, 0, 0⟩, ⟨⟨0, 0, 0⟩, ⟨1, 4, 0⟩, 0, 0, 0, 4⟩,
         ⟨⟨0, 4, 0⟩, ⟨1, 9, 0⟩, 0, 0, 4, 5⟩] := by
  rw [nineTris_scene, buildNode_split _ _ _ _ _ (by decide),
    buildNode_leaf _ _ _ _ (9 - 9 / 2) (by decide), buildNode_leaf _ _ _ _ (9 / 2) (by decide)]
  refine ⟨by decide!, by decide!⟩

/-- Claim C1 on the nine different triangles `nineTris`: the claim's conclusions hold
of the tree built, whose three node boxes are `[0,1] x [0,9]`, `[0,1] x [0,4]` and
`[0,1] x [4,9]` (at `z = 0`); the root box holds the vertices of the highest
triangle, the box of the first leaf does not hold its vertex `(0, 9, 0)`. -/
theorem c1_node_boxes_contain_triangles_witness :
    (0 < nineTris.length ∧ nineTris.length < 4294967296) ∧
    (BoxesCoverLeaves (buildScene exactOps sortingNth (nineTris.map (triBoundsOf exactOps))) ∧
      EveryTriangleInLeaf (buildScene exactOps sortingNth (nineTris.map (triBoundsOf exactOps))) ∧
      BoxesHoldVertices (buildScene exactOps sortingNth (nineTris.map (triBoundsOf exactOps)))
        nineTris ∧
      EveryVertexInLeaf (buildScene exactOps sortingNth (nineTris.map (triBoundsOf exactOps)))
        nineTris) ∧
    (buildScene exactOps sortingNth (nineTris.map (triBoundsOf exactOps))).nodes.map NodeGPU.box
      = [⟨⟨0, 0, 0⟩, ⟨1, 9, 0⟩⟩, ⟨⟨0, 0, 0⟩, ⟨1, 4, 0⟩⟩, ⟨⟨0, 4, 0⟩, ⟨1, 9, 0⟩⟩] ∧
    (triBoundsOf exactOps (yTri 8)).bounds = ⟨⟨0, 8, 0⟩, ⟨1, 9, 0⟩⟩ ∧
    AABB.holdsPoint ⟨⟨0, 0, 0⟩, ⟨1, 9, 0⟩⟩ (yTri 8).v2 ∧
    ¬ AABB.holdsPoint ⟨⟨0, 0, 0⟩, ⟨1, 4, 0⟩⟩ (yTri 8).v2 :=
  have h := c1_node_boxes_contain_triangles exactOps sortingNth nineTris (by decide) (by decide)
  ⟨⟨by decide, by decide⟩, ⟨h.1, h.2.1, h.2.2.1, h.2.2.2.1⟩,
    by rw [nineTris_built.2]; decide!, by decide!, by decide!, by decide!⟩

theorem c2_leaf_ranges_partition_witness :
    (0 < nineTriBounds.length ∧ nineTriBounds.length < 4294967296) ∧
    LeavesPartition (buildScene exactOps sortingNth nineTriBounds) nineTriBounds.length :=
  ⟨⟨by decide, by decide⟩,
    c2_leaf_ranges_partition exactOps sortingNth nineTriBounds (by decide) (by decide)⟩

theorem c4_indices_are_permutation_witness :
    (0 < nineTriBounds.length ∧ nineTriBounds.length < 4294967296) ∧
    (buildScene exactOps sortingNth nineTriBounds).triIndices.Perm
      (List.range nineTriBounds.length) :=
  ⟨⟨by decide, by decide⟩,
    (c4_indices_are_permutation exactOps sortingNth nineTriBounds (by decide) (by decide)).1⟩

/-! ## Proofs: accumulation kernel -/

theorem accumulate_invariant (samples : List ℚ) :
    ∀ px : Pixel, px.count + samples.length < 4294967296 →
      (samples.foldl accumulatePixel px).count = px.count + samples.length ∧
      (samples.foldl accumulatePixel px).accum * ((px.count + samples.length : Nat) : ℚ)
        = px.accum * (px.count : ℚ) + samples.sum := by
  induction samples with
  | nil => intro px _; simp
  | cons s rest ih =>
    intro px h
    simp only [List.length_cons] at h
    have hmod : (px.count + 1) % 4294967296 = px.count + 1 := Nat.mod_eq_of_lt (by omega)
    have hstep : accumulatePixel px s
        = ⟨(px.accum * (px.count : ℚ) + s) / ((px.count + 1 : Nat) : ℚ), px.count + 1⟩ := by
      unfold accumulatePixel
      simp only [hmod]
    obtain ⟨h1, h2⟩ := ih (accumulatePixel px s) (by rw [hstep]; simp only; omega)
    rw [List.foldl_cons, List.length_cons, List.sum_cons]
    rw [hstep] at h1 h2 ⊢
    simp only at h1 h2
    have e : px.count + 1 + rest.length = px.count + (rest.length + 1) := by omega
    rw [e] at h1 h2
    refine ⟨h1, ?_⟩
    rw [h2]
    have hne : ((px.count + 1 : Nat) : ℚ) ≠ 0 := by positivity
    rw [div_mul_cancel₀ _ hne]
    ring

theorem accumulateExact_invariant (samples : List ℚ) :
    ∀ px : Pixel,
      (samples.foldl accumulatePixelExact px).count = px.count + samples.length ∧
      (samples.foldl accumulatePixelExact px).accum * ((px.count + samples.length : Nat) : ℚ)
        = px.accum * (px.count : ℚ) + samples.sum := by
  induction samples with
  | nil => intro px; simp
  | cons s rest ih =>
    intro px
    obtain ⟨h1, h2⟩ := ih (accumulatePixelExact px s)
    rw [List.foldl_cons, List.length_cons, List.sum_cons]
    simp only [accumulatePixelExact] at h1 h2 ⊢
    have e : px.count + 1 + rest.length = px.count + (rest.length + 1) := by omega
    rw [e] at h1 h2
    refine ⟨h1, ?_⟩
    rw [h2]
    have hne : ((px.count + 1 : Nat) : ℚ) ≠ 0 := by positivity
    rw [div_mul_cancel₀ _ hne]
    ring

/-- C5. Starting from a cleared pixel, after the Accumulate step has been applied to
the samples `s_1 .. s_k`, `k ≥ 1`, in exact arithmetic (rational values, count not
wrapped) the accumulated value is `(s_1 + ... + s_k) / k` and the per-pixel count is
`k`; and the kernel with its 32-bit count gives the same two values as long as
`k < 2^32`. -/
theorem c5_accumulate_is_running_mean (samples : List ℚ) (h1 : 1 ≤ samples.length) :
    ((accumulateAllExact samples).accum = samples.sum / (samples.length : ℚ) ∧
      (accumulateAllExact samples).count = samples.length) ∧
    (samples.length < 4294967296 →
      (accumulateAll samples).accum = samples.sum / (samples.length : ℚ) ∧
      (accumulateAll samples).count = samples.length) := by
  have hne : (samples.length : ℚ) ≠ 0 := by
    have : 0 < samples.length := h1
    positivity
  constructor
  · obtain ⟨hc, ha⟩ := accumulateExact_invariant samples clearPixel
    simp only [clearPixel, Nat.zero_add, Nat.cast_zero, mul_zero, zero_add] at hc ha
    refine ⟨?_, hc⟩
    unfold accumulateAllExact
    rw [eq_div_iff hne]
    exact ha
  · intro h2
    obtain ⟨hc, ha⟩ := accumulate_invariant samples clearPixel (by simpa [clearPixel] using h2)
    simp only [clearPixel, Nat.zero_add, Nat.cast_zero, mul_zero, zero_add] at hc ha
    refine ⟨?_, hc⟩
    unfold accumulateAll
    rw [eq_div_iff hne]
    exact ha

theorem c5_accumulate_is_running_mean_witness :
    1 ≤ [(1 : ℚ), 2, 6].length ∧
    (accumulateAllExact [1, 2, 6]).count = [(1 : ℚ), 2, 6].length ∧
    (accumulateAll [1, 2, 6]).count = [(1 : ℚ), 2, 6].length :=
  ⟨by decide, (c5_accumulate_is_running_mean [1, 2, 6] (by decide)).1.2,
    ((c5_accumulate_is_running_mean [1, 2, 6] (by decide)).2 (by decide)).2⟩

/-! ## Proofs: host state machine -/

section RenderProofs

set_option linter.unusedSectionVars false

variable {F : Type} [LinearOrder F]

theorem kernelLog_emit (gl : GLContext F) (e : GLEvent) :
    kernelLog (gl.emit e) = kernelLog gl ++ (if e.isKernel then [e] else []) := by
  unfold kernelLog GLContext.emit
  simp only [List.filter_append, List.filter_cons, List.filter_nil]

theorem kernelLog_Dispatch2D (gl : GLContext F) (w h : Int) (e : GLEvent)
    (hw : 1 ≤ w) (hh : 1 ≤ h) :
    kernelLog (Dispatch2D gl w h e) = kernelLog gl ++ (if e.isKernel then [e] else []) := by
  unfold Dispatch2D
  rw [if_neg (by omega)]
  exact kernelLog_emit gl e

theorem kernelLog_timerMark (t : GpuPassTimer F) (qs : List Nat) (gl : GLContext F) (fi : Int) :
    kernelLog (timerMark t qs gl fi).2 = kernelLog gl := by
  unfold timerMark
  split_ifs with h1
  · rfl
  · cases queryAt qs (timerSlot fi) with
    | none => rfl
    | some q =>
      simp only
      split_ifs with h2
      · rfl
      · rw [kernelLog_emit]; simp [GLEvent.isKernel]

theorem kernelLog_DestroyTex (gl : GLContext F) (tex : Nat) :
    kernelLog (DestroyTex gl tex) = kernelLog gl := by
  unfold DestroyTex
  split_ifs with h
  · rfl
  · rw [kernelLog_emit]; simp [GLEvent.isKernel, kernelLog]

theorem kernelLog_CreateTex2D (gl : GLContext F) (w h : Int) :
    kernelLog (CreateTex2D gl w h).2 = kernelLog gl := by
  unfold CreateTex2D
  split_ifs with h1
  · rfl
  · cases hs : gl.allocScript with
    | nil => simp only; rw [kernelLog_emit]; simp [GLEvent.isKernel]
    | cons r rest =>
      simp only
      split_ifs with h2
      · rw [kernelLog_emit]; simp [GLEvent.isKernel, kernelLog]
      · rw [kernelLog_emit]; simp [GLEvent.isKernel, kernelLog]

theorem kernelLog_DestroyAllTextures (s : Sys F) :
    kernelLog (DestroyAllTextures s).gl = kernelLog s.gl := by
  unfold DestroyAllTextures
  simp only [kernelLog_DestroyTex]

theorem kernelLog_recreateAll (s : Sys F) (a b c d : Int) :
    kernelLog (recreateAll s a b c d).gl = kernelLog s.gl := by
  unfold recreateAll
  simp only [kernelLog_CreateTex2D, kernelLog_DestroyAllTextures]

theorem kernelLog_EnsureResources (ops : FloatOps F) (s : Sys F) (vw vh : Int) :
    kernelLog (EnsureResources ops s vw vh).2.gl = kernelLog s.gl := by
  unfold EnsureResources
  simp only
  split_ifs
  · rfl
  · rw [kernelLog_DestroyAllTextures, kernelLog_recreateAll]
  · simp only [kernelLog_recreateAll]
  · simp only [kernelLog_CreateTex2D, kernelLog_DestroyTex]
  · simp only [kernelLog_CreateTex2D, kernelLog_DestroyTex]

/-- The trace and accumulate part of a pass: its dispatches, and what it leaves in
the host state. -/
theorem renderTraceAccumulate_spec (s : Sys F) (hw : 1 ≤ s.g.internalW) (hh : 1 ≤ s.g.internalH) :
    kernelLog (renderTraceAccumulate s).gl = kernelLog s.gl ++
      [GLEvent.traceDispatch (s.g.sppAccum % 4294967296) s.g.settings.sppPerFrame,
       GLEvent.accumulateDispatch] ∧
    (renderTraceAccumulate s).g.sppAccum =
      (s.g.sppAccum + (max 1 s.g.settings.sppPerFrame).toNat) % 18446744073709551616 ∧
    (renderTraceAccumulate s).g.stepOnce = false := by
  refine ⟨?_, rfl, rfl⟩
  unfold renderTraceAccumulate RunTrace RunAccumulate GpuPassTimer.begin GpuPassTimer.finish
  simp only [kernelLog_timerMark, kernelLog_Dispatch2D _ _ _ _ hw hh, GLEvent.isKernel,
    if_true, List.append_assoc, List.singleton_append]

theorem atrous_events (g : State F) (gl : GLContext F) (inputTex : Nat)
    (hw : 1 ≤ g.internalW) (hh : 1 ≤ g.internalH) :
    kernelLog ([0, 1, 2].foldl (atrousIter g) (gl, inputTex, g.texDenoiseA)).1 =
      kernelLog gl ++ [GLEvent.atrousDispatch 1 inputTex g.texDenoiseA,
        GLEvent.atrousDispatch 2 g.texDenoiseA g.texDenoiseB,
        GLEvent.atrousDispatch 4 g.texDenoiseB g.texDenoiseA] ∧
    ([0, 1, 2].foldl (atrousIter g) (gl, inputTex, g.texDenoiseA)).2.1 = g.texDenoiseA := by
  simp only [List.foldl_cons, List.foldl_nil, atrousIter, if_true,
    kernelLog_Dispatch2D _ _ _ _ hw hh, GLEvent.isKernel]
  by_cases hab : g.texDenoiseB = g.texDenoiseA
  · simp [hab]
  · simp [hab]

theorem renderDenoise_spec (s : Sys F) (hw : 1 ≤ s.g.internalW) (hh : 1 ≤ s.g.internalH) :
    kernelLog (renderDenoise s).1.gl = kernelLog s.gl ++
      (if s.g.settings.denoiser = Denoiser.AtrousGL then
        [GLEvent.atrousDispatch 1 s.g.texAccumHDR s.g.texDenoiseA,
         GLEvent.atrousDispatch 2 s.g.texDenoiseA s.g.texDenoiseB,
         GLEvent.atrousDispatch 4 s.g.texDenoiseB s.g.texDenoiseA]
       else []) ∧
    (renderDenoise s).2 =
      (if s.g.settings.denoiser = Denoiser.AtrousGL then s.g.texDenoiseA else s.g.texAccumHDR) := by
  unfold renderDenoise
  by_cases hd : s.g.settings.denoiser = Denoiser.AtrousGL
  · simp only [hd, if_true]
    unfold RunAtrous GpuPassTimer.begin GpuPassTimer.finish
    simp only [kernelLog_timerMark]
    have h := atrous_events { s.g with tDenoise := (timerMark s.g.tDenoise s.g.tDenoise.qBegin s.gl
      (toInt32 s.g.frameIndex)).1 } (timerMark s.g.tDenoise s.g.tDenoise.qBegin s.gl
      (toInt32 s.g.frameIndex)).2 s.g.texAccumHDR hw hh
    simp only [kernelLog_timerMark] at h
    exact h
  · simp only [hd, if_false, List.append_nil, and_self]

theorem renderTraceAccumulate_shape (s : Sys F) :
    ∃ t1 t2, (renderTraceAccumulate s).g =
      { s.g with
        stepOnce := false, tTrace := t1, tAcc := t2,
        sppAccum :=
          (s.g.sppAccum + (max 1 s.g.settings.sppPerFrame).toNat) % 18446744073709551616 } :=
  ⟨_, _, rfl⟩

theorem renderDenoise_shape (s : Sys F) :
    ∃ t, (renderDenoise s).1.g = { s.g with tDenoise := t } := by
  unfold renderDenoise
  split_ifs
  · exact ⟨_, rfl⟩
  · exact ⟨s.g.tDenoise, rfl⟩

theorem renderTonemap_shape (s : Sys F) (hdr : Nat) :
    ∃ t, (renderTonemap s hdr).g = { s.g with tTonemap := t } :=
  ⟨_, rfl⟩

theorem renderTonemap_spec (s : Sys F) (hdr : Nat) (hw : 1 ≤ s.g.viewportW)
    (hh : 1 ≤ s.g.viewportH) :
    kernelLog (renderTonemap s hdr).gl = kernelLog s.gl ++
      [GLEvent.tonemapDispatch
        (if s.g.settings.view = DebugView.Sample then s.g.texSampleHDR
         else if s.g.settings.view = DebugView.Accumulated then s.g.texAccumHDR else hdr)
        s.g.settings.view.toInt] := by
  unfold renderTonemap RunTonemap GpuPassTimer.begin GpuPassTimer.finish
  simp only [kernelLog_timerMark, kernelLog_Dispatch2D _ _ _ _ hw hh, GLEvent.isKernel, if_true]

/-- One pass: its dispatches, in order, and what it leaves in the host state. -/
theorem renderPass_spec (ops : FloatOps F) (s : Sys F)
    (hiw : 1 ≤ s.g.internalW) (hih : 1 ≤ s.g.internalH)
    (hvw : 1 ≤ s.g.viewportW) (hvh : 1 ≤ s.g.viewportH) :
    kernelLog (renderPass ops s).gl = kernelLog s.gl ++ passEvents s.g ∧
    (renderPass ops s).g.sppAccum =
      (s.g.sppAccum + (max 1 s.g.settings.sppPerFrame).toNat) % 18446744073709551616 ∧
    (renderPass ops s).g.stats.sppAccumulated = (renderPass ops s).g.sppAccum ∧
    (renderPass ops s).g.stats.nodeCount = s.g.sceneNodeCount ∧
    (renderPass ops s).g.stepOnce = false ∧
    (renderPass ops s).g.paused = s.g.paused ∧
    (renderPass ops s).g.frameIndex = (s.g.frameIndex + 1) % 4294967296 ∧
    (renderPass ops s).g.settings = s.g.settings := by
  obtain ⟨t1, t2, h1⟩ := renderTraceAccumulate_shape s
  obtain ⟨t3, h2⟩ := renderDenoise_shape (renderTraceAccumulate s)
  obtain ⟨t4, h3⟩ := renderTonemap_shape (renderDenoise (renderTraceAccumulate s)).1
    (renderDenoise (renderTraceAccumulate s)).2
  have hA := renderTraceAccumulate_spec s hiw hih
  have hB := renderDenoise_spec (renderTraceAccumulate s) (by rw [h1]; exact hiw)
    (by rw [h1]; exact hih)
  have hC := renderTonemap_spec (renderDenoise (renderTraceAccumulate s)).1
    (renderDenoise (renderTraceAccumulate s)).2 (by rw [h2, h1]; exact hvw)
    (by rw [h2, h1]; exact hvh)
  have hg : (renderPass ops s).g = renderStats ops
      (renderTonemap (renderDenoise (renderTraceAccumulate s)).1
        (renderDenoise (renderTraceAccumulate s)).2).g := rfl
  have hgl : (renderPass ops s).gl =
      (renderTonemap (renderDenoise (renderTraceAccumulate s)).1
        (renderDenoise (renderTraceAccumulate s)).2).gl := rfl
  refine ⟨?_, ?_, ?_, ?_, ?_, ?_, ?_, ?_⟩
  · rw [hgl, hC, hB.1, hA.1, hB.2, h2, h1]
    unfold passEvents tonemapSource
    simp only [List.append_assoc]
  · rw [hg, h3, h2, h1]; rfl
  · rw [hg]; rfl
  · rw [hg, h3, h2, h1]; rfl
  · rw [hg, h3, h2, h1]; rfl
  · rw [hg, h3, h2, h1]; rfl
  · rw [hg, h3, h2, h1]; rfl
  · rw [hg, h3, h2, h1]; rfl

/-- What `EnsureResources` can change in the host state: the sizes, the ten image
handles, `debugGLFrames`, and the reset flag, which it may set but never clears. -/
theorem EnsureResources_shape (ops : FloatOps F) (s : Sys F) (vw vh : Int) :
    ∃ (a b c d : Int) (t1 t2 t3 t4 t5 t6 t7 t8 t9 t10 : Nat) (dbg : Int) (r : Bool),
      (EnsureResources ops s vw vh).2.g =
        { s.g with
          viewportW := a, viewportH := b, internalW := c, internalH := d,
          texSampleHDR := t1, texAccumHDR := t2, texCount := t3, texAlbedo := t4,
          texNormal := t5, texDepth := t6, texRoughMetal := t7, texDenoiseA := t8,
          texDenoiseB := t9, texOutputLDR := t10, debugGLFrames := dbg,
          settings := { s.g.settings with resetAccumulation := r } } ∧
      (s.g.settings.resetAccumulation = true → r = true) := by
  unfold EnsureResources
  simp only
  split_ifs
  · exact ⟨_, _, _, _, _, _, _, _, _, _, _, _, _, _, _, _, rfl, fun h => h⟩
  · exact ⟨_, _, _, _, _, _, _, _, _, _, _, _, _, _, _, _, rfl, fun h => h⟩
  · exact ⟨_, _, _, _, _, _, _, _, _, _, _, _, _, _, _, true, rfl, fun _ => rfl⟩
  · exact ⟨_, _, _, _, _, _, _, _, _, _, _, _, _, _, _, _, rfl, fun h => h⟩
  · exact ⟨_, _, _, _, _, _, _, _, _, _, _, _, _, _, _, _, rfl, fun h => h⟩

theorem internalDim_pos (ops : FloatOps F) (v : Int) (rs : F) : 1 ≤ internalDim ops v rs :=
  le_max_left _ _

/-- A successful `EnsureResources` leaves all four sizes at least 1 and the output
image defined, so the test that follows it in `Render` passes. -/
theorem EnsureResources_usable (ops : FloatOps F) (s : Sys F) (vw vh : Int)
    (h : (EnsureResources ops s vw vh).1 = true) :
    1 ≤ (EnsureResources ops s vw vh).2.g.internalW ∧
    1 ≤ (EnsureResources ops s vw vh).2.g.internalH ∧
    1 ≤ (EnsureResources ops s vw vh).2.g.viewportW ∧
    1 ≤ (EnsureResources ops s vw vh).2.g.viewportH ∧
    IsTexLevelDefined2D (EnsureResources ops s vw vh).2.gl
      (EnsureResources ops s vw vh).2.g.texOutputLDR = true := by
  unfold EnsureResources at h ⊢
  simp only at h ⊢
  split_ifs at h ⊢ with h1 h2 h3 h4
  · simp only [Bool.and_eq_true, Bool.not_eq_true', Bool.or_eq_false_iff,
      decide_eq_false_iff_not, ne_eq, not_not, Bool.not_eq_false'] at h1
    obtain ⟨⟨⟨hiw, hih⟩, _⟩, ⟨_, hout⟩⟩ := h1
    refine ⟨?_, ?_, le_max_left _ _, le_max_left _ _, ?_⟩
    · show 1 ≤ s.g.internalW
      rw [← hiw]; exact internalDim_pos _ _ _
    · show 1 ≤ s.g.internalH
      rw [← hih]; exact internalDim_pos _ _ _
    · exact hout
  · simp only [Bool.or_eq_true, Bool.not_eq_true', not_or, Bool.not_eq_false] at h3
    exact ⟨internalDim_pos _ _ _, internalDim_pos _ _ _, le_max_left _ _, le_max_left _ _,
      by simpa using h3.2⟩
  · simp only [Bool.or_eq_true, decide_eq_true_eq, ne_eq, Bool.not_eq_true', not_or, not_not,
      Bool.not_eq_false] at h2
    obtain ⟨⟨hiw, hih⟩, _⟩ := h2
    refine ⟨?_, ?_, le_max_left _ _, le_max_left _ _, by simpa using h4⟩
    · show 1 ≤ s.g.internalW
      rw [← hiw]; exact internalDim_pos _ _ _
    · show 1 ≤ s.g.internalH
      rw [← hih]; exact internalDim_pos _ _ _

theorem kernelLog_Dispatch2D_cases (gl : GLContext F) (w h : Int) (e : GLEvent) :
    kernelLog (Dispatch2D gl w h e) = kernelLog gl ∨
    kernelLog (Dispatch2D gl w h e) = kernelLog gl ++ (if e.isKernel then [e] else []) := by
  by_cases hd : w < 1 ∨ h < 1
  · left; unfold Dispatch2D; rw [if_pos hd]
  · right; unfold Dispatch2D; rw [if_neg hd]; exact kernelLog_emit gl e

theorem renderResolve_shape (ops : FloatOps F) (s : Sys F) :
    (renderResolve ops s).gl = s.gl ∧
    ∃ t1 t2 t3 t4, (renderResolve ops s).g =
      { s.g with tTrace := t1, tAcc := t2, tDenoise := t3, tTonemap := t4 } :=
  ⟨rfl, _, _, _, _, rfl⟩

/-- The clear block: when the flag is set it dispatches the clear (the sizes being
at least 1), zeroes the counter and clears the flag; otherwise it does nothing. -/
theorem renderClear_spec (s : Sys F) (hw : 1 ≤ s.g.internalW) (hh : 1 ≤ s.g.internalH) :
    kernelLog (renderClear s).gl = kernelLog s.gl ++
      (if s.g.settings.resetAccumulation then [GLEvent.clearDispatch] else []) ∧
    (renderClear s).g =
      { s.g with
        sppAccum := if s.g.settings.resetAccumulation then 0 else s.g.sppAccum,
        settings := { s.g.settings with resetAccumulation := false } } := by
  unfold renderClear RunClear
  by_cases hf : s.g.settings.resetAccumulation = true
  · simp only [hf, if_true, kernelLog_Dispatch2D _ _ _ _ hw hh, GLEvent.isKernel, and_self]
  · have hf' : s.g.settings.resetAccumulation = false := by simpa using hf
    simp only [hf', Bool.false_eq_true, if_false, List.append_nil, true_and]
    rw [← hf']

/-- The frame stage of `Render` (resources there, test pattern off). -/
theorem renderFrame_spec (ops : FloatOps F) (s : Sys F)
    (hiw : 1 ≤ s.g.internalW) (hih : 1 ≤ s.g.internalH)
    (hvw : 1 ≤ s.g.viewportW) (hvh : 1 ≤ s.g.viewportH) :
    kernelLog (renderFrame ops s).gl = kernelLog s.gl ++
      (if s.g.settings.resetAccumulation then [GLEvent.clearDispatch] else []) ++
      (if (!s.g.paused || s.g.stepOnce) = true then
        passEvents { s.g with
          sppAccum := if s.g.settings.resetAccumulation then 0 else s.g.sppAccum }
       else []) ∧
    (renderFrame ops s).g.settings.resetAccumulation = false ∧
    ((!s.g.paused || s.g.stepOnce) = false →
      (renderFrame ops s).g.sppAccum
        = (if s.g.settings.resetAccumulation then 0 else s.g.sppAccum) ∧
      (renderFrame ops s).g.frameIndex = s.g.frameIndex ∧
      (renderFrame ops s).g.stats = s.g.stats ∧
      (renderFrame ops s).g.paused = s.g.paused ∧
      (renderFrame ops s).g.stepOnce = s.g.stepOnce) ∧
    ((!s.g.paused || s.g.stepOnce) = true →
      (renderFrame ops s).g.sppAccum
        = ((if s.g.settings.resetAccumulation then 0 else s.g.sppAccum)
            + (max 1 s.g.settings.sppPerFrame).toNat) % 18446744073709551616 ∧
      (renderFrame ops s).g.stats.sppAccumulated = (renderFrame ops s).g.sppAccum ∧
      (renderFrame ops s).g.stats.nodeCount = s.g.sceneNodeCount ∧
      (renderFrame ops s).g.frameIndex = (s.g.frameIndex + 1) % 4294967296 ∧
      (renderFrame ops s).g.paused = s.g.paused ∧
      (renderFrame ops s).g.stepOnce = false) := by
  obtain ⟨hrgl, t1, t2, t3, t4, hrg⟩ := renderResolve_shape ops s
  obtain ⟨hclog, hcg⟩ := renderClear_spec (renderResolve ops s)
    (by rw [hrg]; exact hiw) (by rw [hrg]; exact hih)
  rw [hrgl] at hclog
  generalize hs1 : renderClear (renderResolve ops s) = s1 at hclog hcg
  have hs1g : s1.g =
      { s.g with
        tTrace := t1, tAcc := t2, tDenoise := t3, tTonemap := t4,
        sppAccum := if s.g.settings.resetAccumulation then 0 else s.g.sppAccum,
        settings := { s.g.settings with resetAccumulation := false } } := by
    rw [hcg, hrg]
  have hwork : (!s1.g.paused || s1.g.stepOnce) = (!s.g.paused || s.g.stepOnce) := by
    rw [hs1g]
  have hframe : renderFrame ops s = if (!s.g.paused || s.g.stepOnce) = true
      then renderPass ops s1 else s1 := by
    unfold renderFrame
    simp only [hs1, hwork]
    cases (!s.g.paused || s.g.stepOnce) <;> rfl
  have hrflag : s.g.settings.resetAccumulation = (renderResolve ops s).g.settings.resetAccumulation := by
    rw [hrg]
  by_cases hw : (!s.g.paused || s.g.stepOnce) = true
  · rw [hframe, if_pos hw]
    obtain ⟨p1, p2, p3, p4, p5, p6, p7, p8⟩ := renderPass_spec ops s1
      (by rw [hs1g]; exact hiw) (by rw [hs1g]; exact hih)
      (by rw [hs1g]; exact hvw) (by rw [hs1g]; exact hvh)
    refine ⟨?_, ?_, ?_, ?_⟩
    · rw [p1, hclog, if_pos hw, ← hrflag]
      have : passEvents s1.g = passEvents { s.g with
          sppAccum := if s.g.settings.resetAccumulation then 0 else s.g.sppAccum } := by
        rw [hs1g]; rfl
      rw [this]
    · rw [p8, hs1g]
    · intro hf; rw [hw] at hf; cases hf
    · intro _
      refine ⟨?_, p3, ?_, ?_, ?_, p5⟩
      · rw [p2, hs1g]
      · rw [p4, hs1g]
      · rw [p7, hs1g]
      · rw [p6, hs1g]
  · rw [hframe, if_neg hw]
    refine ⟨?_, ?_, ?_, ?_⟩
    · rw [hclog, if_neg hw, ← hrflag, List.append_nil]
    · rw [hs1g]
    · intro _
      rw [hs1g]
      exact ⟨rfl, rfl, rfl, rfl, rfl⟩
    · intro hf; exact absurd hf hw

/-- Under the conditions named in the claims (tracer initialised and enabled,
resources available, test pattern off) `Render` is `EnsureResources` followed by
the frame stage. -/
theorem Render_eq_frame (ops : FloatOps F) (s : Sys F) (vw vh : Int)
    (hin : s.g.inited = true) (hen : s.g.settings.enabled = true)
    (her : (EnsureResources ops s vw vh).1 = true) (htp : s.g.forceTestPattern = false) :
    Render ops s vw vh = renderFrame ops (EnsureResources ops s vw vh).2 := by
  obtain ⟨h1, h2, h3, h4, h5⟩ := EnsureResources_usable ops s vw vh her
  obtain ⟨a, b, c, d, t1, t2, t3, t4, t5, t6, t7, t8, t9, t10, dbg, r, hshape, _⟩ :=
    EnsureResources_shape ops s vw vh
  have htp' : (EnsureResources ops s vw vh).2.g.forceTestPattern = false := by
    rw [hshape]; exact htp
  have husable : resourcesUsable (EnsureResources ops s vw vh).2 = true := by
    unfold resourcesUsable
    simp only [h5, Bool.not_true, Bool.or_false, Bool.not_eq_true', Bool.or_eq_false_iff,
      decide_eq_false_iff_not, not_lt]
    exact ⟨⟨⟨h1, h2⟩, h3⟩, h4⟩
  unfold Render
  simp only [hin, hen, her, husable, htp', Bool.not_true, Bool.false_eq_true, if_false]

/-- While paused with no step request, `Render` dispatches nothing except possibly
the clear. -/
theorem Render_paused_no_pass (ops : FloatOps F) (s : Sys F) (vw vh : Int)
    (hp : s.g.paused = true) (hs : s.g.stepOnce = false) :
    kernelLog (Render ops s vw vh).gl = kernelLog s.gl ∨
    kernelLog (Render ops s vw vh).gl = kernelLog s.gl ++ [GLEvent.clearDispatch] := by
  obtain ⟨a, b, c, d, t1, t2, t3, t4, t5, t6, t7, t8, t9, t10, dbg, r, hshape, _⟩ :=
    EnsureResources_shape ops s vw vh
  have hlog := kernelLog_EnsureResources ops s vw vh
  unfold Render
  simp only
  split_ifs
  · exact Or.inl rfl
  · exact Or.inl rfl
  · exact Or.inl hlog
  · exact Or.inl hlog
  · left
    unfold renderTestPattern
    simp only [kernelLog_emit, GLEvent.isKernel, Bool.false_eq_true, if_false, List.append_nil]
    exact hlog
  · generalize hers : (EnsureResources ops s vw vh).2 = e at hshape hlog
    have hp' : e.g.paused = true := by rw [hshape]; exact hp
    have hs' : e.g.stepOnce = false := by rw [hshape]; exact hs
    have hwork : (!(renderClear (renderResolve ops e)).g.paused
        || (renderClear (renderResolve ops e)).g.stepOnce) = false := by
      unfold renderClear
      split_ifs
      · show (!e.g.paused || e.g.stepOnce) = false
        rw [hp', hs']; rfl
      · show (!e.g.paused || e.g.stepOnce) = false
        rw [hp', hs']; rfl
    unfold renderFrame
    simp only [hwork, Bool.not_false, if_true]
    rw [← hlog]
    unfold renderClear RunClear
    split_ifs
    · have h := kernelLog_Dispatch2D_cases (renderResolve ops e).gl
        (renderResolve ops e).g.internalW (renderResolve ops e).g.internalH GLEvent.clearDispatch
      simpa [GLEvent.isKernel] using h
    · exact Or.inl rfl

/-- While paused with no step request, `Render` leaves the frame index and the
stats alone, and the counter too unless it zeroes it in the clear. -/
theorem Render_paused_keeps (ops : FloatOps F) (s : Sys F) (vw vh : Int)
    (hp : s.g.paused = true) (hs : s.g.stepOnce = false) :
    ((Render ops s vw vh).g.sppAccum = s.g.sppAccum ∨ (Render ops s vw vh).g.sppAccum = 0) ∧
    (Render ops s vw vh).g.frameIndex = s.g.frameIndex ∧
    (Render ops s vw vh).g.stats = s.g.stats := by
  obtain ⟨a, b, c, d, t1, t2, t3, t4, t5, t6, t7, t8, t9, t10, dbg, r, hshape, _⟩ :=
    EnsureResources_shape ops s vw vh
  unfold Render
  simp only
  split_ifs
  · exact ⟨Or.inl rfl, rfl, rfl⟩
  · exact ⟨Or.inl rfl, rfl, rfl⟩
  · rw [hshape]; exact ⟨Or.inl rfl, rfl, rfl⟩
  · rw [hshape]; exact ⟨Or.inl rfl, rfl, rfl⟩
  · unfold renderTestPattern
    simp only
    rw [hshape]; exact ⟨Or.inl rfl, rfl, rfl⟩
  · generalize hers : (EnsureResources ops s vw vh).2 = e at hshape
    have hp' : e.g.paused = true := by rw [hshape]; exact hp
    have hs' : e.g.stepOnce = false := by rw [hshape]; exact hs
    have hwork : (!(renderClear (renderResolve ops e)).g.paused
        || (renderClear (renderResolve ops e)).g.stepOnce) = false := by
      unfold renderClear
      split_ifs
      · show (!e.g.paused || e.g.stepOnce) = false
        rw [hp', hs']; rfl
      · show (!e.g.paused || e.g.stepOnce) = false
        rw [hp', hs']; rfl
    have hacc : e.g.sppAccum = s.g.sppAccum := by rw [hshape]
    have hfi : e.g.frameIndex = s.g.frameIndex := by rw [hshape]
    have hstats : e.g.stats = s.g.stats := by rw [hshape]
    unfold renderFrame
    simp only [hwork, Bool.not_false, if_true]
    unfold renderClear
    split_ifs
    · exact ⟨Or.inr rfl, hfi, hstats⟩
    · exact ⟨Or.inl hacc, hfi, hstats⟩

theorem UploadScene_flag (ops : FloatOps F) (sel : NthElement) (s : Sys F)
    (tris : Option (List (TriInput F))) (mats : Option (List (MaterialInput F)))
    (hin : s.g.inited = true) :
    (UploadScene ops sel s tris mats).g.settings.resetAccumulation = true := by
  unfold UploadScene
  simp only [hin, Bool.not_true, Bool.false_eq_true, if_false]
  rfl

/-- The fields `UploadScene` leaves alone on an initialised tracer. -/
theorem UploadScene_keeps (ops : FloatOps F) (sel : NthElement) (s : Sys F)
    (tris : Option (List (TriInput F))) (mats : Option (List (MaterialInput F))) :
    (UploadScene ops sel s tris mats).g.inited = s.g.inited ∧
    (UploadScene ops sel s tris mats).g.paused = s.g.paused ∧
    (UploadScene ops sel s tris mats).g.stepOnce = s.g.stepOnce ∧
    (UploadScene ops sel s tris mats).g.forceTestPattern = s.g.forceTestPattern ∧
    (UploadScene ops sel s tris mats).g.settings.enabled = s.g.settings.enabled ∧
    (UploadScene ops sel s tris mats).g.settings.sppPerFrame = s.g.settings.sppPerFrame := by
  unfold UploadScene UploadSceneInternal
  split_ifs
  · exact ⟨rfl, rfl, rfl, rfl, rfl, rfl⟩
  · cases tris with
    | none => exact ⟨rfl, rfl, rfl, rfl, rfl, rfl⟩
    | some ts =>
      cases mats with
      | none => exact ⟨rfl, rfl, rfl, rfl, rfl, rfl⟩
      | some ms =>
        simp only
        split_ifs <;> exact ⟨rfl, rfl, rfl, rfl, rfl, rfl⟩

end RenderProofs

/-! ### Claims about the host state machine -/

section StateClaims

set_option linter.unusedSectionVars false

variable {F : Type} [LinearOrder F]

/-- C6. When `Render` is called with the reset flag set (tracer initialised and
enabled, resources available, test pattern off), the clear is the first dispatch
of the call; the pass, if one runs, follows it and its trace reads sample base 0;
the flag is clear on return; and when the frame is paused with no step request the
counter is 0 on return. -/
theorem c6_clear_precedes_trace (ops : FloatOps F) (s : Sys F) (vw vh : Int)
    (hin : s.g.inited = true) (hen : s.g.settings.enabled = true)
    (hflag : s.g.settings.resetAccumulation = true)
    (her : (EnsureResources ops s vw vh).1 = true) (htp : s.g.forceTestPattern = false) :
    kernelLog (Render ops s vw vh).gl = kernelLog s.gl ++ GLEvent.clearDispatch ::
      (if (!s.g.paused || s.g.stepOnce) = true then
        passEvents { (EnsureResources ops s vw vh).2.g with sppAccum := 0 }
       else []) ∧
    (passEvents { (EnsureResources ops s vw vh).2.g with sppAccum := 0 }).head?
      = some (GLEvent.traceDispatch 0 s.g.settings.sppPerFrame) ∧
    (Render ops s vw vh).g.settings.resetAccumulation = false ∧
    (s.g.paused = true → s.g.stepOnce = false → (Render ops s vw vh).g.sppAccum = 0) := by
  obtain ⟨h1, h2, h3, h4, _⟩ := EnsureResources_usable ops s vw vh her
  obtain ⟨a, b, c, d, t1, t2, t3, t4, t5, t6, t7, t8, t9, t10, dbg, r, hshape, hr⟩ :=
    EnsureResources_shape ops s vw vh
  have hlog := kernelLog_EnsureResources ops s vw vh
  rw [Render_eq_frame ops s vw vh hin hen her htp]
  obtain ⟨f1, f2, f3, _⟩ := renderFrame_spec ops (EnsureResources ops s vw vh).2 h1 h2 h3 h4
  have hfl : (EnsureResources ops s vw vh).2.g.settings.resetAccumulation = true := by
    rw [hshape]; exact hr hflag
  have hpa : (EnsureResources ops s vw vh).2.g.paused = s.g.paused := by rw [hshape]
  have hst : (EnsureResources ops s vw vh).2.g.stepOnce = s.g.stepOnce := by rw [hshape]
  have hspp : (EnsureResources ops s vw vh).2.g.settings.sppPerFrame = s.g.settings.sppPerFrame := by
    rw [hshape]
  rw [hfl, hpa, hst, hlog] at f1
  rw [hfl, hpa, hst] at f3
  simp only [if_true] at f1 f3
  refine ⟨?_, ?_, f2, ?_⟩
  · rw [f1, List.append_assoc, List.singleton_append]
  · unfold passEvents
    simp only [List.cons_append, List.head?_cons, Nat.zero_mod, hspp]
  · intro hp hs
    exact (f3 (by rw [hp, hs]; rfl)).1

/-- C7. A call of `SetCameraBasis` requests a reset exactly when no basis was stored
before (the first call) or one of the five tests holds, each written out in the
single-precision operations of the source: the squared position delta
`dx*dx + dy*dy + dz*dz` (with `dx = old.x - new.x` and so on) above `1e-8`;
`1 - (old.x*new.x + old.y*new.y + old.z*new.z)` above `1e-6` for forward, right
or up; `|old tanHalfFovY - new tanHalfFovY|` above `1e-5`. After the call the reset
flag is the old flag or-ed with the request, so a call that requests nothing keeps
a pending flag; and every call stores the new basis. -/
theorem c7_camera_reset_policy (ops : FloatOps F) (g : State F) (pos dir right up : Vec3 F)
    (t : F) :
    cameraRequestsReset ops g pos dir right up t =
      (!g.camOverride ||
        (decide (ops.lit (1 / 100000000) <
            ops.add
              (ops.add
                (ops.mul (ops.sub g.camPos.x pos.x) (ops.sub g.camPos.x pos.x))
                (ops.mul (ops.sub g.camPos.y pos.y) (ops.sub g.camPos.y pos.y)))
              (ops.mul (ops.sub g.camPos.z pos.z) (ops.sub g.camPos.z pos.z))) ||
         decide (ops.lit (1 / 1000000) <
            ops.sub (ops.lit 1)
              (ops.add (ops.add (ops.mul g.camDir.x dir.x) (ops.mul g.camDir.y dir.y))
                (ops.mul g.camDir.z dir.z))) ||
         decide (ops.lit (1 / 1000000) <
            ops.sub (ops.lit 1)
              (ops.add (ops.add (ops.mul g.camRight.x right.x) (ops.mul g.camRight.y right.y))
                (ops.mul g.camRight.z right.z))) ||
         decide (ops.lit (1 / 1000000) <
            ops.sub (ops.lit 1)
              (ops.add (ops.add (ops.mul g.camUp.x up.x) (ops.mul g.camUp.y up.y))
                (ops.mul g.camUp.z up.z))) ||
         decide (ops.lit (1 / 100000) < ops.abs (ops.sub g.camTanHalfFovY t)))) ∧
    (SetCameraBasis ops g pos dir right up t).settings.resetAccumulation =
      (g.settings.resetAccumulation || cameraRequestsReset ops g pos dir right up t) ∧
    (SetCameraBasis ops g pos dir right up t).camOverride = true ∧
    (SetCameraBasis ops g pos dir right up t).camPos = pos ∧
    (SetCameraBasis ops g pos dir right up t).camDir = dir ∧
    (SetCameraBasis ops g pos dir right up t).camRight = right ∧
    (SetCameraBasis ops g pos dir right up t).camUp = up ∧
    (SetCameraBasis ops g pos dir right up t).camTanHalfFovY = t := by
  refine ⟨?_, ?_, ?_, ?_, ?_, ?_, ?_, ?_⟩
  · unfold cameraRequestsReset cameraChanged dist2 dot3
    cases g.camOverride <;> simp
  all_goals
    unfold SetCameraBasis
    simp only
    cases cameraRequestsReset ops g pos dir right up t
    · simp
    · simp [RequestReset]

/-- C8. On an initialised tracer every `UploadScene` call, whatever its arguments,
and every `ClearScene` call leave the reset flag set on return. -/
theorem c8_upload_and_clear_request_reset (ops : FloatOps F) (sel : NthElement) (s : Sys F)
    (tris : Option (List (TriInput F))) (mats : Option (List (MaterialInput F)))
    (hin : s.g.inited = true) :
    (UploadScene ops sel s tris mats).g.settings.resetAccumulation = true ∧
    (ClearScene s).g.settings.resetAccumulation = true :=
  ⟨UploadScene_flag ops sel s tris mats hin, rfl⟩

/-- C9. A `Render` call that runs a pass (tracer initialised and enabled, resources
available, test pattern off, not paused or a step pending) dispatches trace with
the counter value `c` it starts from as sample base, then accumulate, and then adds
`max(1, sppPerFrame)` to the 64-bit counter: it returns with the counter at
`c + max(1, sppPerFrame)` (exactly that whenever the sum is below `2^64`) and with
the same value in `stats.sppAccumulated`; `c` is 0 when the clear ran. In particular
after `UploadScene` one such frame with `sppPerFrame = 1` returns with the counter
at 1. -/
theorem c9_counter_advances_by_spp (ops : FloatOps F) (s : Sys F) (vw vh : Int)
    (hin : s.g.inited = true) (hen : s.g.settings.enabled = true)
    (her : (EnsureResources ops s vw vh).1 = true) (htp : s.g.forceTestPattern = false)
    (hwork : (!s.g.paused || s.g.stepOnce) = true) :
    (Render ops s vw vh).g.sppAccum =
      ((if (EnsureResources ops s vw vh).2.g.settings.resetAccumulation then 0 else s.g.sppAccum)
        + (max 1 s.g.settings.sppPerFrame).toNat) % 18446744073709551616 ∧
    ((if (EnsureResources ops s vw vh).2.g.settings.resetAccumulation then 0 else s.g.sppAccum)
        + (max 1 s.g.settings.sppPerFrame).toNat < 18446744073709551616 →
      (Render ops s vw vh).g.sppAccum =
        (if (EnsureResources ops s vw vh).2.g.settings.resetAccumulation then 0
          else s.g.sppAccum) + (max 1 s.g.settings.sppPerFrame).toNat) ∧
    (Render ops s vw vh).g.stats.sppAccumulated = (Render ops s vw vh).g.sppAccum ∧
    kernelLog (Render ops s vw vh).gl = kernelLog s.gl ++
      (if (EnsureResources ops s vw vh).2.g.settings.resetAccumulation
        then [GLEvent.clearDispatch] else []) ++
      passEvents { (EnsureResources ops s vw vh).2.g with
        sppAccum := if (EnsureResources ops s vw vh).2.g.settings.resetAccumulation then 0
          else s.g.sppAccum } ∧
    (∀ (sel : NthElement) (s0 : Sys F) (tris : Option (List (TriInput F)))
        (mats : Option (List (MaterialInput F))),
      s = UploadScene ops sel s0 tris mats → s0.g.inited = true →
      s.g.settings.sppPerFrame = 1 → (Render ops s vw vh).g.sppAccum = 1) := by
  obtain ⟨h1, h2, h3, h4, _⟩ := EnsureResources_usable ops s vw vh her
  obtain ⟨a, b, c, d, t1, t2, t3, t4, t5, t6, t7, t8, t9, t10, dbg, r, hshape, hr⟩ :=
    EnsureResources_shape ops s vw vh
  have hlog := kernelLog_EnsureResources ops s vw vh
  rw [Render_eq_frame ops s vw vh hin hen her htp]
  obtain ⟨f1, _, _, f4⟩ := renderFrame_spec ops (EnsureResources ops s vw vh).2 h1 h2 h3 h4
  have hpa : (EnsureResources ops s vw vh).2.g.paused = s.g.paused := by rw [hshape]
  have hst : (EnsureResources ops s vw vh).2.g.stepOnce = s.g.stepOnce := by rw [hshape]
  have hspp : (EnsureResources ops s vw vh).2.g.settings.sppPerFrame = s.g.settings.sppPerFrame := by
    rw [hshape]
  have hacc : (EnsureResources ops s vw vh).2.g.sppAccum = s.g.sppAccum := by rw [hshape]
  rw [hpa, hst, hlog, hacc] at f1
  rw [hpa, hst, hacc, hspp] at f4
  obtain ⟨g1, g2, _⟩ := f4 hwork
  refine ⟨g1, ?_, g2, ?_, ?_⟩
  · intro hno
    rw [g1, Nat.mod_eq_of_lt hno]
  · rw [f1, if_pos hwork]
  · intro sel s0 tris mats hs hin0 hspp1
    have hfl : s.g.settings.resetAccumulation = true := by
      rw [hs]; exact UploadScene_flag ops sel s0 tris mats hin0
    have hfl' : (EnsureResources ops s vw vh).2.g.settings.resetAccumulation = true := by
      rw [hshape]; exact hr hfl
    rw [g1, hfl', hspp1]
    rfl

/-- C10, as amended. Provided the tracer is initialised and enabled, the resources
are available and the test pattern is off, `Render` dispatches a pass (after the
clear, if one is pending) exactly when it is not paused or a step is pending. In
every call made while paused with no step request, the counter (apart from a
clear), the frame index and the stats are unchanged and no pass is dispatched.
Under the same proviso a call made while paused with a step request runs the pass
and returns with `stepOnce` false and `paused` true, so that the `Render` that
follows dispatches no pass. The `Step` button produces such a request. -/
theorem c10_pause_and_step (ops : FloatOps F) (s : Sys F) (vw vh : Int) :
    (s.g.inited = true → s.g.settings.enabled = true →
      (EnsureResources ops s vw vh).1 = true → s.g.forceTestPattern = false →
      kernelLog (Render ops s vw vh).gl = kernelLog s.gl ++
        (if (EnsureResources ops s vw vh).2.g.settings.resetAccumulation
          then [GLEvent.clearDispatch] else []) ++
        (if (!s.g.paused || s.g.stepOnce) = true then
          passEvents { (EnsureResources ops s vw vh).2.g with
            sppAccum := if (EnsureResources ops s vw vh).2.g.settings.resetAccumulation then 0
              else s.g.sppAccum }
         else [])) ∧
    (s.g.paused = true → s.g.stepOnce = false →
      ((Render ops s vw vh).g.sppAccum = s.g.sppAccum ∨ (Render ops s vw vh).g.sppAccum = 0) ∧
      (Render ops s vw vh).g.frameIndex = s.g.frameIndex ∧
      (Render ops s vw vh).g.stats = s.g.stats ∧
      (kernelLog (Render ops s vw vh).gl = kernelLog s.gl ∨
        kernelLog (Render ops s vw vh).gl = kernelLog s.gl ++ [GLEvent.clearDispatch])) ∧
    (s.g.inited = true → s.g.settings.enabled = true →
      (EnsureResources ops s vw vh).1 = true → s.g.forceTestPattern = false →
      s.g.paused = true → s.g.stepOnce = true →
      (Render ops s vw vh).g.stepOnce = false ∧ (Render ops s vw vh).g.paused = true ∧
      ∀ vw' vh' : Int,
        kernelLog (Render ops (Render ops s vw vh) vw' vh').gl
            = kernelLog (Render ops s vw vh).gl ∨
        kernelLog (Render ops (Render ops s vw vh) vw' vh').gl
            = kernelLog (Render ops s vw vh).gl ++ [GLEvent.clearDispatch]) ∧
    ((pressStep s.g).paused = true ∧ (pressStep s.g).stepOnce = true) := by
  obtain ⟨a, b, c, d, t1, t2, t3, t4, t5, t6, t7, t8, t9, t10, dbg, r, hshape, hr⟩ :=
    EnsureResources_shape ops s vw vh
  have hlog := kernelLog_EnsureResources ops s vw vh
  have hpa : (EnsureResources ops s vw vh).2.g.paused = s.g.paused := by rw [hshape]
  have hst : (EnsureResources ops s vw vh).2.g.stepOnce = s.g.stepOnce := by rw [hshape]
  have hacc : (EnsureResources ops s vw vh).2.g.sppAccum = s.g.sppAccum := by rw [hshape]
  refine ⟨?_, ?_, ?_, rfl, rfl⟩
  · intro hin hen her htp
    obtain ⟨h1, h2, h3, h4, _⟩ := EnsureResources_usable ops s vw vh her
    obtain ⟨f1, _, _, _⟩ := renderFrame_spec ops (EnsureResources ops s vw vh).2 h1 h2 h3 h4
    rw [hpa, hst, hlog, hacc] at f1
    rw [Render_eq_frame ops s vw vh hin hen her htp]
    exact f1
  · intro hp hs
    obtain ⟨k1, k2, k3⟩ := Render_paused_keeps ops s vw vh hp hs
    exact ⟨k1, k2, k3, Render_paused_no_pass ops s vw vh hp hs⟩
  · intro hin hen her htp hp hs
    obtain ⟨h1, h2, h3, h4, _⟩ := EnsureResources_usable ops s vw vh her
    obtain ⟨_, _, _, f4⟩ := renderFrame_spec ops (EnsureResources ops s vw vh).2 h1 h2 h3 h4
    rw [hpa, hst] at f4
    obtain ⟨_, _, _, _, g5, g6⟩ := f4 (by rw [hp, hs]; rfl)
    rw [← Render_eq_frame ops s vw vh hin hen her htp] at g5 g6
    refine ⟨g6, by rw [g5]; exact hp, ?_⟩
    intro vw' vh'
    exact Render_paused_no_pass ops (Render ops s vw vh) vw' vh' (by rw [g5]; exact hp) g6

end StateClaims

/-! ### Node count -/

section BuilderClaims

set_option linter.unusedSectionVars false

variable {F : Type} [LinearOrder F]

/-- C3. For `1 ≤ N < 2^32` triangles the node array built has at most `2N - 1`
entries; `UploadScene` stores exactly that length in `sceneNodeCount`, and the next
`Render` that runs a pass reports it as `stats.nodeCount`. -/
theorem c3_node_count_bound (ops : FloatOps F) (sel : NthElement) (info : List (TriBounds F))
    (h1 : 0 < info.length) (h2 : info.length < 4294967296) :
    (buildScene ops sel info).nodes.length ≤ 2 * info.length - 1 ∧
    (∀ (s : Sys F) (tris : List (TriInput F)) (mats : List (MaterialInput F)) (vw vh : Int),
      tris.map (triBoundsOf ops) = info → mats ≠ [] → s.g.inited = true →
      (UploadScene ops sel s (some tris) (some mats)).g.sceneNodeCount
        = (buildScene ops sel info).nodes.length ∧
      ((UploadScene ops sel s (some tris) (some mats)).g.settings.enabled = true →
        (EnsureResources ops (UploadScene ops sel s (some tris) (some mats)) vw vh).1 = true →
        (UploadScene ops sel s (some tris) (some mats)).g.forceTestPattern = false →
        (!(UploadScene ops sel s (some tris) (some mats)).g.paused
          || (UploadScene ops sel s (some tris) (some mats)).g.stepOnce) = true →
        (Render ops (UploadScene ops sel s (some tris) (some mats)) vw vh).g.stats.nodeCount
          = (buildScene ops sel info).nodes.length)) := by
  obtain ⟨_, _, hsub⟩ := buildScene_spec ops sel info h1 h2
  have hle := hsub.size_le
  have hlt : (buildScene ops sel info).nodes.length < 4294967296 := by
    by_cases h4 : 4 ≤ info.length
    · have := hsub.size_le_half h4
      omega
    · omega
  refine ⟨by omega, ?_⟩
  intro s tris mats vw vh htris hmats hin
  have hcount : (UploadScene ops sel s (some tris) (some mats)).g.sceneNodeCount
      = (buildScene ops sel info).nodes.length := by
    have htl : tris.length ≠ 0 := by
      have : tris.length = info.length := by rw [← htris, List.length_map]
      omega
    have hml : mats.length ≠ 0 := by
      intro h; exact hmats (List.length_eq_zero.mp h)
    unfold UploadScene UploadSceneInternal
    simp only [hin, Bool.not_true, Bool.false_eq_true, if_false, htl, hml, or_self, htris]
    exact Nat.mod_eq_of_lt hlt
  refine ⟨hcount, ?_⟩
  intro hen her htp hwork
  have hin' : (UploadScene ops sel s (some tris) (some mats)).g.inited = true := by
    rw [(UploadScene_keeps ops sel s (some tris) (some mats)).1]; exact hin
  generalize UploadScene ops sel s (some tris) (some mats) = s' at hcount hen her htp hwork hin'
  obtain ⟨e1, e2, e3, e4, _⟩ := EnsureResources_usable ops s' vw vh her
  obtain ⟨a, b, c, d, t1, t2, t3, t4, t5, t6, t7, t8, t9, t10, dbg, r, hshape, _⟩ :=
    EnsureResources_shape ops s' vw vh
  rw [Render_eq_frame ops s' vw vh hin' hen her htp]
  obtain ⟨_, _, _, f4⟩ := renderFrame_spec ops (EnsureResources ops s' vw vh).2 e1 e2 e3 e4
  have hpa : (EnsureResources ops s' vw vh).2.g.paused = s'.g.paused := by rw [hshape]
  have hst : (EnsureResources ops s' vw vh).2.g.stepOnce = s'.g.stepOnce := by rw [hshape]
  have hnc : (EnsureResources ops s' vw vh).2.g.sceneNodeCount = s'.g.sceneNodeCount := by
    rw [hshape]
  rw [hpa, hst] at f4
  obtain ⟨_, _, g3, _⟩ := f4 hwork
  rw [g3, hnc, hcount]

end BuilderClaims

/-! ### Instances of the claims on the freshly initialised tracer -/

theorem c3_node_count_bound_witness :
    (0 < ([unitTri].map (triBoundsOf exactOps)).length ∧
      ([unitTri].map (triBoundsOf exactOps)).length < 4294967296) ∧
    (buildScene exactOps sortingNth ([unitTri].map (triBoundsOf exactOps))).nodes.length
      ≤ 2 * ([unitTri].map (triBoundsOf exactOps)).length - 1 ∧
    (UploadScene exactOps sortingNth (demoSys false false false) (some [unitTri])
        (some [whiteMaterial])).g.sceneNodeCount
      = (buildScene exactOps sortingNth ([unitTri].map (triBoundsOf exactOps))).nodes.length :=
  ⟨⟨by decide, by decide⟩,
    (c3_node_count_bound exactOps sortingNth ([unitTri].map (triBoundsOf exactOps))
      (by decide) (by decide)).1,
    ((c3_node_count_bound exactOps sortingNth ([unitTri].map (triBoundsOf exactOps))
      (by decide) (by decide)).2 (demoSys false false false) [unitTri] [whiteMaterial] 4 4 rfl
      (List.cons_ne_nil _ _) rfl).1⟩

theorem c6_clear_precedes_trace_witness :
    ((demoSys false false true).g.inited = true ∧
      (demoSys false false true).g.settings.enabled = true ∧
      (demoSys false false true).g.settings.resetAccumulation = true ∧
      (EnsureResources exactOps (demoSys false false true) 4 4).1 = true ∧
      (demoSys false false true).g.forceTestPattern = false) ∧
    (Render exactOps (demoSys false false true) 4 4).g.settings.resetAccumulation = false :=
  ⟨⟨rfl, rfl, rfl, by decide!, rfl⟩,
    (c6_clear_precedes_trace exactOps (demoSys false false true) 4 4 rfl rfl rfl
      (by decide!) rfl).2.2.1⟩

theorem c8_upload_and_clear_request_reset_witness :
    (demoSys false false false).g.inited = true ∧
    (UploadScene exactOps sortingNth (demoSys false false false) (some [unitTri])
        (some [whiteMaterial])).g.settings.resetAccumulation = true ∧
    (ClearScene (demoSys false false false)).g.settings.resetAccumulation = true :=
  ⟨rfl, c8_upload_and_clear_request_reset exactOps sortingNth (demoSys false false false)
    (some [unitTri]) (some [whiteMaterial]) rfl⟩

theorem c9_counter_advances_by_spp_witness :
    (uploadedSys.g.inited = true ∧ uploadedSys.g.settings.enabled = true ∧
      (EnsureResources exactOps uploadedSys 4 4).1 = true ∧
      uploadedSys.g.forceTestPattern = false ∧
      (!uploadedSys.g.paused || uploadedSys.g.stepOnce) = true) ∧
    (Render exactOps uploadedSys 4 4).g.stats.sppAccumulated
      = (Render exactOps uploadedSys 4 4).g.sppAccum ∧
    (Render exactOps uploadedSys 4 4).g.sppAccum = 1 :=
  ⟨⟨rfl, rfl, by decide!, rfl, rfl⟩,
    (c9_counter_advances_by_spp exactOps uploadedSys 4 4 rfl rfl (by decide!) rfl rfl).2.2.1,
    (c9_counter_advances_by_spp exactOps uploadedSys 4 4 rfl rfl
      (by decide!) rfl rfl).2.2.2.2 sortingNth (demoSys false false false)
      (some [unitTri]) (some [whiteMaterial]) rfl rfl rfl⟩

/-- C10 as stated fails: on a tracer that is initialised and not paused but not
enabled, `Render` returns at its second guard and issues no command at all. -/
theorem c10_unpaused_render_without_pass :
    disabledSys.g.inited = true ∧
    (!disabledSys.g.paused || disabledSys.g.stepOnce) = true ∧
    (Render exactOps disabledSys 4 4).gl.log = disabledSys.gl.log ∧
    kernelLog (Render exactOps disabledSys 4 4).gl = [] :=
  ⟨rfl, rfl, rfl, rfl⟩

theorem c10_pause_and_step_witness :
    ((demoSys true true false).g.inited = true ∧
      (demoSys true true false).g.settings.enabled = true ∧
      (EnsureResources exactOps (demoSys true true false) 4 4).1 = true ∧
      (demoSys true true false).g.forceTestPattern = false ∧
      (demoSys true true false).g.paused = true ∧
      (demoSys true true false).g.stepOnce = true) ∧
    ((Render exactOps (demoSys true true false) 4 4).g.stepOnce = false ∧
      (Render exactOps (demoSys true true false) 4 4).g.paused = true) :=
  ⟨⟨rfl, rfl, by decide!, rfl, rfl, rfl⟩,
    ⟨((c10_pause_and_step exactOps (demoSys true true false) 4 4).2.2.1 rfl rfl
        (by decide!) rfl rfl rfl).1,
     ((c10_pause_and_step exactOps (demoSys true true false) 4 4).2.2.1 rfl rfl
        (by decide!) rfl rfl rfl).2.1⟩⟩

/-! ## Proofs: device resources -/

section ResourceProofs

set_option linter.unusedSectionVars false

variable {F : Type} [LinearOrder F]

theorem destroyEvents_cons (a : Nat) (l : List Nat) :
    destroyEvents (a :: l) = destroyEvents [a] ++ destroyEvents l := by
  unfold destroyEvents
  by_cases h : a = 0 <;> simp [h]

theorem destroyEvents_append (l1 l2 : List Nat) :
    destroyEvents (l1 ++ l2) = destroyEvents l1 ++ destroyEvents l2 := by
  unfold destroyEvents
  simp only [List.filter_append, List.map_append]

theorem DestroyTex_log (gl : GLContext F) (t : Nat) :
    (DestroyTex gl t).log = gl.log ++ destroyEvents [t] := by
  unfold DestroyTex destroyEvents GLContext.emit
  by_cases h : t = 0 <;> simp [h]

theorem DestroyAllTextures_log (s : Sys F) :
    (DestroyAllTextures s).gl.log = s.gl.log ++ destroyEvents (imageHandles s.g) := by
  unfold DestroyAllTextures imageHandles internalHandles
  simp only [DestroyTex_log, List.append_assoc, ← destroyEvents_append, List.cons_append,
    List.nil_append]

theorem CreateTex2D_log (gl : GLContext F) (w h : Int) (hw : 1 ≤ w) (hh : 1 ≤ h) :
    (CreateTex2D gl w h).2.log = gl.log ++ [GLEvent.createTex w h (CreateTex2D gl w h).1] := by
  unfold CreateTex2D
  rw [if_neg (by omega)]
  cases hs : gl.allocScript with
  | nil => rfl
  | cons r rest =>
    simp only
    split_ifs with h2 <;> rfl

theorem CreateTex2D_defined (gl : GLContext F) (w h : Int) :
    IsTexLevelDefined2D (CreateTex2D gl w h).2 (CreateTex2D gl w h).1
      = decide ((CreateTex2D gl w h).1 ≠ 0) := by
  unfold CreateTex2D
  split_ifs with h1
  · simp [IsTexLevelDefined2D]
  · cases hs : gl.allocScript with
    | nil => simp [IsTexLevelDefined2D]
    | cons r rest =>
      simp only
      split_ifs with h2
      · simp [IsTexLevelDefined2D]
      · simp [IsTexLevelDefined2D, GLContext.emit, h2]

theorem recreateAll_log (s : Sys F) (vw vh iw ih : Int)
    (h1 : 1 ≤ vw) (h2 : 1 ≤ vh) (h3 : 1 ≤ iw) (h4 : 1 ≤ ih) :
    (recreateAll s vw vh iw ih).gl.log = s.gl.log ++ destroyEvents (imageHandles s.g) ++
      createEvents iw ih (internalHandles (recreateAll s vw vh iw ih).g) ++
      [GLEvent.createTex vw vh (recreateAll s vw vh iw ih).g.texOutputLDR] := by
  unfold recreateAll
  simp only [CreateTex2D_log _ _ _ h3 h4, CreateTex2D_log _ _ _ h1 h2, DestroyAllTextures_log,
    createEvents, internalHandles, List.map_cons, List.map_nil, List.append_assoc,
    List.cons_append, List.nil_append]

theorem recreateAll_ignores_viewport (s : Sys F) (a b vw vh iw ih : Int) :
    recreateAll { s with g := { s.g with viewportW := a, viewportH := b } } vw vh iw ih
      = recreateAll s vw vh iw ih := rfl

theorem EnsureResources_unfold (ops : FloatOps F) (s : Sys F) (vw vh : Int) :
    EnsureResources ops s vw vh =
      if !needInternalRecreate ops s vw vh && !needOutputRecreate s vw vh then
        (true, { s with g := { s.g with viewportW := max 1 vw, viewportH := max 1 vh } })
      else if needInternalRecreate ops s vw vh then
        if internalMissing (recreateAll s (max 1 vw) (max 1 vh) (internalSize ops s.g vw vh).1
              (internalSize ops s.g vw vh).2) ||
            !IsTexLevelDefined2D
              (recreateAll s (max 1 vw) (max 1 vh) (internalSize ops s.g vw vh).1
                (internalSize ops s.g vw vh).2).gl
              (recreateAll s (max 1 vw) (max 1 vh) (internalSize ops s.g vw vh).1
                (internalSize ops s.g vw vh).2).g.texOutputLDR then
          (false, DestroyAllTextures (recreateAll s (max 1 vw) (max 1 vh)
            (internalSize ops s.g vw vh).1 (internalSize ops s.g vw vh).2))
        else
          (true,
            { g := { (recreateAll s (max 1 vw) (max 1 vh) (internalSize ops s.g vw vh).1
                  (internalSize ops s.g vw vh).2).g with
                settings := { s.g.settings with resetAccumulation := true },
                debugGLFrames := 4 },
              gl := (recreateAll s (max 1 vw) (max 1 vh) (internalSize ops s.g vw vh).1
                  (internalSize ops s.g vw vh).2).gl })
      else
        if !IsTexLevelDefined2D
            (CreateTex2D (DestroyTex s.gl s.g.texOutputLDR) (max 1 vw) (max 1 vh)).2
            (CreateTex2D (DestroyTex s.gl s.g.texOutputLDR) (max 1 vw) (max 1 vh)).1 then
          (false,
            { g := { s.g with
                viewportW := max 1 vw, viewportH := max 1 vh,
                texOutputLDR :=
                  (CreateTex2D (DestroyTex s.gl s.g.texOutputLDR) (max 1 vw) (max 1 vh)).1 },
              gl := (CreateTex2D (DestroyTex s.gl s.g.texOutputLDR) (max 1 vw) (max 1 vh)).2 })
        else
          (true,
            { g := { s.g with
                viewportW := max 1 vw, viewportH := max 1 vh,
                texOutputLDR :=
                  (CreateTex2D (DestroyTex s.gl s.g.texOutputLDR) (max 1 vw) (max 1 vh)).1,
                debugGLFrames := 4 },
              gl := (CreateTex2D (DestroyTex s.gl s.g.texOutputLDR) (max 1 vw) (max 1 vh)).2 }) :=
  rfl

/-- Nothing to recreate: the call succeeds and leaves the state as it is. -/
theorem EnsureResources_keep (ops : FloatOps F) (s : Sys F) (vw vh : Int)
    (h1 : needInternalRecreate ops s vw vh = false) (h2 : needOutputRecreate s vw vh = false) :
    EnsureResources ops s vw vh = (true, s) := by
  rw [EnsureResources_unfold, h1, h2]
  simp only [needOutputRecreate, Bool.or_eq_false_iff, decide_eq_false_iff_not, ne_eq,
    not_not] at h2
  obtain ⟨⟨hw, hh⟩, _⟩ := h2
  simp only [Bool.not_false, Bool.and_self, if_true, hw, hh]

theorem IsTexLevelDefined2D_ne_zero (gl : GLContext F) (h : Nat)
    (hd : IsTexLevelDefined2D gl h = true) : h ≠ 0 := by
  unfold IsTexLevelDefined2D at hd
  simp only [Bool.and_eq_true, decide_eq_true_eq] at hd
  exact hd.1

theorem internalMissing_false (s : Sys F) :
    internalMissing s = false ↔ ∀ h ∈ internalHandles s.g, IsTexLevelDefined2D s.gl h = true := by
  unfold internalMissing internalHandles
  simp only [Bool.or_eq_false_iff, Bool.not_eq_false', List.mem_cons, List.mem_singleton,
    List.not_mem_nil, or_false, forall_eq_or_imp, forall_eq]
  tauto

theorem internalHandles_ne_zero (s : Sys F) (hm : internalMissing s = false) :
    ∀ h ∈ internalHandles s.g, h ≠ 0 := fun h hh =>
  IsTexLevelDefined2D_ne_zero s.gl h ((internalMissing_false s).mp hm h hh)

/-- The internal-recreate branch of `EnsureResources`, by what it logs and leaves: all
ten images are destroyed, ten allocations follow (`ts` the results of the nine
internal ones, `t` that of the output image); a failed allocation makes the call
fail and destroy again whatever was allocated; on success the new handles are
stored and the reset flag is set. -/
theorem EnsureResources_recreate (ops : FloatOps F) (s : Sys F) (vw vh : Int)
    (h : needInternalRecreate ops s vw vh = true) :
    ∃ (ts : List Nat) (t : Nat), ts.length = 9 ∧
      (EnsureResources ops s vw vh).2.gl.log = s.gl.log ++ destroyEvents (imageHandles s.g) ++
        createEvents (internalSize ops s.g vw vh).1 (internalSize ops s.g vw vh).2 ts ++
        [GLEvent.createTex (max 1 vw) (max 1 vh) t] ++
        (if (EnsureResources ops s vw vh).1 then [] else destroyEvents (ts ++ [t])) ∧
      ((0 ∈ ts ∨ t = 0) → (EnsureResources ops s vw vh).1 = false) ∧
      ((EnsureResources ops s vw vh).1 = true →
        internalHandles (EnsureResources ops s vw vh).2.g = ts ∧
        (EnsureResources ops s vw vh).2.g.texOutputLDR = t ∧
        (EnsureResources ops s vw vh).2.g.settings.resetAccumulation = true ∧
        (EnsureResources ops s vw vh).2.g.internalW = (internalSize ops s.g vw vh).1 ∧
        (EnsureResources ops s vw vh).2.g.internalH = (internalSize ops s.g vw vh).2) ∧
      ((EnsureResources ops s vw vh).1 = false →
        imageHandles (EnsureResources ops s vw vh).2.g = List.replicate 10 0) := by
  have hlog := recreateAll_log s (max 1 vw) (max 1 vh) (internalSize ops s.g vw vh).1
    (internalSize ops s.g vw vh).2 (le_max_left _ _) (le_max_left _ _)
    (internalDim_pos _ _ _) (internalDim_pos _ _ _)
  generalize hra : recreateAll s (max 1 vw) (max 1 vh) (internalSize ops s.g vw vh).1
    (internalSize ops s.g vw vh).2 = ra at hlog
  have hdims : ra.g.internalW = (internalSize ops s.g vw vh).1 ∧
      ra.g.internalH = (internalSize ops s.g vw vh).2 := by
    rw [← hra]; exact ⟨rfl, rfl⟩
  refine ⟨internalHandles ra.g, ra.g.texOutputLDR, rfl, ?_⟩
  rw [EnsureResources_unfold, h, hra]
  simp only [Bool.not_true, Bool.false_and, Bool.false_eq_true, if_false, if_true]
  by_cases hc : (internalMissing ra || !IsTexLevelDefined2D ra.gl ra.g.texOutputLDR) = true
  · rw [if_pos hc]
    refine ⟨?_, fun _ => rfl, fun hf => absurd hf (by simp), fun _ => rfl⟩
    rw [DestroyAllTextures_log, hlog]
    simp only [Bool.false_eq_true, if_false, imageHandles]
  · rw [if_neg hc]
    simp only [Bool.or_eq_true, Bool.not_eq_true', not_or, Bool.not_eq_true,
      Bool.not_eq_false] at hc
    refine ⟨?_, ?_, fun _ => ⟨rfl, rfl, rfl, hdims.1, hdims.2⟩, fun hf => absurd hf (by simp)⟩
    · rw [hlog]
      simp only [if_true, List.append_nil]
    · rintro (h0 | h0)
      · exact absurd rfl (internalHandles_ne_zero ra hc.1 0 h0)
      · exact absurd h0 (IsTexLevelDefined2D_ne_zero _ _ hc.2)

/-- The output-only branch of `EnsureResources`: the output image is destroyed and
allocated anew, nothing else changes; the call fails exactly when the allocation
returns `0`. -/
theorem EnsureResources_output (ops : FloatOps F) (s : Sys F) (vw vh : Int)
    (h1 : needInternalRecreate ops s vw vh = false) (h2 : needOutputRecreate s vw vh = true) :
    EnsureResources ops s vw vh =
      (decide ((CreateTex2D (DestroyTex s.gl s.g.texOutputLDR) (max 1 vw) (max 1 vh)).1 ≠ 0),
        { g := { s.g with
            viewportW := max 1 vw, viewportH := max 1 vh,
            texOutputLDR :=
              (CreateTex2D (DestroyTex s.gl s.g.texOutputLDR) (max 1 vw) (max 1 vh)).1,
            debugGLFrames :=
              if (CreateTex2D (DestroyTex s.gl s.g.texOutputLDR) (max 1 vw) (max 1 vh)).1 ≠ 0
              then 4 else s.g.debugGLFrames },
          gl := (CreateTex2D (DestroyTex s.gl s.g.texOutputLDR) (max 1 vw) (max 1 vh)).2 }) := by
  rw [EnsureResources_unfold, h1, h2, CreateTex2D_defined]
  by_cases hz : (CreateTex2D (DestroyTex s.gl s.g.texOutputLDR) (max 1 vw) (max 1 vh)).1 = 0
  · simp [hz]
  · simp [hz]

end ResourceProofs

section ResourceLemmas

set_option linter.unusedSectionVars false

variable {F : Type} [LinearOrder F]

theorem needInternalRecreate_false (ops : FloatOps F) (s : Sys F) (vw vh : Int) :
    needInternalRecreate ops s vw vh = false ↔
      internalSize ops s.g vw vh = (s.g.internalW, s.g.internalH) ∧ internalMissing s = false := by
  unfold needInternalRecreate
  simp only [Bool.or_eq_false_iff, decide_eq_false_iff_not, ne_eq, not_not]
  constructor
  · rintro ⟨⟨h1, h2⟩, h3⟩
    exact ⟨Prod.ext h1 h2, h3⟩
  · rintro ⟨h1, h3⟩
    rw [h1]
    exact ⟨⟨rfl, rfl⟩, h3⟩

theorem needOutputRecreate_false (s : Sys F) (vw vh : Int) :
    needOutputRecreate s vw vh = false ↔
      max 1 vw = s.g.viewportW ∧ max 1 vh = s.g.viewportH ∧
      IsTexLevelDefined2D s.gl s.g.texOutputLDR = true := by
  unfold needOutputRecreate
  simp only [Bool.or_eq_false_iff, decide_eq_false_iff_not, ne_eq, not_not, Bool.not_eq_false',
    and_assoc]

/-- After a successful `EnsureResources` the stored sizes are the clamped viewport and
the internal size computed from it. -/
theorem EnsureResources_sizes (ops : FloatOps F) (s : Sys F) (vw vh : Int)
    (h : (EnsureResources ops s vw vh).1 = true) :
    (EnsureResources ops s vw vh).2.g.viewportW = max 1 vw ∧
    (EnsureResources ops s vw vh).2.g.viewportH = max 1 vh ∧
    (EnsureResources ops s vw vh).2.g.internalW = (internalSize ops s.g vw vh).1 ∧
    (EnsureResources ops s vw vh).2.g.internalH = (internalSize ops s.g vw vh).2 := by
  by_cases h1 : needInternalRecreate ops s vw vh = true
  · rw [EnsureResources_unfold, h1] at h ⊢
    simp only [Bool.not_true, Bool.false_and, Bool.false_eq_true, if_false, if_true] at h ⊢
    split_ifs at h ⊢
    exact ⟨rfl, rfl, rfl, rfl⟩
  · have h1' : needInternalRecreate ops s vw vh = false := by simpa using h1
    obtain ⟨hsz, _⟩ := (needInternalRecreate_false ops s vw vh).mp h1'
    rw [EnsureResources_unfold, h1']
    simp only [Bool.not_false, Bool.true_and, Bool.false_eq_true, if_false]
    split_ifs
    all_goals first
      | exact ⟨rfl, rfl, by rw [hsz], by rw [hsz]⟩

/-- After a successful `EnsureResources` none of the ten handles is zero. -/
theorem EnsureResources_handles_ne_zero (ops : FloatOps F) (s : Sys F) (vw vh : Int)
    (h : (EnsureResources ops s vw vh).1 = true) :
    ∀ x ∈ imageHandles (EnsureResources ops s vw vh).2.g, x ≠ 0 := by
  intro x hx
  by_cases h1 : needInternalRecreate ops s vw vh = true
  · obtain ⟨ts, t, _, _, hfail, hok, _⟩ := EnsureResources_recreate ops s vw vh h1
    obtain ⟨e1, e2, _⟩ := hok h
    intro hx0
    subst hx0
    have := hfail (by
      unfold imageHandles at hx
      rw [e1, e2] at hx
      rcases List.mem_append.mp hx with hx | hx
      · exact Or.inl hx
      · exact Or.inr (List.mem_singleton.mp hx).symm)
    rw [h] at this
    cases this
  · have h1' : needInternalRecreate ops s vw vh = false := by simpa using h1
    obtain ⟨_, hm⟩ := (needInternalRecreate_false ops s vw vh).mp h1'
    have hint := internalHandles_ne_zero s hm
    by_cases h2 : needOutputRecreate s vw vh = true
    · rw [EnsureResources_output ops s vw vh h1' h2] at h hx
      simp only [decide_eq_true_eq] at h
      unfold imageHandles at hx
      rcases List.mem_append.mp hx with hx | hx
      · exact hint x hx
      · simp only [List.mem_singleton] at hx
        rw [hx]; exact h
    · have h2' : needOutputRecreate s vw vh = false := by simpa using h2
      rw [EnsureResources_keep ops s vw vh h1' h2'] at hx
      obtain ⟨_, _, ho⟩ := (needOutputRecreate_false s vw vh).mp h2'
      unfold imageHandles at hx
      rcases List.mem_append.mp hx with hx | hx
      · exact hint x hx
      · simp only [List.mem_singleton] at hx
        rw [hx]; exact IsTexLevelDefined2D_ne_zero _ _ ho

/-- A failed `EnsureResources` makes `Render` return right after it. -/
theorem Render_of_failure (ops : FloatOps F) (s : Sys F) (vw vh : Int)
    (h : (EnsureResources ops s vw vh).1 = false) :
    Render ops s vw vh =
      if s.g.inited && s.g.settings.enabled then (EnsureResources ops s vw vh).2 else s := by
  unfold Render
  simp only [h]
  cases s.g.inited <;> cases s.g.settings.enabled <;> rfl

end ResourceLemmas

/-! ### Claims about the device resources -/

section ResourceClaims

set_option linter.unusedSectionVars false

variable {F : Type} [LinearOrder F]

theorem destroyEvents_of_ne_zero (l : List Nat) (h : ∀ x ∈ l, x ≠ 0) :
    destroyEvents l = l.map GLEvent.deleteTex := by
  unfold destroyEvents
  rw [List.filter_eq_self.mpr]
  intro x hx
  simpa using h x hx

/-- The state after a successful `EnsureResources(vw, vh)` whose render scale was then
changed: a second call with the same viewport has nothing to recreate exactly when
the internal size comes out as before and the nine internal images are defined. -/
theorem needs_after_scale_change (ops : FloatOps F) (s : Sys F) (vw vh : Int) (q : F)
    (h1 : (EnsureResources ops s vw vh).1 = true) :
    needOutputRecreate (setRenderScale (EnsureResources ops s vw vh).2 q) vw vh = false ∧
    (needInternalRecreate ops (setRenderScale (EnsureResources ops s vw vh).2 q) vw vh = false ↔
      internalSize ops (setRenderScale (EnsureResources ops s vw vh).2 q).g vw vh
          = internalSize ops s.g vw vh ∧
        internalMissing (setRenderScale (EnsureResources ops s vw vh).2 q) = false) := by
  obtain ⟨e1, e2, e3, e4⟩ := EnsureResources_sizes ops s vw vh h1
  obtain ⟨_, _, _, _, hout⟩ := EnsureResources_usable ops s vw vh h1
  constructor
  · rw [needOutputRecreate_false]
    exact ⟨e1.symm, e2.symm, hout⟩
  · rw [needInternalRecreate_false]
    have hst : ((setRenderScale (EnsureResources ops s vw vh).2 q).g.internalW,
        (setRenderScale (EnsureResources ops s vw vh).2 q).g.internalH)
        = internalSize ops s.g vw vh := Prod.ext e3 e4
    rw [hst]

/-- C12, as amended. Hold the viewport fixed and let the host change
`settings.renderScale` to `q` after a successful `EnsureResources` call (which
leaves all ten handles non-zero). If the internal size computed from the new scale
differs from the one computed from the old scale, the second call destroys all
ten images (the nine internal ones and the output image) and issues ten
allocations; a failed allocation makes the call fail, and when the call succeeds
the new handles are stored, the new internal size is stored and the reset flag is
set. If the internal size comes out the same and the nine internal images are
still defined, the second call changes nothing at all. -/
theorem c12_render_scale_change (ops : FloatOps F) (s s2 : Sys F) (vw vh : Int) (q : F)
    (h1 : (EnsureResources ops s vw vh).1 = true)
    (hs2 : s2 = setRenderScale (EnsureResources ops s vw vh).2 q) :
    (∀ x ∈ imageHandles s2.g, x ≠ 0) ∧
    (internalSize ops s2.g vw vh ≠ internalSize ops s.g vw vh →
      ∃ (ts : List Nat) (t : Nat), ts.length = 9 ∧
        (EnsureResources ops s2 vw vh).2.gl.log =
          s2.gl.log ++ (imageHandles s2.g).map GLEvent.deleteTex ++
          createEvents (internalSize ops s2.g vw vh).1 (internalSize ops s2.g vw vh).2 ts ++
          [GLEvent.createTex (max 1 vw) (max 1 vh) t] ++
          (if (EnsureResources ops s2 vw vh).1 then [] else destroyEvents (ts ++ [t])) ∧
        ((0 ∈ ts ∨ t = 0) → (EnsureResources ops s2 vw vh).1 = false) ∧
        ((EnsureResources ops s2 vw vh).1 = true →
          internalHandles (EnsureResources ops s2 vw vh).2.g = ts ∧
          (EnsureResources ops s2 vw vh).2.g.settings.resetAccumulation = true ∧
          (EnsureResources ops s2 vw vh).2.g.internalW = (internalSize ops s2.g vw vh).1 ∧
          (EnsureResources ops s2 vw vh).2.g.internalH = (internalSize ops s2.g vw vh).2)) ∧
    (internalSize ops s2.g vw vh = internalSize ops s.g vw vh → internalMissing s2 = false →
      EnsureResources ops s2 vw vh = (true, s2)) := by
  subst hs2
  obtain ⟨hno, hni⟩ := needs_after_scale_change ops s vw vh q h1
  have hnz : ∀ x ∈ imageHandles (setRenderScale (EnsureResources ops s vw vh).2 q).g, x ≠ 0 :=
    EnsureResources_handles_ne_zero ops s vw vh h1
  refine ⟨hnz, ?_, ?_⟩
  · intro hne
    have hneed : needInternalRecreate ops (setRenderScale (EnsureResources ops s vw vh).2 q) vw vh
        = true := by
      by_contra hc
      exact hne (hni.mp (by simpa using hc)).1
    obtain ⟨ts, t, hlen, hlog, hfail, hok, _⟩ := EnsureResources_recreate ops _ vw vh hneed
    rw [destroyEvents_of_ne_zero _ hnz] at hlog
    refine ⟨ts, t, hlen, hlog, hfail, fun hs => ?_⟩
    obtain ⟨a, _, b, c, d⟩ := hok hs
    exact ⟨a, b, c, d⟩
  · intro he hm
    exact EnsureResources_keep ops _ vw vh (hni.mpr ⟨he, hm⟩) hno

theorem c12_render_scale_change_witness :
    ((EnsureResources exactOps (scaledSys 1 twentyNames) 4 4).1 = true ∧
      internalSize exactOps (setRenderScale (readySys 1 twentyNames) (1 / 2)).g 4 4
        ≠ internalSize exactOps (scaledSys 1 twentyNames).g 4 4 ∧
      (EnsureResources exactOps (setRenderScale (readySys 1 twentyNames) (1 / 2)) 4 4).1 = true) ∧
    (EnsureResources exactOps
      (setRenderScale (readySys 1 twentyNames) (1 / 2)) 4 4).2.g.settings.resetAccumulation = true ∧
    (EnsureResources exactOps (setRenderScale (readySys 1 twentyNames) (1 / 2)) 4 4).2.g.internalW
      = (internalSize exactOps (setRenderScale (readySys 1 twentyNames) (1 / 2)).g 4 4).1 := by
  refine ⟨⟨by decide!, by decide!, by decide!⟩, ?_⟩
  obtain ⟨ts, t, _, _, _, hok⟩ :=
    (c12_render_scale_change exactOps (scaledSys 1 twentyNames)
      (setRenderScale (readySys 1 twentyNames) (1 / 2)) 4 4 (1 / 2) (by decide!) rfl).2.1
      (by decide!)
  exact ⟨(hok (by decide!)).2.1, (hok (by decide!)).2.2.1⟩

/-- C12 as stated fails: with the viewport held at `4 × 4`, changing the render scale
from `0.5` to `0.6` between two calls leaves the internal size at `2 × 2`; the
second call issues no GL command, keeps the nine internal images and does not set
the reset flag. -/
theorem c12_same_internal_size_keeps_images :
    (EnsureResources exactOps (scaledSys (1 / 2) twentyNames) 4 4).1 = true ∧
    (setRenderScale (clearResetFlag (readySys (1 / 2) twentyNames)) (3 / 5)).g.settings.renderScale
      ≠ (readySys (1 / 2) twentyNames).g.settings.renderScale ∧
    (EnsureResources exactOps
      (setRenderScale (clearResetFlag (readySys (1 / 2) twentyNames)) (3 / 5)) 4 4).2.gl.log
      = (readySys (1 / 2) twentyNames).gl.log ∧
    internalHandles (EnsureResources exactOps
      (setRenderScale (clearResetFlag (readySys (1 / 2) twentyNames)) (3 / 5)) 4 4).2.g
      = internalHandles (readySys (1 / 2) twentyNames).g ∧
    (EnsureResources exactOps
      (setRenderScale (clearResetFlag (readySys (1 / 2) twentyNames)) (3 / 5)) 4 4).2.g.settings.resetAccumulation
      = false := by
  refine ⟨by decide!, by decide!, by decide!, by decide!, by decide!⟩

end ResourceClaims

section ResourceClaimsB

set_option linter.unusedSectionVars false

variable {F : Type} [LinearOrder F]

/-- C13, as amended. Let all ten images be valid and let `EnsureResources` be called
with a viewport that differs from the stored one, the render scale being what it
was. If the internal size computed for the new viewport is the stored one, only
the output image is recreated: it is destroyed and one allocation is issued, the
nine internal handles, the internal size and the reset flag are what they were,
and the call succeeds exactly when the allocation returns a non-zero handle. If
the internal size computed for the new viewport differs from the stored one, the
call destroys all ten images and issues ten allocations, and when it succeeds the
nine internal handles are the new ones, the internal size is the new one and the
reset flag is set. -/
theorem c13_viewport_change (ops : FloatOps F) (s : Sys F) (vw vh : Int)
    (hvalid : internalMissing s = false)
    (hout : IsTexLevelDefined2D s.gl s.g.texOutputLDR = true)
    (hchg : max 1 vw ≠ s.g.viewportW ∨ max 1 vh ≠ s.g.viewportH) :
    (internalSize ops s.g vw vh = (s.g.internalW, s.g.internalH) →
      internalHandles (EnsureResources ops s vw vh).2.g = internalHandles s.g ∧
      (EnsureResources ops s vw vh).2.g.internalW = s.g.internalW ∧
      (EnsureResources ops s vw vh).2.g.internalH = s.g.internalH ∧
      (EnsureResources ops s vw vh).2.g.settings = s.g.settings ∧
      (EnsureResources ops s vw vh).2.gl.log = s.gl.log ++
        [GLEvent.deleteTex s.g.texOutputLDR,
         GLEvent.createTex (max 1 vw) (max 1 vh) (EnsureResources ops s vw vh).2.g.texOutputLDR] ∧
      ((EnsureResources ops s vw vh).1 = true ↔
        (EnsureResources ops s vw vh).2.g.texOutputLDR ≠ 0)) ∧
    (internalSize ops s.g vw vh ≠ (s.g.internalW, s.g.internalH) →
      ∃ (ts : List Nat) (t : Nat), ts.length = 9 ∧
        (EnsureResources ops s vw vh).2.gl.log =
          s.gl.log ++ (imageHandles s.g).map GLEvent.deleteTex ++
          createEvents (internalSize ops s.g vw vh).1 (internalSize ops s.g vw vh).2 ts ++
          [GLEvent.createTex (max 1 vw) (max 1 vh) t] ++
          (if (EnsureResources ops s vw vh).1 then [] else destroyEvents (ts ++ [t])) ∧
        ((EnsureResources ops s vw vh).1 = true →
          internalHandles (EnsureResources ops s vw vh).2.g = ts ∧
          (EnsureResources ops s vw vh).2.g.settings.resetAccumulation = true ∧
          (EnsureResources ops s vw vh).2.g.internalW = (internalSize ops s.g vw vh).1 ∧
          (EnsureResources ops s vw vh).2.g.internalH = (internalSize ops s.g vw vh).2)) := by
  have hnz : ∀ x ∈ imageHandles s.g, x ≠ 0 := by
    intro x hx
    unfold imageHandles at hx
    rcases List.mem_append.mp hx with hx | hx
    · exact internalHandles_ne_zero s hvalid x hx
    · rw [List.mem_singleton.mp hx]; exact IsTexLevelDefined2D_ne_zero _ _ hout
  have hno : needOutputRecreate s vw vh = true := by
    unfold needOutputRecreate
    rcases hchg with h | h
    · simp [h]
    · simp [h]
  constructor
  · intro hsz
    have hni := (needInternalRecreate_false ops s vw vh).mpr ⟨hsz, hvalid⟩
    rw [EnsureResources_output ops s vw vh hni hno]
    refine ⟨rfl, rfl, rfl, rfl, ?_, ?_⟩
    · simp only
      rw [CreateTex2D_log _ _ _ (le_max_left _ _) (le_max_left _ _), DestroyTex_log,
        destroyEvents_of_ne_zero _ (by
          intro x hx
          rw [List.mem_singleton.mp hx]
          exact IsTexLevelDefined2D_ne_zero _ _ hout)]
      simp only [List.map_cons, List.map_nil, List.append_assoc, List.cons_append,
        List.nil_append]
    · simp only [decide_eq_true_eq]
  · intro hsz
    have hneed : needInternalRecreate ops s vw vh = true := by
      by_contra hc
      exact hsz ((needInternalRecreate_false ops s vw vh).mp (by simpa using hc)).1
    obtain ⟨ts, t, hlen, hlog, _, hok, _⟩ := EnsureResources_recreate ops s vw vh hneed
    rw [destroyEvents_of_ne_zero _ hnz] at hlog
    refine ⟨ts, t, hlen, hlog, fun hs => ?_⟩
    obtain ⟨a, _, b, c, d⟩ := hok hs
    exact ⟨a, b, c, d⟩

theorem c13_viewport_change_witness :
    (internalMissing (readySys (1 / 20) twentyNames) = false ∧
      IsTexLevelDefined2D (readySys (1 / 20) twentyNames).gl
        (readySys (1 / 20) twentyNames).g.texOutputLDR = true ∧
      max 1 8 ≠ (readySys (1 / 20) twentyNames).g.viewportW ∧
      internalSize exactOps (readySys (1 / 20) twentyNames).g 8 8
        = ((readySys (1 / 20) twentyNames).g.internalW,
           (readySys (1 / 20) twentyNames).g.internalH)) ∧
    internalHandles (EnsureResources exactOps (readySys (1 / 20) twentyNames) 8 8).2.g
      = internalHandles (readySys (1 / 20) twentyNames).g ∧
    (EnsureResources exactOps (readySys (1 / 20) twentyNames) 8 8).2.g.settings
      = (readySys (1 / 20) twentyNames).g.settings :=
  ⟨⟨by decide!, by decide!, by decide!, by decide!⟩,
    ((c13_viewport_change exactOps (readySys (1 / 20) twentyNames) 8 8 (by decide!) (by decide!)
      (Or.inl (by decide!))).1 (by decide!)).1,
    ((c13_viewport_change exactOps (readySys (1 / 20) twentyNames) 8 8 (by decide!) (by decide!)
      (Or.inl (by decide!))).1 (by decide!)).2.2.2.1⟩

/-- C13 as stated fails: with the render scale held at `1.0` and all ten images valid,
changing the viewport from `4 × 4` to `8 × 8` changes the internal size from
`4 × 4` to `8 × 8`; the call replaces the nine internal images and sets the reset
flag. -/
theorem c13_internal_set_recreated_on_resize :
    (EnsureResources exactOps (scaledSys 1 twentyNames) 4 4).1 = true ∧
    internalMissing (clearResetFlag (readySys 1 twentyNames)) = false ∧
    IsTexLevelDefined2D (clearResetFlag (readySys 1 twentyNames)).gl
      (clearResetFlag (readySys 1 twentyNames)).g.texOutputLDR = true ∧
    (clearResetFlag (readySys 1 twentyNames)).g.settings.resetAccumulation = false ∧
    (EnsureResources exactOps (clearResetFlag (readySys 1 twentyNames)) 8 8).1 = true ∧
    (EnsureResources exactOps (clearResetFlag (readySys 1 twentyNames)) 8 8).2.g.settings.renderScale
      = (readySys 1 twentyNames).g.settings.renderScale ∧
    internalHandles (readySys 1 twentyNames).g = [11, 12, 13, 14, 15, 16, 17, 18, 19] ∧
    internalHandles (EnsureResources exactOps (clearResetFlag (readySys 1 twentyNames)) 8 8).2.g
      = [21, 22, 23, 24, 25, 26, 27, 28, 29] ∧
    (readySys 1 twentyNames).g.internalW = 4 ∧
    (EnsureResources exactOps (clearResetFlag (readySys 1 twentyNames)) 8 8).2.g.internalW = 8 ∧
    (EnsureResources exactOps
      (clearResetFlag (readySys 1 twentyNames)) 8 8).2.g.settings.resetAccumulation = true := by
  refine ⟨by decide!, by decide!, by decide!, by decide!, by decide!, by decide!, by decide!,
    by decide!, by decide!, by decide!, by decide!⟩

end ResourceClaimsB

section ResourceClaimsC

set_option linter.unusedSectionVars false

variable {F : Type} [LinearOrder F]

/-- C14, as amended. Let the host change `settings.renderScale` to `q` after a
successful `EnsureResources` call and call again with the same viewport (so the
viewport is unchanged and the output image valid). If the internal size comes out
as before and the nine internal images are defined, the output image is neither
destroyed nor reallocated: the call changes nothing. If the internal size comes
out different, the output image is destroyed along with the nine internal ones
(`glDeleteTextures` on its handle is issued right after theirs) and the handle
stored afterwards is the result `t` of a new allocation, or `0` when the call
fails. -/
theorem c14_output_image_on_scale_change (ops : FloatOps F) (s s2 : Sys F) (vw vh : Int) (q : F)
    (h1 : (EnsureResources ops s vw vh).1 = true)
    (hs2 : s2 = setRenderScale (EnsureResources ops s vw vh).2 q) :
    (s2.g.viewportW = max 1 vw ∧ s2.g.viewportH = max 1 vh ∧
      IsTexLevelDefined2D s2.gl s2.g.texOutputLDR = true) ∧
    (internalSize ops s2.g vw vh = internalSize ops s.g vw vh → internalMissing s2 = false →
      (EnsureResources ops s2 vw vh).2.g.texOutputLDR = s2.g.texOutputLDR ∧
      (EnsureResources ops s2 vw vh).2.gl.log = s2.gl.log ∧
      (EnsureResources ops s2 vw vh).2.gl.defined = s2.gl.defined) ∧
    (internalSize ops s2.g vw vh ≠ internalSize ops s.g vw vh →
      ∃ (ts : List Nat) (t : Nat),
        (EnsureResources ops s2 vw vh).2.gl.log =
          s2.gl.log ++ (internalHandles s2.g).map GLEvent.deleteTex ++
          [GLEvent.deleteTex s2.g.texOutputLDR] ++
          createEvents (internalSize ops s2.g vw vh).1 (internalSize ops s2.g vw vh).2 ts ++
          [GLEvent.createTex (max 1 vw) (max 1 vh) t] ++
          (if (EnsureResources ops s2 vw vh).1 then [] else destroyEvents (ts ++ [t])) ∧
        ((EnsureResources ops s2 vw vh).1 = true →
          (EnsureResources ops s2 vw vh).2.g.texOutputLDR = t) ∧
        ((EnsureResources ops s2 vw vh).1 = false →
          (EnsureResources ops s2 vw vh).2.g.texOutputLDR = 0)) := by
  subst hs2
  obtain ⟨hno, hni⟩ := needs_after_scale_change ops s vw vh q h1
  obtain ⟨e1, e2, _, _⟩ := EnsureResources_sizes ops s vw vh h1
  obtain ⟨_, _, _, _, hout⟩ := EnsureResources_usable ops s vw vh h1
  have hnz : ∀ x ∈ imageHandles (setRenderScale (EnsureResources ops s vw vh).2 q).g, x ≠ 0 :=
    EnsureResources_handles_ne_zero ops s vw vh h1
  refine ⟨⟨e1, e2, hout⟩, ?_, ?_⟩
  · intro he hm
    rw [EnsureResources_keep ops _ vw vh (hni.mpr ⟨he, hm⟩) hno]
    exact ⟨rfl, rfl, rfl⟩
  · intro hne
    have hneed : needInternalRecreate ops (setRenderScale (EnsureResources ops s vw vh).2 q) vw vh
        = true := by
      by_contra hc
      exact hne (hni.mp (by simpa using hc)).1
    obtain ⟨ts, t, _, hlog, _, hok, hfail⟩ := EnsureResources_recreate ops _ vw vh hneed
    rw [destroyEvents_of_ne_zero _ hnz] at hlog
    refine ⟨ts, t, ?_, fun hs => (hok hs).2.1, fun hf => ?_⟩
    · rw [hlog]
      simp only [imageHandles, List.map_append, List.map_cons, List.map_nil, List.append_assoc]
    · have h10 := hfail hf
      unfold imageHandles internalHandles at h10
      simp only [List.cons_append, List.nil_append, List.replicate, List.cons.injEq] at h10
      exact h10.2.2.2.2.2.2.2.2.2.1

theorem c14_output_image_on_scale_change_witness :
    ((EnsureResources exactOps (scaledSys (1 / 2) twentyNames) 4 4).1 = true ∧
      internalSize exactOps (setRenderScale (readySys (1 / 2) twentyNames) (3 / 5)).g 4 4
        = internalSize exactOps (scaledSys (1 / 2) twentyNames).g 4 4 ∧
      internalMissing (setRenderScale (readySys (1 / 2) twentyNames) (3 / 5)) = false) ∧
    (EnsureResources exactOps
        (setRenderScale (readySys (1 / 2) twentyNames) (3 / 5)) 4 4).2.g.texOutputLDR
      = (setRenderScale (readySys (1 / 2) twentyNames) (3 / 5)).g.texOutputLDR :=
  ⟨⟨by decide!, by decide!, by decide!⟩,
    ((c14_output_image_on_scale_change exactOps (scaledSys (1 / 2) twentyNames)
      (setRenderScale (readySys (1 / 2) twentyNames) (3 / 5)) 4 4 (3 / 5) (by decide!) rfl).2.1
      (by decide!) (by decide!)).1⟩

/-- C14 as stated fails: with the viewport held at `4 × 4` and the output image valid
(handle `20`), changing the render scale from `1.0` to `0.5` makes the next call
delete texture `20` and store a newly allocated output image (handle `30`). -/
theorem c14_scale_change_recreates_output :
    (EnsureResources exactOps (scaledSys 1 twentyNames) 4 4).1 = true ∧
    (setRenderScale (readySys 1 twentyNames) (1 / 2)).g.viewportW = max 1 4 ∧
    (setRenderScale (readySys 1 twentyNames) (1 / 2)).g.viewportH = max 1 4 ∧
    IsTexLevelDefined2D (setRenderScale (readySys 1 twentyNames) (1 / 2)).gl
      (setRenderScale (readySys 1 twentyNames) (1 / 2)).g.texOutputLDR = true ∧
    (setRenderScale (readySys 1 twentyNames) (1 / 2)).g.texOutputLDR = 20 ∧
    (EnsureResources exactOps (setRenderScale (readySys 1 twentyNames) (1 / 2)) 4 4).1 = true ∧
    GLEvent.deleteTex 20
      ∈ (EnsureResources exactOps (setRenderScale (readySys 1 twentyNames) (1 / 2)) 4 4).2.gl.log ∧
    GLEvent.createTex 4 4 30
      ∈ (EnsureResources exactOps (setRenderScale (readySys 1 twentyNames) (1 / 2)) 4 4).2.gl.log ∧
    (EnsureResources exactOps
      (setRenderScale (readySys 1 twentyNames) (1 / 2)) 4 4).2.g.texOutputLDR = 30 := by
  refine ⟨by decide!, by decide!, by decide!, by decide!, by decide!, by decide!, by decide!,
    by decide!, by decide!⟩

/-- C15. After every successful `EnsureResources(vw, vh)` the stored viewport is
`max(1, vw) × max(1, vh)` and the stored internal size is, on each axis,
`max(1, (int)floor(float(viewport) * rs))`, where `rs` is the render scale of the
settings (which the call leaves as it is) clamped to `[0.05, 1.0]`: `0.05` for a
scale below it, `1.0` for a scale above it, the scale itself otherwise. Hence all
four sizes are at least 1, and the divisor `float(internalH)` of the aspect ratio
in `RunTrace` is the conversion of an integer that is at least 1, never of zero. -/
theorem c15_sizes_after_success (ops : FloatOps F) (s : Sys F) (vw vh : Int)
    (h : (EnsureResources ops s vw vh).1 = true) :
    (EnsureResources ops s vw vh).2.g.viewportW = max 1 vw ∧
    (EnsureResources ops s vw vh).2.g.viewportH = max 1 vh ∧
    (EnsureResources ops s vw vh).2.g.settings.renderScale = s.g.settings.renderScale ∧
    (EnsureResources ops s vw vh).2.g.internalW =
      max 1 (ops.toInt (ops.floor (ops.mul (ops.ofInt (max 1 vw))
        (if s.g.settings.renderScale < ops.lit (1 / 20) then ops.lit (1 / 20)
         else if ops.lit 1 < s.g.settings.renderScale then ops.lit 1
         else s.g.settings.renderScale)))) ∧
    (EnsureResources ops s vw vh).2.g.internalH =
      max 1 (ops.toInt (ops.floor (ops.mul (ops.ofInt (max 1 vh))
        (if s.g.settings.renderScale < ops.lit (1 / 20) then ops.lit (1 / 20)
         else if ops.lit 1 < s.g.settings.renderScale then ops.lit 1
         else s.g.settings.renderScale)))) ∧
    1 ≤ (EnsureResources ops s vw vh).2.g.viewportW ∧
    1 ≤ (EnsureResources ops s vw vh).2.g.viewportH ∧
    1 ≤ (EnsureResources ops s vw vh).2.g.internalW ∧
    1 ≤ (EnsureResources ops s vw vh).2.g.internalH ∧
    (EnsureResources ops s vw vh).2.g.internalH ≠ 0 ∧
    traceAspect ops (EnsureResources ops s vw vh).2.g =
      ops.div (ops.ofInt (EnsureResources ops s vw vh).2.g.internalW)
        (ops.ofInt (EnsureResources ops s vw vh).2.g.internalH) := by
  obtain ⟨e1, e2, e3, e4⟩ := EnsureResources_sizes ops s vw vh h
  obtain ⟨u1, u2, u3, u4, _⟩ := EnsureResources_usable ops s vw vh h
  obtain ⟨a, b, c, d, t1, t2, t3, t4, t5, t6, t7, t8, t9, t10, dbg, r, hshape, _⟩ :=
    EnsureResources_shape ops s vw vh
  refine ⟨e1, e2, by rw [hshape], ?_, ?_, u3, u4, u1, u2, by omega, ?_⟩
  · rw [e3]
    unfold internalSize internalDim fclamp
    rfl
  · rw [e4]
    unfold internalSize internalDim fclamp
    rfl
  · unfold traceAspect
    rfl

/-- Claim C15 in exact arithmetic, on the three branches of the clamp. Scale `7.5`
on a `6 × 3` viewport is clamped to `1.0`: internal size `6 × 3`. Scale `0.01` on
a `100 × 40` viewport is clamped to `0.05`: internal size `5 × 2`. Scale `0.5` on
the viewport arguments `(5, 0)`: viewport `5 × 1`, internal size `2 × 1`. -/
theorem c15_sizes_after_success_witness :
    ((EnsureResources exactOps (scaledSys (15 / 2) twentyNames) 6 3).1 = true ∧
      (EnsureResources exactOps (scaledSys (15 / 2) twentyNames) 6 3).2.g.internalW = 6 ∧
      (EnsureResources exactOps (scaledSys (15 / 2) twentyNames) 6 3).2.g.internalH = 3) ∧
    ((EnsureResources exactOps (scaledSys (1 / 100) twentyNames) 100 40).1 = true ∧
      (EnsureResources exactOps (scaledSys (1 / 100) twentyNames) 100 40).2.g.internalW = 5 ∧
      (EnsureResources exactOps (scaledSys (1 / 100) twentyNames) 100 40).2.g.internalH = 2) ∧
    ((EnsureResources exactOps (scaledSys (1 / 2) twentyNames) 5 0).1 = true ∧
      (EnsureResources exactOps (scaledSys (1 / 2) twentyNames) 5 0).2.g.viewportW = 5 ∧
      (EnsureResources exactOps (scaledSys (1 / 2) twentyNames) 5 0).2.g.viewportH = 1 ∧
      (EnsureResources exactOps (scaledSys (1 / 2) twentyNames) 5 0).2.g.internalW = 2 ∧
      (EnsureResources exactOps (scaledSys (1 / 2) twentyNames) 5 0).2.g.internalH = 1 ∧
      1 ≤ (EnsureResources exactOps (scaledSys (1 / 2) twentyNames) 5 0).2.g.internalH) :=
  ⟨⟨by decide!,
      (c15_sizes_after_success exactOps (scaledSys (15 / 2) twentyNames) 6 3
        (by decide!)).2.2.2.1.trans (by decide!),
      (c15_sizes_after_success exactOps (scaledSys (15 / 2) twentyNames) 6 3
        (by decide!)).2.2.2.2.1.trans (by decide!)⟩,
    ⟨by decide!,
      (c15_sizes_after_success exactOps (scaledSys (1 / 100) twentyNames) 100 40
        (by decide!)).2.2.2.1.trans (by decide!),
      (c15_sizes_after_success exactOps (scaledSys (1 / 100) twentyNames) 100 40
        (by decide!)).2.2.2.2.1.trans (by decide!)⟩,
    ⟨by decide!,
      (c15_sizes_after_success exactOps (scaledSys (1 / 2) twentyNames) 5 0
        (by decide!)).1.trans (by decide),
      (c15_sizes_after_success exactOps (scaledSys (1 / 2) twentyNames) 5 0
        (by decide!)).2.1.trans (by decide),
      (c15_sizes_after_success exactOps (scaledSys (1 / 2) twentyNames) 5 0
        (by decide!)).2.2.2.1.trans (by decide!),
      (c15_sizes_after_success exactOps (scaledSys (1 / 2) twentyNames) 5 0
        (by decide!)).2.2.2.2.1.trans (by decide!),
      (c15_sizes_after_success exactOps (scaledSys (1 / 2) twentyNames) 5 0
        (by decide!)).2.2.2.2.2.2.2.2.1⟩⟩

end ResourceClaimsC

section ResourceClaimsD

set_option linter.unusedSectionVars false

variable {F : Type} [LinearOrder F]

/-- C16, as amended. In the internal-set path (`needInternalRecreate`) a failed
allocation (a zero among the ten handles `recreateAll` obtains) makes
`EnsureResources` return failure, and the failure leaves all ten handles zero. In
the output-only path a failed allocation of the output image makes the call
return failure with the output handle zero, while the nine internal images are
kept: their handles are what they were and none of them is zero. On either path
`Render` returns right after the failed call: it dispatches no kernel and leaves
the sample counter and the frame index as they were. -/
theorem c16_allocation_failure (ops : FloatOps F) (s : Sys F) (vw vh : Int) :
    (needInternalRecreate ops s vw vh = true →
      ((∃ x ∈ imageHandles (recreateAll s (max 1 vw) (max 1 vh) (internalSize ops s.g vw vh).1
          (internalSize ops s.g vw vh).2).g, x = 0) →
        (EnsureResources ops s vw vh).1 = false) ∧
      ((EnsureResources ops s vw vh).1 = false →
        imageHandles (EnsureResources ops s vw vh).2.g = List.replicate 10 0)) ∧
    (needInternalRecreate ops s vw vh = false → needOutputRecreate s vw vh = true →
      ((CreateTex2D (DestroyTex s.gl s.g.texOutputLDR) (max 1 vw) (max 1 vh)).1 = 0 →
        (EnsureResources ops s vw vh).1 = false) ∧
      ((EnsureResources ops s vw vh).1 = false →
        (EnsureResources ops s vw vh).2.g.texOutputLDR = 0 ∧
        internalHandles (EnsureResources ops s vw vh).2.g = internalHandles s.g ∧
        ∀ x ∈ internalHandles (EnsureResources ops s vw vh).2.g, x ≠ 0)) ∧
    ((EnsureResources ops s vw vh).1 = false →
      (EnsureResources ops s vw vh).2.g.texOutputLDR = 0 ∧
      (Render ops s vw vh =
        if s.g.inited && s.g.settings.enabled then (EnsureResources ops s vw vh).2 else s) ∧
      kernelLog (Render ops s vw vh).gl = kernelLog s.gl ∧
      (Render ops s vw vh).g.sppAccum = s.g.sppAccum ∧
      (Render ops s vw vh).g.frameIndex = s.g.frameIndex) := by
  have hA : needInternalRecreate ops s vw vh = true →
      ((∃ x ∈ imageHandles (recreateAll s (max 1 vw) (max 1 vh) (internalSize ops s.g vw vh).1
          (internalSize ops s.g vw vh).2).g, x = 0) →
        (EnsureResources ops s vw vh).1 = false) ∧
      ((EnsureResources ops s vw vh).1 = false →
        imageHandles (EnsureResources ops s vw vh).2.g = List.replicate 10 0) := by
    intro hneed
    obtain ⟨ts, t, _, _, _, _, hfail⟩ := EnsureResources_recreate ops s vw vh hneed
    refine ⟨?_, hfail⟩
    rintro ⟨x, hx, rfl⟩
    rw [EnsureResources_unfold, hneed]
    simp only [Bool.not_true, Bool.false_and, Bool.false_eq_true, if_false, if_true]
    rw [if_pos]
    unfold imageHandles at hx
    rcases List.mem_append.mp hx with hx | hx
    · have hm : internalMissing (recreateAll s (max 1 vw) (max 1 vh)
          (internalSize ops s.g vw vh).1 (internalSize ops s.g vw vh).2) = true := by
        by_contra hc
        exact internalHandles_ne_zero _ (by simpa using hc) 0 hx rfl
      rw [hm]; rfl
    · have hz := (List.mem_singleton.mp hx).symm
      have hd : IsTexLevelDefined2D
          (recreateAll s (max 1 vw) (max 1 vh) (internalSize ops s.g vw vh).1
            (internalSize ops s.g vw vh).2).gl
          (recreateAll s (max 1 vw) (max 1 vh) (internalSize ops s.g vw vh).1
            (internalSize ops s.g vw vh).2).g.texOutputLDR = false := by
        by_contra hc
        exact IsTexLevelDefined2D_ne_zero _ _ (by simpa using hc) hz
      rw [hd]
      simp only [Bool.not_false, Bool.or_true]
  have hB : needInternalRecreate ops s vw vh = false → needOutputRecreate s vw vh = true →
      ((CreateTex2D (DestroyTex s.gl s.g.texOutputLDR) (max 1 vw) (max 1 vh)).1 = 0 →
        (EnsureResources ops s vw vh).1 = false) ∧
      ((EnsureResources ops s vw vh).1 = false →
        (EnsureResources ops s vw vh).2.g.texOutputLDR = 0 ∧
        internalHandles (EnsureResources ops s vw vh).2.g = internalHandles s.g ∧
        ∀ x ∈ internalHandles (EnsureResources ops s vw vh).2.g, x ≠ 0) := by
    intro hni hno
    obtain ⟨_, hm⟩ := (needInternalRecreate_false ops s vw vh).mp hni
    rw [EnsureResources_output ops s vw vh hni hno]
    refine ⟨fun hz => by simp [hz], fun hf => ⟨by simpa using hf, rfl, ?_⟩⟩
    exact internalHandles_ne_zero s hm
  refine ⟨hA, hB, fun hf => ?_⟩
  obtain ⟨a, b, c, d, t1, t2, t3, t4, t5, t6, t7, t8, t9, t10, dbg, r, hshape, _⟩ :=
    EnsureResources_shape ops s vw vh
  have hlog := kernelLog_EnsureResources ops s vw vh
  have hout : (EnsureResources ops s vw vh).2.g.texOutputLDR = 0 := by
    by_cases hni : needInternalRecreate ops s vw vh = true
    · have h10 := (hA hni).2 hf
      unfold imageHandles internalHandles at h10
      simp only [List.cons_append, List.nil_append, List.replicate, List.cons.injEq] at h10
      exact h10.2.2.2.2.2.2.2.2.2.1
    · have hni' : needInternalRecreate ops s vw vh = false := by simpa using hni
      by_cases hno : needOutputRecreate s vw vh = true
      · exact ((hB hni' hno).2 hf).1
      · rw [EnsureResources_keep ops s vw vh hni' (by simpa using hno)] at hf
        cases hf
  refine ⟨hout, Render_of_failure ops s vw vh hf, ?_, ?_, ?_⟩
  all_goals
    rw [Render_of_failure ops s vw vh hf]
    split_ifs
  · exact hlog
  · rfl
  · rw [hshape]
  · rfl
  · rw [hshape]
  · rfl

theorem c16_allocation_failure_witness :
    (needInternalRecreate exactOps (readySys (1 / 20) [11, 12, 13, 14, 15, 16, 17, 18, 19, 20]) 8 8
        = false ∧
      needOutputRecreate (readySys (1 / 20) [11, 12, 13, 14, 15, 16, 17, 18, 19, 20]) 8 8 = true ∧
      (EnsureResources exactOps
        (readySys (1 / 20) [11, 12, 13, 14, 15, 16, 17, 18, 19, 20]) 8 8).1 = false) ∧
    (EnsureResources exactOps
        (readySys (1 / 20) [11, 12, 13, 14, 15, 16, 17, 18, 19, 20]) 8 8).2.g.texOutputLDR = 0 ∧
    internalHandles (EnsureResources exactOps
        (readySys (1 / 20) [11, 12, 13, 14, 15, 16, 17, 18, 19, 20]) 8 8).2.g
      = internalHandles (readySys (1 / 20) [11, 12, 13, 14, 15, 16, 17, 18, 19, 20]).g :=
  ⟨⟨by decide!, by decide!, by decide!⟩,
    (((c16_allocation_failure exactOps
      (readySys (1 / 20) [11, 12, 13, 14, 15, 16, 17, 18, 19, 20]) 8 8).2.1
      (by decide!) (by decide!)).2 (by decide!)).1,
    (((c16_allocation_failure exactOps
      (readySys (1 / 20) [11, 12, 13, 14, 15, 16, 17, 18, 19, 20]) 8 8).2.1
      (by decide!) (by decide!)).2 (by decide!)).2.1⟩

/-- C16 as stated fails on the output-only path: after a first call at `4 × 4` with
render scale `0.05` (internal size `1 × 1`) on a driver that has no allocation
left, a call at `8 × 8` has only the output image to recreate; its allocation
fails, the call returns failure, and the nine internal handles stay `11 .. 19`
instead of being released and zeroed. -/
theorem c16_output_failure_keeps_internal_images :
    (EnsureResources exactOps (scaledSys (1 / 20) [11, 12, 13, 14, 15, 16, 17, 18, 19, 20]) 4 4).1
      = true ∧
    (EnsureResources exactOps
      (readySys (1 / 20) [11, 12, 13, 14, 15, 16, 17, 18, 19, 20]) 8 8).1 = false ∧
    imageHandles (EnsureResources exactOps
      (readySys (1 / 20) [11, 12, 13, 14, 15, 16, 17, 18, 19, 20]) 8 8).2.g
      = [11, 12, 13, 14, 15, 16, 17, 18, 19, 0] ∧
    (EnsureResources exactOps
      (readySys (1 / 20) [11, 12, 13, 14, 15, 16, 17, 18, 19, 20]) 8 8).2.gl.defined
      = [19, 18, 17, 16, 15, 14, 13, 12, 11] := by
  refine ⟨by decide!, by decide!, by decide!, by decide!⟩

end ResourceClaimsD

/-! ### Claims about the panel and the empty upload -/

section PanelClaims

set_option linter.unusedSectionVars false

variable {F : Type} [LinearOrder F]

/-- A `Render` call either passes all its guards (tracer initialised and enabled,
resources available, test pattern off) or returns without dispatching a kernel,
leaving the counter as it is and a pending reset flag pending. -/
theorem Render_guarded (ops : FloatOps F) (s : Sys F) (vw vh : Int) :
    (s.g.inited = true ∧ s.g.settings.enabled = true ∧ (EnsureResources ops s vw vh).1 = true ∧
      s.g.forceTestPattern = false) ∨
    (kernelLog (Render ops s vw vh).gl = kernelLog s.gl ∧
      (Render ops s vw vh).g.sppAccum = s.g.sppAccum ∧
      (s.g.settings.resetAccumulation = true →
        (Render ops s vw vh).g.settings.resetAccumulation = true)) := by
  obtain ⟨a, b, c, d, t1, t2, t3, t4, t5, t6, t7, t8, t9, t10, dbg, r, hshape, hr⟩ :=
    EnsureResources_shape ops s vw vh
  have hlog := kernelLog_EnsureResources ops s vw vh
  by_cases hin : s.g.inited = true
  swap
  · right
    unfold Render
    have hin' : s.g.inited = false := by simpa using hin
    rw [hin']
    exact ⟨rfl, rfl, fun h => h⟩
  by_cases hen : s.g.settings.enabled = true
  swap
  · right
    unfold Render
    have hen' : s.g.settings.enabled = false := by simpa using hen
    rw [hin, hen']
    exact ⟨rfl, rfl, fun h => h⟩
  by_cases her : (EnsureResources ops s vw vh).1 = true
  swap
  · right
    unfold Render
    have her' : (EnsureResources ops s vw vh).1 = false := by simpa using her
    simp only [hin, hen, her', Bool.not_true, Bool.false_eq_true, if_false, Bool.not_false,
      if_true]
    refine ⟨hlog, by rw [hshape], fun h => ?_⟩
    rw [hshape]; exact hr h
  by_cases htp : s.g.forceTestPattern = true
  swap
  · left
    exact ⟨hin, hen, her, by simpa using htp⟩
  right
  obtain ⟨h1, h2, h3, h4, h5⟩ := EnsureResources_usable ops s vw vh her
  have htp' : (EnsureResources ops s vw vh).2.g.forceTestPattern = true := by
    rw [hshape]; exact htp
  have husable : resourcesUsable (EnsureResources ops s vw vh).2 = true := by
    unfold resourcesUsable
    simp only [h5, Bool.not_true, Bool.or_false, Bool.not_eq_true', Bool.or_eq_false_iff,
      decide_eq_false_iff_not, not_lt]
    exact ⟨⟨⟨h1, h2⟩, h3⟩, h4⟩
  unfold Render
  simp only [hin, hen, her, husable, htp', Bool.not_true, Bool.false_eq_true, if_false, if_true]
  unfold renderTestPattern
  refine ⟨?_, ?_, fun h => ?_⟩
  · rw [kernelLog_emit]
    simp only [GLEvent.isKernel, Bool.false_eq_true, if_false, List.append_nil]
    exact hlog
  · show (EnsureResources ops s vw vh).2.g.sppAccum = s.g.sppAccum
    rw [hshape]
  · show (EnsureResources ops s vw vh).2.g.settings.resetAccumulation = true
    rw [hshape]; exact hr h

/-- A `Render` call that passes its guards with the reset flag set and the tracer not
paused: the clear is dispatched first, the pass follows with the counter at 0, and
the flag is clear afterwards. -/
theorem Render_flagged (ops : FloatOps F) (s : Sys F) (vw vh : Int)
    (hin : s.g.inited = true) (hen : s.g.settings.enabled = true)
    (her : (EnsureResources ops s vw vh).1 = true) (htp : s.g.forceTestPattern = false)
    (hflag : s.g.settings.resetAccumulation = true) (hp : s.g.paused = false) :
    kernelLog (Render ops s vw vh).gl = kernelLog s.gl ++ GLEvent.clearDispatch ::
      passEvents { (EnsureResources ops s vw vh).2.g with sppAccum := 0 } ∧
    (passEvents { (EnsureResources ops s vw vh).2.g with sppAccum := 0 }).head?
      = some (GLEvent.traceDispatch 0 s.g.settings.sppPerFrame) ∧
    (Render ops s vw vh).g.settings.resetAccumulation = false ∧
    (Render ops s vw vh).g.sppAccum = (max 1 s.g.settings.sppPerFrame).toNat % 18446744073709551616 := by
  obtain ⟨h1, h2, h3, h4, _⟩ := EnsureResources_usable ops s vw vh her
  obtain ⟨a, b, c, d, t1, t2, t3, t4, t5, t6, t7, t8, t9, t10, dbg, r, hshape, hr⟩ :=
    EnsureResources_shape ops s vw vh
  have hlog := kernelLog_EnsureResources ops s vw vh
  rw [Render_eq_frame ops s vw vh hin hen her htp]
  obtain ⟨f1, f2, _, f4⟩ := renderFrame_spec ops (EnsureResources ops s vw vh).2 h1 h2 h3 h4
  have hfl : (EnsureResources ops s vw vh).2.g.settings.resetAccumulation = true := by
    rw [hshape]; exact hr hflag
  have hpa : (EnsureResources ops s vw vh).2.g.paused = false := by rw [hshape]; exact hp
  have hspp : (EnsureResources ops s vw vh).2.g.settings.sppPerFrame = s.g.settings.sppPerFrame := by
    rw [hshape]
  rw [hfl, hpa, hlog] at f1
  rw [hfl, hpa] at f4
  simp only [if_true, Bool.not_false, Bool.true_or] at f1 f4
  refine ⟨?_, ?_, f2, ?_⟩
  · rw [f1, List.append_assoc, List.singleton_append]
  · unfold passEvents
    simp only [List.cons_append, List.head?_cons, Nat.zero_mod, hspp]
  · rw [(f4 trivial).1, hspp, Nat.zero_add]

theorem clickPause_twice (g : State F) (hp : g.paused = false) :
    clickPause g = { g with paused := true } ∧ clickPause (clickPause g) = RequestReset g := by
  cases g
  simp only at hp
  subst hp
  exact ⟨rfl, rfl⟩

/-- C11, as amended. Clicking the pause checkbox on a tracer that is not paused only
sets `paused`; clicking it again returns to the state before the two clicks with
the reset flag set (in whatever state the un-pause click occurs, it clears
`paused` and sets the flag). If the `Render` that follows passes its guards
(tracer initialised and enabled, resources available, test pattern off), its first
dispatch is the clear, the pass that follows reads sample base 0, and it returns
with the flag clear and the counter at `max(1, sppPerFrame)`. If it does not pass
them, it dispatches no kernel, leaves the counter as it is and the flag stays
set, so the clear is still ahead of any later accumulation. -/
theorem c11_unpause_requests_reset (ops : FloatOps F) (s s2 : Sys F) (vw vh : Int)
    (hp : s.g.paused = false)
    (hs2 : s2 = { s with g := clickPause (clickPause s.g) }) :
    clickPause s.g = { s.g with paused := true } ∧
    s2.g = RequestReset s.g ∧
    s2.g.paused = false ∧ s2.g.settings.resetAccumulation = true ∧
    (∀ g : State F, g.paused = true →
      (clickPause g).paused = false ∧ (clickPause g).settings.resetAccumulation = true) ∧
    (s2.g.inited = true → s2.g.settings.enabled = true →
      (EnsureResources ops s2 vw vh).1 = true → s2.g.forceTestPattern = false →
      kernelLog (Render ops s2 vw vh).gl = kernelLog s.gl ++ GLEvent.clearDispatch ::
        passEvents { (EnsureResources ops s2 vw vh).2.g with sppAccum := 0 } ∧
      (passEvents { (EnsureResources ops s2 vw vh).2.g with sppAccum := 0 }).head?
        = some (GLEvent.traceDispatch 0 s.g.settings.sppPerFrame) ∧
      (Render ops s2 vw vh).g.settings.resetAccumulation = false ∧
      (Render ops s2 vw vh).g.sppAccum
        = (max 1 s.g.settings.sppPerFrame).toNat % 18446744073709551616) ∧
    (¬(s2.g.inited = true ∧ s2.g.settings.enabled = true ∧
        (EnsureResources ops s2 vw vh).1 = true ∧ s2.g.forceTestPattern = false) →
      kernelLog (Render ops s2 vw vh).gl = kernelLog s.gl ∧
      (Render ops s2 vw vh).g.sppAccum = s.g.sppAccum ∧
      (Render ops s2 vw vh).g.settings.resetAccumulation = true) := by
  obtain ⟨c1, c2⟩ := clickPause_twice s.g hp
  subst hs2
  have hg : ({ s with g := clickPause (clickPause s.g) } : Sys F).g = RequestReset s.g := c2
  have hpa : ({ s with g := clickPause (clickPause s.g) } : Sys F).g.paused = false := by
    rw [hg]; exact hp
  have hfl : ({ s with g := clickPause (clickPause s.g) } : Sys F).g.settings.resetAccumulation
      = true := by rw [hg]; rfl
  have hspp : ({ s with g := clickPause (clickPause s.g) } : Sys F).g.settings.sppPerFrame
      = s.g.settings.sppPerFrame := by rw [hg]; rfl
  have hacc : ({ s with g := clickPause (clickPause s.g) } : Sys F).g.sppAccum = s.g.sppAccum := by
    rw [hg]; rfl
  refine ⟨c1, hg, hpa, hfl, ?_, ?_, ?_⟩
  · intro g hgp
    unfold clickPause
    simp only [hgp, Bool.not_true, Bool.not_false, if_true]
    exact ⟨rfl, rfl⟩
  · intro hin hen her htp
    have h := Render_flagged ops _ vw vh hin hen her htp hfl hpa
    rw [hspp] at h
    exact h
  · intro hng
    rcases Render_guarded ops { s with g := clickPause (clickPause s.g) } vw vh with h | h
    · exact absurd h hng
    · rw [hacc] at h
      exact ⟨h.1, h.2.1, h.2.2 hfl⟩

theorem c11_unpause_requests_reset_witness :
    ((demoSys false false false).g.paused = false ∧
      (EnsureResources exactOps
        { demoSys false false false with
          g := clickPause (clickPause (demoSys false false false).g) } 4 4).1 = true) ∧
    (Render exactOps
      { demoSys false false false with
        g := clickPause (clickPause (demoSys false false false).g) } 4 4).g.settings.resetAccumulation
      = false ∧
    (Render exactOps
      { demoSys false false false with
        g := clickPause (clickPause (demoSys false false false).g) } 4 4).g.sppAccum
      = (max 1 (demoSys false false false).g.settings.sppPerFrame).toNat % 18446744073709551616 :=
  ⟨⟨rfl, by decide!⟩,
    ((c11_unpause_requests_reset exactOps (demoSys false false false)
      { demoSys false false false with
        g := clickPause (clickPause (demoSys false false false).g) } 4 4 rfl rfl).2.2.2.2.2.1
      rfl rfl (by decide!) rfl).2.2.1,
    ((c11_unpause_requests_reset exactOps (demoSys false false false)
      { demoSys false false false with
        g := clickPause (clickPause (demoSys false false false).g) } 4 4 rfl rfl).2.2.2.2.2.1
      rfl rfl (by decide!) rfl).2.2.2⟩

/-- C11 as stated fails: on a tracer that is initialised but not enabled, pausing and
un-pausing sets the reset flag, yet the next `Render` returns at its second guard:
it issues no command, so no clear, and the flag is still set afterwards. -/
theorem c11_unpause_then_render_without_clear :
    disabledSys.g.paused = false ∧
    (clickPause disabledSys.g).paused = true ∧
    unpausedDisabledSys.g.paused = false ∧
    unpausedDisabledSys.g.settings.resetAccumulation = true ∧
    (Render exactOps unpausedDisabledSys 4 4).gl.log = [] ∧
    kernelLog (Render exactOps unpausedDisabledSys 4 4).gl = [] ∧
    (Render exactOps unpausedDisabledSys 4 4).g.settings.resetAccumulation = true :=
  ⟨rfl, rfl, rfl, rfl, rfl, rfl, rfl⟩

/-- C17. On an initialised tracer, `UploadScene` called with a null triangle or
material array, or with zero triangles or zero materials, leaves `HasScene()`
false and the triangle, node and material counts 0, whatever they were before;
nothing is sent to the driver, so the scene is cleared rather than replaced. -/
theorem c17_empty_upload_clears_scene (ops : FloatOps F) (sel : NthElement) (s : Sys F)
    (tris : Option (List (TriInput F))) (mats : Option (List (MaterialInput F)))
    (hin : s.g.inited = true)
    (hempty : tris = none ∨ mats = none ∨ tris = some [] ∨ mats = some []) :
    HasScene (UploadScene ops sel s tris mats).g = false ∧
    (UploadScene ops sel s tris mats).g.sceneTriCount = 0 ∧
    (UploadScene ops sel s tris mats).g.sceneNodeCount = 0 ∧
    (UploadScene ops sel s tris mats).g.sceneMatCount = 0 ∧
    (UploadScene ops sel s tris mats).gl = s.gl := by
  have hmark : UploadSceneInternal ops sel s tris mats = { s with g := markNoScene s.g } := by
    unfold UploadSceneInternal
    simp only [hin, Bool.not_true, Bool.false_eq_true, if_false]
    cases tris with
    | none => rfl
    | some ts =>
      cases mats with
      | none => rfl
      | some ms =>
        simp only
        rw [if_pos]
        rcases hempty with h | h | h | h
        · cases h
        · cases h
        · left; cases h; rfl
        · right; cases h; rfl
  have hu : UploadScene ops sel s tris mats
      = { g := RequestReset (markNoScene s.g), gl := s.gl } := by
    unfold UploadScene
    rw [hmark, hin]
    rfl
  rw [hu]
  exact ⟨rfl, rfl, rfl, rfl, rfl⟩

theorem c17_empty_upload_clears_scene_witness :
    (uploadedSys.g.inited = true ∧ HasScene uploadedSys.g = true ∧
      uploadedSys.g.sceneTriCount = 1) ∧
    HasScene (UploadScene exactOps sortingNth uploadedSys (some []) (some [whiteMaterial])).g
      = false ∧
    (UploadScene exactOps sortingNth uploadedSys (some []) (some [whiteMaterial])).g.sceneTriCount
      = 0 :=
  ⟨⟨rfl, by decide!, by decide!⟩,
    (c17_empty_upload_clears_scene exactOps sortingNth uploadedSys (some [])
      (some [whiteMaterial]) rfl (Or.inr (Or.inr (Or.inl rfl)))).1,
    (c17_empty_upload_clears_scene exactOps sortingNth uploadedSys (some [])
      (some [whiteMaterial]) rfl (Or.inr (Or.inr (Or.inl rfl)))).2.1⟩

end PanelClaims

/-! ## Proofs: material packing -/

section PackProofs

set_option linter.unusedSectionVars false

variable {F : Type} [LinearOrder F]

theorem findSampler_ge (xs : List Nat) (x t : Nat) :
    findSampler xs x t = -1 ∨ (t : Int) ≤ findSampler xs x t := by
  induction xs generalizing t with
  | nil => left; rfl
  | cons y ys ih =>
    unfold findSampler
    split_ifs with h
    · right; exact le_refl _
    · rcases ih (t + 1) with h1 | h1
      · left; exact h1
      · right; push_cast at h1; omega

theorem findSampler_neg_iff (xs : List Nat) (x t : Nat) :
    findSampler xs x t < 0 ↔ x ∉ xs := by
  induction xs generalizing t with
  | nil => simp [findSampler]
  | cons y ys ih =>
    unfold findSampler
    split_ifs with h
    · subst h
      simp only [List.mem_cons, true_or, not_true_eq_false, iff_false, not_lt]
      exact Int.ofNat_nonneg _
    · rw [ih (t + 1)]
      simp only [List.mem_cons, not_or]
      exact ⟨fun hn => ⟨fun e => h e.symm, hn⟩, fun hn => hn.2⟩

theorem findSampler_eq_neg_one_iff (xs : List Nat) (x t : Nat) :
    findSampler xs x t = -1 ↔ x ∉ xs := by
  rw [← findSampler_neg_iff xs x t]
  rcases findSampler_ge xs x t with h | h
  · rw [h]; simp
  · constructor
    · intro e; rw [e]; decide
    · intro hn
      have : (0 : Int) ≤ (t : Int) := Int.ofNat_nonneg _
      omega

theorem findSampler_append_of_mem (xs ys : List Nat) (x t : Nat) (h : x ∈ xs) :
    findSampler (xs ++ ys) x t = findSampler xs x t := by
  induction xs generalizing t with
  | nil => cases h
  | cons y zs ih =>
    simp only [List.cons_append]
    unfold findSampler
    split_ifs with hy
    · rfl
    · rcases List.mem_cons.mp h with e | e
      · exact absurd e.symm hy
      · exact ih (t + 1) e

theorem findSampler_append_self (xs : List Nat) (x t : Nat) (h : x ∉ xs) :
    findSampler (xs ++ [x]) x t = ((t + xs.length : Nat) : Int) := by
  induction xs generalizing t with
  | nil => simp [findSampler]
  | cons y zs ih =>
    simp only [List.cons_append, List.length_cons]
    unfold findSampler
    simp only [List.mem_cons, not_or] at h
    rw [if_neg (fun e => h.1 e.symm), ih (t + 1) h.2]
    congr 1
    omega

/-- A found slot indexes the table at the texture searched for. -/
theorem findSampler_get (xs : List Nat) (x t : Nat) (h : x ∈ xs) :
    ∃ i, findSampler xs x t = ((t + i : Nat) : Int) ∧ xs[i]? = some x ∧ i < xs.length := by
  induction xs generalizing t with
  | nil => cases h
  | cons y zs ih =>
    unfold findSampler
    split_ifs with hy
    · exact ⟨0, rfl, by simp [hy], by simp⟩
    · rcases List.mem_cons.mp h with e | e
      · exact absurd e.symm hy
      · obtain ⟨i, h1, h2, h3⟩ := ih (t + 1) e
        refine ⟨i + 1, ?_, by simpa using h2, by simpa using h3⟩
        rw [h1]
        congr 1
        omega

end PackProofs

section PackLoop

set_option linter.unusedSectionVars false

variable {F : Type} [LinearOrder F]

/-- One step of the material loop: when the table grows, what the packed material
is, and when its slot is `-1`. -/
theorem packMaterial_spec (cap : Int) (T : List Nat) (m : MaterialInput F) :
    (packMaterial cap T m).1 =
      (if m.baseColorTexGL ≠ 0 ∧ 0 < cap ∧ m.baseColorTexGL ∉ T ∧ (T.length : Int) < cap
        then T ++ [m.baseColorTexGL] else T) ∧
    (packMaterial cap T m).2 = packedWith cap (packMaterial cap T m).1 m ∧
    ((packMaterial cap T m).2.tex0 = -1 ↔
      m.baseColorTexGL = 0 ∨ cap ≤ 0 ∨ (m.baseColorTexGL ∉ T ∧ cap ≤ (T.length : Int))) := by
  by_cases h1 : m.baseColorTexGL ≠ 0 ∧ 0 < cap
  · obtain ⟨hz, hc⟩ := h1
    by_cases hmem : m.baseColorTexGL ∈ T
    · have hnn : ¬ findSampler T m.baseColorTexGL 0 < 0 := by
        rw [findSampler_neg_iff]; exact not_not.mpr hmem
      have hne : findSampler T m.baseColorTexGL 0 ≠ -1 := by
        rw [Ne, findSampler_eq_neg_one_iff]; exact not_not.mpr hmem
      have e : packMaterial cap T m = (T, packedWith cap T m) := by
        unfold packMaterial packedWith slotFor
        simp only [hz, hc, ne_eq, not_false_eq_true, and_self, if_true, hnn, if_false]
      rw [e]
      refine ⟨?_, rfl, ?_⟩
      · rw [if_neg]; tauto
      · show slotFor cap T m.baseColorTexGL = -1 ↔ _
        unfold slotFor
        rw [if_pos ⟨hz, hc⟩]
        constructor
        · intro h; exact absurd h hne
        · rintro (h | h | h)
          · exact absurd h hz
          · omega
          · exact absurd hmem h.1
    · have hneg : findSampler T m.baseColorTexGL 0 < 0 := (findSampler_neg_iff _ _ _).mpr hmem
      have heq : findSampler T m.baseColorTexGL 0 = -1 :=
        (findSampler_eq_neg_one_iff _ _ _).mpr hmem
      by_cases hlen : (T.length : Int) < cap
      · have e : packMaterial cap T m
            = (T ++ [m.baseColorTexGL], packedWith cap (T ++ [m.baseColorTexGL]) m) := by
          unfold packMaterial packedWith slotFor
          simp only [hz, hc, ne_eq, not_false_eq_true, and_self, if_true, hneg, hlen,
            findSampler_append_self T _ 0 hmem, Nat.zero_add]
        rw [e]
        refine ⟨?_, rfl, ?_⟩
        · rw [if_pos ⟨hz, hc, hmem, hlen⟩]
        · show slotFor cap (T ++ [m.baseColorTexGL]) m.baseColorTexGL = -1 ↔ _
          unfold slotFor
          rw [if_pos ⟨hz, hc⟩, findSampler_append_self T _ 0 hmem]
          constructor
          · intro h
            have : (0 : Int) ≤ ((0 + T.length : Nat) : Int) := Int.ofNat_nonneg _
            omega
          · rintro (h | h | h)
            · exact absurd h hz
            · omega
            · omega
      · have e : packMaterial cap T m = (T, packedWith cap T m) := by
          unfold packMaterial packedWith slotFor
          simp only [hz, hc, ne_eq, not_false_eq_true, and_self, if_true, hneg, hlen, if_false]
        rw [e]
        refine ⟨?_, rfl, ?_⟩
        · rw [if_neg]; tauto
        · show slotFor cap T m.baseColorTexGL = -1 ↔ _
          unfold slotFor
          rw [if_pos ⟨hz, hc⟩]
          exact ⟨fun _ => Or.inr (Or.inr ⟨hmem, by omega⟩), fun _ => heq⟩
  · have e : packMaterial cap T m = (T, packedWith cap T m) := by
      unfold packMaterial packedWith slotFor
      simp only [h1, if_false]
    rw [e]
    refine ⟨?_, rfl, ?_⟩
    · rw [if_neg]; tauto
    · show slotFor cap T m.baseColorTexGL = -1 ↔ _
      unfold slotFor
      rw [if_neg h1]
      refine ⟨fun _ => ?_, fun _ => rfl⟩
      by_contra hc
      push_neg at hc
      exact h1 ⟨hc.1, hc.2.1⟩

theorem packMaterials_snoc (cap : Int) (T0 : List Nat) (ms : List (MaterialInput F))
    (m : MaterialInput F) :
    packMaterials cap T0 (ms ++ [m]) =
      ((packMaterial cap (packMaterials cap T0 ms).1 m).1,
       (packMaterials cap T0 ms).2 ++ [(packMaterial cap (packMaterials cap T0 ms).1 m).2]) := by
  unfold packMaterials
  rw [List.foldl_append]
  rfl

theorem slotFor_append (cap : Int) (T : List Nat) (h x : Nat)
    (hx : x ≠ 0 → 0 < cap → x ∈ T) :
    slotFor cap (T ++ [h]) x = slotFor cap T x := by
  unfold slotFor
  split_ifs with hc
  · exact findSampler_append_of_mem T [h] x 0 (hx hc.1 hc.2)
  · rfl

/-- Invariant of the material loop, started on the empty table: one packed material
per input; the table holds pairwise distinct non-zero handles of this input, no
more than the capacity; a non-zero handle of the input is in the table unless the
table is full; each packed material carries the slot the final table gives to
its handle, and is what one loop step makes of the table reached before it. -/
theorem packMaterials_inv (cap : Int) (ms : List (MaterialInput F)) :
    (packMaterials cap [] ms).2.length = ms.length ∧
    (packMaterials cap [] ms).1.Nodup ∧
    0 ∉ (packMaterials cap [] ms).1 ∧
    ((packMaterials cap [] ms).1.length : Int) ≤ max 0 cap ∧
    (∀ x ∈ (packMaterials cap [] ms).1, ∃ m ∈ ms, m.baseColorTexGL = x) ∧
    (∀ m ∈ ms, m.baseColorTexGL ≠ 0 → 0 < cap →
      m.baseColorTexGL ∈ (packMaterials cap [] ms).1 ∨
      cap ≤ ((packMaterials cap [] ms).1.length : Int)) ∧
    (∀ (i : Nat) (m : MaterialInput F), ms[i]? = some m →
      (packMaterials cap [] ms).2[i]? = some (packedWith cap (packMaterials cap [] ms).1 m)) ∧
    (∀ (i : Nat) (m : MaterialInput F), ms[i]? = some m →
      (packMaterials cap [] ms).2[i]?
        = some (packMaterial cap (packMaterials cap [] (ms.take i)).1 m).2) := by
  induction ms using List.reverseRecOn with
  | nil =>
    refine ⟨rfl, List.nodup_nil, List.not_mem_nil _, ?_, ?_, ?_, ?_, ?_⟩
    · exact le_max_left _ _
    · intro x hx; cases hx
    · intro m hm; cases hm
    · intro i m h; simp at h
    · intro i m h; simp at h
  | append_singleton ms m ih =>
    obtain ⟨ilen, inodup, inz, ibound, isub, iheld, islots, istep⟩ := ih
    obtain ⟨s1, s2, _⟩ := packMaterial_spec cap (packMaterials cap [] ms).1 m
    rw [packMaterials_snoc]
    generalize hT : (packMaterials cap [] ms).1 = T at *
    generalize hO : (packMaterials cap [] ms).2 = O at *
    simp only
    have hidx : ∀ (i : Nat) (m' : MaterialInput F), (ms ++ [m])[i]? = some m' →
        (i < ms.length ∧ ms[i]? = some m') ∨ (i = ms.length ∧ m' = m) := by
      intro i m' h
      by_cases hi : i < ms.length
      · left
        rw [List.getElem?_append_left hi] at h
        exact ⟨hi, h⟩
      · right
        rw [List.getElem?_append_right (by omega)] at h
        have hi0 : i - ms.length = 0 := by
          by_contra hne
          rw [List.getElem?_eq_none (by simp; omega)] at h
          cases h
        rw [hi0] at h
        simp only [List.getElem?_cons_zero, Option.some.injEq] at h
        exact ⟨by omega, h.symm⟩
    have hstep : ∀ (i : Nat) (m' : MaterialInput F), (ms ++ [m])[i]? = some m' →
        (O ++ [(packMaterial cap T m).2])[i]?
          = some (packMaterial cap (packMaterials cap [] ((ms ++ [m]).take i)).1 m').2 := by
      intro i m' h
      rcases hidx i m' h with ⟨hi, h'⟩ | ⟨hi, h'⟩
      · rw [List.getElem?_append_left (by omega), List.take_append_of_le_length (by omega)]
        exact istep i m' h'
      · subst hi h'
        rw [List.getElem?_append_right (by omega), ilen, Nat.sub_self, List.take_left' rfl, hT]
        rfl
    by_cases hc : m.baseColorTexGL ≠ 0 ∧ 0 < cap ∧ m.baseColorTexGL ∉ T ∧ (T.length : Int) < cap
    · rw [if_pos hc] at s1
      obtain ⟨hz, hcap, hmem, hlen⟩ := hc
      rw [s1] at s2 ⊢
      have hheld : ∀ m' ∈ ms, m'.baseColorTexGL ≠ 0 → 0 < cap → m'.baseColorTexGL ∈ T := by
        intro m' hm' h1 h2
        rcases iheld m' hm' h1 h2 with h | h
        · exact h
        · omega
      refine ⟨?_, ?_, ?_, ?_, ?_, ?_, ?_, hstep⟩
      · simp only [List.length_append, List.length_cons, List.length_nil, ilen]
      · rw [List.nodup_append]
        refine ⟨inodup, List.nodup_singleton _, ?_⟩
        intro a ha hb
        rw [List.mem_singleton] at hb
        subst hb
        exact hmem ha
      · intro h0
        rcases List.mem_append.mp h0 with h | h
        · exact inz h
        · exact hz (List.mem_singleton.mp h).symm
      · simp only [List.length_append, List.length_cons, List.length_nil]
        push_cast
        have := le_max_right 0 cap
        omega
      · intro x hx
        rcases List.mem_append.mp hx with h | h
        · obtain ⟨m', hm', e⟩ := isub x h
          exact ⟨m', List.mem_append_left _ hm', e⟩
        · exact ⟨m, by simp, (List.mem_singleton.mp h).symm⟩
      · intro m' hm' h1 h2
        left
        rcases List.mem_append.mp hm' with h | h
        · exact List.mem_append_left _ (hheld m' h h1 h2)
        · rw [List.mem_singleton.mp h]; simp
      · intro i m' h
        rcases hidx i m' h with ⟨hi, h'⟩ | ⟨hi, h'⟩
        · rw [List.getElem?_append_left (by omega), islots i m' h']
          unfold packedWith
          rw [slotFor_append cap T _ _ (hheld m' (List.getElem?_mem h'))]
        · subst hi h'
          rw [List.getElem?_append_right (by omega), ilen, Nat.sub_self, s2]
          rfl
    · rw [if_neg hc] at s1
      rw [s1] at s2 ⊢
      refine ⟨?_, inodup, inz, ibound, ?_, ?_, ?_, hstep⟩
      · simp only [List.length_append, List.length_cons, List.length_nil, ilen]
      · intro x hx
        obtain ⟨m', hm', e⟩ := isub x hx
        exact ⟨m', List.mem_append_left _ hm', e⟩
      · intro m' hm' h1 h2
        rcases List.mem_append.mp hm' with h | h
        · exact iheld m' h h1 h2
        · rw [List.mem_singleton.mp h] at h1 ⊢
          by_contra hn
          push_neg at hn
          exact hc ⟨h1, h2, hn.1, hn.2⟩
      · intro i m' h
        rcases hidx i m' h with ⟨hi, h'⟩ | ⟨hi, h'⟩
        · rw [List.getElem?_append_left (by omega)]
          exact islots i m' h'
        · subst hi h'
          rw [List.getElem?_append_right (by omega), ilen, Nat.sub_self, s2]
          rfl

end PackLoop

/-! ### Claims about the material packing -/

section PackClaims

set_option linter.unusedSectionVars false

variable {F : Type} [LinearOrder F]

/-- What a non-empty upload on an initialised tracer stores for the materials. -/
theorem UploadScene_packed (ops : FloatOps F) (sel : NthElement) (s : Sys F)
    (ts : List (TriInput F)) (ms : List (MaterialInput F))
    (hin : s.g.inited = true) (hts : ts ≠ []) (hms : ms ≠ []) :
    (UploadScene ops sel s (some ts) (some ms)).g.baseColorSamplers
      = (packMaterials s.g.maxBaseColorSamplers [] ms).1 ∧
    (UploadScene ops sel s (some ts) (some ms)).gl.bufMats
      = (packMaterials s.g.maxBaseColorSamplers [] ms).2 ∧
    (UploadScene ops sel s (some ts) (some ms)).g.sceneMatCount = ms.length % 4294967296 ∧
    (UploadScene ops sel s (some ts) (some ms)).g.maxBaseColorSamplers
      = s.g.maxBaseColorSamplers ∧
    (UploadScene ops sel s (some ts) (some ms)).g.hasScene
      = decide (0 < ts.length ∧
          0 < (buildScene ops sel (ts.map (triBoundsOf ops))).nodes.length ∧ 0 < ms.length) := by
  have h1 : ¬(ts.length = 0 ∨ ms.length = 0) := by
    simp only [List.length_eq_zero, not_or]
    exact ⟨hts, hms⟩
  refine ⟨?_, ?_, ?_, ?_, ?_⟩ <;>
    (unfold UploadScene UploadSceneInternal
     simp only [hin, Bool.not_true, Bool.false_eq_true, if_false, h1]) <;> rfl

/-- C18. For every material of a non-empty upload on an initialised tracer (the upload
succeeds: one packed material per input, `HasScene()` true for fewer than `2^32`
triangles), the packed material keeps the base-colour factor, and its base-colour
slot is either `-1` or an index into the sampler table left by the upload, at
which the table holds the material's texture handle. The slot is `-1` exactly
when the handle is 0, or the capacity is not positive (it is never negative, so:
is 0), or the handle is not in the table when the material is reached and that
table is at capacity. -/
theorem c18_packed_texture_slot (ops : FloatOps F) (sel : NthElement) (s : Sys F)
    (ts : List (TriInput F)) (ms : List (MaterialInput F))
    (hin : s.g.inited = true) (hts : ts ≠ []) (hms : ms ≠ []) :
    (UploadScene ops sel s (some ts) (some ms)).gl.bufMats.length = ms.length ∧
    (UploadScene ops sel s (some ts) (some ms)).g.sceneMatCount = ms.length % 4294967296 ∧
    (ts.length < 4294967296 → HasScene (UploadScene ops sel s (some ts) (some ms)).g = true) ∧
    ∀ (i : Nat) (m : MaterialInput F), ms[i]? = some m →
      ∃ p : MaterialGPU F,
        (UploadScene ops sel s (some ts) (some ms)).gl.bufMats[i]? = some p ∧
        p.baseColor = m.baseColor ∧
        (p.tex0 = -1 ∨
          (0 ≤ p.tex0 ∧
            p.tex0 < ((UploadScene ops sel s (some ts) (some ms)).g.baseColorSamplers.length : Int) ∧
            (UploadScene ops sel s (some ts) (some ms)).g.baseColorSamplers[p.tex0.toNat]?
              = some m.baseColorTexGL)) ∧
        (p.tex0 = -1 ↔
          m.baseColorTexGL = 0 ∨ s.g.maxBaseColorSamplers ≤ 0 ∨
          (m.baseColorTexGL ∉ (packMaterials s.g.maxBaseColorSamplers [] (ms.take i)).1 ∧
            s.g.maxBaseColorSamplers
              ≤ ((packMaterials s.g.maxBaseColorSamplers [] (ms.take i)).1.length : Int))) ∧
        (0 ≤ s.g.maxBaseColorSamplers →
          (p.tex0 = -1 ↔
            m.baseColorTexGL = 0 ∨ s.g.maxBaseColorSamplers = 0 ∨
            (m.baseColorTexGL ∉ (packMaterials s.g.maxBaseColorSamplers [] (ms.take i)).1 ∧
              s.g.maxBaseColorSamplers
                ≤ ((packMaterials s.g.maxBaseColorSamplers [] (ms.take i)).1.length : Int)))) := by
  obtain ⟨u1, u2, u3, _, u5⟩ := UploadScene_packed ops sel s ts ms hin hts hms
  obtain ⟨ilen, _, _, _, _, _, islots, istep⟩ := packMaterials_inv s.g.maxBaseColorSamplers ms
  rw [u1, u2]
  refine ⟨ilen, u3, ?_, ?_⟩
  · intro hN
    have hpos : 0 < ts.length := List.length_pos.mpr hts
    have hsub := (buildScene_spec ops sel (ts.map (triBoundsOf ops))
      (by rw [List.length_map]; exact hpos) (by rw [List.length_map]; exact hN)).2.2
    have hn := hsub.size_pos
    unfold HasScene
    rw [u5]
    simp only [decide_eq_true_eq]
    exact ⟨hpos, hn, List.length_pos.mpr hms⟩
  · intro i m hm
    have hiff := (packMaterial_spec s.g.maxBaseColorSamplers
      (packMaterials s.g.maxBaseColorSamplers [] (ms.take i)).1 m).2.2
    have hp2 := istep i m hm
    rw [islots i m hm] at hp2
    have hp3 := Option.some.inj hp2
    rw [← hp3] at hiff
    refine ⟨_, islots i m hm, rfl, ?_, hiff, ?_⟩
    · show slotFor _ _ _ = -1 ∨ _
      by_cases hc : m.baseColorTexGL ≠ 0 ∧ 0 < s.g.maxBaseColorSamplers
      · by_cases hmem : m.baseColorTexGL ∈ (packMaterials s.g.maxBaseColorSamplers [] ms).1
        · right
          obtain ⟨k, hk1, hk2, hk3⟩ := findSampler_get _ _ 0 hmem
          have hslot : (packedWith s.g.maxBaseColorSamplers
              (packMaterials s.g.maxBaseColorSamplers [] ms).1 m).tex0 = (k : Int) := by
            show slotFor _ _ _ = _
            unfold slotFor
            rw [if_pos hc, hk1, Nat.zero_add]
          rw [hslot]
          refine ⟨Int.ofNat_nonneg _, by exact_mod_cast hk3, ?_⟩
          rw [Int.toNat_ofNat]
          exact hk2
        · left
          unfold slotFor
          rw [if_pos hc]
          exact (findSampler_eq_neg_one_iff _ _ _).mpr hmem
      · left
        unfold slotFor
        rw [if_neg hc]
    · intro hnn
      rw [hiff]
      constructor
      · rintro (h | h | h)
        · exact Or.inl h
        · exact Or.inr (Or.inl (le_antisymm h hnn))
        · exact Or.inr (Or.inr h)
      · rintro (h | h | h)
        · exact Or.inl h
        · exact Or.inr (Or.inl (le_of_eq h))
        · exact Or.inr (Or.inr h)

theorem c18_packed_texture_slot_witness :
    ((initSys 2).g.inited = true ∧
      sixMaterials[4]? = some (texturedMaterial 9) ∧
      (initSys 2).g.maxBaseColorSamplers = 2 ∧
      (packMaterials (initSys 2).g.maxBaseColorSamplers [] (sixMaterials.take 4)).1 = [5, 7]) ∧
    (UploadScene exactOps sortingNth (initSys 2) (some [unitTri])
      (some sixMaterials)).gl.bufMats.length = sixMaterials.length ∧
    Option.map MaterialGPU.tex0
      ((UploadScene exactOps sortingNth (initSys 2) (some [unitTri])
        (some sixMaterials)).gl.bufMats[4]?) = some (-1) := by
  refine ⟨⟨rfl, rfl, by decide, by decide⟩, ?_, ?_⟩
  · exact (c18_packed_texture_slot exactOps sortingNth (initSys 2) [unitTri] sixMaterials rfl
      (List.cons_ne_nil _ _) (List.cons_ne_nil _ _)).1
  · obtain ⟨p, hp, _, _, hiff, _⟩ :=
      (c18_packed_texture_slot exactOps sortingNth (initSys 2) [unitTri] sixMaterials rfl
        (List.cons_ne_nil _ _) (List.cons_ne_nil _ _)).2.2.2 4 (texturedMaterial 9) rfl
    rw [hp, Option.map_some', hiff.mpr (Or.inr (Or.inr ⟨by decide, by decide⟩))]

/-- C19. `Initialize()` stores `max(0, min(16, units - 0))` as the capacity, which
lies in `[0, 16]` whatever number of units the driver reports. After a non-empty
upload on an initialised tracer with such a capacity, the sampler table holds
pairwise distinct non-zero handles, each of them the handle of a material of this
upload, and its length is at most the capacity, which the upload leaves as it
is; two materials with the same handle get the same slot; and the table is the
same whatever state (previous scene, previous table) the upload started from and
whatever triangles come with the materials. -/
theorem c19_sampler_table (ops : FloatOps F) (sel : NthElement) (s0 s : Sys F) (units : Int)
    (names : Nat → List Nat) (ts : List (TriInput F)) (ms : List (MaterialInput F))
    (h0 : s0.g.inited = false)
    (hcap : s.g.maxBaseColorSamplers = (Initialize s0 true units names).2.g.maxBaseColorSamplers)
    (hin : s.g.inited = true) (hts : ts ≠ []) (hms : ms ≠ []) :
    ((Initialize s0 true units names).1 = true ∧
      (Initialize s0 true units names).2.g.inited = true ∧
      (Initialize s0 true units names).2.g.maxBaseColorSamplers = max 0 (min 16 (units - 0))) ∧
    (0 ≤ s.g.maxBaseColorSamplers ∧ s.g.maxBaseColorSamplers ≤ 16) ∧
    (UploadScene ops sel s (some ts) (some ms)).g.maxBaseColorSamplers
      = s.g.maxBaseColorSamplers ∧
    (UploadScene ops sel s (some ts) (some ms)).g.baseColorSamplers.Nodup ∧
    0 ∉ (UploadScene ops sel s (some ts) (some ms)).g.baseColorSamplers ∧
    ((UploadScene ops sel s (some ts) (some ms)).g.baseColorSamplers.length : Int)
      ≤ s.g.maxBaseColorSamplers ∧
    (∀ x ∈ (UploadScene ops sel s (some ts) (some ms)).g.baseColorSamplers,
      ∃ m ∈ ms, m.baseColorTexGL = x) ∧
    (∀ (i j : Nat) (mi mj : MaterialInput F) (pi pj : MaterialGPU F),
      ms[i]? = some mi → ms[j]? = some mj →
      (UploadScene ops sel s (some ts) (some ms)).gl.bufMats[i]? = some pi →
      (UploadScene ops sel s (some ts) (some ms)).gl.bufMats[j]? = some pj →
      mi.baseColorTexGL = mj.baseColorTexGL → pi.tex0 = pj.tex0) ∧
    (∀ (s' : Sys F) (ts' : List (TriInput F)), s'.g.inited = true →
      s'.g.maxBaseColorSamplers = s.g.maxBaseColorSamplers → ts' ≠ [] →
      (UploadScene ops sel s' (some ts') (some ms)).g.baseColorSamplers
        = (UploadScene ops sel s (some ts) (some ms)).g.baseColorSamplers) := by
  have hinit : Initialize s0 true units names =
      (true, { s0 with g := { s0.g with
        maxBaseColorSamplers :=
          max 0 (min kMaxBaseColorSamplers (units - kBaseColorSamplerBinding)),
        tTrace := s0.g.tTrace.init s0.gl (names 0) (names 1),
        tAcc := s0.g.tAcc.init s0.gl (names 2) (names 3),
        tDenoise := s0.g.tDenoise.init s0.gl (names 4) (names 5),
        tTonemap := s0.g.tTonemap.init s0.gl (names 6) (names 7),
        inited := true } }) := by
    unfold Initialize
    rw [h0]
    rfl
  have hval : s.g.maxBaseColorSamplers = max 0 (min 16 (units - 0)) := by
    rw [hcap, hinit]
    rfl
  have hrange : 0 ≤ s.g.maxBaseColorSamplers ∧ s.g.maxBaseColorSamplers ≤ 16 := by
    rw [hval]
    exact ⟨le_max_left _ _, max_le (by norm_num) (min_le_left _ _)⟩
  obtain ⟨u1, u2, _, u4, _⟩ := UploadScene_packed ops sel s ts ms hin hts hms
  obtain ⟨_, inodup, inz, ibound, isub, _, islots, _⟩ :=
    packMaterials_inv s.g.maxBaseColorSamplers ms
  rw [u1, u2]
  refine ⟨⟨by rw [hinit], by rw [hinit], by rw [← hcap]; exact hval⟩, hrange, u4, inodup, inz,
    ?_, isub, ?_, ?_⟩
  · rw [max_eq_right hrange.1] at ibound
    exact ibound
  · intro i j mi mj pi pj hi hj hpi hpj he
    rw [islots i mi hi] at hpi
    rw [islots j mj hj] at hpj
    rw [← Option.some.inj hpi, ← Option.some.inj hpj]
    show slotFor _ _ _ = slotFor _ _ _
    rw [he]
  · intro s' ts' hin' hc' hts'
    rw [(UploadScene_packed ops sel s' ts' ms hin' hts' hms).1, hc']

theorem c19_sampler_table_witness :
    (freshSys.g.inited = false ∧
      (initSys 2).g.maxBaseColorSamplers
        = (Initialize freshSys true 2
            (fun k => [4 * k + 1, 4 * k + 2, 4 * k + 3, 4 * k + 4])).2.g.maxBaseColorSamplers ∧
      (initSys 2).g.inited = true) ∧
    ((UploadScene exactOps sortingNth (initSys 2) (some [unitTri])
      (some sixMaterials)).g.baseColorSamplers.length : Int) ≤ (initSys 2).g.maxBaseColorSamplers ∧
    (UploadScene exactOps sortingNth (initSys 2) (some [unitTri])
      (some sixMaterials)).g.baseColorSamplers.Nodup :=
  ⟨⟨rfl, rfl, rfl⟩,
    (c19_sampler_table exactOps sortingNth freshSys (initSys 2) 2
      (fun k => [4 * k + 1, 4 * k + 2, 4 * k + 3, 4 * k + 4]) [unitTri] sixMaterials rfl rfl rfl
      (List.cons_ne_nil _ _) (List.cons_ne_nil _ _)).2.2.2.2.2.1,
    (c19_sampler_table exactOps sortingNth freshSys (initSys 2) 2
      (fun k => [4 * k + 1, 4 * k + 2, 4 * k + 3, 4 * k + 4]) [unitTri] sixMaterials rfl rfl rfl
      (List.cons_ne_nil _ _) (List.cons_ne_nil _ _)).2.2.2.1⟩

end PackClaims

/-! ## Proofs: traversal stack -/

section TraversalProofs

set_option linter.unusedSectionVars false

variable {F : Type} [LinearOrder F]

theorem ReachIn.inv {nodes : List (NodeGPU F)} {i j d : Nat} (h : ReachIn nodes i j d) :
    (i = j ∧ d = 0) ∨
    ∃ (k d' : Nat) (n : NodeGPU F), d = d' + 1 ∧ nodes[i]? = some n ∧ n.count = 0 ∧
      (k = n.left ∨ k = n.right) ∧ ReachIn nodes k j d' := by
  cases h with
  | refl => exact Or.inl ⟨rfl, rfl⟩
  | step _ k _ d' n hn hc hk hr => exact Or.inr ⟨k, d', n, rfl, hn, hc, hk, hr⟩

theorem ReachIn.snoc {nodes : List (NodeGPU F)} {i j d : Nat} (h : ReachIn nodes i j d)
    (n : NodeGPU F) (k : Nat) (hn : nodes[j]? = some n) (hc : n.count = 0)
    (hk : k = n.left ∨ k = n.right) : ReachIn nodes i k (d + 1) := by
  induction h with
  | refl i => exact ReachIn.step i k k 0 n hn hc hk (ReachIn.refl k)
  | step i k' j d' n' hn' hc' hk' _ ih => exact ReachIn.step i k' k (d' + 1) n' hn' hc' hk' (ih hn)

theorem ReachIn.toReach {nodes : List (NodeGPU F)} {i j d : Nat} (h : ReachIn nodes i j d) :
    Reach nodes i j := by
  induction h with
  | refl i => exact Reach.refl i
  | step i k j d n hn hc hk _ ih => exact Reach.step i k j n hn hc hk ih

/-- Depth bound: beneath the root of a `Subtree` over `c ≤ 8 · 2^k` positions no node
lies deeper than `k` levels, since each child of a node over `c` positions is over
`⌊c / 2⌋` or `⌈c / 2⌉` of them. -/
theorem Subtree.depth_le {nodes : List (NodeGPU F)} {idx : List Nat} {info : List (TriBounds F)}
    {i f c s : Nat} (h : Subtree nodes idx info i f c s) :
    ∀ k, c ≤ 8 * 2 ^ k → ∀ j d, ReachIn nodes i j d → d ≤ k := by
  induction h with
  | leaf i f c n h1 h2 h3 h4 h5 h6 =>
    intro k _ j d hr
    rcases hr.inv with ⟨_, hd⟩ | ⟨k', d', n', _, hn', hc', _, _⟩
    · omega
    · rw [h1] at hn'
      cases hn'
      omega
  | node i f cl cr sl sr n h1 h2 h3 h4 h5 h6 h7 h8 hl hr ihl ihr =>
    intro k hk j d hreach
    rcases hreach.inv with ⟨_, hd⟩ | ⟨k', d', n', hd, hn', hc', hk', hr'⟩
    · omega
    · rw [h1] at hn'
      cases hn'
      simp only [kLeafMax] at h6
      cases k with
      | zero => simp only [pow_zero] at hk; omega
      | succ k0 =>
        have hpow : 2 ^ (k0 + 1) = 2 * 2 ^ k0 := by rw [pow_succ]; ring
        rw [hpow] at hk
        rcases hk' with e | e
        · rw [e, h4] at hr'
          have := ihl k0 (by omega) j d' hr'
          omega
        · rw [e, h5] at hr'
          have := ihr k0 (by omega) j d' hr'
          omega

/-- An internal node at the root of a `Subtree` over `c` positions: `c` exceeds the
leaf size and the children are roots of `Subtree`s over `⌊c / 2⌋` and `⌈c / 2⌉`
positions. -/
theorem Subtree.children_split {nodes : List (NodeGPU F)} {idx : List Nat}
    {info : List (TriBounds F)} {i f c s : Nat} (h : Subtree nodes idx info i f c s)
    (n : NodeGPU F) (hn : nodes[i]? = some n) (hc : n.count = 0) :
    kLeafMax < c ∧ ∃ sl sr, Subtree nodes idx info n.left f (c / 2) sl ∧
      Subtree nodes idx info n.right (f + c / 2) ((c + 1) / 2) sr := by
  induction h with
  | leaf i f c m h1 h2 h3 h4 h5 h6 =>
    rw [hn] at h1
    cases h1
    omega
  | node i f cl cr sl sr m h1 h2 h3 h4 h5 h6 h7 h8 hl hr _ _ =>
    rw [hn] at h1
    cases h1
    refine ⟨h6, sl, sr, ?_, ?_⟩
    · rw [h4, ← h7]; exact hl
    · have e : (cl + cr + 1) / 2 = cr := by omega
      rw [h5, ← h7, e]; exact hr

theorem traverseStep_ok (nodes : List (NodeGPU F)) (visit : Bool) (st : List Nat)
    (h : StackOK nodes st) : StackOK nodes (traverseStep nodes visit st) := by
  cases st with
  | nil => exact h
  | cons ni rest =>
    obtain ⟨⟨d, hd, hlen⟩, hrest⟩ := h
    simp only [traverseStep]
    cases hn : nodes[ni]? with
    | none => exact hrest
    | some n =>
      simp only
      by_cases h1 : (!visit) = true
      · rw [if_pos h1]; exact hrest
      · rw [if_neg h1]
        by_cases h2 : 0 < n.count
        · rw [if_pos h2]; exact hrest
        · rw [if_neg h2]
          by_cases h3 : rest.length < 62
          · rw [if_pos h3]
            have hc : n.count = 0 := by omega
            refine ⟨⟨d + 1, hd.snoc n n.right hn hc (Or.inr rfl), ?_⟩,
              ⟨d + 1, hd.snoc n n.left hn hc (Or.inl rfl), ?_⟩, hrest⟩
            · simp only [List.length_cons]; omega
            · omega
          · rw [if_neg h3]; exact hrest

theorem traverseRun_ok (nodes : List (NodeGPU F)) (visits : List Bool) :
    StackOK nodes (traverseRun nodes visits) := by
  unfold traverseRun
  have hgen : ∀ (vs : List Bool) (st : List Nat), StackOK nodes st →
      StackOK nodes (vs.foldl (fun st v => traverseStep nodes v st) st) := by
    intro vs
    induction vs with
    | nil => intro st h; exact h
    | cons v vs ih => intro st h; exact ih _ (traverseStep_ok nodes v st h)
  exact hgen visits [0] ⟨⟨0, ReachIn.refl 0, le_refl _⟩, trivial⟩

/-- With every node at most `H` levels beneath the root, a stack that satisfies the
invariant has at most `H + 1` entries, and an internal node on its top has at most
`H - 1` entries beneath it. -/
theorem StackOK.bound {nodes : List (NodeGPU F)} {st : List Nat} (h : StackOK nodes st) (H : Nat)
    (hH : ∀ j d, ReachIn nodes 0 j d → d ≤ H) :
    st.length ≤ H + 1 ∧
    ∀ ni rest n, st = ni :: rest → nodes[ni]? = some n → n.count = 0 → rest.length + 1 ≤ H := by
  cases st with
  | nil => exact ⟨by simp, fun _ _ _ h => by cases h⟩
  | cons ni rest =>
    obtain ⟨⟨d, hd, hlen⟩, _⟩ := h
    have := hH ni d hd
    refine ⟨by simp only [List.length_cons]; omega, ?_⟩
    intro ni' rest' n e hn hc
    cases e
    have := hH n.left (d + 1) (hd.snoc n n.left hn hc (Or.inl rfl))
    omega

theorem StackOK.mem {nodes : List (NodeGPU F)} {st : List Nat} (h : StackOK nodes st) :
    ∀ ni ∈ st, ∃ d, ReachIn nodes 0 ni d := by
  induction st with
  | nil => intro ni hni; cases hni
  | cons a rest ih =>
    obtain ⟨⟨d, hd, _⟩, hrest⟩ := h
    intro ni hni
    rcases List.mem_cons.mp hni with e | e
    · exact ⟨d, e ▸ hd⟩
    · exact ih hrest ni e

end TraversalProofs

/-! ### Claim about the traversal stack -/

section TraversalClaims

set_option linter.unusedSectionVars false

variable {F : Type} [LinearOrder F]

/-- C20. For `1 ≤ N < 2^32` triangles: every internal node of the tree built by
`buildNode` is over `c > 8` positions and its children are over `⌊c / 2⌋` and
`⌈c / 2⌉` of them; no node lies more than 29 levels beneath the root; and at every
point of a traversal by `traceMesh` or `occludedMesh`, whatever the box tests
decide, the stack holds at most 30 entries (so never more than 64), holds only
indices inside the node array, and the node about to be popped, if internal, has
fewer than 62 entries beneath it, so the guard `sp < 62` holds and its children
are pushed. -/
theorem c20_traversal_stack_bound (ops : FloatOps F) (sel : NthElement)
    (info : List (TriBounds F)) (h1 : 0 < info.length) (h2 : info.length < 4294967296) :
    (∀ (j : Nat) (n : NodeGPU F), Reach (buildScene ops sel info).nodes 0 j →
      (buildScene ops sel info).nodes[j]? = some n → n.count = 0 →
      ∃ (f c sl sr : Nat), kLeafMax < c ∧
        Subtree (buildScene ops sel info).nodes (buildScene ops sel info).triIndices info
          n.left f (c / 2) sl ∧
        Subtree (buildScene ops sel info).nodes (buildScene ops sel info).triIndices info
          n.right (f + c / 2) ((c + 1) / 2) sr) ∧
    (∀ (j d : Nat), ReachIn (buildScene ops sel info).nodes 0 j d → d ≤ 29) ∧
    (∀ visits : List Bool,
      (traverseRun (buildScene ops sel info).nodes visits).length ≤ 30 ∧
      (traverseRun (buildScene ops sel info).nodes visits).length ≤ 64 ∧
      guardFails (buildScene ops sel info).nodes
        (traverseRun (buildScene ops sel info).nodes visits) = false ∧
      ∀ ni ∈ traverseRun (buildScene ops sel info).nodes visits,
        ni < (buildScene ops sel info).nodes.length) := by
  obtain ⟨_, _, hsub⟩ := buildScene_spec ops sel info h1 h2
  have hH : ∀ (j d : Nat), ReachIn (buildScene ops sel info).nodes 0 j d → d ≤ 29 :=
    hsub.depth_le 29 (by norm_num; omega)
  refine ⟨?_, hH, ?_⟩
  · intro j n hr hn hc
    obtain ⟨f', c', s', hs, _, _⟩ := Subtree.reach hr _ _ _ hsub
    obtain ⟨hk, sl, sr, hl, hr'⟩ := hs.children_split n hn hc
    exact ⟨f', c', sl, sr, hk, hl, hr'⟩
  · intro visits
    have hok := traverseRun_ok (buildScene ops sel info).nodes visits
    obtain ⟨hlen, htop⟩ := hok.bound 29 hH
    refine ⟨hlen, by omega, ?_, ?_⟩
    · unfold guardFails
      cases hst : traverseRun (buildScene ops sel info).nodes visits with
      | nil => rfl
      | cons ni rest =>
        simp only
        cases hn : (buildScene ops sel info).nodes[ni]? with
        | none => rfl
        | some n =>
          simp only [Bool.and_eq_false_iff, decide_eq_false_iff_not, not_le]
          by_cases hc : n.count = 0
          · right
            have := htop ni rest n hst hn hc
            omega
          · left; exact hc
    · intro ni hni
      obtain ⟨d, hd⟩ := hok.mem ni hni
      obtain ⟨f', c', s', hs, _, _⟩ := Subtree.reach hd.toReach _ _ _ hsub
      obtain ⟨n, hn, _⟩ := hs.root
      exact (List.getElem?_eq_some.mp hn).1

theorem c20_traversal_stack_bound_witness :
    (0 < nineTriBounds.length ∧ nineTriBounds.length < 4294967296) ∧
    (traverseRun (buildScene exactOps sortingNth nineTriBounds).nodes [true, false]).length ≤ 30 ∧
    guardFails (buildScene exactOps sortingNth nineTriBounds).nodes
      (traverseRun (buildScene exactOps sortingNth nineTriBounds).nodes [true, false]) = false :=
  ⟨⟨by decide, by decide⟩,
    ((c20_traversal_stack_bound exactOps sortingNth nineTriBounds (by decide) (by decide)).2.2
      [true, false]).1,
    ((c20_traversal_stack_bound exactOps sortingNth nineTriBounds (by decide) (by decide)).2.2
      [true, false]).2.2.1⟩

end TraversalClaims

/-! ## Proofs: shape of the node array -/

section TreeShape

set_option linter.unusedSectionVars false

variable {F : Type} [LinearOrder F]

/-- The root of a `Subtree` over `c` positions is a leaf storing `(f, c)` with
`1 ≤ c ≤ 8`, or an internal node (`count = 0`) over `c > 8` positions whose left
child is the next node and whose right child lies further inside the block. -/
theorem Subtree.root_kind {nodes : List (NodeGPU F)} {idx : List Nat} {info : List (TriBounds F)}
    {i f c s : Nat} (h : Subtree nodes idx info i f c s) :
    ∃ n, nodes[i]? = some n ∧
      ((n.count = c ∧ n.first = f ∧ 0 < c ∧ c ≤ kLeafMax ∧ s = 1) ∨
       (n.count = 0 ∧ n.first = 0 ∧ kLeafMax < c ∧ n.left = i + 1 ∧ i + 1 < n.right ∧
          n.right < i + s)) := by
  induction h with
  | leaf i f c n h1 h2 h3 h4 h5 h6 => exact ⟨n, h1, Or.inl ⟨h2, h3, h4, h5, rfl⟩⟩
  | node i f cl cr sl sr n h1 h2 h3 h4 h5 h6 h7 h8 hl hr _ _ =>
    have := hl.size_pos
    have := hr.size_pos
    exact ⟨n, h1, Or.inr ⟨h2, h3, h6, h4, by omega, by omega⟩⟩

/-- Every node in the block of a `Subtree` is the root of a `Subtree` whose block
lies inside it. -/
theorem Subtree.sub_block {nodes : List (NodeGPU F)} {idx : List Nat} {info : List (TriBounds F)}
    {i f c s : Nat} (h : Subtree nodes idx info i f c s) :
    ∀ j, i ≤ j → j < i + s →
      ∃ f' c' s', Subtree nodes idx info j f' c' s' ∧ j + s' ≤ i + s := by
  induction h with
  | leaf i f c n h1 h2 h3 h4 h5 h6 =>
    intro j hj1 hj2
    have : j = i := by omega
    subst this
    exact ⟨f, c, 1, Subtree.leaf j f c n h1 h2 h3 h4 h5 h6, le_refl _⟩
  | node i f cl cr sl sr n h1 h2 h3 h4 h5 h6 h7 h8 hl hr ihl ihr =>
    intro j hj1 hj2
    by_cases hj : j = i
    · subst hj
      exact ⟨f, cl + cr, 1 + sl + sr,
        Subtree.node j f cl cr sl sr n h1 h2 h3 h4 h5 h6 h7 h8 hl hr, le_refl _⟩
    · by_cases hjl : j < i + 1 + sl
      · obtain ⟨f', c', s', hs, hb⟩ := ihl j (by omega) hjl
        exact ⟨f', c', s', hs, by omega⟩
      · obtain ⟨f', c', s', hs, hb⟩ := ihr j (by omega) (by omega)
        exact ⟨f', c', s', hs, by omega⟩

/-- Inside the block of a `Subtree` the children of an internal node stay in the
block, and every node but the root is the child of exactly one internal node of
the block. -/
theorem Subtree.parents {nodes : List (NodeGPU F)} {idx : List Nat} {info : List (TriBounds F)}
    {i f c s : Nat} (h : Subtree nodes idx info i f c s) :
    (∀ (p : Nat) (n : NodeGPU F), i ≤ p → p < i + s → nodes[p]? = some n → n.count = 0 →
      n.left = p + 1 ∧ p + 1 < n.right ∧ n.right < i + s) ∧
    (∀ j, i < j → j < i + s →
      ∃ (p : Nat) (n : NodeGPU F), i ≤ p ∧ p < i + s ∧ nodes[p]? = some n ∧ n.count = 0 ∧
        (n.left = j ∨ n.right = j) ∧
        ∀ (p' : Nat) (n' : NodeGPU F), i ≤ p' → p' < i + s → nodes[p']? = some n' →
          n'.count = 0 → (n'.left = j ∨ n'.right = j) → p' = p) := by
  induction h with
  | leaf i f c n h1 h2 h3 h4 h5 h6 =>
    constructor
    · intro p m hp1 hp2 hm hc
      have : p = i := by omega
      subst this
      rw [h1] at hm
      cases hm
      omega
    · intro j hj1 hj2
      omega
  | node i f cl cr sl sr n h1 h2 h3 h4 h5 h6 h7 h8 hl hr ihl ihr =>
    have hsl := hl.size_pos
    have hsr := hr.size_pos
    obtain ⟨lc, lp⟩ := ihl
    obtain ⟨rc, rp⟩ := ihr
    have hchild : ∀ (p : Nat) (m : NodeGPU F), i ≤ p → p < i + (1 + sl + sr) →
        nodes[p]? = some m → m.count = 0 →
        m.left = p + 1 ∧ p + 1 < m.right ∧ m.right < i + (1 + sl + sr) ∧
        (p = i → m.right = i + 1 + sl) ∧
        (i < p → p < i + 1 + sl → m.right < i + 1 + sl) := by
      intro p m hp1 hp2 hm hc
      by_cases hpi : p = i
      · subst hpi
        rw [h1] at hm
        cases hm
        exact ⟨h4, by omega, by omega, fun _ => h5, fun hlt => by omega⟩
      · by_cases hpl : p < i + 1 + sl
        · obtain ⟨a, b, c'⟩ := lc p m (by omega) hpl hm hc
          exact ⟨a, b, by omega, fun e => absurd e hpi, fun _ _ => c'⟩
        · obtain ⟨a, b, c'⟩ := rc p m (by omega) (by omega) hm hc
          exact ⟨a, b, by omega, fun e => absurd e hpi, fun _ hlt => absurd hlt hpl⟩
    constructor
    · intro p m hp1 hp2 hm hc
      obtain ⟨a, b, c', _, _⟩ := hchild p m hp1 hp2 hm hc
      exact ⟨a, b, c'⟩
    · intro j hj1 hj2
      by_cases hjl : j < i + 1 + sl
      · by_cases hj0 : j = i + 1
        · refine ⟨i, n, le_refl _, by omega, h1, h2, Or.inl (by rw [h4, hj0]), ?_⟩
          intro p' n' hp1 hp2 hn' hc' hch
          obtain ⟨a, b, c', d, e⟩ := hchild p' n' hp1 hp2 hn' hc'
          by_contra hne
          rcases hch with hch | hch <;> omega
        · obtain ⟨p, m, q1, q2, q3, q4, q5, q6⟩ := lp j (by omega) hjl
          refine ⟨p, m, by omega, by omega, q3, q4, q5, ?_⟩
          intro p' n' hp1 hp2 hn' hc' hch
          obtain ⟨a, b, c', d, e⟩ := hchild p' n' hp1 hp2 hn' hc'
          by_cases hp'l : i < p' ∧ p' < i + 1 + sl
          · exact q6 p' n' (by omega) hp'l.2 hn' hc' hch
          · by_cases hp'i : p' = i
            · have := d hp'i
              rcases hch with hch | hch <;> omega
            · rcases hch with hch | hch <;> omega
      · by_cases hj0 : j = i + 1 + sl
        · refine ⟨i, n, le_refl _, by omega, h1, h2, Or.inr (by rw [h5, hj0]), ?_⟩
          intro p' n' hp1 hp2 hn' hc' hch
          obtain ⟨a, b, c', d, e⟩ := hchild p' n' hp1 hp2 hn' hc'
          by_contra hne
          by_cases hp'l : p' < i + 1 + sl
          · have := e (by omega) hp'l
            rcases hch with hch | hch <;> omega
          · rcases hch with hch | hch <;> omega
        · obtain ⟨p, m, q1, q2, q3, q4, q5, q6⟩ := rp j (by omega) (by omega)
          refine ⟨p, m, by omega, by omega, q3, q4, q5, ?_⟩
          intro p' n' hp1 hp2 hn' hc' hch
          obtain ⟨a, b, c', d, e⟩ := hchild p' n' hp1 hp2 hn' hc'
          by_cases hp'r : i + 1 + sl ≤ p'
          · exact q6 p' n' hp'r (by omega) hn' hc' hch
          · by_cases hp'i : p' = i
            · have := d hp'i
              rcases hch with hch | hch <;> omega
            · have := e (by omega) (by omega)
              rcases hch with hch | hch <;> omega

end TreeShape

/-! ### Claims about the shape of the node array -/

section TreeShapeClaims

set_option linter.unusedSectionVars false

variable {F : Type} [LinearOrder F]

/-- C22. For `1 ≤ N < 2^32` triangles every node of the array built is the node
`buildNode` made for some range of `c ≥ 1` positions; it is a leaf (`count > 0`)
exactly when `c ≤ 8`; a leaf stores its `(first, count)` with `1 ≤ count ≤ 8` and
an internal node stores `count = 0`, so no leaf is empty. For every call,
`buildNode(first, count)` with `count ≤ 8` makes the node it appends a leaf storing
`(first, count)`. -/
theorem c22_leaf_iff_at_most_eight (ops : FloatOps F) (sel : NthElement)
    (info : List (TriBounds F)) (h1 : 0 < info.length) (h2 : info.length < 4294967296) :
    LeavesAreSmallRanges (buildScene ops sel info) ∧
    (∀ (ctx : BuildContext F) (first count : Nat), count ≤ kLeafMax →
      ∃ n : NodeGPU F,
        (buildNode ops sel ctx first count).1.nodes[(buildNode ops sel ctx first count).2]?
          = some n ∧
        n.first = first ∧ n.count = count ∧
        (buildNode ops sel ctx first count).1.nodes.length = ctx.nodes.length + 1) := by
  obtain ⟨hinfo, _, hsub⟩ := buildScene_spec ops sel info h1 h2
  constructor
  · intro j n hn
    have hj : j < (buildScene ops sel info).nodes.length := (List.getElem?_eq_some.mp hn).1
    rw [hinfo]
    obtain ⟨f, c, s, hs, _⟩ := hsub.sub_block j (Nat.zero_le _) (by omega)
    obtain ⟨m, hm, hk⟩ := hs.root_kind
    rw [hn] at hm
    cases hm
    refine ⟨f, c, s, hs, hs.count_pos, ?_⟩
    simp only [kLeafMax] at hk ⊢
    rcases hk with ⟨a1, a2, a3, a4, _⟩ | ⟨b1, _, b3, _⟩
    · exact ⟨⟨fun _ => a4, fun _ => by omega⟩, fun _ => ⟨a2, a1, by omega, by omega⟩,
        fun hlt => by omega⟩
    · exact ⟨⟨fun hpos => by omega, fun hle => by omega⟩, fun hle => by omega, fun _ => b1⟩
  · intro ctx first count hle
    rw [buildNode_leaf ops sel ctx first count hle]
    have hget : (ctx.nodes ++ [(⟨(boundsForRange ops ctx first count).mn,
        (boundsForRange ops ctx first count).mx, 0, 0, 0, 0⟩ : NodeGPU F)])[ctx.nodes.length]?
        = some ⟨(boundsForRange ops ctx first count).mn,
          (boundsForRange ops ctx first count).mx, 0, 0, 0, 0⟩ := by simp
    refine ⟨_, getElem?_setMeta_eq _ _ _ _ _ _ _ hget, rfl, rfl, ?_⟩
    simp only [setMeta_length, List.length_append, List.length_cons, List.length_nil]

theorem c22_leaf_iff_at_most_eight_witness :
    (0 < nineTriBounds.length ∧ nineTriBounds.length < 4294967296) ∧
    LeavesAreSmallRanges (buildScene exactOps sortingNth nineTriBounds) :=
  ⟨⟨by decide, by decide⟩,
    (c22_leaf_iff_at_most_eight exactOps sortingNth nineTriBounds (by decide) (by decide)).1⟩

theorem chooseAxis_le_two (ex ey ez : Option F) : chooseAxis ex ey ez ≤ 2 := by
  unfold chooseAxis
  split_ifs <;> omega

theorem chooseAxis_of_numbers (a b c : F) :
    (chooseAxis (some a) (some b) (some c) = 0 ∧ b ≤ a ∧ c ≤ a) ∨
    (chooseAxis (some a) (some b) (some c) = 1 ∧ a ≤ b ∧ c ≤ b) ∨
    (chooseAxis (some a) (some b) (some c) = 2 ∧ a ≤ c ∧ b ≤ c) := by
  unfold chooseAxis fgt fge
  simp only [Bool.and_eq_true, decide_eq_true_eq]
  split_ifs with h1 h2
  · exact Or.inr (Or.inl ⟨rfl, le_of_lt h1.1, h1.2⟩)
  · exact Or.inr (Or.inr ⟨rfl, le_of_lt h2.1, h2.2⟩)
  · refine Or.inl ⟨rfl, ?_, ?_⟩
    · by_contra hb
      have hab : a < b := lt_of_not_le hb
      have hcb : b < c := lt_of_not_le (fun h => h1 ⟨hab, h⟩)
      exact h2 ⟨lt_trans hab hcb, le_of_lt hcb⟩
    · by_contra hc
      have hac : a < c := lt_of_not_le hc
      have hbc : c < b := lt_of_not_le (fun h => h2 ⟨hac, h⟩)
      exact h1 ⟨lt_trans hac hbc, le_of_lt hbc⟩

theorem chooseAxis_of_nan (ex ey ez : Option F) (h : ex = none ∨ ey = none ∨ ez = none) :
    chooseAxis ex ey ez = 0 := by
  unfold chooseAxis fgt fge
  cases ex <;> cases ey <;> cases ez <;> simp at h ⊢

/-- C23, as amended. On a range of more than `kLeafMax` positions `buildNode` hands
`std::nth_element` the comparison of centroids along `splitAxis`, the value of its
local `axis`, which is 0, 1 or 2. Let `cb` be the centroid box of the range. When
none of its three extents `cb.mx[k] - cb.mn[k]` is NaN (on no axis are both bounds
the same infinity), the extent along the chosen axis is at least the extent along
each axis. When an extent is NaN, both tests of the selection fail and axis 0 is
kept. -/
theorem c23_split_axis_is_largest (ops : FloatOps F) (sel : NthElement) (ctx : BuildContext F)
    (first count : Nat) (h : kLeafMax < count) :
    (∀ l r : BuildContext F × Nat,
      l = buildNode ops sel
        ⟨nthElementRange sel (centroidLess ctx.triInfo (splitAxis ops ctx first count))
          ctx.triIndices first (first + count / 2) count, ctx.triInfo,
          ctx.nodes ++ [⟨(boundsForRange ops ctx first count).mn,
            (boundsForRange ops ctx first count).mx, 0, 0, 0, 0⟩]⟩ first (count / 2) →
      r = buildNode ops sel l.1 (first + count / 2) (count - count / 2) →
      buildNode ops sel ctx first count =
        (⟨r.1.triIndices, r.1.triInfo, setMeta r.1.nodes ctx.nodes.length l.2 r.2 0 0⟩,
         ctx.nodes.length)) ∧
    splitAxis ops ctx first count ≤ 2 ∧
    (∀ cb : AABB F, cb = centroidBoundsForRange ops ctx first count →
      (∀ k, k ≤ 2 →
        ¬ ((cb.mx.get k = ops.posInf ∧ cb.mn.get k = ops.posInf) ∨
           (cb.mx.get k = ops.negInf ∧ cb.mn.get k = ops.negInf))) →
      ∀ k, k ≤ 2 →
        ops.sub (cb.mx.get k) (cb.mn.get k) ≤
          ops.sub (cb.mx.get (splitAxis ops ctx first count))
            (cb.mn.get (splitAxis ops ctx first count))) ∧
    (∀ cb : AABB F, cb = centroidBoundsForRange ops ctx first count →
      (∃ k, k ≤ 2 ∧
        ((cb.mx.get k = ops.posInf ∧ cb.mn.get k = ops.posInf) ∨
         (cb.mx.get k = ops.negInf ∧ cb.mn.get k = ops.negInf))) →
      splitAxis ops ctx first count = 0) := by
  refine ⟨?_, chooseAxis_le_two _ _ _, ?_, ?_⟩
  · intro l r hl hr
    rw [hr, hl]
    exact buildNode_split ops sel ctx first count h
  · intro cb hcb hnum k hk
    have e : ∀ j, j ≤ 2 → aabbExtent ops cb j = some (ops.sub (cb.mx.get j) (cb.mn.get j)) := by
      intro j hj
      unfold aabbExtent
      rw [if_neg (hnum j hj)]
    have hs : splitAxis ops ctx first count =
        chooseAxis (some (ops.sub (cb.mx.get 0) (cb.mn.get 0)))
          (some (ops.sub (cb.mx.get 1) (cb.mn.get 1)))
          (some (ops.sub (cb.mx.get 2) (cb.mn.get 2))) := by
      unfold splitAxis
      rw [← hcb, e 0 (by omega), e 1 (by omega), e 2 (by omega)]
    have hk3 : k = 0 ∨ k = 1 ∨ k = 2 := by omega
    rw [hs]
    rcases chooseAxis_of_numbers (ops.sub (cb.mx.get 0) (cb.mn.get 0))
        (ops.sub (cb.mx.get 1) (cb.mn.get 1)) (ops.sub (cb.mx.get 2) (cb.mn.get 2)) with
      ⟨e0, p, q⟩ | ⟨e0, p, q⟩ | ⟨e0, p, q⟩ <;> rw [e0] <;>
      rcases hk3 with rfl | rfl | rfl <;> first | exact le_refl _ | assumption
  · intro cb hcb hnan
    obtain ⟨k, hk, hk2⟩ := hnan
    have en : aabbExtent ops cb k = none := by
      unfold aabbExtent
      rw [if_pos hk2]
    unfold splitAxis
    rw [← hcb]
    apply chooseAxis_of_nan
    have hk3 : k = 0 ∨ k = 1 ∨ k = 2 := by omega
    rcases hk3 with rfl | rfl | rfl
    · exact Or.inl en
    · exact Or.inr (Or.inl en)
    · exact Or.inr (Or.inr en)

theorem nineTris_no_nan (k : Nat) (hk : k ≤ 2) :
    ¬ (((centroidBoundsForRange exactOps nineTrisContext 0 9).mx.get k = exactOps.posInf ∧
        (centroidBoundsForRange exactOps nineTrisContext 0 9).mn.get k = exactOps.posInf) ∨
       ((centroidBoundsForRange exactOps nineTrisContext 0 9).mx.get k = exactOps.negInf ∧
        (centroidBoundsForRange exactOps nineTrisContext 0 9).mn.get k = exactOps.negInf)) := by
  have hk3 : k = 0 ∨ k = 1 ∨ k = 2 := by omega
  rcases hk3 with rfl | rfl | rfl <;> decide!

/-- Claim C23 as amended, on the nine triangles `nineTris` stacked along `y`: the
centroid box is `[1/3, 1/3] x [1/3, 25/3] x [0, 0]`, with extents `0, 8, 0`; the
axis chosen is 1, and the extent along `x` is at most the extent along it. -/
theorem c23_split_axis_is_largest_witness :
    kLeafMax < 9 ∧
    centroidBoundsForRange exactOps nineTrisContext 0 9
      = ⟨⟨1 / 3, 1 / 3, 0⟩, ⟨1 / 3, 25 / 3, 0⟩⟩ ∧
    aabbExtent exactOps (centroidBoundsForRange exactOps nineTrisContext 0 9) 0 = some 0 ∧
    aabbExtent exactOps (centroidBoundsForRange exactOps nineTrisContext 0 9) 1 = some 8 ∧
    aabbExtent exactOps (centroidBoundsForRange exactOps nineTrisContext 0 9) 2 = some 0 ∧
    splitAxis exactOps nineTrisContext 0 9 = 1 ∧
    splitAxis exactOps nineTrisContext 0 9 ≤ 2 ∧
    exactOps.sub ((centroidBoundsForRange exactOps nineTrisContext 0 9).mx.get 0)
        ((centroidBoundsForRange exactOps nineTrisContext 0 9).mn.get 0) ≤
      exactOps.sub
        ((centroidBoundsForRange exactOps nineTrisContext 0 9).mx.get
          (splitAxis exactOps nineTrisContext 0 9))
        ((centroidBoundsForRange exactOps nineTrisContext 0 9).mn.get
          (splitAxis exactOps nineTrisContext 0 9)) :=
  have h := c23_split_axis_is_largest exactOps sortingNth nineTrisContext 0 9 (by decide)
  ⟨by decide, by decide!, by decide!, by decide!, by decide!, by decide!, h.2.1,
    h.2.2.1 _ rfl nineTris_no_nan 0 (by decide)⟩

/-- C23, the counterexample. Nine bounds records whose centroids are `+inf` along
`x` (the sum of the `x` coordinates overflowed) and spread over `1/3 .. 25/3` along
`y`: both `x` bounds of the centroid box are `+inf`, so the extent along `x` is
NaN while the extent along `y` is 8. Both tests of the selection compare with the
NaN and fail: `buildNode` keeps axis 0, whose extent is not `>=` the extent
along `y`. -/
theorem c23_nan_extent_keeps_axis_zero :
    kLeafMax < 9 ∧
    centroidBoundsForRange exactOps overflowedContext 0 9
      = ⟨⟨exactOps.posInf, 1 / 3, 0⟩, ⟨exactOps.posInf, 25 / 3, 0⟩⟩ ∧
    aabbExtent exactOps (centroidBoundsForRange exactOps overflowedContext 0 9) 0 = none ∧
    aabbExtent exactOps (centroidBoundsForRange exactOps overflowedContext 0 9) 1 = some 8 ∧
    aabbExtent exactOps (centroidBoundsForRange exactOps overflowedContext 0 9) 2 = some 0 ∧
    splitAxis exactOps overflowedContext 0 9 = 0 ∧
    fge (aabbExtent exactOps (centroidBoundsForRange exactOps overflowedContext 0 9)
        (splitAxis exactOps overflowedContext 0 9))
      (aabbExtent exactOps (centroidBoundsForRange exactOps overflowedContext 0 9) 1) = false := by
  refine ⟨by decide, by decide!, by decide!, by decide!, by decide!, by decide!, by decide!⟩

/-- C24. For `1 ≤ N < 2^32` triangles the node array is a tree in pre-order rooted at
node 0: the left child of an internal node at `i` is `i + 1`, its right child `r`
satisfies `i + 1 < r < (number of nodes)`, every node other than node 0 is the
child of exactly one internal node, and node 0 is no node's child. Hence both
child indices of every internal node are inside the array. -/
theorem c24_preorder_tree (ops : FloatOps F) (sel : NthElement)
    (info : List (TriBounds F)) (h1 : 0 < info.length) (h2 : info.length < 4294967296) :
    PreorderTree (buildScene ops sel info) ∧
    (∀ (i : Nat) (n : NodeGPU F), (buildScene ops sel info).nodes[i]? = some n → n.count = 0 →
      n.left < (buildScene ops sel info).nodes.length ∧
      n.right < (buildScene ops sel info).nodes.length) := by
  obtain ⟨_, _, hsub⟩ := buildScene_spec ops sel info h1 h2
  obtain ⟨hc, hp⟩ := hsub.parents
  have hlen := hsub.size_pos
  have hchild : ∀ (i : Nat) (n : NodeGPU F), (buildScene ops sel info).nodes[i]? = some n →
      n.count = 0 →
      n.left = i + 1 ∧ i + 1 < n.right ∧ n.right < (buildScene ops sel info).nodes.length := by
    intro i n hn hcount
    have hi : i < (buildScene ops sel info).nodes.length := (List.getElem?_eq_some.mp hn).1
    obtain ⟨a, b, c⟩ := hc i n (Nat.zero_le _) (by omega) hn hcount
    exact ⟨a, b, by omega⟩
  refine ⟨⟨hlen, hchild, ?_, ?_⟩, ?_⟩
  · intro j hj1 hj2
    obtain ⟨p, n, _, _, q3, q4, q5, q6⟩ := hp j hj1 (by omega)
    refine ⟨p, n, q3, q4, q5, ?_⟩
    intro p' n' hn' hc' hch
    have hp' : p' < (buildScene ops sel info).nodes.length := (List.getElem?_eq_some.mp hn').1
    exact q6 p' n' (Nat.zero_le _) (by omega) hn' hc' hch
  · intro p n hn hcount
    obtain ⟨a, b, _⟩ := hchild p n hn hcount
    omega
  · intro i n hn hcount
    obtain ⟨a, b, c⟩ := hchild i n hn hcount
    omega

theorem c24_preorder_tree_witness :
    (0 < nineTriBounds.length ∧ nineTriBounds.length < 4294967296) ∧
    PreorderTree (buildScene exactOps sortingNth nineTriBounds) :=
  ⟨⟨by decide, by decide⟩,
    (c24_preorder_tree exactOps sortingNth nineTriBounds (by decide) (by decide)).1⟩

end TreeShapeClaims

/-! ### Claims about sample indices, the camera and the timer ring -/

section SampleClaims

set_option linter.unusedSectionVars false

variable {F : Type} [LinearOrder F]

theorem sampleIndices_eq_range (c : Nat) (spp : Int)
    (h : c + (max 1 spp).toNat ≤ 4294967296) :
    sampleIndices c spp = List.range' c (max 1 spp).toNat := by
  unfold sampleIndices
  rw [max_comm spp 1, List.range'_eq_map_range]
  apply List.map_congr_left
  intro x hx
  have := List.mem_range.mp hx
  exact Nat.mod_eq_of_lt (by omega)

/-- A `Render` call that runs a pass: the trace is dispatched with the counter value
the pass starts from (0 after a clear) as sample base, and the counter is advanced
by `max(1, sppPerFrame)`. -/
theorem Render_pass_samples (ops : FloatOps F) (s : Sys F) (vw vh : Int)
    (hin : s.g.inited = true) (hen : s.g.settings.enabled = true)
    (her : (EnsureResources ops s vw vh).1 = true) (htp : s.g.forceTestPattern = false)
    (hwork : (!s.g.paused || s.g.stepOnce) = true) :
    (∃ rest : List GLEvent, kernelLog (Render ops s vw vh).gl = kernelLog s.gl ++
      (if (EnsureResources ops s vw vh).2.g.settings.resetAccumulation
        then [GLEvent.clearDispatch] else []) ++
      GLEvent.traceDispatch
        ((if (EnsureResources ops s vw vh).2.g.settings.resetAccumulation then 0
          else s.g.sppAccum) % 4294967296) s.g.settings.sppPerFrame :: rest) ∧
    (Render ops s vw vh).g.sppAccum =
      ((if (EnsureResources ops s vw vh).2.g.settings.resetAccumulation then 0 else s.g.sppAccum)
        + (max 1 s.g.settings.sppPerFrame).toNat) % 18446744073709551616 := by
  obtain ⟨h1, h2, h3, h4, _⟩ := EnsureResources_usable ops s vw vh her
  obtain ⟨a, b, c, d, t1, t2, t3, t4, t5, t6, t7, t8, t9, t10, dbg, r, hshape, hr⟩ :=
    EnsureResources_shape ops s vw vh
  have hlog := kernelLog_EnsureResources ops s vw vh
  rw [Render_eq_frame ops s vw vh hin hen her htp]
  obtain ⟨f1, _, _, f4⟩ := renderFrame_spec ops (EnsureResources ops s vw vh).2 h1 h2 h3 h4
  have hpa : (EnsureResources ops s vw vh).2.g.paused = s.g.paused := by rw [hshape]
  have hst : (EnsureResources ops s vw vh).2.g.stepOnce = s.g.stepOnce := by rw [hshape]
  have hacc : (EnsureResources ops s vw vh).2.g.sppAccum = s.g.sppAccum := by rw [hshape]
  have hspp : (EnsureResources ops s vw vh).2.g.settings.sppPerFrame = s.g.settings.sppPerFrame := by
    rw [hshape]
  rw [hpa, hst, hlog, hacc, if_pos hwork] at f1
  rw [hpa, hst, hacc, hspp] at f4
  refine ⟨?_, (f4 hwork).1⟩
  rw [f1]
  unfold passEvents
  simp only [hspp, List.cons_append, List.nil_append]
  exact ⟨_, rfl⟩

/-- C25. A `Render` call that runs a pass (tracer initialised and enabled, resources
available, test pattern off, not paused or a step pending) starting from the
counter value `c` (0 when the clear ran in the call), with
`c + max(1, sppPerFrame) ≤ 2^32`, dispatches the trace with sample base `c`, so
every pixel hashes exactly the indices `c, c + 1, .., c + max(1, sppPerFrame) - 1`,
and returns with the counter at `c + max(1, sppPerFrame)`. A later pass that
starts from that counter without a clear, whatever `sppPerFrame` it finds, hashes
the indices from `c + max(1, sppPerFrame)` on, none of which the first pass
used. -/
theorem c25_sample_index_ranges (ops : FloatOps F) (s : Sys F) (vw vh : Int) (c : Nat)
    (hin : s.g.inited = true) (hen : s.g.settings.enabled = true)
    (her : (EnsureResources ops s vw vh).1 = true) (htp : s.g.forceTestPattern = false)
    (hwork : (!s.g.paused || s.g.stepOnce) = true)
    (hc : c = if (EnsureResources ops s vw vh).2.g.settings.resetAccumulation then 0
      else s.g.sppAccum)
    (hlt : c + (max 1 s.g.settings.sppPerFrame).toNat ≤ 4294967296) :
    (∃ rest : List GLEvent, kernelLog (Render ops s vw vh).gl = kernelLog s.gl ++
      (if (EnsureResources ops s vw vh).2.g.settings.resetAccumulation
        then [GLEvent.clearDispatch] else []) ++
      GLEvent.traceDispatch c s.g.settings.sppPerFrame :: rest) ∧
    sampleIndices c s.g.settings.sppPerFrame
      = List.range' c (max 1 s.g.settings.sppPerFrame).toNat ∧
    (Render ops s vw vh).g.sppAccum = c + (max 1 s.g.settings.sppPerFrame).toNat ∧
    (∀ (s2 : Sys F) (vw2 vh2 : Int),
      s2.g.sppAccum = (Render ops s vw vh).g.sppAccum →
      s2.g.inited = true → s2.g.settings.enabled = true →
      (EnsureResources ops s2 vw2 vh2).1 = true → s2.g.forceTestPattern = false →
      (!s2.g.paused || s2.g.stepOnce) = true →
      (EnsureResources ops s2 vw2 vh2).2.g.settings.resetAccumulation = false →
      c + (max 1 s.g.settings.sppPerFrame).toNat + (max 1 s2.g.settings.sppPerFrame).toNat
        ≤ 4294967296 →
      (∃ rest : List GLEvent, kernelLog (Render ops s2 vw2 vh2).gl = kernelLog s2.gl ++
        GLEvent.traceDispatch (c + (max 1 s.g.settings.sppPerFrame).toNat)
          s2.g.settings.sppPerFrame :: rest) ∧
      sampleIndices (c + (max 1 s.g.settings.sppPerFrame).toNat) s2.g.settings.sppPerFrame
        = List.range' (c + (max 1 s.g.settings.sppPerFrame).toNat)
            (max 1 s2.g.settings.sppPerFrame).toNat ∧
      (∀ x ∈ sampleIndices c s.g.settings.sppPerFrame,
        x ∉ sampleIndices (c + (max 1 s.g.settings.sppPerFrame).toNat)
          s2.g.settings.sppPerFrame) ∧
      (Render ops s2 vw2 vh2).g.sppAccum =
        c + (max 1 s.g.settings.sppPerFrame).toNat
          + (max 1 s2.g.settings.sppPerFrame).toNat) := by
  obtain ⟨⟨rest, hlog⟩, hacc⟩ := Render_pass_samples ops s vw vh hin hen her htp hwork
  rw [← hc] at hlog hacc
  rw [Nat.mod_eq_of_lt (by omega)] at hlog
  rw [Nat.mod_eq_of_lt (by omega)] at hacc
  have hidx := sampleIndices_eq_range c s.g.settings.sppPerFrame hlt
  refine ⟨⟨rest, hlog⟩, hidx, hacc, ?_⟩
  intro s2 vw2 vh2 hs2 hin2 hen2 her2 htp2 hwork2 hfl2 hlt2
  obtain ⟨⟨rest2, hlog2⟩, hacc2⟩ := Render_pass_samples ops s2 vw2 vh2 hin2 hen2 her2 htp2 hwork2
  rw [hfl2] at hlog2 hacc2
  simp only [Bool.false_eq_true, if_false, List.append_nil] at hlog2 hacc2
  rw [hs2, hacc] at hlog2 hacc2
  rw [Nat.mod_eq_of_lt (by omega)] at hlog2
  rw [Nat.mod_eq_of_lt (by omega)] at hacc2
  have hidx2 := sampleIndices_eq_range (c + (max 1 s.g.settings.sppPerFrame).toNat)
    s2.g.settings.sppPerFrame hlt2
  refine ⟨⟨rest2, hlog2⟩, hidx2, ?_, hacc2⟩
  intro x hx hx2
  rw [hidx, List.mem_range'_1] at hx
  rw [hidx2, List.mem_range'_1] at hx2
  omega

theorem c25_sample_index_ranges_witness :
    (uploadedSys.g.inited = true ∧ uploadedSys.g.settings.enabled = true ∧
      (EnsureResources exactOps uploadedSys 4 4).1 = true ∧
      uploadedSys.g.forceTestPattern = false ∧
      (!uploadedSys.g.paused || uploadedSys.g.stepOnce) = true ∧
      (0 : Nat) = (if (EnsureResources exactOps uploadedSys 4 4).2.g.settings.resetAccumulation
        then 0 else uploadedSys.g.sppAccum) ∧
      0 + (max 1 uploadedSys.g.settings.sppPerFrame).toNat ≤ 4294967296) ∧
    sampleIndices 0 uploadedSys.g.settings.sppPerFrame
      = List.range' 0 (max 1 uploadedSys.g.settings.sppPerFrame).toNat ∧
    (Render exactOps uploadedSys 4 4).g.sppAccum
      = 0 + (max 1 uploadedSys.g.settings.sppPerFrame).toNat :=
  ⟨⟨rfl, rfl, by decide!, rfl, rfl, by decide!, by decide⟩,
    (c25_sample_index_ranges exactOps uploadedSys 4 4 0 rfl rfl (by decide!) rfl rfl
      (by decide!) (by decide)).2.1,
    (c25_sample_index_ranges exactOps uploadedSys 4 4 0 rfl rfl (by decide!) rfl rfl
      (by decide!) (by decide)).2.2.1⟩

end SampleClaims

section CameraRepeatClaims

set_option linter.unusedSectionVars false

variable {F : Type} [LinearOrder F]

theorem dist2_self (ops : FloatOps F) (hz : ZeroLaws ops) (a : Vec3 F) :
    dist2 ops a a = ops.lit 0 := by
  obtain ⟨h1, h2, h3, _⟩ := hz
  unfold dist2
  simp only [h1, h2, h3]

/-- With the stored basis as arguments, the position test and the field-of-view test
of `SetCameraBasis` are false, so `changed` is the disjunction of the three axis
tests. -/
theorem cameraChanged_same (ops : FloatOps F) (hz : ZeroLaws ops) (g : State F) :
    cameraChanged ops g g.camPos g.camDir g.camRight g.camUp g.camTanHalfFovY =
      (decide (ops.lit (1 / 1000000) < ops.sub (ops.lit 1) (dot3 ops g.camDir g.camDir)) ||
       decide (ops.lit (1 / 1000000) < ops.sub (ops.lit 1) (dot3 ops g.camRight g.camRight)) ||
       decide (ops.lit (1 / 1000000) < ops.sub (ops.lit 1) (dot3 ops g.camUp g.camUp))) := by
  have hd := dist2_self ops hz g.camPos
  obtain ⟨h1, _, _, h4, h5, h6⟩ := hz
  unfold cameraChanged
  rw [hd, h1, h4]
  simp only [h5, h6, decide_False, Bool.false_or, Bool.or_false]

/-- Every call of `SetCameraBasis` leaves its arguments stored. -/
theorem SetCameraBasis_stored (ops : FloatOps F) (g : State F) (pos dir right up : Vec3 F)
    (t : F) :
    (SetCameraBasis ops g pos dir right up t).camOverride = true ∧
    (SetCameraBasis ops g pos dir right up t).camPos = pos ∧
    (SetCameraBasis ops g pos dir right up t).camDir = dir ∧
    (SetCameraBasis ops g pos dir right up t).camRight = right ∧
    (SetCameraBasis ops g pos dir right up t).camUp = up ∧
    (SetCameraBasis ops g pos dir right up t).camTanHalfFovY = t := by
  unfold SetCameraBasis
  simp only
  split_ifs <;> exact ⟨rfl, rfl, rfl, rfl, rfl, rfl⟩

/-- With the stored basis as arguments, the request of `SetCameraBasis` is the
disjunction of the three axis tests, each on the sum of squares of the axis. -/
theorem cameraRequestsReset_repeated (ops : FloatOps F) (hz : ZeroLaws ops) (g : State F)
    (pos dir right up : Vec3 F) (t : F)
    (hov : g.camOverride = true) (hpos : g.camPos = pos) (hdir : g.camDir = dir)
    (hright : g.camRight = right) (hup : g.camUp = up) (ht : g.camTanHalfFovY = t) :
    cameraRequestsReset ops g pos dir right up t =
      (decide (ops.lit (1 / 1000000) <
          ops.sub (ops.lit 1)
            (ops.add (ops.add (ops.mul dir.x dir.x) (ops.mul dir.y dir.y))
              (ops.mul dir.z dir.z))) ||
       decide (ops.lit (1 / 1000000) <
          ops.sub (ops.lit 1)
            (ops.add (ops.add (ops.mul right.x right.x) (ops.mul right.y right.y))
              (ops.mul right.z right.z))) ||
       decide (ops.lit (1 / 1000000) <
          ops.sub (ops.lit 1)
            (ops.add (ops.add (ops.mul up.x up.x) (ops.mul up.y up.y))
              (ops.mul up.z up.z)))) := by
  have hsame := cameraChanged_same ops hz g
  rw [hpos, hdir, hright, hup, ht] at hsame
  unfold cameraRequestsReset
  rw [hov, if_pos rfl, hsame]
  unfold dot3
  rfl

/-- C26, as amended. Let `SetCameraBasis` be called with arguments identical to the
stored basis, the values being finite, so that `x - x = 0` in single precision.
The call requests a reset exactly when `1 - (a.x*a.x + a.y*a.y + a.z*a.z) > 1e-6`
for one of the axes forward, right, up. When that holds for no axis (unit-length
axes, and axes shorter than unit length within the tolerance), the call leaves
the state, reset flag included, as it is. When it holds for some axis, every
one of the repeated identical calls requests a reset and leaves the flag set.
Any call leaves its arguments stored. -/
theorem c26_repeated_camera_basis (ops : FloatOps F) (hz : ZeroLaws ops) (g : State F)
    (pos dir right up : Vec3 F) (t : F)
    (hov : g.camOverride = true) (hpos : g.camPos = pos) (hdir : g.camDir = dir)
    (hright : g.camRight = right) (hup : g.camUp = up) (ht : g.camTanHalfFovY = t) :
    cameraRequestsReset ops g pos dir right up t =
      (decide (ops.lit (1 / 1000000) <
          ops.sub (ops.lit 1)
            (ops.add (ops.add (ops.mul dir.x dir.x) (ops.mul dir.y dir.y))
              (ops.mul dir.z dir.z))) ||
       decide (ops.lit (1 / 1000000) <
          ops.sub (ops.lit 1)
            (ops.add (ops.add (ops.mul right.x right.x) (ops.mul right.y right.y))
              (ops.mul right.z right.z))) ||
       decide (ops.lit (1 / 1000000) <
          ops.sub (ops.lit 1)
            (ops.add (ops.add (ops.mul up.x up.x) (ops.mul up.y up.y))
              (ops.mul up.z up.z)))) ∧
    ((¬ ops.lit (1 / 1000000) <
          ops.sub (ops.lit 1)
            (ops.add (ops.add (ops.mul dir.x dir.x) (ops.mul dir.y dir.y))
              (ops.mul dir.z dir.z)) ∧
      ¬ ops.lit (1 / 1000000) <
          ops.sub (ops.lit 1)
            (ops.add (ops.add (ops.mul right.x right.x) (ops.mul right.y right.y))
              (ops.mul right.z right.z)) ∧
      ¬ ops.lit (1 / 1000000) <
          ops.sub (ops.lit 1)
            (ops.add (ops.add (ops.mul up.x up.x) (ops.mul up.y up.y))
              (ops.mul up.z up.z))) →
      SetCameraBasis ops g pos dir right up t = g) ∧
    ((ops.lit (1 / 1000000) <
          ops.sub (ops.lit 1)
            (ops.add (ops.add (ops.mul dir.x dir.x) (ops.mul dir.y dir.y))
              (ops.mul dir.z dir.z)) ∨
      ops.lit (1 / 1000000) <
          ops.sub (ops.lit 1)
            (ops.add (ops.add (ops.mul right.x right.x) (ops.mul right.y right.y))
              (ops.mul right.z right.z)) ∨
      ops.lit (1 / 1000000) <
          ops.sub (ops.lit 1)
            (ops.add (ops.add (ops.mul up.x up.x) (ops.mul up.y up.y))
              (ops.mul up.z up.z))) →
      ∀ n : Nat,
        cameraRequestsReset ops ((fun g0 => SetCameraBasis ops g0 pos dir right up t)^[n] g)
          pos dir right up t = true ∧
        ((fun g0 => SetCameraBasis ops g0 pos dir right up t)^[n + 1] g).settings.resetAccumulation
          = true) ∧
    ((SetCameraBasis ops g pos dir right up t).camOverride = true ∧
      (SetCameraBasis ops g pos dir right up t).camPos = pos ∧
      (SetCameraBasis ops g pos dir right up t).camDir = dir ∧
      (SetCameraBasis ops g pos dir right up t).camRight = right ∧
      (SetCameraBasis ops g pos dir right up t).camUp = up ∧
      (SetCameraBasis ops g pos dir right up t).camTanHalfFovY = t) := by
  have hreq := cameraRequestsReset_repeated ops hz g pos dir right up t hov hpos hdir hright hup ht
  refine ⟨hreq, ?_, ?_, SetCameraBasis_stored ops g pos dir right up t⟩
  · intro hno
    have hf : cameraRequestsReset ops g pos dir right up t = false := by
      rw [hreq]
      simp only [hno.1, hno.2.1, hno.2.2, decide_False, Bool.or_self]
    unfold SetCameraBasis
    simp only [hf, Bool.false_eq_true, if_false]
    cases g
    simp only at hov hpos hdir hright hup ht
    subst hov hpos hdir hright hup ht
    rfl
  · intro hsome n
    have hinv : ∀ m : Nat,
        ((fun g0 => SetCameraBasis ops g0 pos dir right up t)^[m] g).camOverride = true ∧
        ((fun g0 => SetCameraBasis ops g0 pos dir right up t)^[m] g).camPos = pos ∧
        ((fun g0 => SetCameraBasis ops g0 pos dir right up t)^[m] g).camDir = dir ∧
        ((fun g0 => SetCameraBasis ops g0 pos dir right up t)^[m] g).camRight = right ∧
        ((fun g0 => SetCameraBasis ops g0 pos dir right up t)^[m] g).camUp = up ∧
        ((fun g0 => SetCameraBasis ops g0 pos dir right up t)^[m] g).camTanHalfFovY = t := by
      intro m
      cases m with
      | zero => exact ⟨hov, hpos, hdir, hright, hup, ht⟩
      | succ m =>
        rw [Function.iterate_succ_apply']
        exact SetCameraBasis_stored ops _ pos dir right up t
    obtain ⟨i1, i2, i3, i4, i5, i6⟩ := hinv n
    have htrue : cameraRequestsReset ops
        ((fun g0 => SetCameraBasis ops g0 pos dir right up t)^[n] g) pos dir right up t
        = true := by
      rw [cameraRequestsReset_repeated ops hz _ pos dir right up t i1 i2 i3 i4 i5 i6]
      rcases hsome with h | h | h <;>
        simp only [decide_eq_true h, Bool.or_true, Bool.true_or]
    refine ⟨htrue, ?_⟩
    rw [Function.iterate_succ_apply']
    generalize ((fun g0 => SetCameraBasis ops g0 pos dir right up t)^[n] g) = gn at htrue ⊢
    show (SetCameraBasis ops gn pos dir right up t).settings.resetAccumulation = true
    unfold SetCameraBasis
    simp only [htrue, if_true]
    rfl

theorem exactOps_zeroLaws : ZeroLaws exactOps := by
  unfold ZeroLaws exactOps
  refine ⟨fun x => ?_, ?_, ?_, ?_, ?_, ?_⟩ <;> norm_num

/-- Claim C26 as amended, in exact arithmetic. With the stored forward axis
`(0, 0, -1/2)`, for which `1 - dot = 3/4`, the repeated call requests a reset, and
so do the following ones, each leaving the flag set. With the unit basis the
repeated call requests nothing and returns the state as it is. -/
theorem c26_repeated_camera_basis_witness :
    (ZeroLaws exactOps ∧ (basisState ⟨0, 0, -1 / 2⟩).camOverride = true ∧
      (basisState ⟨0, 0, -1 / 2⟩).camPos = ⟨0, 0, 5⟩ ∧
      (basisState ⟨0, 0, -1 / 2⟩).camDir = ⟨0, 0, -1 / 2⟩ ∧
      (basisState ⟨0, 0, -1 / 2⟩).camRight = ⟨1, 0, 0⟩ ∧
      (basisState ⟨0, 0, -1 / 2⟩).camUp = ⟨0, 1, 0⟩ ∧
      (basisState ⟨0, 0, -1 / 2⟩).camTanHalfFovY = 1) ∧
    cameraRequestsReset exactOps (basisState ⟨0, 0, -1 / 2⟩) ⟨0, 0, 5⟩ ⟨0, 0, -1 / 2⟩ ⟨1, 0, 0⟩
      ⟨0, 1, 0⟩ 1 = true ∧
    cameraRequestsReset exactOps
      ((fun g0 => SetCameraBasis exactOps g0 ⟨0, 0, 5⟩ ⟨0, 0, -1 / 2⟩ ⟨1, 0, 0⟩ ⟨0, 1, 0⟩ 1)^[2]
        (basisState ⟨0, 0, -1 / 2⟩))
      ⟨0, 0, 5⟩ ⟨0, 0, -1 / 2⟩ ⟨1, 0, 0⟩ ⟨0, 1, 0⟩ 1 = true ∧
    ((fun g0 => SetCameraBasis exactOps g0 ⟨0, 0, 5⟩ ⟨0, 0, -1 / 2⟩ ⟨1, 0, 0⟩ ⟨0, 1, 0⟩ 1)^[2 + 1]
      (basisState ⟨0, 0, -1 / 2⟩)).settings.resetAccumulation = true ∧
    cameraRequestsReset exactOps (basisState ⟨0, 0, -1⟩) ⟨0, 0, 5⟩ ⟨0, 0, -1⟩ ⟨1, 0, 0⟩ ⟨0, 1, 0⟩ 1
      = false ∧
    SetCameraBasis exactOps (basisState ⟨0, 0, -1⟩) ⟨0, 0, 5⟩ ⟨0, 0, -1⟩ ⟨1, 0, 0⟩ ⟨0, 1, 0⟩ 1
      = basisState ⟨0, 0, -1⟩ :=
  ⟨⟨exactOps_zeroLaws, rfl, rfl, rfl, rfl, rfl, rfl⟩,
    (c26_repeated_camera_basis exactOps exactOps_zeroLaws (basisState ⟨0, 0, -1 / 2⟩) ⟨0, 0, 5⟩
      ⟨0, 0, -1 / 2⟩ ⟨1, 0, 0⟩ ⟨0, 1, 0⟩ 1 rfl rfl rfl rfl rfl rfl).1.trans (by decide!),
    ((c26_repeated_camera_basis exactOps exactOps_zeroLaws (basisState ⟨0, 0, -1 / 2⟩) ⟨0, 0, 5⟩
      ⟨0, 0, -1 / 2⟩ ⟨1, 0, 0⟩ ⟨0, 1, 0⟩ 1 rfl rfl rfl rfl rfl rfl).2.2.1
      (Or.inl (by decide!)) 2).1,
    ((c26_repeated_camera_basis exactOps exactOps_zeroLaws (basisState ⟨0, 0, -1 / 2⟩) ⟨0, 0, 5⟩
      ⟨0, 0, -1 / 2⟩ ⟨1, 0, 0⟩ ⟨0, 1, 0⟩ 1 rfl rfl rfl rfl rfl rfl).2.2.1
      (Or.inl (by decide!)) 2).2,
    (c26_repeated_camera_basis exactOps exactOps_zeroLaws (basisState ⟨0, 0, -1⟩) ⟨0, 0, 5⟩
      ⟨0, 0, -1⟩ ⟨1, 0, 0⟩ ⟨0, 1, 0⟩ 1 rfl rfl rfl rfl rfl rfl).1.trans (by decide!),
    (c26_repeated_camera_basis exactOps exactOps_zeroLaws (basisState ⟨0, 0, -1⟩) ⟨0, 0, 5⟩
      ⟨0, 0, -1⟩ ⟨1, 0, 0⟩ ⟨0, 1, 0⟩ 1 rfl rfl rfl rfl rfl rfl).2.1
      ⟨by decide!, by decide!, by decide!⟩⟩

/-- C26, the counterexample. The stored forward axis `(0, 0, -(1 - 2^-22))` is shorter
than unit length (its squared length, about `1 - 4.8e-7`, is below 1), yet
`1 - dot` stays below the tolerance `1e-6`: the repeated identical call requests
no reset and, on a state whose flag is off, leaves the flag off. -/
theorem c26_slightly_short_axis_no_reset :
    (0 : ℚ) * 0 + 0 * 0 + (-4194303 / 4194304) * (-4194303 / 4194304) < 1 ∧
    ((settledBasisState ⟨0, 0, -4194303 / 4194304⟩).camOverride = true ∧
      (settledBasisState ⟨0, 0, -4194303 / 4194304⟩).camPos = ⟨0, 0, 5⟩ ∧
      (settledBasisState ⟨0, 0, -4194303 / 4194304⟩).camDir = ⟨0, 0, -4194303 / 4194304⟩ ∧
      (settledBasisState ⟨0, 0, -4194303 / 4194304⟩).camRight = ⟨1, 0, 0⟩ ∧
      (settledBasisState ⟨0, 0, -4194303 / 4194304⟩).camUp = ⟨0, 1, 0⟩ ∧
      (settledBasisState ⟨0, 0, -4194303 / 4194304⟩).camTanHalfFovY = 1) ∧
    dot3 exactOps ⟨0, 0, -4194303 / 4194304⟩ ⟨0, 0, -4194303 / 4194304⟩
      = 17592177655809 / 17592186044416 ∧
    cameraRequestsReset exactOps (settledBasisState ⟨0, 0, -4194303 / 4194304⟩) ⟨0, 0, 5⟩
      ⟨0, 0, -4194303 / 4194304⟩ ⟨1, 0, 0⟩ ⟨0, 1, 0⟩ 1 = false ∧
    (settledBasisState ⟨0, 0, -4194303 / 4194304⟩).settings.resetAccumulation = false ∧
    (SetCameraBasis exactOps (settledBasisState ⟨0, 0, -4194303 / 4194304⟩) ⟨0, 0, 5⟩
      ⟨0, 0, -4194303 / 4194304⟩ ⟨1, 0, 0⟩ ⟨0, 1, 0⟩ 1).settings.resetAccumulation = false := by
  refine ⟨by norm_num, ⟨by decide!, by decide!, by decide!, by decide!, by decide!, by decide!⟩,
    by decide!, by decide!, by decide!, by decide!⟩

end CameraRepeatClaims

/-! ### Claims about the timer ring, the random numbers and the rolling window -/

/-- For a frame counter up to `2^31 - 3999` (so that the sum in `resolve` stays inside
`int`) the cast `(int)frameIndex` is the counter itself, both ring slots lie in
`0 .. 3`, and from frame 2 on the slot `resolve` reads is the slot `begin` and
`end` used two frames earlier, not the one of this frame. -/
theorem timer_slots_without_overflow (f : Nat) (hf : f + 3998 < 2147483648) :
    toInt32 f = (f : Int) ∧
    0 ≤ timerSlot (toInt32 f) ∧ timerSlot (toInt32 f) < 4 ∧
    0 ≤ resolveSlot (toInt32 f) ∧ resolveSlot (toInt32 f) < 4 ∧
    (2 ≤ f → resolveSlot (toInt32 f) = timerSlot (toInt32 (f - 2))) ∧
    resolveSlot (toInt32 f) ≠ timerSlot (toInt32 f) := by
  have hmod : f % 4294967296 = f := Nat.mod_eq_of_lt (by omega)
  have h1 : toInt32 f = (f : Int) := by
    unfold toInt32
    rw [hmod, if_pos (by omega)]
  have h2 : ∀ k : Nat, k < 2147483648 → toInt32 k = (k : Int) := by
    intro k hk
    unfold toInt32
    rw [Nat.mod_eq_of_lt (by omega), if_pos hk]
  have hw : wrapInt32 (wrapInt32 ((f : Int) - 2) + 4 * 1000) = (f : Int) + 3998 := by
    unfold wrapInt32
    omega
  have e1 : timerSlot (toInt32 f) = (f : Int) % 4 := by
    rw [h1]
    unfold timerSlot
    exact Int.tmod_eq_emod (by omega) (by omega)
  have e2 : resolveSlot (toInt32 f) = ((f : Int) + 3998) % 4 := by
    rw [h1]
    unfold resolveSlot
    rw [hw]
    exact Int.tmod_eq_emod (by omega) (by omega)
  refine ⟨h1, by omega, by omega, by omega, by omega, ?_, by omega⟩
  intro h2f
  have e3 : timerSlot (toInt32 (f - 2)) = ((f - 2 : Nat) : Int) % 4 := by
    rw [h2 (f - 2) (by omega)]
    unfold timerSlot
    exact Int.tmod_eq_emod (by omega) (by omega)
  rw [e2, e3]
  omega

/-- At the last frame before the cast turns negative, `2^31 - 1`, the sum
`frameIndex - 2 + 4000` of `resolve` leaves the range of `int`; with the wrapped
value the slot is `-3`, outside the ring. -/
theorem resolveSlot_int_overflow :
    toInt32 2147483647 = 2147483647 ∧
    wrapInt32 (wrapInt32 (2147483647 - 2) + 4 * 1000) = -2147479651 ∧
    resolveSlot (toInt32 2147483647) = -3 ∧
    queryAt [1, 2, 3, 4] (resolveSlot (toInt32 2147483647)) = none := by
  refine ⟨by decide, by decide, by decide, by decide⟩

/-- C27, the failing input. At frame counter `2^31 + 5` the cast `(int)frameIndex` is
`-2147483643`; `frameIndex % 4` is then `-3` and
`(frameIndex - 2 + 4000) % 4` is `-1`, both outside `0 .. 3`, so the subscripts
`qBegin[..]` and `qEnd[..]` of `begin`, `end` and `resolve` are out of range. -/
theorem c27_negative_ring_slot :
    toInt32 2147483653 = -2147483643 ∧
    timerSlot (toInt32 2147483653) = -3 ∧
    resolveSlot (toInt32 2147483653) = -1 ∧
    queryAt [1, 2, 3, 4] (timerSlot (toInt32 2147483653)) = none ∧
    queryAt [1, 2, 3, 4] (resolveSlot (toInt32 2147483653)) = none := by
  refine ⟨by decide, by decide, by decide, by decide, by decide⟩

theorem shiftRight_or_distrib (a b i : Nat) :
    (a ||| b) >>> i = a >>> i ||| b >>> i := by
  induction i generalizing a b with
  | zero => rfl
  | succ i ih =>
    rw [Nat.shiftRight_succ, Nat.shiftRight_succ, Nat.shiftRight_succ, ih, Nat.or_div_two]

theorem jittered_bounds (p : Nat) (j : ℚ) (h0 : 0 ≤ j) (h1 : j < 1) :
    (p : ℚ) ≤ jittered id p j ∧ jittered id p j < (p : ℚ) + 1 ∧
    (∀ rd : ℚ → ℚ, Monotone rd → rd (p : ℚ) = (p : ℚ) → rd ((p : ℚ) + 1) = (p : ℚ) + 1 →
      (p : ℚ) ≤ jittered rd p j ∧ jittered rd p j ≤ (p : ℚ) + 1) := by
  have hle1 : (p : ℚ) ≤ (p : ℚ) + j := by linarith
  have hle2 : (p : ℚ) + j ≤ (p : ℚ) + 1 := by linarith
  refine ⟨?_, ?_, ?_⟩
  · unfold jittered
    simp only [id]
    exact hle1
  · unfold jittered
    simp only [id]
    linarith
  · intro rd hmono hp hp1
    unfold jittered
    have a := hmono hle1
    have b := hmono hle2
    rw [hp] at a
    rw [hp1] at b
    exact ⟨a, b⟩

/-- C30. For every RNG state the word `rnd` builds has sign bit 0 and exponent field
127, so it encodes `1 + frac / 2^23`, a value in `[1, 2)`; `rnd` returns
`frac / 2^23`, a multiple of `2^-23` in `[0, 1)` (which single precision holds, so
the subtraction of `1.0` is exact); and for every pixel coordinate `p` the
jittered position `p + jitter` lies in `[p, p + 1)`, and under every monotone
rounding that keeps `p` and `p + 1` the rounded position lies in `[p, p + 1]`. -/
theorem c30_rnd_in_unit_interval (state p : Nat) :
    rndWord state < 4294967296 ∧
    signBit (rndWord state) = 0 ∧
    expField (rndWord state) = 127 ∧
    uintBitsToFloat (rndWord state)
      = some (1 + (fracField (rndWord state) : ℚ) / 8388608) ∧
    (1 : ℚ) ≤ 1 + (fracField (rndWord state) : ℚ) / 8388608 ∧
    1 + (fracField (rndWord state) : ℚ) / 8388608 < 2 ∧
    (rnd state).1 = rndState state ∧
    (rnd state).2 = some ((fracField (rndWord state) : ℚ) / 8388608) ∧
    fracField (rndWord state) < 8388608 ∧
    (0 : ℚ) ≤ (fracField (rndWord state) : ℚ) / 8388608 ∧
    (fracField (rndWord state) : ℚ) / 8388608 < 1 ∧
    (p : ℚ) ≤ jittered id p ((fracField (rndWord state) : ℚ) / 8388608) ∧
    jittered id p ((fracField (rndWord state) : ℚ) / 8388608) < (p : ℚ) + 1 ∧
    (∀ rd : ℚ → ℚ, Monotone rd → rd (p : ℚ) = (p : ℚ) → rd ((p : ℚ) + 1) = (p : ℚ) + 1 →
      (p : ℚ) ≤ jittered rd p ((fracField (rndWord state) : ℚ) / 8388608) ∧
      jittered rd p ((fracField (rndWord state) : ℚ) / 8388608) ≤ (p : ℚ) + 1) := by
  have hs : rndState state < 4294967296 := Nat.mod_lt _ (by norm_num)
  have hy : rndState state >>> 8 < 16777216 := by
    rw [Nat.shiftRight_eq_div_pow]
    norm_num
    omega
  have hhi : rndWord state >>> 23 = 127 := by
    unfold rndWord
    rw [shiftRight_or_distrib]
    have hy2 : (rndState state >>> 8) >>> 23 < 2 := by
      rw [Nat.shiftRight_eq_div_pow (rndState state >>> 8) 23]
      norm_num
      omega
    have h127 : (1065353216 : Nat) >>> 23 = 127 := by decide
    rw [h127]
    have : (rndState state >>> 8) >>> 23 = 0 ∨ (rndState state >>> 8) >>> 23 = 1 := by omega
    rcases this with e | e <;> rw [e] <;> decide
  have hdiv : rndWord state / 8388608 = 127 := by
    rw [Nat.shiftRight_eq_div_pow] at hhi
    norm_num at hhi
    exact hhi
  have hlt : rndWord state < 4294967296 := by omega
  have hsign : signBit (rndWord state) = 0 := by
    unfold signBit
    have : rndWord state / 2147483648 = 0 := by omega
    rw [this]
  have hexp : expField (rndWord state) = 127 := by
    unfold expField
    rw [hdiv]
  have hfrac : fracField (rndWord state) < 8388608 := by
    unfold fracField
    exact Nat.mod_lt _ (by norm_num)
  have hq0 : (0 : ℚ) ≤ (fracField (rndWord state) : ℚ) / 8388608 := by positivity
  have hq1 : (fracField (rndWord state) : ℚ) / 8388608 < 1 := by
    rw [div_lt_one (by norm_num)]
    exact_mod_cast hfrac
  have hval : uintBitsToFloat (rndWord state)
      = some (1 + (fracField (rndWord state) : ℚ) / 8388608) := by
    unfold uintBitsToFloat
    simp only [hsign, hexp]
    norm_num
  obtain ⟨hj1, hj2, hj3⟩ := jittered_bounds p _ hq0 hq1
  refine ⟨hlt, hsign, hexp, hval, by linarith, by linarith, rfl, ?_, hfrac, hq0, hq1, hj1, hj2,
    hj3⟩
  unfold rnd
  simp only [hval, Option.map_some']
  congr 1
  ring

/-- Claim C30 at state 0 and pixel coordinate 2, with the exact sum as rounding:
the word is `0x3f800000 | (1013904223 >> 8)`, and the position lies in `[2, 3]`. -/
theorem c30_rnd_in_unit_interval_witness :
    rndWord 0 < 4294967296 ∧ signBit (rndWord 0) = 0 ∧ expField (rndWord 0) = 127 ∧
    ((2 : Nat) : ℚ) ≤ jittered id 2 ((fracField (rndWord 0) : ℚ) / 8388608) ∧
    jittered id 2 ((fracField (rndWord 0) : ℚ) / 8388608) ≤ ((2 : Nat) : ℚ) + 1 :=
  have h := c30_rnd_in_unit_interval 0 2
  ⟨h.1, h.2.1, h.2.2.1,
    (h.2.2.2.2.2.2.2.2.2.2.2.2.2 id monotone_id rfl rfl).1,
    (h.2.2.2.2.2.2.2.2.2.2.2.2.2 id monotone_id rfl rfl).2⟩

/-- C21, the failing input. After `push(1)`, `push(2)` into a window of capacity 2
`snapshot()` returns `{2, 1}` where the two most recent values in push order are
`{1, 2}`; after a further `push(3)` it returns `{1, 3}`, which still holds the
evicted value 1 and has lost 2, where the most recent two are `{2, 3}`. `size()`
is 2 both times, as claimed. -/
theorem c21_snapshot_out_of_order :
    (RollingWindow.pushAll 2 [1, 2]).snapshot = [2, 1] ∧
    mostRecent 2 [1, 2] = [1, 2] ∧
    (RollingWindow.pushAll 2 [1, 2]).size = 2 ∧
    (RollingWindow.pushAll 2 [1, 2, 3]).snapshot = [1, 3] ∧
    mostRecent 2 [1, 2, 3] = [2, 3] ∧
    (RollingWindow.pushAll 2 [1, 2, 3]).size = 2 ∧
    (RollingWindow.pushAll 3 [1, 2, 3, 4]).snapshot = [3, 1, 4] ∧
    mostRecent 3 [1, 2, 3, 4] = [2, 3, 4] := by
  refine ⟨by decide, by decide, by decide, by decide, by decide, by decide, by decide,
    by decide⟩

theorem RollingWindow.push_below {T : Type} (w : RollingWindow T) (v : T)
    (h : w.data_.length < w.cap_) :
    w.push v =
      if w.data_.length + 1 = w.cap_ then { w with data_ := w.data_ ++ [v], filled_ := true }
      else { w with data_ := w.data_ ++ [v] } := by
  unfold RollingWindow.push
  rw [if_pos h]
  simp only [List.length_append, List.length_cons, List.length_nil, Nat.zero_add]

theorem RollingWindow.push_full {T : Type} (w : RollingWindow T) (v : T)
    (h : w.data_.length = w.cap_) :
    w.push v =
      { cap_ := w.cap_, data_ := w.data_.set ((w.head_ + 1) % w.cap_) v,
        head_ := (w.head_ + 1) % w.cap_, filled_ := true } := by
  have hn : ¬ w.data_.length < w.cap_ := by omega
  unfold RollingWindow.push
  rw [if_neg hn]
  simp only [List.length_set]
  rw [if_pos h]

/-- What holds of the rolling window for every capacity `cap ≥ 1` and every sequence of
pushes: `size()` is `min(n, cap)`, and while fewer than `cap` values have been
pushed `snapshot()` returns them in push order. -/
theorem rollingWindow_size_and_prefix {T : Type} (cap : Nat) (hcap : 1 ≤ cap) (vs : List T) :
    (RollingWindow.pushAll cap vs).size = min vs.length cap ∧
    (vs.length < cap → (RollingWindow.pushAll cap vs).snapshot = vs) := by
  have inv : ∀ vs : List T,
      (RollingWindow.pushAll cap vs).cap_ = cap ∧
      (RollingWindow.pushAll cap vs).data_.length = min vs.length cap ∧
      ((RollingWindow.pushAll cap vs).filled_ = true ↔ cap ≤ vs.length) ∧
      (vs.length < cap → (RollingWindow.pushAll cap vs).data_ = vs) := by
    intro vs
    induction vs using List.reverseRecOn with
    | nil =>
      refine ⟨rfl, ?_, ?_, fun _ => rfl⟩
      · show (0 : Nat) = min 0 cap
        omega
      · show false = true ↔ cap ≤ 0
        constructor
        · intro h; cases h
        · intro h; omega
    | append_singleton vs v ih =>
      obtain ⟨i1, i2, i3, i4⟩ := ih
      have hstep : RollingWindow.pushAll cap (vs ++ [v])
          = (RollingWindow.pushAll cap vs).push v := by
        unfold RollingWindow.pushAll
        rw [List.foldl_append]
        rfl
      rw [hstep]
      generalize RollingWindow.pushAll cap vs = w at i1 i2 i3 i4
      have hl : (vs ++ [v]).length = vs.length + 1 := by simp
      rw [hl]
      by_cases hlt : w.data_.length < w.cap_
      · have hn : vs.length < cap := by
          rw [i1, i2] at hlt
          omega
        have hd := i4 hn
        have hf : w.filled_ = false := by
          by_contra hc
          have := i3.mp (by simpa using hc)
          omega
        have hdl : w.data_.length = vs.length := by rw [hd]
        rw [RollingWindow.push_below w v hlt]
        by_cases hfull : w.data_.length + 1 = w.cap_
        · rw [if_pos hfull]
          rw [i1, hdl] at hfull
          refine ⟨i1, ?_, ⟨fun _ => by omega, fun _ => rfl⟩, fun h => by omega⟩
          show (w.data_ ++ [v]).length = _
          rw [List.length_append, hdl, List.length_singleton]
          omega
        · rw [if_neg hfull]
          rw [i1, hdl] at hfull
          refine ⟨i1, ?_, ⟨fun h => ?_, fun h => by omega⟩, fun _ => ?_⟩
          · show (w.data_ ++ [v]).length = _
            rw [List.length_append, hdl, List.length_singleton]
            omega
          · have h' : w.filled_ = true := h
            rw [hf] at h'
            cases h'
          · show w.data_ ++ [v] = vs ++ [v]
            rw [hd]
      · have hn : cap ≤ vs.length := by
          rw [i1, i2] at hlt
          omega
        have hlen : w.data_.length = w.cap_ := by rw [i1, i2]; omega
        rw [RollingWindow.push_full w v hlen]
        refine ⟨i1, ?_, ⟨fun _ => by omega, fun _ => rfl⟩, fun h => by omega⟩
        show (w.data_.set _ v).length = _
        rw [List.length_set, i2]
        omega
  obtain ⟨i1, i2, i3, i4⟩ := inv vs
  constructor
  · unfold RollingWindow.size
    by_cases hf : (RollingWindow.pushAll cap vs).filled_ = true
    · rw [if_pos hf, i1]
      have := i3.mp hf
      omega
    · rw [if_neg hf, i2]
  · intro hlt
    have hf : (RollingWindow.pushAll cap vs).filled_ = false := by
      by_contra hc
      have := i3.mp (by simpa using hc)
      omega
    unfold RollingWindow.snapshot
    rw [hf, i4 hlt]
    cases vs with
    | nil => rfl
    | cons a l => rfl

/-! ## Proofs: component array -/

theorem GetData_eq {T : Type} (c : ComponentArray T) (e : Nat) (he : e < MAX_ENTITIES) :
    c.GetData e =
      if c.mEntityToIndex e = INVALID_INDEX then none
      else some (c.mComponentArray (c.mEntityToIndex e)) := by
  unfold ComponentArray.GetData
  rw [if_neg (by omega)]

theorem DensePacked.new {T : Type} (dflt : T) :
    DensePacked (ComponentArray.new dflt) (fun _ => none) := by
  have h1 : (ComponentArray.new dflt).mSize = 0 := rfl
  have h2 : ∀ e, (ComponentArray.new dflt).mEntityToIndex e = INVALID_INDEX := fun _ => rfl
  refine ⟨?_, ?_, ?_, ?_⟩
  · rw [h1]
    exact Nat.zero_le _
  · intro i hi
    rw [h1] at hi
    exact absurd hi (Nat.not_lt_zero i)
  · intro e _ h
    exact absurd (h2 e) h
  · intro e he
    rw [GetData_eq _ e he, if_pos (h2 e)]

theorem DensePacked.insert {T : Type} {c c' : ComponentArray T} {held : Nat → Option T}
    (inv : DensePacked c held) (e : Nat) (v : T) (h : c.InsertData e v = some c') :
    DensePacked c' (Function.update held e (some v)) := by
  have hM : MAX_ENTITIES = 100000 := rfl
  have hI : INVALID_INDEX = 18446744073709551615 := rfl
  unfold ComponentArray.InsertData at h
  split_ifs at h with h1 h2 h3
  simp only [not_not] at h1 h2 h3
  have hc := (Option.some.inj h).symm
  have hsize : c'.mSize = c.mSize + 1 := by
    rw [hc]
    show (c.mSize + 1) % 18446744073709551616 = c.mSize + 1
    exact Nat.mod_eq_of_lt (by omega)
  have he2i : ∀ x, c'.mEntityToIndex x = if x = e then c.mSize else c.mEntityToIndex x := by
    intro x; rw [hc]; exact Function.update_apply _ _ _ _
  have hi2e : ∀ i, c'.mIndexToEntity i = if i = c.mSize then e else c.mIndexToEntity i := by
    intro i; rw [hc]; exact Function.update_apply _ _ _ _
  have hcomp : ∀ i, c'.mComponentArray i = if i = c.mSize then v else c.mComponentArray i := by
    intro i; rw [hc]; exact Function.update_apply _ _ _ _
  refine ⟨by omega, ?_, ?_, ?_⟩
  · intro i hi
    rw [hi2e i]
    by_cases his : i = c.mSize
    · rw [if_pos his, he2i e, if_pos rfl]
      exact ⟨h1, his.symm⟩
    · rw [if_neg his]
      obtain ⟨a, b⟩ := inv.toEntity i (by omega)
      have hne : c.mIndexToEntity i ≠ e := by
        intro heq
        rw [heq, h2] at b
        omega
      rw [he2i, if_neg hne]
      exact ⟨a, b⟩
  · intro x hx hv
    rw [he2i x] at hv ⊢
    by_cases hxe : x = e
    · rw [if_pos hxe, hi2e, if_pos rfl]
      exact ⟨by omega, hxe.symm⟩
    · rw [if_neg hxe] at hv ⊢
      obtain ⟨a, b⟩ := inv.toIndex x hx hv
      rw [hi2e, if_neg (by omega)]
      exact ⟨by omega, b⟩
  · intro x hx
    rw [GetData_eq _ x hx, he2i x, Function.update_apply]
    by_cases hxe : x = e
    · rw [if_pos hxe, if_pos hxe, if_neg (by omega), hcomp, if_pos rfl]
    · rw [if_neg hxe, if_neg hxe, ← inv.data x hx, GetData_eq _ x hx]
      by_cases hv : c.mEntityToIndex x = INVALID_INDEX
      · rw [if_pos hv, if_pos hv]
      · rw [if_neg hv, if_neg hv, hcomp, if_neg]
        have := (inv.toIndex x hx hv).1
        omega

theorem DensePacked.remove {T : Type} {c c' : ComponentArray T} {held : Nat → Option T}
    (inv : DensePacked c held) (e : Nat) (h : c.RemoveData e = some c') :
    DensePacked c' (Function.update held e none) := by
  have hM : MAX_ENTITIES = 100000 := rfl
  have hI : INVALID_INDEX = 18446744073709551615 := rfl
  unfold ComponentArray.RemoveData at h
  split_ifs at h with h1 h2
  simp only [not_not] at h1
  obtain ⟨hidx, hback⟩ := inv.toIndex e h1 h2
  have hle := inv.size_le
  have hlast : (c.mSize + 18446744073709551615) % 18446744073709551616 = c.mSize - 1 := by
    omega
  rw [hlast] at h
  have hc := (Option.some.inj h).symm
  by_cases hsw : c.mEntityToIndex e = c.mSize - 1
  · -- the removed element is the last one
    simp only [hsw, ne_eq, not_true_eq_false, if_false] at hc
    have hsize : c'.mSize = c.mSize - 1 := by rw [hc]
    have he2i : ∀ x, c'.mEntityToIndex x =
        if x = e then INVALID_INDEX else c.mEntityToIndex x := by
      intro x; rw [hc]; exact Function.update_apply _ _ _ _
    have hi2e : ∀ i, c'.mIndexToEntity i = c.mIndexToEntity i := by
      intro i; rw [hc]
    have hcomp : ∀ i, c'.mComponentArray i = c.mComponentArray i := by
      intro i; rw [hc]
    refine ⟨by omega, ?_, ?_, ?_⟩
    · intro i hi
      obtain ⟨a, b⟩ := inv.toEntity i (by omega)
      have hne : c.mIndexToEntity i ≠ e := by
        intro heq
        rw [heq] at b
        omega
      rw [hi2e, he2i, if_neg hne]
      exact ⟨a, b⟩
    · intro x hx hv
      rw [he2i x] at hv ⊢
      by_cases hxe : x = e
      · rw [if_pos hxe] at hv
        exact absurd rfl hv
      · rw [if_neg hxe] at hv ⊢
        obtain ⟨a, b⟩ := inv.toIndex x hx hv
        have hne : c.mEntityToIndex x ≠ c.mSize - 1 := by
          intro heq
          rw [heq, ← hsw, hback] at b
          exact hxe b.symm
        rw [hi2e]
        exact ⟨by omega, b⟩
    · intro x hx
      rw [GetData_eq _ x hx, he2i x, Function.update_apply]
      by_cases hxe : x = e
      · rw [if_pos hxe, if_pos hxe, if_pos rfl]
      · rw [if_neg hxe, if_neg hxe, ← inv.data x hx, GetData_eq _ x hx, hcomp]
  · -- the last element moves into the hole
    simp only [ne_eq, hsw, not_false_eq_true, if_true] at hc
    obtain ⟨hL, hLback⟩ := inv.toEntity (c.mSize - 1) (by omega)
    have hLe : c.mIndexToEntity (c.mSize - 1) ≠ e := by
      intro heq
      rw [heq] at hLback
      exact hsw hLback
    have hsize : c'.mSize = c.mSize - 1 := by rw [hc]
    have he2i : ∀ x, c'.mEntityToIndex x =
        if x = e then INVALID_INDEX
        else if x = c.mIndexToEntity (c.mSize - 1) then c.mEntityToIndex e
        else c.mEntityToIndex x := by
      intro x; rw [hc]
      show Function.update (Function.update _ _ _) _ _ _ = _
      rw [Function.update_apply, Function.update_apply]
    have hi2e : ∀ i, c'.mIndexToEntity i =
        if i = c.mEntityToIndex e then c.mIndexToEntity (c.mSize - 1)
        else c.mIndexToEntity i := by
      intro i; rw [hc]; exact Function.update_apply _ _ _ _
    have hcomp : ∀ i, c'.mComponentArray i =
        if i = c.mEntityToIndex e then c.mComponentArray (c.mSize - 1)
        else c.mComponentArray i := by
      intro i; rw [hc]; exact Function.update_apply _ _ _ _
    refine ⟨by omega, ?_, ?_, ?_⟩
    · intro i hi
      rw [hi2e i]
      by_cases hii : i = c.mEntityToIndex e
      · rw [if_pos hii, he2i, if_neg hLe, if_pos rfl]
        exact ⟨hL, hii.symm⟩
      · rw [if_neg hii]
        obtain ⟨a, b⟩ := inv.toEntity i (by omega)
        have hne : c.mIndexToEntity i ≠ e := by
          intro heq
          rw [heq] at b
          exact hii b.symm
        have hneL : c.mIndexToEntity i ≠ c.mIndexToEntity (c.mSize - 1) := by
          intro heq
          rw [heq, hLback] at b
          omega
        rw [he2i, if_neg hne, if_neg hneL]
        exact ⟨a, b⟩
    · intro x hx hv
      rw [he2i x] at hv ⊢
      by_cases hxe : x = e
      · rw [if_pos hxe] at hv
        exact absurd rfl hv
      · rw [if_neg hxe] at hv ⊢
        by_cases hxL : x = c.mIndexToEntity (c.mSize - 1)
        · rw [if_pos hxL, hi2e, if_pos rfl]
          exact ⟨by omega, hxL.symm⟩
        · rw [if_neg hxL] at hv ⊢
          obtain ⟨a, b⟩ := inv.toIndex x hx hv
          have hne : c.mEntityToIndex x ≠ c.mSize - 1 := by
            intro heq
            rw [heq] at b
            exact hxL b.symm
          have hne2 : c.mEntityToIndex x ≠ c.mEntityToIndex e := by
            intro heq
            rw [heq, hback] at b
            exact hxe b.symm
          rw [hi2e, if_neg hne2]
          exact ⟨by omega, b⟩
    · intro x hx
      rw [GetData_eq _ x hx, he2i x, Function.update_apply]
      by_cases hxe : x = e
      · rw [if_pos hxe, if_pos hxe, if_pos rfl]
      · rw [if_neg hxe, if_neg hxe, ← inv.data x hx, GetData_eq _ x hx]
        by_cases hxL : x = c.mIndexToEntity (c.mSize - 1)
        · rw [if_pos hxL, if_neg h2, hcomp, if_pos rfl, hxL, hLback, if_neg (by omega)]
        · rw [if_neg hxL]
          by_cases hv : c.mEntityToIndex x = INVALID_INDEX
          · rw [if_pos hv, if_pos hv]
          · rw [if_neg hv, if_neg hv, hcomp, if_neg]
            intro heq
            have b := (inv.toIndex x hx hv).2
            rw [heq, hback] at b
            exact hxe b.symm

theorem DensePacked.call {T : Type} {c c' : ComponentArray T} (calls : List (ComponentCall T))
    (inv : DensePacked c (heldAfter calls)) (k : ComponentCall T) (h : c.call k = some c') :
    DensePacked c' (heldAfter (calls ++ [k])) := by
  have hstep : heldAfter (calls ++ [k]) = heldStep (heldAfter calls) k := by
    unfold heldAfter
    rw [List.foldl_append]
    rfl
  rw [hstep]
  cases k with
  | insert e v =>
    show DensePacked c' (Function.update (heldAfter calls) e (some v))
    exact inv.insert e v h
  | remove e =>
    show DensePacked c' (Function.update (heldAfter calls) e none)
    exact inv.remove e h
  | destroyed e =>
    have h0 : c.EntityDestroyed e = some c' := h
    unfold ComponentArray.EntityDestroyed at h0
    split_ifs at h0 with h1 h2
    · exact inv.remove e h0
    · simp only [not_not] at h1 h2
      have hc := Option.some.inj h0
      have hd := inv.data e h1
      rw [GetData_eq _ e h1, if_pos h2] at hd
      have hupd : Function.update (heldAfter calls) e none = heldAfter calls := by
        rw [hd]
        exact Function.update_eq_self e (heldAfter calls)
      show DensePacked c' (Function.update (heldAfter calls) e none)
      rw [hupd, ← hc]
      exact inv

theorem ComponentArray.run_snoc {T : Type} (dflt : T) (calls : List (ComponentCall T))
    (k : ComponentCall T) :
    ComponentArray.run dflt (calls ++ [k]) =
      (ComponentArray.run dflt calls).bind (fun c => c.call k) := by
  unfold ComponentArray.run
  rw [List.foldl_append]
  rfl

theorem ComponentArray.run_densePacked {T : Type} (dflt : T) (calls : List (ComponentCall T)) :
    ∀ c, ComponentArray.run dflt calls = some c → DensePacked c (heldAfter calls) := by
  induction calls using List.reverseRecOn with
  | nil =>
    intro c h
    have hc : ComponentArray.new dflt = c := Option.some.inj h
    rw [← hc]
    exact DensePacked.new dflt
  | append_singleton calls k ih =>
    intro c h
    rw [ComponentArray.run_snoc] at h
    cases hr : ComponentArray.run dflt calls with
    | none => rw [hr] at h; exact absurd h (by simp)
    | some c0 =>
      rw [hr] at h
      exact (ih c0 hr).call calls k h

theorem componentArrayAfter_run :
    ComponentArray.run 0 componentCalls = some componentArrayAfter := by
  have hs : (ComponentArray.run 0 componentCalls).isSome = true := by decide
  unfold componentArrayAfter
  cases h : ComponentArray.run 0 componentCalls with
  | none => rw [h] at hs; exact absurd hs (by simp)
  | some c => rfl

section ComponentArrayClaims

/-- Claim C28. After every sequence of `InsertData` / `RemoveData` / `EntityDestroyed`
calls on a new `ComponentArray` that passes the assertions of the calls, the
dense-packing invariant holds: the packed part has at most `MAX_ENTITIES` slots and
every slot `i < mSize` stores an entity whose index is `i`; an entity has a valid
index exactly when it currently holds a component, and the index is then below
`mSize`, at a slot that stores the entity; `GetData(e)` returns the value most
recently inserted for `e` (and fails its assertion when `e` holds nothing); and a
following `RemoveData` of another entity leaves what `GetData(e)` returns
unchanged. -/
theorem c28_dense_packing {T : Type} (dflt : T) (calls : List (ComponentCall T))
    (c : ComponentArray T) (h : ComponentArray.run dflt calls = some c) :
    c.mSize ≤ MAX_ENTITIES ∧
    (∀ i, i < c.mSize →
      c.mIndexToEntity i < MAX_ENTITIES ∧ c.mEntityToIndex (c.mIndexToEntity i) = i) ∧
    (∀ e, e < MAX_ENTITIES →
      (c.mEntityToIndex e ≠ INVALID_INDEX ↔ heldAfter calls e ≠ none)) ∧
    (∀ e, e < MAX_ENTITIES → c.mEntityToIndex e ≠ INVALID_INDEX →
      c.mEntityToIndex e < c.mSize ∧ c.mIndexToEntity (c.mEntityToIndex e) = e) ∧
    (∀ e, e < MAX_ENTITIES → c.GetData e = heldAfter calls e) ∧
    (∀ e other c2, e < MAX_ENTITIES → other ≠ e → c.RemoveData other = some c2 →
      c2.GetData e = c.GetData e) := by
  have inv := ComponentArray.run_densePacked dflt calls c h
  refine ⟨inv.size_le, inv.toEntity, ?_, inv.toIndex, inv.data, ?_⟩
  · intro e he
    have hd := inv.data e he
    rw [GetData_eq _ e he] at hd
    by_cases hv : c.mEntityToIndex e = INVALID_INDEX
    · rw [if_pos hv] at hd
      exact ⟨fun hne => absurd hv hne, fun hne => absurd hd.symm hne⟩
    · rw [if_neg hv] at hd
      refine ⟨fun _ => ?_, fun _ => hv⟩
      rw [← hd]
      exact Option.some_ne_none _
  · intro e other c2 he hne hrem
    have hd := (inv.remove other hrem).data e he
    rw [Function.update_noteq (Ne.symm hne)] at hd
    rw [hd, inv.data e he]

/-- Claim C28 on `componentCalls`: the calls pass their assertions, and afterwards
entity 5 still has its component 9 at slot 0 while entity 3 has none. -/
theorem c28_dense_packing_witness :
    ComponentArray.run 0 componentCalls = some componentArrayAfter ∧
    componentArrayAfter.mSize ≤ MAX_ENTITIES ∧
    componentArrayAfter.GetData 5 = heldAfter componentCalls 5 ∧
    heldAfter componentCalls 5 = some 9 ∧
    componentArrayAfter.GetData 3 = heldAfter componentCalls 3 ∧
    heldAfter componentCalls 3 = none :=
  have h := c28_dense_packing 0 componentCalls componentArrayAfter componentArrayAfter_run
  ⟨componentArrayAfter_run, h.1, h.2.2.2.2.1 5 (by decide), by decide,
    h.2.2.2.2.1 3 (by decide), by decide⟩

end ComponentArrayClaims

/-! ## Proofs: entity manager -/

theorem countP_update_of_not_mem (l : List Nat) (f : Nat → Bool) (x : Nat) (b : Bool)
    (h : x ∉ l) : l.countP (Function.update f x b) = l.countP f := by
  apply List.countP_congr
  intro a ha
  have hne : a ≠ x := fun heq => h (heq ▸ ha)
  rw [Function.update_noteq hne]

theorem countP_update_true (l : List Nat) (f : Nat → Bool) (x : Nat) (hnd : l.Nodup)
    (hx : x ∈ l) (hf : f x = false) :
    l.countP (Function.update f x true) = l.countP f + 1 := by
  induction l with
  | nil => exact absurd hx (List.not_mem_nil x)
  | cons a l ih =>
    rw [List.nodup_cons] at hnd
    rw [List.countP_cons, List.countP_cons]
    by_cases hax : a = x
    · subst hax
      rw [countP_update_of_not_mem l f a true hnd.1, Function.update_same, hf]
      simp
    · have hxl : x ∈ l := by
        rcases List.mem_cons.mp hx with h | h
        · exact absurd h.symm hax
        · exact h
      rw [ih hnd.2 hxl, Function.update_noteq hax]
      omega

theorem countP_update_false (l : List Nat) (f : Nat → Bool) (x : Nat) (hnd : l.Nodup)
    (hx : x ∈ l) (hf : f x = true) :
    l.countP (Function.update f x false) + 1 = l.countP f := by
  induction l with
  | nil => exact absurd hx (List.not_mem_nil x)
  | cons a l ih =>
    rw [List.nodup_cons] at hnd
    rw [List.countP_cons, List.countP_cons]
    by_cases hax : a = x
    · subst hax
      rw [countP_update_of_not_mem l f a false hnd.1, Function.update_same, hf]
      simp
    · have hxl : x ∈ l := by
        rcases List.mem_cons.mp hx with h | h
        · exact absurd h.symm hax
        · exact h
      rw [Function.update_noteq hax, ← ih hnd.2 hxl]
      omega

theorem aliveCount_le (m : EntityManager) : m.aliveCount ≤ MAX_ENTITIES := by
  unfold EntityManager.aliveCount
  have h := List.countP_le_length (fun e => m.mAlive e) (l := List.range MAX_ENTITIES)
  rw [List.length_range] at h
  exact h

theorem aliveCount_lt_of_dead (m : EntityManager) (e : Nat) (he : e < MAX_ENTITIES)
    (hd : m.mAlive e = false) : m.aliveCount < MAX_ENTITIES := by
  rcases Nat.lt_or_ge m.aliveCount MAX_ENTITIES with h | h
  · exact h
  · exfalso
    have heq : m.aliveCount = (List.range MAX_ENTITIES).length := by
      rw [List.length_range]
      exact Nat.le_antisymm (aliveCount_le m) h
    unfold EntityManager.aliveCount at heq
    have hall := List.countP_eq_length.mp heq e (List.mem_range.mpr he)
    simp only at hall
    rw [hd] at hall
    exact absurd hall (by decide)

theorem aliveCount_pos_of_alive (m : EntityManager) (e : Nat) (he : e < MAX_ENTITIES)
    (ha : m.mAlive e = true) : 0 < m.aliveCount := by
  unfold EntityManager.aliveCount
  exact List.countP_pos_iff.mpr ⟨e, List.mem_range.mpr he, ha⟩

theorem EntityInv.queue_ne_nil {m : EntityManager} (inv : EntityInv m)
    (h : m.aliveCount ≠ MAX_ENTITIES) : m.mAvailableEntities ≠ [] := by
  intro hnil
  apply h
  have heq : m.aliveCount = (List.range MAX_ENTITIES).length := by
    unfold EntityManager.aliveCount
    apply List.countP_eq_length.mpr
    intro e he
    have hlt := List.mem_range.mp he
    cases ha : m.mAlive e with
    | true => rfl
    | false =>
      have hmem := (inv.mem e).mpr ⟨hlt, ha⟩
      rw [hnil] at hmem
      exact absurd hmem (List.not_mem_nil e)
  rw [heq, List.length_range]

theorem EntityInv.init : EntityInv EntityManager.new := by
  have h1 : EntityManager.new.mAvailableEntities = List.range MAX_ENTITIES := by
    simp only [EntityManager.new]
  have h2 : ∀ e, EntityManager.new.mAlive e = false := fun _ => rfl
  have h3 : EntityManager.new.mLivingEntityCount = 0 := rfl
  refine ⟨?_, ?_, ?_⟩
  · rw [h1]
    exact List.nodup_range MAX_ENTITIES
  · intro e
    rw [h1, List.mem_range]
    exact ⟨fun h => ⟨h, h2 e⟩, fun h => h.1⟩
  · rw [h3]
    symm
    unfold EntityManager.aliveCount
    rw [List.countP_eq_zero]
    intro a _
    rw [h2 a]
    decide

theorem CreateEntity_full (m : EntityManager) (h : MAX_ENTITIES ≤ m.mLivingEntityCount) :
    m.CreateEntity = (.error .tooManyEntities, m) := by
  unfold EntityManager.CreateEntity
  rw [if_pos h]

theorem CreateEntity_cons (m : EntityManager) (h : ¬ MAX_ENTITIES ≤ m.mLivingEntityCount)
    (id : Nat) (rest : List Nat) (hq : m.mAvailableEntities = id :: rest)
    (ha : m.mAlive id = false) :
    m.CreateEntity =
      (.ok id,
        { mAvailableEntities := rest,
          mSignatures := Function.update m.mSignatures id 0,
          mAlive := Function.update m.mAlive id true,
          mLivingEntityCount := (m.mLivingEntityCount + 1) % 4294967296 }) := by
  unfold EntityManager.CreateEntity
  rw [if_neg h]
  simp only [hq, ha, Bool.false_eq_true, if_false]

theorem EntityInv.cases_create {m : EntityManager} (inv : EntityInv m) :
    (m.aliveCount = MAX_ENTITIES ∧ m.CreateEntity = (.error .tooManyEntities, m)) ∨
    (m.aliveCount < MAX_ENTITIES ∧ ∃ id rest, m.mAvailableEntities = id :: rest ∧
      id < MAX_ENTITIES ∧ m.mAlive id = false ∧
      m.CreateEntity =
        (.ok id,
          { mAvailableEntities := rest,
            mSignatures := Function.update m.mSignatures id 0,
            mAlive := Function.update m.mAlive id true,
            mLivingEntityCount := m.aliveCount + 1 })) := by
  have hM : MAX_ENTITIES = 100000 := rfl
  have hle := aliveCount_le m
  have hcnt := inv.count
  by_cases h : MAX_ENTITIES ≤ m.mLivingEntityCount
  · exact Or.inl ⟨by omega, CreateEntity_full m h⟩
  · right
    have hne : m.aliveCount ≠ MAX_ENTITIES := by omega
    refine ⟨by omega, ?_⟩
    cases hq : m.mAvailableEntities with
    | nil => exact absurd hq (inv.queue_ne_nil hne)
    | cons id rest =>
      have hmem : id ∈ m.mAvailableEntities := by
        rw [hq]
        exact List.mem_cons_self id rest
      obtain ⟨hlt, ha⟩ := (inv.mem id).mp hmem
      refine ⟨id, rest, rfl, hlt, ha, ?_⟩
      rw [CreateEntity_cons m h id rest hq ha]
      have hmod : (m.mLivingEntityCount + 1) % 4294967296 = m.aliveCount + 1 := by
        rw [hcnt]
        exact Nat.mod_eq_of_lt (by omega)
      rw [hmod]

theorem EntityInv.create {m : EntityManager} (inv : EntityInv m) :
    EntityInv m.CreateEntity.2 := by
  rcases inv.cases_create with ⟨_, h⟩ | ⟨hlt, id, rest, hq, hid, ha, h⟩
  · rw [h]
    exact inv
  · rw [h]
    have hnd := inv.nodup
    rw [hq, List.nodup_cons] at hnd
    refine ⟨hnd.2, ?_, ?_⟩
    · intro e
      show e ∈ rest ↔ e < MAX_ENTITIES ∧ Function.update m.mAlive id true e = false
      have hm := inv.mem e
      rw [hq, List.mem_cons] at hm
      by_cases he : e = id
      · subst he
        rw [Function.update_same]
        exact ⟨fun h1 => absurd h1 hnd.1, fun h1 => absurd h1.2 (by decide)⟩
      · rw [Function.update_noteq he]
        exact ⟨fun h1 => hm.mp (Or.inr h1), fun h1 => (hm.mpr h1).resolve_left he⟩
    · show m.aliveCount + 1 =
        (List.range MAX_ENTITIES).countP (fun e => Function.update m.mAlive id true e)
      exact (countP_update_true (List.range MAX_ENTITIES) m.mAlive id
        (List.nodup_range MAX_ENTITIES) (List.mem_range.mpr hid) ha).symm

theorem DestroyEntity_throws (m : EntityManager) (e : Nat)
    (h : MAX_ENTITIES ≤ e ∨ m.mAlive e = false) :
    (m.DestroyEntity e = (.error .outOfRange, m) ∨ m.DestroyEntity e = (.error .deadEntity, m)) := by
  unfold EntityManager.DestroyEntity
  by_cases h1 : MAX_ENTITIES ≤ e
  · left
    rw [if_pos h1]
  · right
    have h2 := h.resolve_left h1
    rw [if_neg h1, h2]
    rfl

theorem DestroyEntity_ok (m : EntityManager) (e : Nat) (h1 : e < MAX_ENTITIES)
    (h2 : m.mAlive e = true) :
    m.DestroyEntity e =
      (.ok (),
        { mSignatures := Function.update m.mSignatures e 0,
          mAlive := Function.update m.mAlive e false,
          mAvailableEntities := m.mAvailableEntities ++ [e],
          mLivingEntityCount := (m.mLivingEntityCount + 4294967295) % 4294967296 }) := by
  unfold EntityManager.DestroyEntity
  rw [if_neg (by omega), h2]
  rfl

theorem SetSignature_throws (m : EntityManager) (e sig : Nat)
    (h : MAX_ENTITIES ≤ e ∨ m.mAlive e = false) :
    (m.SetSignature e sig = (.error .outOfRange, m) ∨
      m.SetSignature e sig = (.error .deadEntity, m)) := by
  unfold EntityManager.SetSignature
  by_cases h1 : MAX_ENTITIES ≤ e
  · left
    rw [if_pos h1]
  · right
    have h2 := h.resolve_left h1
    rw [if_neg h1, h2]
    rfl

theorem SetSignature_ok (m : EntityManager) (e sig : Nat) (h1 : e < MAX_ENTITIES)
    (h2 : m.mAlive e = true) :
    m.SetSignature e sig =
      (.ok (), { m with mSignatures := Function.update m.mSignatures e sig }) := by
  unfold EntityManager.SetSignature
  rw [if_neg (by omega), h2]
  rfl

theorem GetSignature_throws (m : EntityManager) (e : Nat)
    (h : MAX_ENTITIES ≤ e ∨ m.mAlive e = false) :
    (m.GetSignature e = .error .outOfRange ∨ m.GetSignature e = .error .deadEntity) := by
  unfold EntityManager.GetSignature
  by_cases h1 : MAX_ENTITIES ≤ e
  · left
    rw [if_pos h1]
  · right
    have h2 := h.resolve_left h1
    rw [if_neg h1, h2]
    rfl

theorem GetSignature_ok (m : EntityManager) (e : Nat) (h1 : e < MAX_ENTITIES)
    (h2 : m.mAlive e = true) : m.GetSignature e = .ok (m.mSignatures e) := by
  unfold EntityManager.GetSignature
  rw [if_neg (by omega), h2]
  rfl

theorem alive_or_not (m : EntityManager) (e : Nat) :
    (MAX_ENTITIES ≤ e ∨ m.mAlive e = false) ∨ (e < MAX_ENTITIES ∧ m.mAlive e = true) := by
  by_cases h1 : MAX_ENTITIES ≤ e
  · exact Or.inl (Or.inl h1)
  · cases h2 : m.mAlive e with
    | false => exact Or.inl (Or.inr rfl)
    | true => exact Or.inr ⟨by omega, rfl⟩

theorem EntityInv.destroy {m : EntityManager} (inv : EntityInv m) (e : Nat) :
    EntityInv (m.DestroyEntity e).2 := by
  have hM : MAX_ENTITIES = 100000 := rfl
  rcases alive_or_not m e with h | ⟨h1, h2⟩
  · rcases DestroyEntity_throws m e h with h | h <;> rw [h] <;> exact inv
  · rw [DestroyEntity_ok m e h1 h2]
    have hnot : e ∉ m.mAvailableEntities := by
      intro hmem
      have := ((inv.mem e).mp hmem).2
      rw [h2] at this
      exact absurd this (by decide)
    refine ⟨?_, ?_, ?_⟩
    · show (m.mAvailableEntities ++ [e]).Nodup
      rw [List.nodup_append]
      refine ⟨inv.nodup, List.nodup_singleton e, ?_⟩
      intro a ha hb
      rw [List.mem_singleton] at hb
      exact hnot (hb ▸ ha)
    · intro x
      show x ∈ m.mAvailableEntities ++ [e] ↔
        x < MAX_ENTITIES ∧ Function.update m.mAlive e false x = false
      rw [List.mem_append, List.mem_singleton]
      by_cases hx : x = e
      · subst hx
        rw [Function.update_same]
        exact ⟨fun _ => ⟨h1, rfl⟩, fun _ => Or.inr rfl⟩
      · rw [Function.update_noteq hx]
        exact ⟨fun h => (inv.mem x).mp (h.resolve_right hx), fun h => Or.inl ((inv.mem x).mpr h)⟩
    · show (m.mLivingEntityCount + 4294967295) % 4294967296 =
        (List.range MAX_ENTITIES).countP (fun x => Function.update m.mAlive e false x)
      have hc := countP_update_false (List.range MAX_ENTITIES) m.mAlive e
        (List.nodup_range MAX_ENTITIES) (List.mem_range.mpr h1) h2
      have hle := aliveCount_le m
      have hcnt := inv.count
      have hdef : m.aliveCount = (List.range MAX_ENTITIES).countP m.mAlive := rfl
      have heta : (List.range MAX_ENTITIES).countP (fun x => Function.update m.mAlive e false x)
          = (List.range MAX_ENTITIES).countP (Function.update m.mAlive e false) := rfl
      rw [heta]
      omega

theorem EntityInv.setSignature {m : EntityManager} (inv : EntityInv m) (e sig : Nat) :
    EntityInv (m.SetSignature e sig).2 := by
  rcases alive_or_not m e with h | ⟨h1, h2⟩
  · rcases SetSignature_throws m e sig h with h | h <;> rw [h] <;> exact inv
  · rw [SetSignature_ok m e sig h1 h2]
    exact ⟨inv.nodup, inv.mem, inv.count⟩

theorem EntityInv.ofReachable {m : EntityManager} (hr : m.Reachable) : EntityInv m := by
  induction hr with
  | new => exact EntityInv.init
  | create m _ ih => exact ih.create
  | destroy m e _ ih => exact ih.destroy e
  | setSignature m e sig _ ih => exact ih.setSignature e sig

theorem entityManagerAfter_reachable : entityManagerAfter.Reachable :=
  EntityManager.Reachable.destroy _ 0
    (EntityManager.Reachable.create _ (EntityManager.Reachable.create _ EntityManager.Reachable.new))

section EntityManagerClaims

/-- Claim C29. In every state of an `EntityManager` that calls can reach from the
constructor, the queue of available ids holds exactly the in-range ids that are not
alive, each once, and `mLivingEntityCount` is the number of alive ids. Hence
`CreateEntity` throws exactly when `MAX_ENTITIES` ids are alive (the "too many"
error, with the state unchanged), otherwise it returns the front id of the queue,
which was not alive and is alive afterwards; it never throws "already alive" or
"no available ids". `DestroyEntity`, `SetSignature` and `GetSignature` throw exactly
for an out-of-range or dead id, and the state is unchanged when they throw. -/
theorem c29_entity_manager_invariant (m : EntityManager) (hr : m.Reachable) :
    m.mAvailableEntities.Nodup ∧
    (∀ e, e ∈ m.mAvailableEntities ↔ (e < MAX_ENTITIES ∧ m.mAlive e = false)) ∧
    m.mLivingEntityCount = m.aliveCount ∧
    ((∃ t, m.CreateEntity.1 = .error t) ↔ m.aliveCount = MAX_ENTITIES) ∧
    (m.aliveCount = MAX_ENTITIES → m.CreateEntity = (.error .tooManyEntities, m)) ∧
    (m.aliveCount ≠ MAX_ENTITIES →
      ∃ id, m.CreateEntity.1 = .ok id ∧ m.mAvailableEntities.head? = some id ∧
        id < MAX_ENTITIES ∧ m.mAlive id = false ∧ m.CreateEntity.2.mAlive id = true) ∧
    m.CreateEntity.1 ≠ .error .alreadyAlive ∧
    m.CreateEntity.1 ≠ .error .noAvailableIds ∧
    (∀ e, ((∃ t, (m.DestroyEntity e).1 = .error t) ↔ (MAX_ENTITIES ≤ e ∨ m.mAlive e = false)) ∧
      ((∃ t, (m.DestroyEntity e).1 = .error t) → (m.DestroyEntity e).2 = m)) ∧
    (∀ e sig,
      ((∃ t, (m.SetSignature e sig).1 = .error t) ↔ (MAX_ENTITIES ≤ e ∨ m.mAlive e = false)) ∧
      ((∃ t, (m.SetSignature e sig).1 = .error t) → (m.SetSignature e sig).2 = m)) ∧
    (∀ e, (∃ t, m.GetSignature e = .error t) ↔ (MAX_ENTITIES ≤ e ∨ m.mAlive e = false)) := by
  have inv := EntityInv.ofReachable hr
  have hcases := inv.cases_create
  refine ⟨inv.nodup, inv.mem, inv.count, ?_, ?_, ?_, ?_, ?_, ?_, ?_, ?_⟩
  · rcases hcases with ⟨hfull, h⟩ | ⟨hlt, id, rest, _, _, _, h⟩
    · rw [h]
      exact ⟨fun _ => hfull, fun _ => ⟨_, rfl⟩⟩
    · rw [h]
      refine ⟨fun ht => ?_, fun hfull => absurd hfull (Nat.ne_of_lt hlt)⟩
      obtain ⟨t, ht⟩ := ht
      exact absurd ht (by simp)
  · intro hfull
    rcases hcases with ⟨_, h⟩ | ⟨hlt, _⟩
    · exact h
    · exact absurd hfull (Nat.ne_of_lt hlt)
  · intro hne
    rcases hcases with ⟨hfull, _⟩ | ⟨_, id, rest, hq, hid, ha, h⟩
    · exact absurd hfull hne
    · refine ⟨id, ?_, ?_, hid, ha, ?_⟩
      · rw [h]
      · rw [hq]
        rfl
      · rw [h]
        exact Function.update_same id true m.mAlive
  · rcases hcases with ⟨_, h⟩ | ⟨_, id, rest, _, _, _, h⟩ <;> rw [h] <;> simp
  · rcases hcases with ⟨_, h⟩ | ⟨_, id, rest, _, _, _, h⟩ <;> rw [h] <;> simp
  · intro e
    rcases alive_or_not m e with h | ⟨h1, h2⟩
    · rcases DestroyEntity_throws m e h with hd | hd <;> rw [hd] <;>
        exact ⟨⟨fun _ => h, fun _ => ⟨_, rfl⟩⟩, fun _ => rfl⟩
    · rw [DestroyEntity_ok m e h1 h2]
      have hno : ¬ (MAX_ENTITIES ≤ e ∨ m.mAlive e = false) := by
        rw [h2]
        intro h
        rcases h with h | h
        · omega
        · exact absurd h (by decide)
      refine ⟨⟨fun ht => ?_, fun h => absurd h hno⟩, fun ht => ?_⟩ <;>
        (obtain ⟨t, ht⟩ := ht; exact absurd ht (by simp))
  · intro e sig
    rcases alive_or_not m e with h | ⟨h1, h2⟩
    · rcases SetSignature_throws m e sig h with hd | hd <;> rw [hd] <;>
        exact ⟨⟨fun _ => h, fun _ => ⟨_, rfl⟩⟩, fun _ => rfl⟩
    · rw [SetSignature_ok m e sig h1 h2]
      have hno : ¬ (MAX_ENTITIES ≤ e ∨ m.mAlive e = false) := by
        rw [h2]
        intro h
        rcases h with h | h
        · omega
        · exact absurd h (by decide)
      refine ⟨⟨fun ht => ?_, fun h => absurd h hno⟩, fun ht => ?_⟩ <;>
        (obtain ⟨t, ht⟩ := ht; exact absurd ht (by simp))
  · intro e
    rcases alive_or_not m e with h | ⟨h1, h2⟩
    · rcases GetSignature_throws m e h with hd | hd <;> rw [hd] <;>
        exact ⟨fun _ => h, fun _ => ⟨_, rfl⟩⟩
    · rw [GetSignature_ok m e h1 h2]
      have hno : ¬ (MAX_ENTITIES ≤ e ∨ m.mAlive e = false) := by
        rw [h2]
        intro h
        rcases h with h | h
        · omega
        · exact absurd h (by decide)
      refine ⟨fun ht => ?_, fun h => absurd h hno⟩
      obtain ⟨t, ht⟩ := ht
      exact absurd ht (by simp)

/-- Claim C29 on the state after two `CreateEntity` calls and `DestroyEntity(0)`:
the state is reachable, its queue has no repeated id, its count is the number of
alive ids, and the next `CreateEntity` throws neither of the two errors of the
unreachable branches. -/
theorem c29_entity_manager_invariant_witness :
    entityManagerAfter.Reachable ∧
    entityManagerAfter.mAvailableEntities.Nodup ∧
    entityManagerAfter.mLivingEntityCount = entityManagerAfter.aliveCount ∧
    entityManagerAfter.CreateEntity.1 ≠ .error .alreadyAlive ∧
    entityManagerAfter.CreateEntity.1 ≠ .error .noAvailableIds :=
  have h := c29_entity_manager_invariant entityManagerAfter entityManagerAfter_reachable
  ⟨entityManagerAfter_reachable, h.1, h.2.2.1, h.2.2.2.2.2.2.1, h.2.2.2.2.2.2.2.1⟩

end EntityManagerClaims


/-! ### Instances of the camera claims -/

/-- Claim C7 in exact arithmetic, from the state that stores the basis position
`(0,0,5)`, forward `(0,0,-1)`, right `(1,0,0)`, up `(0,1,0)`, `tanHalfFovY = 1`:
the first call requests a reset; a repeated call does not; a move by `1e-3`
(squared `1e-6`) does and a move by `1e-5` (squared `1e-10`) does not; a forward
axis turned to `(0, 3/5, -4/5)` does (`1 - dot = 1/5`); a field of view changed
by `1e-3` does and one changed by `1e-6` does not; and a call that requests
nothing keeps the pending flag. -/
theorem c7_camera_reset_policy_witness :
    cameraRequestsReset exactOps (demoState false false false) ⟨0, 0, 5⟩ ⟨0, 0, -1⟩ ⟨1, 0, 0⟩
      ⟨0, 1, 0⟩ 1 = true ∧
    cameraRequestsReset exactOps (basisState ⟨0, 0, -1⟩) ⟨0, 0, 5⟩ ⟨0, 0, -1⟩ ⟨1, 0, 0⟩
      ⟨0, 1, 0⟩ 1 = false ∧
    cameraRequestsReset exactOps (basisState ⟨0, 0, -1⟩) ⟨0, 0, 5 + 1 / 1000⟩ ⟨0, 0, -1⟩ ⟨1, 0, 0⟩
      ⟨0, 1, 0⟩ 1 = true ∧
    cameraRequestsReset exactOps (basisState ⟨0, 0, -1⟩) ⟨0, 0, 5 + 1 / 100000⟩ ⟨0, 0, -1⟩
      ⟨1, 0, 0⟩ ⟨0, 1, 0⟩ 1 = false ∧
    cameraRequestsReset exactOps (basisState ⟨0, 0, -1⟩) ⟨0, 0, 5⟩ ⟨0, 3 / 5, -4 / 5⟩ ⟨1, 0, 0⟩
      ⟨0, 1, 0⟩ 1 = true ∧
    cameraRequestsReset exactOps (basisState ⟨0, 0, -1⟩) ⟨0, 0, 5⟩ ⟨0, 0, -1⟩ ⟨1, 0, 0⟩
      ⟨0, 1, 0⟩ (1 + 1 / 1000) = true ∧
    cameraRequestsReset exactOps (basisState ⟨0, 0, -1⟩) ⟨0, 0, 5⟩ ⟨0, 0, -1⟩ ⟨1, 0, 0⟩
      ⟨0, 1, 0⟩ (1 + 1 / 1000000) = false ∧
    (basisState ⟨0, 0, -1⟩).settings.resetAccumulation = true ∧
    (SetCameraBasis exactOps (basisState ⟨0, 0, -1⟩) ⟨0, 0, 5⟩ ⟨0, 0, -1⟩ ⟨1, 0, 0⟩
      ⟨0, 1, 0⟩ 1).settings.resetAccumulation = true ∧
    (SetCameraBasis exactOps (basisState ⟨0, 0, -1⟩) ⟨0, 0, 5 + 1 / 1000⟩ ⟨0, 0, -1⟩ ⟨1, 0, 0⟩
      ⟨0, 1, 0⟩ 1).camPos = ⟨0, 0, 5 + 1 / 1000⟩ :=
  ⟨(c7_camera_reset_policy exactOps (demoState false false false) ⟨0, 0, 5⟩ ⟨0, 0, -1⟩ ⟨1, 0, 0⟩
      ⟨0, 1, 0⟩ 1).1.trans (by decide!),
    (c7_camera_reset_policy exactOps (basisState ⟨0, 0, -1⟩) ⟨0, 0, 5⟩ ⟨0, 0, -1⟩ ⟨1, 0, 0⟩
      ⟨0, 1, 0⟩ 1).1.trans (by decide!),
    (c7_camera_reset_policy exactOps (basisState ⟨0, 0, -1⟩) ⟨0, 0, 5 + 1 / 1000⟩ ⟨0, 0, -1⟩
      ⟨1, 0, 0⟩ ⟨0, 1, 0⟩ 1).1.trans (by decide!),
    (c7_camera_reset_policy exactOps (basisState ⟨0, 0, -1⟩) ⟨0, 0, 5 + 1 / 100000⟩ ⟨0, 0, -1⟩
      ⟨1, 0, 0⟩ ⟨0, 1, 0⟩ 1).1.trans (by decide!),
    (c7_camera_reset_policy exactOps (basisState ⟨0, 0, -1⟩) ⟨0, 0, 5⟩ ⟨0, 3 / 5, -4 / 5⟩
      ⟨1, 0, 0⟩ ⟨0, 1, 0⟩ 1).1.trans (by decide!),
    (c7_camera_reset_policy exactOps (basisState ⟨0, 0, -1⟩) ⟨0, 0, 5⟩ ⟨0, 0, -1⟩ ⟨1, 0, 0⟩
      ⟨0, 1, 0⟩ (1 + 1 / 1000)).1.trans (by decide!),
    (c7_camera_reset_policy exactOps (basisState ⟨0, 0, -1⟩) ⟨0, 0, 5⟩ ⟨0, 0, -1⟩ ⟨1, 0, 0⟩
      ⟨0, 1, 0⟩ (1 + 1 / 1000000)).1.trans (by decide!),
    by decide!,
    (c7_camera_reset_policy exactOps (basisState ⟨0, 0, -1⟩) ⟨0, 0, 5⟩ ⟨0, 0, -1⟩ ⟨1, 0, 0⟩
      ⟨0, 1, 0⟩ 1).2.1.trans (by decide!),
    (c7_camera_reset_policy exactOps (basisState ⟨0, 0, -1⟩) ⟨0, 0, 5 + 1 / 1000⟩ ⟨0, 0, -1⟩
      ⟨1, 0, 0⟩ ⟨0, 1, 0⟩ 1).2.2.2.1⟩

end PathTracer
